import Mathlib

/-! The plot layout and coordinate-mapping engine (plot.h):
a shallow embedding of `signalsmith::plot` and proofs about it.

The source is embedded twice.

The first embedding takes a C++ `double` as an exact rational number.  It
serves the statements in which no double leaves the finite numbers and no
rounding matters: the order of the output, the state of an axis, the style
classes, the tick ranges.  Its only provision for a division by zero is the
undefined value `none` (`fdiv`): `Axis.map` returns an `Option`, and a layout
that meets one stops there.

The second embedding, the names that begin with `Fp.`, takes the arithmetic of
`double` as a parameter (`Fp.DoubleOps`): every member function it needs is
translated once more from the source, with the operators of the parameter in
the place of those of the rationals.  Nothing in it stops at a division: a
layout goes on with whatever the divisions give, as the source does, and the
only fault left is the assertion of a second layout.  What is proved there for
every arithmetic holds for the arithmetic of the machine.  `F64` is that
arithmetic, IEEE 754 binary64 with round to nearest, ties to even: a NaN, the
two infinities, and the finite values by sign and magnitude, every operation
rounded once.  The statements about the values of `map` and about the box of a
plot are made in `F64`.

Conventions of both embeddings.

* A `std::ostream` is the list of SVG elements written to it so far (`Out`),
  numbers kept as numbers; `o << x` appends.
* A reference to an axis (`Axis &`) is rendered by passing the axis it refers to.
* Virtual member functions of child nodes are rendered as function arguments of
  the base-class implementation.
* The drawable tree is the one the library builds: a figure owns plots, a plot
  owns lines (or fills) and the text labels its layout adds, a line owns its
  labels.
* The calls of `rand()` are numbered; the value of call number `k` is `rand k`.
* The `int` of the tick ranges is an unbounded integer; their loops carry fuel
  and return `none` when it runs out.
* The stylesheet that `PlotStyle::css` writes is the list of its rules.
* A write through the reference to a plot that `Figure::plot` returned acts on
  the plot inside the figure (`Figure.writePlot`).
* A plot left to range itself is built from `Plot2D(width, height)` by a
  sequence of calls of its public members (`PlotOp`, `Plot2D.build`).
* `Axis1D` of sigplot.h is embedded from its own source, next to `Axis`; the
  calls the two classes share are `AxisOp`.
-/

namespace SignalsmithPlot

/-! ## Numbers and the C++ standard library -/

/-- Division of two doubles.  A zero divisor gives an infinity or NaN in the
source; the embedding has no such values and records the result as undefined. -/
def fdiv (a b : ℚ) : Option ℚ :=
  if b = 0 then none else some (a / b)

/-- The function std::min of the C++ library: `(b < a) ? b : a`. -/
def std_min (a b : ℚ) : ℚ := if b < a then b else a

/-- The function std::max of the C++ library: `(a < b) ? b : a`. -/
def std_max (a b : ℚ) : ℚ := if a < b then b else a

/-- The quotient `n / d` of two naturals rounded to the nearest natural number,
ties to even. -/
def roundDiv (n d : Nat) : Nat :=
  if 2 * (n % d) < d then n / d
  else if d < 2 * (n % d) then n / d + 1
  else if (n / d) % 2 = 0 then n / d else n / d + 1

/-- Decimal numeral of `n`, padded on the left with zeros to six digits. -/
def pad6 (n : Nat) : String :=
  String.mk (List.replicate (6 - (toString n).length) '0') ++ toString n

/-- The function std::to_string(double): the value printed as by `%f`, that is
an optional sign, the integer part, a point and six decimals, the magnitude
rounded to a whole number of millionths. -/
def to_string_double (v : ℚ) : String :=
  let scaled := roundDiv (v.num.natAbs * 1000000) v.den
  (if v < 0 then "-" else "") ++ toString (scaled / 1000000) ++ "." ++ pad6 (scaled % 1000000)

/-- The function std::to_string(int): the decimal numeral. -/
def to_string_int (n : Int) : String := toString n

/-! ## Tick -/

/-- Strength of a tick: `enum class Strength {major, minor, tick}`. -/
inductive Tick.Strength where
  | major
  | minor
  | tick
  deriving DecidableEq, Repr

/-- A labelled point on an axis. -/
structure Tick where
  value : ℚ
  name : String
  strength : Tick.Strength := Tick.Strength.tick
  deriving DecidableEq, Repr

/-- The converting constructor `Tick(T value)` at `T = double`. -/
def Tick.ofDouble (value : ℚ) : Tick :=
  { value := value, name := to_string_double value }

/-- The converting constructor `Tick(T value)` at `T = int`. -/
def Tick.ofInt (value : Int) : Tick :=
  { value := (value : ℚ), name := to_string_int value }

/-! ## Axis -/

/-- A map from values to screen-space (`class Axis`).  The members `autoMin`
and `autoMax` are uninitialised in the source until the first value is
observed; they are only read when `hasAutoValue` holds. -/
structure Axis where
  unitMap : ℚ → Option ℚ
  autoMin : ℚ
  autoMax : ℚ
  hasAutoValue : Bool
  autoScale : Bool
  autoLabel : Bool
  label : String
  drawLow : ℚ
  drawHigh : ℚ
  ticks : List Tick

/-- Member `drawMin`. -/
def Axis.drawMin (a : Axis) : ℚ := std_min a.drawLow a.drawHigh

/-- Member `drawMax`. -/
def Axis.drawMax (a : Axis) : ℚ := std_max a.drawLow a.drawHigh

/-- Member `drawSize`. -/
def Axis.drawSize (a : Axis) : ℚ := |a.drawHigh - a.drawLow|

/-- Member `autoValue`: feed one value to the running minimum and maximum. -/
def Axis.autoValue (a : Axis) (v : ℚ) : Axis :=
  if !a.autoScale then a
  else if !a.hasAutoValue then
    { a with autoMin := v, autoMax := v, hasAutoValue := true }
  else
    { a with autoMin := std_min a.autoMin v, autoMax := std_max a.autoMax v }

/-- Member `range(valueToUnit)`: fix the value-to-unit map. -/
def Axis.range (a : Axis) (valueToUnit : ℚ → Option ℚ) : Axis :=
  { a with autoScale := false, unitMap := valueToUnit }

/-- Member `range(map, lowValue, highValue)`. -/
def Axis.rangeBetween (a : Axis) (map : ℚ → Option ℚ) (lowValue highValue : ℚ) : Axis :=
  a.range (fun v =>
    (map lowValue).bind fun lowMapped =>
    (map highValue).bind fun highMapped =>
    (map v).bind fun mapped =>
    fdiv (mapped - lowMapped) (highMapped - lowMapped))

/-- Member `linear(low, high)`. -/
def Axis.linear (a : Axis) (low high : ℚ) : Axis :=
  a.range (fun v => fdiv (v - low) (high - low))

/-- Member `map`: the unit value interpolated between the screen endpoints. -/
def Axis.map (a : Axis) (v : ℚ) : Option ℚ :=
  (a.unitMap v).map fun unit => a.drawLow + unit * (a.drawHigh - a.drawLow)

/-- Constructor `Axis(drawLow, drawHigh)`: `linear(0, 1)`, then both automatic
behaviours switched on. -/
def Axis.init (drawLow drawHigh : ℚ) : Axis :=
  let a : Axis :=
    { unitMap := fun _ => none, autoMin := 0, autoMax := 0, hasAutoValue := false,
      autoScale := false, autoLabel := false, label := "",
      drawLow := drawLow, drawHigh := drawHigh, ticks := [] }
  { a.linear 0 1 with autoScale := true, autoLabel := true }

/-- Member `label(l)` (the setter). -/
def Axis.setLabel (a : Axis) (l : String) : Axis :=
  { a with label := l }

/-- Member `major(tick, args...)`, the argument pack as a list; the empty pack
is `major()`. -/
def Axis.major (a : Axis) : List Tick → Axis
  | [] => { a with autoLabel := false }
  | tick :: args =>
    let a1 := a.autoValue tick.value
    Axis.major { a1 with ticks := a1.ticks ++ [{ tick with strength := Tick.Strength.major }] } args

/-- Member `minor(tick, args...)`, the argument pack as a list; the empty pack
is `minor()`. -/
def Axis.minor (a : Axis) : List Tick → Axis
  | [] => { a with autoLabel := false }
  | tick :: args =>
    let a1 := a.autoValue tick.value
    Axis.minor { a1 with ticks := a1.ticks ++ [{ tick with strength := Tick.Strength.minor }] } args

/-- Member `tick(t, args...)`, the argument pack as a list; the empty pack is
`tick()`. -/
def Axis.tick (a : Axis) : List Tick → Axis
  | [] => { a with autoLabel := false }
  | t :: args =>
    let a1 := a.autoValue t.value
    Axis.tick { a1 with ticks := a1.ticks ++ [{ t with strength := Tick.Strength.tick }] } args

/-- Member `autoSetup`. -/
def Axis.autoSetup (a : Axis) : Axis :=
  if a.hasAutoValue then
    let a1 := if a.autoScale then a.linear a.autoMin a.autoMax else a
    if a1.autoLabel then
      a1.minor [Tick.ofDouble a1.autoMin, Tick.ofDouble a1.autoMax]
    else a1
  else a

/-- One call that feeds values to an axis without setting a range: a value
observed for a data point or a label anchor, or a tick registration. -/
inductive AxisCall where
  | autoValue (v : ℚ)
  | major (ticks : List Tick)
  | minor (ticks : List Tick)
  | tick (ticks : List Tick)

/-- The effect of one such call on the axis. -/
def Axis.call (a : Axis) : AxisCall → Axis
  | AxisCall.autoValue v => a.autoValue v
  | AxisCall.major ts => a.major ts
  | AxisCall.minor ts => a.minor ts
  | AxisCall.tick ts => a.tick ts

/-- The effect of a sequence of such calls, first call first. -/
def Axis.calls (a : Axis) (cs : List AxisCall) : Axis :=
  cs.foldl Axis.call a

/-! ## The C library and the faults of a run -/

/-- The functions of the C mathematics library that the source calls on
doubles.  They are not part of the repository; every definition that needs
them takes them as an argument. -/
structure CMath where
  cos : ℚ → ℚ
  sin : ℚ → ℚ
  sqrt : ℚ → ℚ

/-- Ways in which a layout pass stops.  `assertion` is the `assert(false)` of a
second layout of the same node (assertions enabled).  `undefinedValue` marks a
run in which an axis map used for layout divided by zero: the source goes on
with an infinity or NaN, which the embedding does not follow. -/
inductive Fault where
  | assertion
  | undefinedValue
  deriving DecidableEq, Repr

/-- An axis map result used as a coordinate during layout. -/
def coordinate (v : Option ℚ) : Except Fault ℚ :=
  match v with
  | some q => Except.ok q
  | none => Except.error Fault.undefinedValue

/-! ## Text-width estimate -/

/-- An entry `w[i]*0.01` of one of the static width tables. -/
def tableWidth (w : List Nat) (i : Int) : ℚ :=
  (w.getD i.toNat 0 : ℚ) * 0.01

/-- The function estimateCharWidth. -/
def estimateCharWidth (c : Int) : ℚ :=
  -- measured experimentally, covering basic Latin (no accents) and Greek
  if c ≥ 32 ∧ c < 127 then
    tableWidth [31, 36, 45, 70, 61, 95, 77, 29, 39, 39, 40, 72, 31, 39, 31, 44, 61, 54, 58, 59,
      59, 58, 59, 58, 59, 59, 38, 38, 74, 100, 74, 54, 97, 69, 66, 71, 76, 64, 62, 76, 77, 41,
      53, 69, 57, 89, 76, 78, 63, 80, 68, 64, 62, 75, 67, 96, 69, 64, 64, 41, 46, 41, 68, 59,
      54, 57, 59, 52, 59, 56, 38, 58, 58, 29, 33, 53, 30, 87, 58, 57, 59, 59, 43, 49, 38, 58,
      53, 77, 54, 53, 50, 47, 46, 47, 69] (c - 32)
  else if c = 168 then 0.53
  else if c = 183 then 0.33
  else if c = 697 then 0.26
  else if c ≥ 880 ∧ c < 884 then tableWidth [42, 31, 64, 52] (c - 880)
  else if c ≥ 885 ∧ c < 888 then tableWidth [40, 66, 48] (c - 885)
  else if c ≥ 890 ∧ c < 894 then tableWidth [33, 52, 52, 52] (c - 890)
  else if c = 895 then 0.33
  else if c = 900 then 0.52
  else if c ≥ 913 ∧ c < 930 then
    tableWidth [75, 71, 63, 73, 71, 71, 82, 82, 45, 77, 75, 94, 81, 70, 83, 85, 67] (c - 913)
  else if c ≥ 931 ∧ c < 938 then tableWidth [69, 65, 70, 82, 80, 85, 84] (c - 931)
  else if c ≥ 945 ∧ c < 970 then
    tableWidth [61, 58, 57, 57, 49, 50, 58, 60, 29, 57, 55, 59, 53, 51, 57, 63, 59, 50, 59, 48,
      58, 72, 56, 76, 76] (c - 945)
  else if c ≥ 975 ∧ c < 979 then tableWidth [47, 66, 74, 66] (c - 975)
  else if c ≥ 981 ∧ c < 1024 then
    tableWidth [80, 86, 56, 79, 63, 68, 67, 57, 53, 60, 53, 75, 85, 86, 85, 69, 56, 70, 53, 69,
      69, 61, 61, 75, 56, 43, 37, 59, 63, 46, 29, 79, 55, 55, 62, 63, 71, 87, 75, 75, 75, 75,
      75] (c - 981)
  else if c = 65291 then 1
  else 0.85

/-- The bytes of the UTF-8 encoding of a string, as the `char` values the loop
of estimateUtf8Width reads; `char` is signed, so a byte from 128 up is read as
that byte minus 256. -/
def utf8Chars (s : String) : List Int :=
  (s.data.flatMap String.utf8EncodeChar).map fun b =>
    if b.toNat < 128 then (b.toNat : Int) else (b.toNat : Int) - 256

/-- The function estimateUtf8Width: the loop adds estimateCharWidth of every
`char` of the string up to the terminating zero. -/
def estimateUtf8Width (utf8Str : String) : ℚ :=
  ((utf8Chars utf8Str).takeWhile (fun c => c != 0)).foldl
    (fun total c => total + estimateCharWidth c) 0

/-! ## PlotStyle -/

/-- A hatch pattern (`PlotStyle::Hatch`). -/
structure PlotStyle.Hatch where
  angles : List ℚ := []
  lineScale : ℚ := 1
  spaceScale : ℚ := 1
  deriving DecidableEq, Repr

/-- Plotting style, used for both layout and SVG rendering.  The members
`prefix` and `suffix` of the source are `cssBefore` and `cssAfter` here. -/
structure PlotStyle where
  colours : List String := ["#0073E6", "#CC0000", "#00B300", "#806600", "#E69900", "#CC00CC"]
  dashes : List (List ℚ) :=
    [[], [1.2, 1.2], [2.8, 1.6], [5, 4], [4, 1, 1, 1, 1, 1], [10, 3], [4, 2, 1, 2]]
  hatches : List PlotStyle.Hatch :=
    [{}, { angles := [-50] }, { angles := [30], lineScale := 0.9, spaceScale := 0.8 },
     { angles := [8, 93], lineScale := 0.7, spaceScale := 1 }]
  padding : ℚ := 10
  labelSize : ℚ := 12
  valueSize : ℚ := 10
  lineWidth : ℚ := 1.5
  fillOpacity : ℚ := 0.25
  hatchWidth : ℚ := 1
  hatchSpacing : ℚ := 3
  textAspect : ℚ := 1
  tickH : ℚ := 4
  tickV : ℚ := 5
  textPadding : ℚ := 5
  cssBefore : String := ""
  cssAfter : String := ""
  deriving DecidableEq, Repr

/-- Member `strokeClass`. -/
def PlotStyle.strokeClass (style : PlotStyle) (styleIndex : Int) : String :=
  if styleIndex < 0 ∨ style.colours.length = 0 then ""
  else "svg-plot-s" ++ to_string_int (styleIndex % (style.colours.length : Int))

/-- Member `fillClass`. -/
def PlotStyle.fillClass (style : PlotStyle) (styleIndex : Int) : String :=
  if styleIndex < 0 ∨ style.colours.length = 0 then ""
  else "svg-plot-f" ++ to_string_int (styleIndex % (style.colours.length : Int))

/-- Member `dashClass`. -/
def PlotStyle.dashClass (style : PlotStyle) (styleIndex : Int) : String :=
  if styleIndex < 0 ∨ style.dashes.length = 0 then ""
  else "svg-plot-d" ++ to_string_int (styleIndex % (style.dashes.length : Int))

/-- Member `hatchClass`. -/
def PlotStyle.hatchClass (style : PlotStyle) (styleIndex : Int) : String :=
  if styleIndex < 0 ∨ style.hatches.length = 0 then ""
  else "svg-plot-h" ++ to_string_int (styleIndex % (style.hatches.length : Int))

/-! ## The output stream -/

/-- A point of the plane (`struct Point2D`). -/
structure Point2D where
  x : ℚ
  y : ℚ
  deriving DecidableEq, Repr

/-- One piece of markup written to the stream.  Coordinates that come straight
from an axis map are optional numbers, undefined after a division by zero. -/
inductive Svg where
  /-- The XML declaration and the document type. -/
  | prolog
  /-- The opening `svg` tag: size in points and the view box. -/
  | svgOpen (width height left top : ℚ)
  /-- A `rect` element. -/
  | rect (cls : String) (x y width height : ℚ)
  /-- A `line` element. -/
  | line (cls : String) (x1 x2 y1 y2 : Option ℚ)
  /-- A `path` element: its class and the coordinate pairs after the `M`. -/
  | path (cls : String) (d : List (Option ℚ × Option ℚ))
  /-- A `clipPath` element with identifier `clip` followed by the number, holding one rect. -/
  | clipPath (clipId : Nat) (x y width height : ℚ)
  /-- An opening `g` tag, with the text of its `clip-path` attribute if it has one. -/
  | gOpen (clipPathAttr : Option String)
  /-- A closing `g` tag. -/
  | gClose
  /-- A `text` element: class, text-anchor style (empty if none), position,
  the translation of a rotated label if it is vertical, and the content. -/
  | text (cls : String) (textAnchor : String) (x y : ℚ) (rotated : Option (ℚ × ℚ))
      (content : String)
  /-- The opening `defs` tag. -/
  | defsOpen
  /-- The opening `mask` tag of hatch `i`. -/
  | maskOpen (i : Nat)
  /-- One rotated rect of the mask of hatch `i`. -/
  | maskRect (i : Nat) (maxBounds : Int) (angle : ℚ)
  /-- The closing `mask` tag. -/
  | maskClose
  /-- The `pattern` element of hatch `i`. -/
  | pattern (i : Nat) (spacing : ℚ)
  /-- The closing `defs` tag. -/
  | defsClose
  /-- The `style` element: the stylesheet of the given style, whitespace stripped. -/
  | style (css : PlotStyle)
  /-- The `script` element. -/
  | script
  /-- The closing `svg` tag. -/
  | svgClose
  deriving DecidableEq, Repr

/-- Whether the piece of markup is a `text` element. -/
def Svg.isText : Svg → Bool
  | Svg.text _ _ _ _ _ _ => true
  | _ => false

/-- The piece of markup is not a `text` element. -/
def Svg.NotText (e : Svg) : Prop := e.isText = false

/-- The state that the writing functions act on: the markup written to the
`std::ostream` so far, and the number of calls of `rand()` made so far. -/
structure Out where
  svg : List Svg := []
  randCalls : Nat := 0
  deriving DecidableEq, Repr

/-- The operator `o << piece`. -/
def Out.put (o : Out) (piece : Svg) : Out :=
  { o with svg := o.svg ++ [piece] }

/-! ## SvgDrawable -/

/-- The bounding box of a drawable (`SvgDrawable::Bounds`); the default
constructor leaves it unset. -/
structure Bounds where
  left : ℚ := 0
  right : ℚ := 0
  top : ℚ := 0
  bottom : ℚ := 0
  set : Bool := false
  deriving DecidableEq, Repr

/-- Constructor `Bounds(left, right, top, bottom)`. -/
def Bounds.init (left right top bottom : ℚ) : Bounds :=
  { left := left, right := right, top := top, bottom := bottom, set := true }

/-- Member `width`. -/
def Bounds.width (b : Bounds) : ℚ := b.right - b.left

/-- Member `height`. -/
def Bounds.height (b : Bounds) : ℚ := b.bottom - b.top

/-- The data members of `SvgDrawable`, for a node whose children have type `χ`. -/
structure SvgDrawable (χ : Type) where
  children : List χ := []
  hasLayout : Bool := false
  bounds : Bounds := {}
  deriving DecidableEq, Repr

/-- Member `addChild`. -/
def SvgDrawable.addChild {χ : Type} (self : SvgDrawable χ) (child : χ) : SvgDrawable χ :=
  { self with children := self.children ++ [child] }

/-- The body of the loop of `SvgDrawable::layout` after the child was laid out:
the child's box `c` is folded into the box `bounds` of the node. -/
def SvgDrawable.foldBounds (bounds c : Bounds) : Bounds :=
  if bounds.set then
    if c.set then
      { bounds with
        left := std_min bounds.left c.left
        top := std_min bounds.top c.top
        right := std_max bounds.right c.right
        bottom := std_max bounds.bottom c.bottom }
    else bounds
  else c

/-- The loop of `SvgDrawable::layout` over the children, in attachment order:
lay the child out (the virtual call `c->layout(style)`), then fold its box. -/
def SvgDrawable.layoutChildren {χ : Type} (childLayout : χ → Except Fault χ)
    (childBounds : χ → Bounds) : List χ → Bounds → Except Fault (List χ × Bounds)
  | [], bounds => Except.ok ([], bounds)
  | c :: rest, bounds =>
    match childLayout c with
    | Except.error e => Except.error e
    | Except.ok c1 =>
      match SvgDrawable.layoutChildren childLayout childBounds rest
          (SvgDrawable.foldBounds bounds (childBounds c1)) with
      | Except.error e => Except.error e
      | Except.ok (rest1, bounds1) => Except.ok (c1 :: rest1, bounds1)

/-- Member `SvgDrawable::layout` (the base implementation). -/
def SvgDrawable.layout {χ : Type} (childLayout : χ → Except Fault χ)
    (childBounds : χ → Bounds) (self : SvgDrawable χ) : Except Fault (SvgDrawable χ) :=
  if self.hasLayout then Except.error Fault.assertion
  else
    match SvgDrawable.layoutChildren childLayout childBounds self.children self.bounds with
    | Except.error e => Except.error e
    | Except.ok (children, bounds) =>
      Except.ok { children := children, hasLayout := true, bounds := bounds }

/-- The loop `for (int i = children.size() - 1; i >= 0; --i)` of the base
writeData and writeLabel, entered with `n = i + 1` children still to visit:
it calls the virtual function of `children[i]` on the stream, then goes on
with `i - 1`. -/
def SvgDrawable.writeFrom {χ : Type} (childWrite : χ → Out → Out) (children : List χ) :
    (n : Nat) → n ≤ children.length → Out → Out
  | 0, _, o => o
  | i + 1, h, o =>
    SvgDrawable.writeFrom childWrite children i (Nat.le_of_succ_le h)
      (childWrite (children.get ⟨i, h⟩) o)

/-- Member `SvgDrawable::writeData` (the base implementation); `childWriteData`
is the virtual `writeData` of the children. -/
def SvgDrawable.writeData {χ : Type} (childWriteData : χ → Out → Out) (self : SvgDrawable χ)
    (o : Out) : Out :=
  SvgDrawable.writeFrom childWriteData self.children self.children.length (Nat.le_refl _) o

/-- Member `SvgDrawable::writeLabel` (the base implementation); `childWriteLabel`
is the virtual `writeLabel` of the children. -/
def SvgDrawable.writeLabel {χ : Type} (childWriteLabel : χ → Out → Out) (self : SvgDrawable χ)
    (o : Out) : Out :=
  SvgDrawable.writeFrom childWriteLabel self.children self.children.length (Nat.le_refl _) o

/-- The function `SvgDrawable::escape`, at a `std::string`: it passes
`str.c_str()` to the loop `while (*str)`, which stops at the first zero
character.  The three characters replaced are the less-than sign, the
ampersand and the double quote (character 34). -/
def SvgDrawable.escape (str : String) : String :=
  String.join ((str.data.takeWhile fun c => c != Char.ofNat 0).map fun c =>
    if c = '<' then "&lt;"
    else if c = '&' then "&amp;"
    else if c = Char.ofNat 34 then "&quot;"
    else String.singleton c)

/-! ## TextLabel -/

/-- A text label (`class TextLabel`).  No member function of the library
attaches a child to a label, so its children have the empty type. -/
structure TextLabel extends SvgDrawable Empty where
  textWidth : ℚ := 0
  drawAt : Point2D
  /-- Alignment: 0=centre, 1=left, -1=right -/
  alignment : ℚ := 0
  text : String
  cssClass : String := "svg-plot-label"
  vertical : Bool := false
  isValue : Bool := false
  deriving DecidableEq, Repr

/-- Constructor `TextLabel(at, alignment, text, cssClass, vertical, isValue)`. -/
def TextLabel.init (atPoint : Point2D) (alignment : ℚ) (text : String)
    (cssClass : String) (vertical isValue : Bool) : TextLabel :=
  { drawAt := atPoint, alignment := alignment, text := text, cssClass := cssClass,
    vertical := vertical, isValue := isValue }

/-- Member `TextLabel::write`. -/
def TextLabel.write (self : TextLabel) (o : Out) : Out :=
  let tx := self.drawAt.x
  let ty := self.drawAt.y
  let anchor := if self.alignment > 0.5 then "start" else if self.alignment < -0.5 then "end" else ""
  let tx :=
    if self.alignment > 0.5 then tx + self.textWidth * (self.alignment - 1)
    else if self.alignment < -0.5 then tx + self.textWidth * (self.alignment + 1)
    else tx + self.textWidth * self.alignment
  if self.vertical then
    o.put (Svg.text (SvgDrawable.escape self.cssClass) anchor 0 0 (some (-ty, tx))
      (SvgDrawable.escape self.text))
  else
    o.put (Svg.text (SvgDrawable.escape self.cssClass) anchor tx ty none
      (SvgDrawable.escape self.text))

/-- Member `TextLabel::layout`; it does not call the base implementation. -/
def TextLabel.layout (style : PlotStyle) (self : TextLabel) : TextLabel :=
  let x := self.drawAt.x
  let y := self.drawAt.y
  let fontSize := if self.isValue then style.valueSize else style.labelSize
  -- Assume all text/labels are UTF-8
  let textWidth := estimateUtf8Width self.text * fontSize * style.textAspect
  if self.vertical then
    { self with
      textWidth := textWidth
      bounds := Bounds.init (x - fontSize * 0.5) (x + fontSize * 0.5)
        (y - textWidth * (self.alignment - 1) * 0.5) (y - textWidth * (self.alignment + 1) * 0.5) }
  else
    { self with
      textWidth := textWidth
      bounds := Bounds.init (x + textWidth * (self.alignment - 1) * 0.5)
        (x + textWidth * (self.alignment + 1) * 0.5) (y - fontSize * 0.5) (y + fontSize * 0.5) }

/-- Member `writeData` of a text label: inherited from the base class. -/
def TextLabel.writeData (self : TextLabel) (o : Out) : Out :=
  SvgDrawable.writeData (fun (c : Empty) _ => c.elim) self.toSvgDrawable o

/-- Member `TextLabel::writeLabel`. -/
def TextLabel.writeLabel (self : TextLabel) (o : Out) : Out :=
  self.write o

/-! ## Line2D and its labels -/

/-- A label attached to a line (`Line2D::LineLabel`).  The references `axisX`
and `axisY` of the source are arguments of the member functions; the member
`at` is `atPoint` here. -/
structure LineLabel extends TextLabel where
  atPoint : Point2D
  name : String
  /-- Direction: 0=right, 1=up, 2=left, 3=down -/
  direction : ℚ
  distance : ℚ
  drawLineFrom : Point2D := { x := 0, y := 0 }
  drawLineTo : Point2D := { x := 0, y := 0 }
  styleIndex : Int
  deriving DecidableEq, Repr

/-- Constructor `LineLabel(axisX, axisY, at, name, direction, distance, styleIndex)`. -/
def LineLabel.init (atPoint : Point2D) (name : String) (direction distance : ℚ)
    (styleIndex : Int) : LineLabel :=
  { TextLabel.init { x := 0, y := 0 } 0 name "svg-plot-label" false false with
    atPoint := atPoint, name := name, direction := direction, distance := distance,
    styleIndex := styleIndex }

/-- Member `LineLabel::layout`. -/
def LineLabel.layout (libm : CMath) (style : PlotStyle) (axisX axisY : Axis)
    (self : LineLabel) : Except Fault LineLabel :=
  match coordinate (axisX.map self.atPoint.x), coordinate (axisY.map self.atPoint.y) with
  | Except.error e, _ => Except.error e
  | Except.ok _, Except.error e => Except.error e
  | Except.ok sx, Except.ok sy =>
    let placed : LineLabel :=
      if self.distance < 0 then
        { self with alignment := 0, drawAt := { x := sx, y := sy } }
      else
        let angle := self.direction * 3.14159265358979 / 180
        let ax := libm.cos angle
        let ay := libm.sin angle
        let px := sx + self.distance * ax
        let py := sy + self.distance * ay
        let fontSize := style.labelSize
        let letterHeight := fontSize * 0.8
        let tx := px
        let ty := py - fontSize * 0.1 -- Just a vertical alignment tweak
        let space := fontSize * 0.25
        let verticalWiggle := fontSize * 0.3
        let lineDistance := self.distance - space
        let drawLineTo : Point2D :=
          if lineDistance > space then { x := sx + ax * space, y := sy + ay * space }
          else { x := px, y := py }
        if ax < -0.7 then
          { self with
            alignment := -1
            drawLineFrom := { x := px, y := py }
            drawLineTo := drawLineTo
            drawAt := { x := tx - space, y := ty + ay * verticalWiggle } }
        else if ax > 0.7 then
          { self with
            alignment := 1
            drawLineFrom := { x := px, y := py }
            drawLineTo := drawLineTo
            drawAt := { x := tx + space, y := ty + ay * verticalWiggle } }
        else if ay > 0 then
          { self with
            alignment := ax
            drawLineFrom := { x := px, y := py }
            drawLineTo := drawLineTo
            drawAt := { x := tx + ax * fontSize, y := ty + letterHeight } }
        else
          { self with
            alignment := ax
            drawLineFrom := { x := px, y := py }
            drawLineTo := drawLineTo
            drawAt := { x := tx + ax * fontSize, y := ty - letterHeight } }
    let classed : LineLabel :=
      { placed with cssClass := "svg-plot-label " ++ style.fillClass self.styleIndex }
    Except.ok { classed with toTextLabel := TextLabel.layout style classed.toTextLabel }

/-- Member `writeData` of a line label: inherited from the base class. -/
def LineLabel.writeData (self : LineLabel) (o : Out) : Out :=
  self.toTextLabel.writeData o

/-- Member `LineLabel::writeLabel`. -/
def LineLabel.writeLabel (style : PlotStyle) (self : LineLabel) (o : Out) : Out :=
  let o1 :=
    if self.drawLineTo.x ≠ self.drawLineFrom.x ∨ self.drawLineTo.y ≠ self.drawLineFrom.y then
      o.put (Svg.line ("svg-plot-tick " ++ style.strokeClass self.styleIndex)
        (some self.drawLineFrom.x) (some self.drawLineTo.x)
        (some self.drawLineFrom.y) (some self.drawLineTo.y))
    else o
  self.toTextLabel.writeLabel o1

/-- A line on a 2D plot (`class Line2D`).  The references `axisX` and `axisY`
of the source are arguments of the member functions: the axes of the plot that
created the line.  The only children a line receives are its labels. -/
structure Line2D extends SvgDrawable LineLabel where
  _drawLine : Bool := true
  _drawFill : Bool := false
  hasFillToX : Bool := false
  hasFillToY : Bool := false
  fillTo : Point2D := { x := 0, y := 0 }
  points : List Point2D := []
  styleIndex : Int := 0
  deriving DecidableEq, Repr

/-- Constructor `Line2D(axisX, axisY, styleIndex)`. -/
def Line2D.init (styleIndex : Int) : Line2D :=
  { styleIndex := styleIndex }

/-- Member `add`: the new line together with the two axes it refers to. -/
def Line2D.add (self : Line2D) (axisX axisY : Axis) (x y : ℚ) : Line2D × Axis × Axis :=
  ({ self with points := self.points ++ [{ x := x, y := y }] },
    axisX.autoValue x, axisY.autoValue y)

/-- Member `drawLine`. -/
def Line2D.drawLine (self : Line2D) (draw : Bool) : Line2D :=
  { self with _drawLine := draw }

/-- Member `drawFill`. -/
def Line2D.drawFill (self : Line2D) (draw : Bool) : Line2D :=
  { self with _drawFill := draw }

/-- Member `fillToX`. -/
def Line2D.fillToX (self : Line2D) (x : ℚ) : Line2D :=
  { self with _drawFill := true, hasFillToX := true, hasFillToY := false,
              fillTo := { x := x, y := 0 } }

/-- Member `fillToY`. -/
def Line2D.fillToY (self : Line2D) (y : ℚ) : Line2D :=
  { self with _drawFill := true, hasFillToX := false, hasFillToY := true,
              fillTo := { x := 0, y := y } }

/-- Member `label(valueX, valueY, name, degrees, distance)`. -/
def Line2D.label (self : Line2D) (axisX axisY : Axis) (valueX valueY : ℚ) (name : String)
    (degrees distance : ℚ) : Line2D × Axis × Axis :=
  ({ self with
      toSvgDrawable := self.toSvgDrawable.addChild
        (LineLabel.init { x := valueX, y := valueY } name degrees distance self.styleIndex) },
    axisX.autoValue valueX, axisY.autoValue valueY)

/-- The coordinate pairs `axisX.map(p.x) axisY.map(p.y)` of the data points, in order. -/
def Line2D.mapped (axisX axisY : Axis) (points : List Point2D) : List (Option ℚ × Option ℚ) :=
  points.map fun p => (axisX.map p.x, axisY.map p.y)

/-- Member `Line2D::writeData`.  Reading `points.back()` or `points[0]` of an
empty vector is undefined behaviour in the source; the coordinate it would give
is recorded as undefined. -/
def Line2D.writeData (style : PlotStyle) (axisX axisY : Axis) (self : Line2D) (o : Out) : Out :=
  let o1 :=
    if self._drawFill then
      let closing : List (Option ℚ × Option ℚ) :=
        if self.hasFillToX then
          [(axisX.map self.fillTo.x, self.points.getLast?.bind fun p => axisY.map p.y),
           (axisX.map self.fillTo.x, self.points.head?.bind fun p => axisY.map p.y)]
        else if self.hasFillToY then
          [(self.points.getLast?.bind fun p => axisX.map p.x, axisY.map self.fillTo.y),
           (self.points.head?.bind fun p => axisX.map p.x, axisY.map self.fillTo.y)]
        else []
      o.put (Svg.path
        ("svg-plot-fill " ++ style.fillClass self.styleIndex ++ " "
          ++ style.hatchClass self.styleIndex)
        (Line2D.mapped axisX axisY self.points ++ closing))
    else o
  let o2 :=
    if self._drawLine then
      o1.put (Svg.path
        ("svg-plot-line " ++ style.strokeClass self.styleIndex ++ " "
          ++ style.dashClass self.styleIndex)
        (Line2D.mapped axisX axisY self.points))
    else o1
  SvgDrawable.writeData LineLabel.writeData self.toSvgDrawable o2

/-- Member `writeLabel` of a line: inherited from the base class. -/
def Line2D.writeLabel (style : PlotStyle) (self : Line2D) (o : Out) : Out :=
  SvgDrawable.writeLabel (LineLabel.writeLabel style) self.toSvgDrawable o

/-- Member `layout` of a line: inherited from the base class. -/
def Line2D.layout (libm : CMath) (style : PlotStyle) (axisX axisY : Axis) (self : Line2D) :
    Except Fault Line2D :=
  match SvgDrawable.layout (LineLabel.layout libm style axisX axisY)
      (fun c => c.bounds) self.toSvgDrawable with
  | Except.error e => Except.error e
  | Except.ok base => Except.ok { self with toSvgDrawable := base }

/-! ## SvgFileDrawable -/

/-- The part of `SvgFileDrawable::write` before the two layers: the prolog, the
opening tag sized by the padded box, and the background rect of the box. -/
def SvgFileDrawable.writeHeader (style : PlotStyle) (bounds : Bounds) (o : Out) : Out :=
  -- Add padding
  let padded : Bounds :=
    { bounds with
      left := bounds.left - style.padding
      right := bounds.right + style.padding
      top := bounds.top - style.padding
      bottom := bounds.bottom + style.padding }
  ((o.put Svg.prolog).put
      (Svg.svgOpen padded.width padded.height padded.left padded.top)).put
    (Svg.rect "svg-plot-bg" bounds.left bounds.top bounds.width bounds.height)

/-- The `mask` and `pattern` definitions of hatch `i` and of those after it. -/
def SvgFileDrawable.writeHatches (style : PlotStyle) (maxBounds : Int) :
    Nat → List PlotStyle.Hatch → Out → Out
  | _, [], o => o
  | i, hatch :: rest, o =>
    if hatch.angles.length = 0 then SvgFileDrawable.writeHatches style maxBounds (i + 1) rest o
    else
      let o1 := hatch.angles.foldl (fun acc angle => acc.put (Svg.maskRect i maxBounds angle))
        (o.put (Svg.maskOpen i))
      let spacing := style.hatchSpacing * hatch.spaceScale
      SvgFileDrawable.writeHatches style maxBounds (i + 1) rest
        ((o1.put Svg.maskClose).put (Svg.pattern i spacing))

/-- The part of `SvgFileDrawable::write` after the two layers: the hatch
definitions, the stylesheet, the script and the closing tag. -/
def SvgFileDrawable.writeTrailer (libm : CMath) (style : PlotStyle) (bounds : Bounds)
    (o : Out) : Out :=
  let maxBounds : Int := Int.ceil (std_max
    (std_max |bounds.left| |bounds.right|)
    (std_max |bounds.top| |bounds.bottom|) * libm.sqrt 2)
  let o1 := SvgFileDrawable.writeHatches style maxBounds 0 style.hatches (o.put Svg.defsOpen)
  (((o1.put Svg.defsClose).put (Svg.style style)).put Svg.script).put Svg.svgClose

/-- Member `SvgFileDrawable::write(o, style)` for a node of type `α` whose
virtual functions are the arguments `layoutIfNeeded`, `writeData` and
`writeLabel`, and whose box is read by `bounds`. -/
def SvgFileDrawable.write {α : Type} (libm : CMath) (layoutIfNeeded : α → Except Fault α)
    (bounds : α → Bounds) (writeData writeLabel : α → Out → Out)
    (style : PlotStyle) (self : α) (o : Out) : Except Fault (α × Out) :=
  match layoutIfNeeded self with
  | Except.error e => Except.error e
  | Except.ok self1 =>
    let o1 := SvgFileDrawable.writeHeader style (bounds self1) o
    let o2 := writeData self1 o1
    let o3 := writeLabel self1 o2
    Except.ok (self1, SvgFileDrawable.writeTrailer libm style (bounds self1) o3)

/-! ## Plot2D -/

/-- A child of a plot: a line (or fill) made by `line` or `fill`, or a text
label synthesised by the layout. -/
inductive PlotChild where
  | line (l : Line2D)
  | label (t : TextLabel)
  deriving DecidableEq, Repr

/-- The box of a child. -/
def PlotChild.bounds : PlotChild → Bounds
  | PlotChild.line l => l.bounds
  | PlotChild.label t => t.bounds

/-- The virtual call `c->layout(style)` on a child of a plot with axes `x`, `y`. -/
def PlotChild.layout (libm : CMath) (style : PlotStyle) (x y : Axis) :
    PlotChild → Except Fault PlotChild
  | PlotChild.line l =>
    match Line2D.layout libm style x y l with
    | Except.error e => Except.error e
    | Except.ok l1 => Except.ok (PlotChild.line l1)
  | PlotChild.label t => Except.ok (PlotChild.label (TextLabel.layout style t))

/-- The virtual call `writeData` on a child of a plot with axes `x`, `y`. -/
def PlotChild.writeData (style : PlotStyle) (x y : Axis) : PlotChild → Out → Out
  | PlotChild.line l => Line2D.writeData style x y l
  | PlotChild.label t => TextLabel.writeData t

/-- The virtual call `writeLabel` on a child of a plot. -/
def PlotChild.writeLabel (style : PlotStyle) : PlotChild → Out → Out
  | PlotChild.line l => Line2D.writeLabel style l
  | PlotChild.label t => TextLabel.writeLabel t

/-- A plot area with its two axes (`class Plot2D`). -/
structure Plot2D extends SvgDrawable PlotChild where
  styleIndex : Int := 0
  x : Axis
  y : Axis

/-- Constructor `Plot2D(x, y)`. -/
def Plot2D.ofAxes (x y : Axis) : Plot2D :=
  { x := x, y := y }

/-- Constructor `Plot2D(width, height)`. -/
def Plot2D.init (width height : ℚ) : Plot2D :=
  Plot2D.ofAxes (Axis.init 0 width) (Axis.init height 0)

/-- Constructor `Plot2D()`. -/
def Plot2D.default : Plot2D :=
  Plot2D.init 260 130

/-- Member `line(styleIndex)`: the new line is the last child of the plot. -/
def Plot2D.lineWith (self : Plot2D) (styleIndex : Int) : Plot2D :=
  { self with
    toSvgDrawable := self.toSvgDrawable.addChild (PlotChild.line (Line2D.init styleIndex)) }

/-- Member `line()`. -/
def Plot2D.line (self : Plot2D) : Plot2D :=
  { self.lineWith self.styleIndex with styleIndex := self.styleIndex + 1 }

/-- Member `fill(styleIndex)`. -/
def Plot2D.fillWith (self : Plot2D) (styleIndex : Int) : Plot2D :=
  { self with
    toSvgDrawable := self.toSvgDrawable.addChild
      (PlotChild.line (((Line2D.init styleIndex).drawLine false).drawFill true)) }

/-- Member `fill()`. -/
def Plot2D.fill (self : Plot2D) : Plot2D :=
  { self.fillWith self.styleIndex with styleIndex := self.styleIndex + 1 }

/-- A call through the reference returned by `line` or `fill`: the member
function `f` of the line at position `i` among the children, run against the
axes of the plot. -/
def Plot2D.onLine (self : Plot2D) (i : Nat) (f : Line2D → Axis → Axis → Line2D × Axis × Axis) :
    Plot2D :=
  match self.children.get? i with
  | some (PlotChild.line l) =>
    let r := f l self.x self.y
    { self with
      toSvgDrawable := { self.toSvgDrawable with
        children := self.children.set i (PlotChild.line r.1) }
      x := r.2.1
      y := r.2.2 }
  | _ => self

/-- The body of the loop of `Plot2D::writeData` over the x ticks: the gridline
of one tick. -/
def Plot2D.gridLineX (style : PlotStyle) (x y : Axis) (t : Tick) (o : Out) : Out :=
  if t.strength ≠ Tick.Strength.tick then
    let screenX := x.map t.value
    let isMajor : Bool := t.strength = Tick.Strength.major
    -- 1% of a pixel is close enough
    let isLeftBorder : Bool :=
      match screenX with
      | some sx => |sx - x.drawMin| < 0.01
      | none => false
    -- Extend using horizontal tick even though it's vertical
    let extraTop : ℚ := if isMajor ∧ isLeftBorder ∧ t.name.length ≠ 0 then style.tickH else 0
    o.put (Svg.line (if isMajor then "svg-plot-major" else "svg-plot-minor")
      screenX screenX (some (y.drawMin - extraTop)) (some y.drawMax))
  else o

/-- The body of the loop of `Plot2D::writeData` over the y ticks: the gridline
of one tick. -/
def Plot2D.gridLineY (x y : Axis) (t : Tick) (o : Out) : Out :=
  if t.strength ≠ Tick.Strength.tick then
    let screenY := y.map t.value
    let isMajor : Bool := t.strength = Tick.Strength.major
    o.put (Svg.line (if isMajor then "svg-plot-major" else "svg-plot-minor")
      (some x.drawMin) (some x.drawMax) screenY screenY)
  else o

/-- Member `Plot2D::writeData`; `rand k` is the value the call number `k` of
`rand()` returns. -/
def Plot2D.writeData (rand : Nat → Nat) (style : PlotStyle) (self : Plot2D) (o : Out) : Out :=
  let padding := style.lineWidth * 0.5
  let clipId := rand o.randCalls
  let o0 : Out := { o with randCalls := o.randCalls + 1 }
  let o1 := o0.put (Svg.rect "svg-plot-axis" self.x.drawMin self.y.drawMin
    self.x.drawSize self.y.drawSize)
  let o2 := self.x.ticks.foldl (fun acc t => Plot2D.gridLineX style self.x self.y t acc) o1
  let o3 := self.y.ticks.foldl (fun acc t => Plot2D.gridLineY self.x self.y t acc) o2
  let o4 := o3.put (Svg.clipPath clipId (self.x.drawMin - padding) (self.y.drawMin - padding)
    (self.x.drawSize + padding * 2) (self.y.drawSize + padding * 2))
  let o5 := o4.put (Svg.gOpen (some ("url(#clip" ++ toString clipId)))
  let o6 := SvgDrawable.writeData (PlotChild.writeData style self.x self.y) self.toSvgDrawable o5
  o6.put Svg.gClose

/-- The body of the loop of `Plot2D::writeLabel` over the x ticks: the tick mark
of one tick. -/
def Plot2D.tickMarkX (style : PlotStyle) (x y : Axis) (t : Tick) (o : Out) : Out :=
  let screenX := x.map t.value
  if t.name.length ≠ 0 then
    o.put (Svg.line "svg-plot-tick" screenX screenX
      (some y.drawMax) (some (y.drawMax + style.tickV)))
  else o

/-- The body of the loop of `Plot2D::writeLabel` over the y ticks: the tick mark
of one tick. -/
def Plot2D.tickMarkY (style : PlotStyle) (x y : Axis) (t : Tick) (o : Out) : Out :=
  if t.name.length ≠ 0 then
    let screenY := y.map t.value
    o.put (Svg.line "svg-plot-tick" (some (x.drawMin - style.tickH)) (some x.drawMin)
      screenY screenY)
  else o

/-- Member `Plot2D::writeLabel`. -/
def Plot2D.writeLabel (style : PlotStyle) (self : Plot2D) (o : Out) : Out :=
  let o1 := o.put (Svg.gOpen none)
  let o2 := SvgDrawable.writeLabel (PlotChild.writeLabel style) self.toSvgDrawable o1
  let o3 := self.x.ticks.foldl (fun acc t => Plot2D.tickMarkX style self.x self.y t acc) o2
  let o4 := self.y.ticks.foldl (fun acc t => Plot2D.tickMarkY style self.x self.y t acc) o3
  o4.put Svg.gClose

/-- The loop of `Plot2D::layout` over the x ticks: a value label below the plot
for every tick with a name. -/
def Plot2D.addLabelsX (x : Axis) (screenY : ℚ) :
    List Tick → SvgDrawable PlotChild → Except Fault (SvgDrawable PlotChild)
  | [], node => Except.ok node
  | t :: rest, node =>
    if t.name.length ≠ 0 then
      match coordinate (x.map t.value) with
      | Except.error e => Except.error e
      | Except.ok screenX =>
        Plot2D.addLabelsX x screenY rest
          (node.addChild (PlotChild.label
            (TextLabel.init { x := screenX, y := screenY } 0 t.name "svg-plot-value" false true)))
    else Plot2D.addLabelsX x screenY rest node

/-- The loop of `Plot2D::layout` over the y ticks: a value label left of the
plot for every tick with a name, and the greatest estimated width of the names. -/
def Plot2D.addLabelsY (y : Axis) (screenX : ℚ) :
    List Tick → SvgDrawable PlotChild × ℚ → Except Fault (SvgDrawable PlotChild × ℚ)
  | [], acc => Except.ok acc
  | t :: rest, (node, longestLabel) =>
    if t.name.length ≠ 0 then
      match coordinate (y.map t.value) with
      | Except.error e => Except.error e
      | Except.ok screenY =>
        Plot2D.addLabelsY y screenX rest
          (node.addChild (PlotChild.label
            (TextLabel.init { x := screenX, y := screenY } (-1) t.name "svg-plot-value" false true)),
           std_max longestLabel (estimateUtf8Width t.name))
    else Plot2D.addLabelsY y screenX rest (node, longestLabel)

/-- Member `Plot2D::layout`. -/
def Plot2D.layout (libm : CMath) (style : PlotStyle) (self : Plot2D) : Except Fault Plot2D :=
  -- Auto-scale axes if needed
  let x := self.x.autoSetup
  let y := self.y.autoSetup
  -- Add labels for axes
  let screenY := y.drawMax + style.tickV + style.valueSize * 0.5 + style.textPadding
  match Plot2D.addLabelsX x screenY x.ticks self.toSvgDrawable with
  | Except.error e => Except.error e
  | Except.ok node1 =>
    let node2 :=
      if x.label.length ≠ 0 then
        let midX := (x.drawMax + x.drawMin) * 0.5
        node1.addChild (PlotChild.label (TextLabel.init
          { x := midX, y := screenY + (style.labelSize + style.valueSize) * 0.5 } 0 x.label
          "svg-plot-label" false true))
      else node1
    let screenX := x.drawMin - style.tickH - style.textPadding
    match Plot2D.addLabelsY y screenX y.ticks (node2, 0) with
    | Except.error e => Except.error e
    | Except.ok (node3, longestLabel) =>
      let node4 :=
        if y.label.length ≠ 0 then
          let midY := (y.drawMax + y.drawMin) * 0.5
          node3.addChild (PlotChild.label (TextLabel.init
            { x := screenX - style.textPadding * 1.5 - longestLabel * style.valueSize, y := midY }
            0 y.label "svg-plot-label" true true))
        else node3
      let node5 : SvgDrawable PlotChild :=
        { node4 with
          bounds := Bounds.init (x.drawMin - style.tickH) (x.drawMax + style.tickH)
            (y.drawMin - style.tickV) (y.drawMax + style.tickV) }
      match SvgDrawable.layout (PlotChild.layout libm style x y) PlotChild.bounds node5 with
      | Except.error e => Except.error e
      | Except.ok node6 => Except.ok { self with toSvgDrawable := node6, x := x, y := y }

/-- Member `layoutIfNeeded` of a plot. -/
def Plot2D.layoutIfNeeded (libm : CMath) (style : PlotStyle) (self : Plot2D) :
    Except Fault Plot2D :=
  if !self.hasLayout then Plot2D.layout libm style self else Except.ok self

/-- Member `write(o, style)` of a plot. -/
def Plot2D.write (libm : CMath) (rand : Nat → Nat) (style : PlotStyle) (self : Plot2D)
    (o : Out) : Except Fault (Plot2D × Out) :=
  SvgFileDrawable.write libm (Plot2D.layoutIfNeeded libm style) (fun p => p.bounds)
    (Plot2D.writeData rand style) (Plot2D.writeLabel style) style self o

/-! ## Figure -/

/-- A figure holding plots (`class Figure`). -/
structure Figure extends SvgDrawable Plot2D where
  style : PlotStyle := {}

/-- Member `plot(widthPt, heightPt)`: the new plot is the last child. -/
def Figure.plot (self : Figure) (widthPt heightPt : ℚ) : Figure :=
  { self with toSvgDrawable := self.toSvgDrawable.addChild (Plot2D.init widthPt heightPt) }

/-- Member `plot()`. -/
def Figure.plotDefault (self : Figure) : Figure :=
  { self with toSvgDrawable := self.toSvgDrawable.addChild Plot2D.default }

/-- Member `Figure::layout`. -/
def Figure.layout (libm : CMath) (style : PlotStyle) (self : Figure) : Except Fault Figure :=
  let node : SvgDrawable Plot2D := { self.toSvgDrawable with bounds := Bounds.init 0 0 0 0 }
  match SvgDrawable.layout (Plot2D.layout libm style) (fun p => p.bounds) node with
  | Except.error e => Except.error e
  | Except.ok node1 => Except.ok { self with toSvgDrawable := node1 }

/-- Member `layoutIfNeeded` of a figure. -/
def Figure.layoutIfNeeded (libm : CMath) (style : PlotStyle) (self : Figure) :
    Except Fault Figure :=
  if !self.hasLayout then Figure.layout libm style self else Except.ok self

/-- Member `writeData` of a figure: inherited from the base class. -/
def Figure.writeData (rand : Nat → Nat) (style : PlotStyle) (self : Figure) (o : Out) : Out :=
  SvgDrawable.writeData (Plot2D.writeData rand style) self.toSvgDrawable o

/-- Member `writeLabel` of a figure: inherited from the base class. -/
def Figure.writeLabel (style : PlotStyle) (self : Figure) (o : Out) : Out :=
  SvgDrawable.writeLabel (Plot2D.writeLabel style) self.toSvgDrawable o

/-- Member `Figure::write(o)`: the inherited write with the style of the figure. -/
def Figure.write (libm : CMath) (rand : Nat → Nat) (self : Figure) (o : Out) :
    Except Fault (Figure × Out) :=
  SvgFileDrawable.write libm (Figure.layoutIfNeeded libm self.style) (fun f => f.bounds)
    (Figure.writeData rand self.style) (Figure.writeLabel self.style) self.style self o

/-! ## The layers of a document -/

/-- The markup that the header part of write appends. -/
def SvgFileDrawable.header (style : PlotStyle) (bounds : Bounds) : List Svg :=
  (SvgFileDrawable.writeHeader style bounds {}).svg

/-- The markup that the trailer part of write appends. -/
def SvgFileDrawable.trailer (libm : CMath) (style : PlotStyle) (bounds : Bounds) : List Svg :=
  (SvgFileDrawable.writeTrailer libm style bounds {}).svg

/-- The data layer of a plot: what its writeData appends to a stream, after
`k` earlier calls of `rand()`. -/
def Plot2D.dataLayer (rand : Nat → Nat) (style : PlotStyle) (self : Plot2D) (k : Nat) :
    List Svg :=
  (Plot2D.writeData rand style self { svg := [], randCalls := k }).svg

/-- The label layer of a plot: what its writeLabel appends to a stream. -/
def Plot2D.labelLayer (style : PlotStyle) (self : Plot2D) : List Svg :=
  (Plot2D.writeLabel style self {}).svg

/-- The data layer of a figure: what its writeData appends to a stream, after
`k` earlier calls of `rand()`. -/
def Figure.dataLayer (rand : Nat → Nat) (style : PlotStyle) (self : Figure) (k : Nat) :
    List Svg :=
  (Figure.writeData rand style self { svg := [], randCalls := k }).svg

/-- The label layer of a figure: what its writeLabel appends to a stream. -/
def Figure.labelLayer (style : PlotStyle) (self : Figure) : List Svg :=
  (Figure.writeLabel style self {}).svg

/-- The writing function `W` only appends to the stream, the same markup
whatever the stream holds, every piece of it satisfies `P`, and it makes no
call of `rand()`. -/
def PureOnly (P : Svg → Prop) (W : Out → Out) : Prop :=
  ∃ l : List Svg, (∀ o : Out, W o = { o with svg := o.svg ++ l }) ∧ ∀ e ∈ l, P e

/-- The writing function `W` only appends to the stream, markup that depends
on the number of earlier calls of `rand()` alone, and every piece of it
satisfies `P`. -/
def AppendsOnly (P : Svg → Prop) (W : Out → Out) : Prop :=
  ∃ f : Nat → List Svg × Nat,
    (∀ o : Out, W o = { svg := o.svg ++ (f o.randCalls).1, randCalls := (f o.randCalls).2 }) ∧
    ∀ k, ∀ e ∈ (f k).1, P e

/-! ## A sample plot -/

/-- The plot of the end-to-end scenario: a default plot with one line made by
`line()` and the points (0,0), (1,1), (2,4) added to it. -/
def examplePlot : Plot2D :=
  (((Plot2D.default.line.onLine 0 (fun l x y => l.add x y 0 0)).onLine 0
    (fun l x y => l.add x y 1 1)).onLine 0 (fun l x y => l.add x y 2 4))

/-- Sample values for the functions of the C library, used only to run the
embedding on the sample plot. -/
def sampleMath : CMath :=
  { cos := fun _ => 1, sin := fun _ => 0, sqrt := fun _ => 3 / 2 }

/-! ## What a sequence of calls feeds to an axis -/

/-- The values that a call passes to autoValue, in order. -/
def AxisCall.values : AxisCall → List ℚ
  | AxisCall.autoValue v => [v]
  | AxisCall.major ts => ts.map fun t => t.value
  | AxisCall.minor ts => ts.map fun t => t.value
  | AxisCall.tick ts => ts.map fun t => t.value

/-- The ticks that a call appends to the tick list, in order, with the
strength the call gives them. -/
def AxisCall.ticks : AxisCall → List Tick
  | AxisCall.autoValue _ => []
  | AxisCall.major ts => ts.map fun t => { t with strength := Tick.Strength.major }
  | AxisCall.minor ts => ts.map fun t => { t with strength := Tick.Strength.minor }
  | AxisCall.tick ts => ts.map fun t => { t with strength := Tick.Strength.tick }

/-- Whether the call is a manual tick registration (major, minor or tick, with
or without tick arguments). -/
def AxisCall.isTick : AxisCall → Bool
  | AxisCall.autoValue _ => false
  | _ => true

/-! ## Tick ranges -/

/-- The loop `for (T t = start; t <= end; t += step) body(t)` of the range
members, at `T = int` taken as an unbounded integer.  The fuel bounds the
number of tests of the loop condition; the result is `none` when it runs out,
as it does for every fuel when `step` is 0. -/
def Axis.rangeUp (body : Axis → Int → Axis) : Nat → Int → Int → Int → Axis → Option Axis
  | 0, _, _, _, _ => none
  | fuel + 1, t, end_, step, a =>
    if t ≤ end_ then Axis.rangeUp body fuel (t + step) end_ step (body a t) else some a

/-- The loop `for (T t = end; t >= start; t -= step) body(t)` of the range
members, entered with `t = end`. -/
def Axis.rangeDown (body : Axis → Int → Axis) : Nat → Int → Int → Int → Axis → Option Axis
  | 0, _, _, _, _ => none
  | fuel + 1, t, start, step, a =>
    if t ≥ start then Axis.rangeDown body fuel (t - step) start step (body a t) else some a

/-- The body `useLabels ? major(t) : major({double(t), ""})`. -/
def Axis.majorAt (useLabels : Bool) (a : Axis) (t : Int) : Axis :=
  if useLabels then a.major [Tick.ofInt t] else a.major [{ value := (t : ℚ), name := "" }]

/-- The body `useLabels ? minor(t) : minor({double(t), ""})`. -/
def Axis.minorAt (useLabels : Bool) (a : Axis) (t : Int) : Axis :=
  if useLabels then a.minor [Tick.ofInt t] else a.minor [{ value := (t : ℚ), name := "" }]

/-- The body `useLabels ? tick(t) : tick({double(t), ""})`. -/
def Axis.tickAt (useLabels : Bool) (a : Axis) (t : Int) : Axis :=
  if useLabels then a.tick [Tick.ofInt t] else a.tick [{ value := (t : ℚ), name := "" }]

/-- Member `majorRange(start, end, step, useLabels)` at `T = int`. -/
def Axis.majorRange (fuel : Nat) (a : Axis) (start end_ step : Int) (useLabels : Bool) :
    Option Axis :=
  let step := |step|
  if start ≤ end_ then Axis.rangeUp (Axis.majorAt useLabels) fuel start end_ step a
  else Axis.rangeDown (Axis.majorAt useLabels) fuel end_ start step a

/-- Member `minorRange(start, end, step, useLabels)` at `T = int`. -/
def Axis.minorRange (fuel : Nat) (a : Axis) (start end_ step : Int) (useLabels : Bool) :
    Option Axis :=
  let step := |step|
  if start ≤ end_ then Axis.rangeUp (Axis.minorAt useLabels) fuel start end_ step a
  else Axis.rangeDown (Axis.minorAt useLabels) fuel end_ start step a

/-- Member `tickRange(start, end, step, useLabels)` at `T = int`. -/
def Axis.tickRange (fuel : Nat) (a : Axis) (start end_ step : Int) (useLabels : Bool) :
    Option Axis :=
  let step := |step|
  if start ≤ end_ then Axis.rangeUp (Axis.tickAt useLabels) fuel start end_ step a
  else Axis.rangeDown (Axis.tickAt useLabels) fuel end_ start step a

/-- The tick that the body of a range member registers at `t`:
`Tick(t)` with labels, `Tick(double(t), "")` without. -/
def Axis.rangeTick (useLabels : Bool) (t : Int) : Tick :=
  if useLabels then Tick.ofInt t else { value := (t : ℚ), name := "" }

/-! ## The stylesheet -/

/-- The value of one declaration of the stylesheet: literal text, or numbers
printed by the stream. -/
inductive CssValue where
  /-- Literal text. -/
  | text (s : String)
  /-- A number. -/
  | number (q : Option ℚ)
  /-- A number followed by `px`. -/
  | px (q : ℚ)
  /-- Numbers separated by blanks. -/
  | numbers (qs : List ℚ)
  deriving DecidableEq, Repr

/-- One piece of what `PlotStyle::css` writes: the text of the members `prefix`
and `suffix`, or a rule with its selectors and declarations. -/
inductive Css where
  /-- Literal text. -/
  | text (s : String)
  /-- A rule. -/
  | rule (selectors : List String) (declarations : List (String × CssValue))
  deriving DecidableEq, Repr

/-- The selectors of a piece of the stylesheet. -/
def Css.selectors : Css → List String
  | Css.text _ => []
  | Css.rule selectors _ => selectors

/-- The fixed block of `PlotStyle::css`. -/
def PlotStyle.cssFixed (style : PlotStyle) : List Css :=
  [ Css.rule [".svg-plot"] [("stroke-linecap", CssValue.text "butt")],
    Css.rule [".svg-plot-bg"] [("fill", CssValue.text "none"), ("stroke", CssValue.text "none")],
    Css.rule [".svg-plot-axis"]
      [("stroke", CssValue.text "none"), ("fill", CssValue.text "rgba(255,255,255,0.85)")],
    Css.rule [".svg-plot-line"]
      [("stroke", CssValue.text "blue"), ("fill", CssValue.text "none"),
       ("stroke-width", CssValue.px style.lineWidth),
       ("stroke-linejoin", CssValue.text "round")],
    Css.rule [".svg-plot-fill"]
      [("stroke", CssValue.text "none"), ("opacity", CssValue.number (some style.fillOpacity))],
    Css.rule [".svg-plot-major"]
      [("stroke", CssValue.text "#000"), ("stroke-width", CssValue.text "1px"),
       ("stroke-linecap", CssValue.text "square"), ("fill", CssValue.text "none")],
    Css.rule [".svg-plot-minor"]
      [("stroke", CssValue.text "rgba(0,0,0,0.3)"), ("stroke-width", CssValue.text "0.5px"),
       ("stroke-dasharray", CssValue.text "0.5 1.5"),
       ("stroke-linecap", CssValue.text "round"), ("fill", CssValue.text "none")],
    Css.rule [".svg-plot-tick"]
      [("stroke", CssValue.text "#000"), ("fill", CssValue.text "none"),
       ("stroke-width", CssValue.text "1px"), ("stroke-linecap", CssValue.text "butt")],
    Css.rule [".svg-plot-value", ".svg-plot-label"]
      [("font-family", CssValue.text "Arial,sans-serif"), ("fill", CssValue.text "#000"),
       ("stroke", CssValue.text "rgba(255,255,255,0.7)"),
       ("stroke-width", CssValue.text "2px"), ("paint-order", CssValue.text "stroke fill"),
       ("text-anchor", CssValue.text "middle"),
       ("dominant-baseline", CssValue.text "central"),
       ("alignment-baseline", CssValue.text "baseline")],
    Css.rule [".svg-plot-label"] [("font-size", CssValue.px style.labelSize)],
    Css.rule [".svg-plot-value"] [("font-size", CssValue.px style.valueSize)],
    Css.rule [".svg-plot-hatch"]
      [("stroke", CssValue.text "#FFF"), ("stroke-width", CssValue.px style.hatchWidth)] ]

/-- The loop of `PlotStyle::css` over the colours: the stroke rule and the fill
rule of colour `i`. -/
def PlotStyle.cssColours (style : PlotStyle) : List Css :=
  (List.range style.colours.length).flatMap fun i =>
    [ Css.rule [".svg-plot-s" ++ toString i]
        [("stroke", CssValue.text (style.colours.getD i ""))],
      Css.rule [".svg-plot-f" ++ toString i, ".svg-plot-t" ++ toString i]
        [("fill", CssValue.text (style.colours.getD i ""))] ]

/-- The loop of `PlotStyle::css` over the dash patterns. -/
def PlotStyle.cssDashes (style : PlotStyle) : List Css :=
  (List.range style.dashes.length).map fun i =>
    let d := style.dashes.getD i []
    if d.length = 0 then
      Css.rule [".svg-plot-d" ++ toString i] [("stroke-width", CssValue.px (0.9 * style.lineWidth))]
    else
      Css.rule [".svg-plot-d" ++ toString i]
        [("stroke-dasharray", CssValue.numbers (d.map fun v => v * style.lineWidth))]

/-- The first loop of `PlotStyle::css` over the hatches. -/
def PlotStyle.cssHatches (libm : CMath) (style : PlotStyle) : List Css :=
  (List.range style.hatches.length).map fun i =>
    let h := style.hatches.getD i {}
    if h.angles.length ≠ 0 then
      Css.rule [".svg-plot-h" ++ toString i]
        [("mask", CssValue.text ("url(#svg-plot-hatch" ++ toString i ++ ")"))]
    else
      -- Compensate for the fact that it's not hatched
      Css.rule [".svg-plot-h" ++ toString i]
        [("opacity", CssValue.number
          ((fdiv style.hatchWidth style.hatchSpacing).map fun r =>
            style.fillOpacity * libm.sqrt r))]

/-- The second loop of `PlotStyle::css` over the hatches. -/
def PlotStyle.cssHatchPatterns (style : PlotStyle) : List Css :=
  (List.range style.hatches.length).flatMap fun i =>
    let h := style.hatches.getD i {}
    if h.lineScale ≠ 1 then
      [Css.rule ["#svg-plot-hatch" ++ toString i ++ "-pattern"]
        [("stroke-width", CssValue.px (style.hatchWidth * h.lineScale))]]
    else []

/-- Member `css`: what it writes to the stream, piece by piece. -/
def PlotStyle.css (libm : CMath) (style : PlotStyle) : List Css :=
  [Css.text style.cssBefore] ++ style.cssFixed ++ style.cssColours ++ style.cssDashes
    ++ style.cssHatches libm ++ style.cssHatchPatterns ++ [Css.text style.cssAfter]

/-- The selectors of all rules that `css` writes. -/
def PlotStyle.cssSelectors (libm : CMath) (style : PlotStyle) : List String :=
  (style.css libm).flatMap Css.selectors

/-! ## The label members of a line that pick their anchor -/

/-- Member `label(valueX, valueY, name)`: the label centred on the point. -/
def Line2D.labelCentred (self : Line2D) (axisX axisY : Axis) (valueX valueY : ℚ)
    (name : String) : Line2D × Axis × Axis :=
  self.label axisX axisY valueX valueY name 0 (-1)

/-- The loop of `label(xIsh, name, degrees, distance)` from index `i` on, with
the state `(closest, closestError)`. -/
def Line2D.closestLoop (xIsh : ℚ) : List Point2D → Nat → Nat × ℚ → Nat × ℚ
  | [], _, state => state
  | p :: rest, i, (closest, closestError) =>
    if closestError < 0 ∨ closestError > |p.x - xIsh| then
      Line2D.closestLoop xIsh rest (i + 1) (i, |p.x - xIsh|)
    else
      Line2D.closestLoop xIsh rest (i + 1) (closest, closestError)

/-- The index `closest` after the loop of `label(xIsh, name, degrees, distance)`. -/
def Line2D.closest (self : Line2D) (xIsh : ℚ) : Nat :=
  (Line2D.closestLoop xIsh self.points 0 (0, -1)).1

/-- The text that `escape` writes for one character. -/
def escapePiece (c : Char) : List Char :=
  if c = '<' then ['&', 'l', 't', ';']
  else if c = '&' then ['&', 'a', 'm', 'p', ';']
  else if c = Char.ofNat 34 then ['&', 'q', 'u', 'o', 't', ';']
  else [c]

/-- Every ampersand of the text begins one of the three entities that `escape`
writes: it is followed by `lt;`, by `amp;` or by `quot;`. -/
def entitiesOk : List Char → Bool
  | [] => true
  | c :: rest =>
    if c = '&' then
      (decide (rest.take 3 = ['l', 't', ';']) || decide (rest.take 4 = ['a', 'm', 'p', ';'])
        || decide (rest.take 5 = ['q', 'u', 'o', 't', ';'])) && entitiesOk rest
    else entitiesOk rest

/-- Decoding of the three entities: each of them is replaced by the character
it stands for, every other character is kept. -/
def decodeEntities : List Char → List Char
  | '&' :: 'l' :: 't' :: ';' :: r => '<' :: decodeEntities r
  | '&' :: 'a' :: 'm' :: 'p' :: ';' :: r => '&' :: decodeEntities r
  | '&' :: 'q' :: 'u' :: 'o' :: 't' :: ';' :: r => Char.ofNat 34 :: decodeEntities r
  | c :: rest => c :: decodeEntities rest
  | [] => []

/-! ## Boxes inside boxes -/

/-- The box `outer` reaches at least as far as the box `inner` on each of the
four sides. -/
def Bounds.Contains (outer inner : Bounds) : Prop :=
  outer.left ≤ inner.left ∧ inner.right ≤ outer.right ∧
  outer.top ≤ inner.top ∧ inner.bottom ≤ outer.bottom

/-- The axis rectangle of a plot expanded by the tick lengths: the box that
`Plot2D::layout` gives the plot before it folds the boxes of the children. -/
def Plot2D.axisBox (style : PlotStyle) (x y : Axis) : Bounds :=
  Bounds.init (x.drawMin - style.tickH) (x.drawMax + style.tickH)
    (y.drawMin - style.tickV) (y.drawMax + style.tickV)

/-! ## The parts of the data layer of a plot -/

/-- The piece of markup is a `line` element. -/
def Svg.IsLine (e : Svg) : Prop :=
  ∃ cls x1 x2 y1 y2, e = Svg.line cls x1 x2 y1 y2

/-- The piece of markup is a `path` element. -/
def Svg.IsPath (e : Svg) : Prop :=
  ∃ cls d, e = Svg.path cls d

/-- The gridlines of a plot: what the two loops of `Plot2D::writeData` over the
ticks append to a stream. -/
def Plot2D.gridLines (style : PlotStyle) (self : Plot2D) : List Svg :=
  (self.y.ticks.foldl (fun acc t => Plot2D.gridLineY self.x self.y t acc)
    (self.x.ticks.foldl (fun acc t => Plot2D.gridLineX style self.x self.y t acc) {})).svg

/-- The data output of the children of a plot: what the call
`SvgDrawable::writeData(o, style)` in `Plot2D::writeData` appends to a stream. -/
def Plot2D.childrenData (style : PlotStyle) (self : Plot2D) : List Svg :=
  (SvgDrawable.writeData (PlotChild.writeData style self.x self.y) self.toSvgDrawable {}).svg

/-! ## Writing a plot that a figure owns -/

/-- A call `write(o, style)` through the reference that `Figure::plot` returned
for the plot at position `i` among the children of the figure: the plot is a
file drawable of its own, and what its write does to it stays in the figure.
With no plot at position `i` there is no such reference and nothing happens. -/
def Figure.writePlot (libm : CMath) (rand : Nat → Nat) (style : PlotStyle) (self : Figure)
    (i : Nat) (o : Out) : Except Fault (Figure × Out) :=
  match self.children.get? i with
  | some plot =>
    match Plot2D.write libm rand style plot o with
    | Except.error e => Except.error e
    | Except.ok (plot1, o1) =>
      Except.ok ({ self with
        toSvgDrawable := { self.toSvgDrawable with children := self.children.set i plot1 } }, o1)
  | none => Except.ok (self, o)

/-! ## Ticks and what a plot draws for them -/

/-- The test `t.name.size()` of the loops over the ticks: the tick has a name. -/
def Tick.hasName (t : Tick) : Bool :=
  decide (t.name.length ≠ 0)

/-- The test `t.strength != Tick::Strength::tick` of the loops of
`Plot2D::writeData`: the tick is major or minor. -/
def Tick.hasGridLine (t : Tick) : Bool :=
  decide (t.strength ≠ Tick.Strength.tick)

/-- The child is a text label of class `svg-plot-value`, the class that
`Plot2D::layout` gives to the labels it makes for the ticks. -/
def PlotChild.isValueLabel : PlotChild → Bool
  | PlotChild.line _ => false
  | PlotChild.label t => decide (t.cssClass = "svg-plot-value")

/-- The child `c` is the value label that the loop of `Plot2D::layout` over the
x ticks makes for the tick `t`: centred below the plot at the mapped value. -/
def Plot2D.IsLabelOfTickX (x : Axis) (screenY : ℚ) (t : Tick) (c : PlotChild) : Prop :=
  ∃ screenX, x.map t.value = some screenX ∧
    c = PlotChild.label
      (TextLabel.init { x := screenX, y := screenY } 0 t.name "svg-plot-value" false true)

/-- The child `c` is the value label that the loop of `Plot2D::layout` over the
y ticks makes for the tick `t`: right-aligned left of the plot at the mapped
value. -/
def Plot2D.IsLabelOfTickY (y : Axis) (screenX : ℚ) (t : Tick) (c : PlotChild) : Prop :=
  ∃ screenY, y.map t.value = some screenY ∧
    c = PlotChild.label
      (TextLabel.init { x := screenX, y := screenY } (-1) t.name "svg-plot-value" false true)

/-- The tick marks of a plot: what the two loops of `Plot2D::writeLabel` over
the ticks append to a stream. -/
def Plot2D.tickMarks (style : PlotStyle) (self : Plot2D) : List Svg :=
  (self.y.ticks.foldl (fun acc t => Plot2D.tickMarkY style self.x self.y t acc)
    (self.x.ticks.foldl (fun acc t => Plot2D.tickMarkX style self.x self.y t acc) {})).svg

/-- The label output of the children of a plot: what the call
`SvgDrawable::writeLabel(o, style)` in `Plot2D::writeLabel` appends to a stream. -/
def Plot2D.childrenLabels (style : PlotStyle) (self : Plot2D) : List Svg :=
  (SvgDrawable.writeLabel (PlotChild.writeLabel style) self.toSvgDrawable {}).svg

/-! ## Building a plot through its public members -/

/-- The accumulator is live and brackets the value `V`. -/
def Axis.Brackets (a : Axis) (V : ℚ) : Prop :=
  a.autoScale = true ∧ a.hasAutoValue = true ∧ a.autoMin ≤ V ∧ V ≤ a.autoMax

/-- One call on a plot whose axes are left to range themselves: a new line or
fill, a call through the reference to the line at position `i` among the
children, or a call that feeds values or ticks to one of the two axes. -/
inductive PlotOp where
  | line
  | lineWith (styleIndex : Int)
  | fill
  | fillWith (styleIndex : Int)
  | add (i : Nat) (x y : ℚ)
  | label (i : Nat) (valueX valueY : ℚ) (name : String) (degrees distance : ℚ)
  | drawLine (i : Nat) (draw : Bool)
  | drawFill (i : Nat) (draw : Bool)
  | fillToX (i : Nat) (x : ℚ)
  | fillToY (i : Nat) (y : ℚ)
  | onX (c : AxisCall)
  | onY (c : AxisCall)

/-- The effect of one such call on the plot. -/
def Plot2D.apply (self : Plot2D) : PlotOp → Plot2D
  | PlotOp.line => self.line
  | PlotOp.lineWith styleIndex => self.lineWith styleIndex
  | PlotOp.fill => self.fill
  | PlotOp.fillWith styleIndex => self.fillWith styleIndex
  | PlotOp.add i x y => self.onLine i (fun l axisX axisY => l.add axisX axisY x y)
  | PlotOp.label i valueX valueY name degrees distance =>
    self.onLine i (fun l axisX axisY => l.label axisX axisY valueX valueY name degrees distance)
  | PlotOp.drawLine i draw => self.onLine i (fun l axisX axisY => (l.drawLine draw, axisX, axisY))
  | PlotOp.drawFill i draw => self.onLine i (fun l axisX axisY => (l.drawFill draw, axisX, axisY))
  | PlotOp.fillToX i x => self.onLine i (fun l axisX axisY => (l.fillToX x, axisX, axisY))
  | PlotOp.fillToY i y => self.onLine i (fun l axisX axisY => (l.fillToY y, axisX, axisY))
  | PlotOp.onX c => { self with x := self.x.call c }
  | PlotOp.onY c => { self with y := self.y.call c }

/-- The plot made by `Plot2D(width, height)` after a sequence of such calls. -/
def Plot2D.build (width height : ℚ) (ops : List PlotOp) : Plot2D :=
  ops.foldl Plot2D.apply (Plot2D.init width height)

/-- Both accumulators of the plot are live and bracket every data point of
every line of the plot. -/
def Plot2D.Covered (p : Plot2D) : Prop :=
  p.x.autoScale = true ∧ p.y.autoScale = true ∧
  ∀ l, PlotChild.line l ∈ p.children → ∀ pt ∈ l.points,
    p.x.Brackets pt.x ∧ p.y.Brackets pt.y

/-! ## The axis of the older variant (sigplot.h) -/

/-- A labelled point on an axis of the older variant (`Axis1D::Tick`); the
strength is an `int`, 0 unless a registration sets it. -/
structure Axis1D.Tick where
  value : ℚ
  name : String
  strength : Int := 0
  deriving DecidableEq, Repr

/-- The converting constructor `Tick(T value)` of the older variant at
`T = double`. -/
def Axis1D.Tick.ofDouble (value : ℚ) : Axis1D.Tick :=
  { value := value, name := to_string_double value }

/-- The axis of the older variant (`class Axis1D`).  As in `Axis`, the members
`autoMin` and `autoMax` are only read when `hasAutoValue` holds. -/
structure Axis1D where
  unitMap : ℚ → Option ℚ
  autoMin : ℚ
  autoMax : ℚ
  hasAutoValue : Bool
  autoScale : Bool
  autoLabel : Bool
  drawLow : ℚ
  drawHigh : ℚ
  ticks : List Axis1D.Tick

/-- Member `drawMin` of `Axis1D`. -/
def Axis1D.drawMin (a : Axis1D) : ℚ := std_min a.drawLow a.drawHigh

/-- Member `drawMax` of `Axis1D`. -/
def Axis1D.drawMax (a : Axis1D) : ℚ := std_max a.drawLow a.drawHigh

/-- Member `drawSize` of `Axis1D`. -/
def Axis1D.drawSize (a : Axis1D) : ℚ := |a.drawHigh - a.drawLow|

/-- Member `autoValue` of `Axis1D`. -/
def Axis1D.autoValue (a : Axis1D) (v : ℚ) : Axis1D :=
  if !a.autoScale then a
  else if !a.hasAutoValue then
    { a with autoMin := v, autoMax := v, hasAutoValue := true }
  else
    { a with autoMin := std_min a.autoMin v, autoMax := std_max a.autoMax v }

/-- Member `linear(low, high)` of `Axis1D`. -/
def Axis1D.linear (a : Axis1D) (low high : ℚ) : Axis1D :=
  { a with autoScale := false, unitMap := fun v => fdiv (v - low) (high - low) }

/-- Member `map` of `Axis1D`. -/
def Axis1D.map (a : Axis1D) (v : ℚ) : Option ℚ :=
  (a.unitMap v).map fun unit => a.drawLow + unit * (a.drawHigh - a.drawLow)

/-- Constructor `Axis1D(drawLow, drawHigh)`. -/
def Axis1D.init (drawLow drawHigh : ℚ) : Axis1D :=
  let a : Axis1D :=
    { unitMap := fun _ => none, autoMin := 0, autoMax := 0, hasAutoValue := false,
      autoScale := false, autoLabel := false,
      drawLow := drawLow, drawHigh := drawHigh, ticks := [] }
  { a.linear 0 1 with autoScale := true, autoLabel := true }

/-- Member `major(tick, args...)` of `Axis1D`, the argument pack as a list. -/
def Axis1D.major (a : Axis1D) : List Axis1D.Tick → Axis1D
  | [] => { a with autoLabel := false }
  | tick :: args =>
    let a1 := a.autoValue tick.value
    Axis1D.major { a1 with ticks := a1.ticks ++ [{ tick with strength := 2 }] } args

/-- Member `minor(tick, args...)` of `Axis1D`, the argument pack as a list. -/
def Axis1D.minor (a : Axis1D) : List Axis1D.Tick → Axis1D
  | [] => { a with autoLabel := false }
  | tick :: args =>
    let a1 := a.autoValue tick.value
    Axis1D.minor { a1 with ticks := a1.ticks ++ [{ tick with strength := 1 }] } args

/-- Member `tick(t, args...)` of `Axis1D`, the argument pack as a list. -/
def Axis1D.tick (a : Axis1D) : List Axis1D.Tick → Axis1D
  | [] => { a with autoLabel := false }
  | t :: args =>
    let a1 := a.autoValue t.value
    Axis1D.tick { a1 with ticks := a1.ticks ++ [{ t with strength := 0 }] } args

/-- Member `autoSetup` of `Axis1D`. -/
def Axis1D.autoSetup (a : Axis1D) : Axis1D :=
  if a.hasAutoValue then
    let a1 := if a.autoScale then a.linear a.autoMin a.autoMax else a
    if a1.autoLabel then
      a1.minor [Axis1D.Tick.ofDouble a1.autoMin, Axis1D.Tick.ofDouble a1.autoMax]
    else a1
  else a

/-! ## Calls that both axis classes have -/

/-- One call of a member function that `Axis` and `Axis1D` share.  A tick
argument is given by its value and name, the two things that the constructors
of both tick types take. -/
inductive AxisOp where
  | autoValue (v : ℚ)
  | linear (low high : ℚ)
  | major (ticks : List (ℚ × String))
  | minor (ticks : List (ℚ × String))
  | tick (ticks : List (ℚ × String))
  | autoSetup

/-- The tick `Tick(value, name)` of plot.h. -/
def Tick.ofPair (p : ℚ × String) : Tick :=
  { value := p.1, name := p.2 }

/-- The tick `Tick(value, name)` of sigplot.h. -/
def Axis1D.Tick.ofPair (p : ℚ × String) : Axis1D.Tick :=
  { value := p.1, name := p.2 }

/-- The effect of a shared call on an `Axis`. -/
def Axis.step (a : Axis) : AxisOp → Axis
  | AxisOp.autoValue v => a.autoValue v
  | AxisOp.linear low high => a.linear low high
  | AxisOp.major ts => a.major (ts.map Tick.ofPair)
  | AxisOp.minor ts => a.minor (ts.map Tick.ofPair)
  | AxisOp.tick ts => a.tick (ts.map Tick.ofPair)
  | AxisOp.autoSetup => a.autoSetup

/-- The effect of a shared call on an `Axis1D`. -/
def Axis1D.step (a : Axis1D) : AxisOp → Axis1D
  | AxisOp.autoValue v => a.autoValue v
  | AxisOp.linear low high => a.linear low high
  | AxisOp.major ts => a.major (ts.map Axis1D.Tick.ofPair)
  | AxisOp.minor ts => a.minor (ts.map Axis1D.Tick.ofPair)
  | AxisOp.tick ts => a.tick (ts.map Axis1D.Tick.ofPair)
  | AxisOp.autoSetup => a.autoSetup

/-- The `int` strength of sigplot.h that stands for a strength of plot.h. -/
def Tick.Strength.code : Tick.Strength → Int
  | Tick.Strength.major => 2
  | Tick.Strength.minor => 1
  | Tick.Strength.tick => 0

/-- The tick of sigplot.h that stands for a tick of plot.h. -/
def Tick.toAxis1D (t : Tick) : Axis1D.Tick :=
  { value := t.value, name := t.name, strength := t.strength.code }

/-- The state of an `Axis1D` that stands for a state of an `Axis`: the same
map, accumulator, flags and screen endpoints, and the corresponding ticks in
the same order.  The text label of an `Axis` has no counterpart. -/
def Axis.toAxis1D (a : Axis) : Axis1D :=
  { unitMap := a.unitMap, autoMin := a.autoMin, autoMax := a.autoMax,
    hasAutoValue := a.hasAutoValue, autoScale := a.autoScale, autoLabel := a.autoLabel,
    drawLow := a.drawLow, drawHigh := a.drawHigh, ticks := a.ticks.map Tick.toAxis1D }

/-! ## The arithmetic of double as a parameter

In the definitions above a `double` is an exact rational number and a layout
that meets a division by zero stops.  The source has no such stop: a division
by zero yields an infinity or a NaN and the run goes on with it.  The
definitions below embed the same source a second time, over an arbitrary type
`D` standing for `double` with the operations the source applies to it
(`Fp.DoubleOps`).  Nothing is assumed about the operations, so what is proved
here holds for every arithmetic, rounding, infinities and NaN included;
`F64` further down is IEEE 754 binary64.  Names are those of the source with
`Fp.` in front. -/

section FpDefinitions

/-- The type `double` and the operations the source applies to its values:
the four arithmetic operators and the unary minus, the conversion of a numeric
literal or of an `int`, `std::abs`, the comparisons `<` and `==` (the others
are written with these two: `a > b` is `b < a`, `a != b` is `!(a == b)`),
`std::to_string` and the conversion to `int`. -/
class Fp.DoubleOps (D : Type) extends Add D, Sub D, Mul D, Div D, Neg D where
  /-- The double that a numeric literal of the source, or an `int`, converts to. -/
  lit : ℚ → D
  /-- The function std::abs. -/
  fabs : D → D
  /-- The comparison `a < b`. -/
  flt : D → D → Bool
  /-- The comparison `a == b`. -/
  feq : D → D → Bool
  /-- The function std::to_string at a double. -/
  to_string : D → String
  /-- The conversion of a double to `int`. -/
  toInt : D → Int

open Fp.DoubleOps

variable {D : Type} [Fp.DoubleOps D]

/-- The function std::min of the C++ library: `(b < a) ? b : a`. -/
def Fp.std_min (a b : D) : D := if flt b a then b else a

/-- The function std::max of the C++ library: `(a < b) ? b : a`. -/
def Fp.std_max (a b : D) : D := if flt a b then b else a

/-- The functions of the C mathematics library that the source calls on
doubles and that are not operators of the language. -/
structure Fp.CMath (D : Type) where
  cos : D → D
  sin : D → D
  sqrt : D → D
  ceil : D → D

/-! ### Tick and Axis -/

/-- A labelled point on an axis. -/
structure Fp.Tick (D : Type) where
  value : D
  name : String
  strength : Tick.Strength := Tick.Strength.tick

/-- The converting constructor `Tick(T value)` at `T = double`. -/
def Fp.Tick.ofDouble (value : D) : Fp.Tick D :=
  { value := value, name := to_string value }

/-- A map from values to screen-space (`class Axis`).  The members `autoMin`
and `autoMax` are uninitialised in the source until the first value is
observed; they are only read when `hasAutoValue` holds. -/
structure Fp.Axis (D : Type) where
  unitMap : D → D
  autoMin : D
  autoMax : D
  hasAutoValue : Bool
  autoScale : Bool
  autoLabel : Bool
  label : String
  drawLow : D
  drawHigh : D
  ticks : List (Fp.Tick D)

/-- Member `drawMin`. -/
def Fp.Axis.drawMin (a : Fp.Axis D) : D := Fp.std_min a.drawLow a.drawHigh

/-- Member `drawMax`. -/
def Fp.Axis.drawMax (a : Fp.Axis D) : D := Fp.std_max a.drawLow a.drawHigh

/-- Member `drawSize`. -/
def Fp.Axis.drawSize (a : Fp.Axis D) : D := fabs (a.drawHigh - a.drawLow)

/-- Member `autoValue`: feed one value to the running minimum and maximum. -/
def Fp.Axis.autoValue (a : Fp.Axis D) (v : D) : Fp.Axis D :=
  if !a.autoScale then a
  else if !a.hasAutoValue then
    { a with autoMin := v, autoMax := v, hasAutoValue := true }
  else
    { a with autoMin := Fp.std_min a.autoMin v, autoMax := Fp.std_max a.autoMax v }

/-- Member `range(valueToUnit)`: fix the value-to-unit map. -/
def Fp.Axis.range (a : Fp.Axis D) (valueToUnit : D → D) : Fp.Axis D :=
  { a with autoScale := false, unitMap := valueToUnit }

/-- Member `linear(low, high)`. -/
def Fp.Axis.linear (a : Fp.Axis D) (low high : D) : Fp.Axis D :=
  a.range (fun v => (v - low) / (high - low))

/-- Member `map`: the unit value interpolated between the screen endpoints. -/
def Fp.Axis.map (a : Fp.Axis D) (v : D) : D :=
  let unit := a.unitMap v
  a.drawLow + unit * (a.drawHigh - a.drawLow)

/-- Constructor `Axis(drawLow, drawHigh)`: `linear(0, 1)`, then both automatic
behaviours switched on. -/
def Fp.Axis.init (drawLow drawHigh : D) : Fp.Axis D :=
  let a : Fp.Axis D :=
    { unitMap := fun v => v, autoMin := lit 0, autoMax := lit 0, hasAutoValue := false,
      autoScale := false, autoLabel := false, label := "",
      drawLow := drawLow, drawHigh := drawHigh, ticks := [] }
  { a.linear (lit 0) (lit 1) with autoScale := true, autoLabel := true }

/-- Member `label(l)` (the setter). -/
def Fp.Axis.setLabel (a : Fp.Axis D) (l : String) : Fp.Axis D :=
  { a with label := l }

/-- Member `major(tick, args...)`, the argument pack as a list; the empty pack
is `major()`. -/
def Fp.Axis.major (a : Fp.Axis D) : List (Fp.Tick D) → Fp.Axis D
  | [] => { a with autoLabel := false }
  | tick :: args =>
    let a1 := a.autoValue tick.value
    Fp.Axis.major { a1 with ticks := a1.ticks ++ [{ tick with strength := Tick.Strength.major }] }
      args

/-- Member `minor(tick, args...)`, the argument pack as a list; the empty pack
is `minor()`. -/
def Fp.Axis.minor (a : Fp.Axis D) : List (Fp.Tick D) → Fp.Axis D
  | [] => { a with autoLabel := false }
  | tick :: args =>
    let a1 := a.autoValue tick.value
    Fp.Axis.minor { a1 with ticks := a1.ticks ++ [{ tick with strength := Tick.Strength.minor }] }
      args

/-- Member `tick(t, args...)`, the argument pack as a list; the empty pack is
`tick()`. -/
def Fp.Axis.tick (a : Fp.Axis D) : List (Fp.Tick D) → Fp.Axis D
  | [] => { a with autoLabel := false }
  | t :: args =>
    let a1 := a.autoValue t.value
    Fp.Axis.tick { a1 with ticks := a1.ticks ++ [{ t with strength := Tick.Strength.tick }] } args

/-- Member `autoSetup`. -/
def Fp.Axis.autoSetup (a : Fp.Axis D) : Fp.Axis D :=
  if a.hasAutoValue then
    let a1 := if a.autoScale then a.linear a.autoMin a.autoMax else a
    if a1.autoLabel then
      a1.minor [Fp.Tick.ofDouble a1.autoMin, Fp.Tick.ofDouble a1.autoMax]
    else a1
  else a

/-- The sequence of calls `autoValue(v)` for the values of a list, first value
first. -/
def Fp.Axis.observe (a : Fp.Axis D) (vs : List D) : Fp.Axis D :=
  vs.foldl Fp.Axis.autoValue a

/-! ### Text-width estimate -/

/-- An entry `w[i]*0.01` of one of the static width tables. -/
def Fp.tableWidth (w : List Nat) (i : Int) : D :=
  lit (w.getD i.toNat 0 : ℚ) * lit 0.01

/-- The function estimateCharWidth. -/
def Fp.estimateCharWidth (c : Int) : D :=
  -- measured experimentally, covering basic Latin (no accents) and Greek
  if c ≥ 32 ∧ c < 127 then
    Fp.tableWidth [31, 36, 45, 70, 61, 95, 77, 29, 39, 39, 40, 72, 31, 39, 31, 44, 61, 54, 58, 59,
      59, 58, 59, 58, 59, 59, 38, 38, 74, 100, 74, 54, 97, 69, 66, 71, 76, 64, 62, 76, 77, 41,
      53, 69, 57, 89, 76, 78, 63, 80, 68, 64, 62, 75, 67, 96, 69, 64, 64, 41, 46, 41, 68, 59,
      54, 57, 59, 52, 59, 56, 38, 58, 58, 29, 33, 53, 30, 87, 58, 57, 59, 59, 43, 49, 38, 58,
      53, 77, 54, 53, 50, 47, 46, 47, 69] (c - 32)
  else if c = 168 then lit 0.53
  else if c = 183 then lit 0.33
  else if c = 697 then lit 0.26
  else if c ≥ 880 ∧ c < 884 then Fp.tableWidth [42, 31, 64, 52] (c - 880)
  else if c ≥ 885 ∧ c < 888 then Fp.tableWidth [40, 66, 48] (c - 885)
  else if c ≥ 890 ∧ c < 894 then Fp.tableWidth [33, 52, 52, 52] (c - 890)
  else if c = 895 then lit 0.33
  else if c = 900 then lit 0.52
  else if c ≥ 913 ∧ c < 930 then
    Fp.tableWidth [75, 71, 63, 73, 71, 71, 82, 82, 45, 77, 75, 94, 81, 70, 83, 85, 67] (c - 913)
  else if c ≥ 931 ∧ c < 938 then Fp.tableWidth [69, 65, 70, 82, 80, 85, 84] (c - 931)
  else if c ≥ 945 ∧ c < 970 then
    Fp.tableWidth [61, 58, 57, 57, 49, 50, 58, 60, 29, 57, 55, 59, 53, 51, 57, 63, 59, 50, 59, 48,
      58, 72, 56, 76, 76] (c - 945)
  else if c ≥ 975 ∧ c < 979 then Fp.tableWidth [47, 66, 74, 66] (c - 975)
  else if c ≥ 981 ∧ c < 1024 then
    Fp.tableWidth [80, 86, 56, 79, 63, 68, 67, 57, 53, 60, 53, 75, 85, 86, 85, 69, 56, 70, 53, 69,
      69, 61, 61, 75, 56, 43, 37, 59, 63, 46, 29, 79, 55, 55, 62, 63, 71, 87, 75, 75, 75, 75,
      75] (c - 981)
  else if c = 65291 then lit 1
  else lit 0.85

/-- The function estimateUtf8Width: the loop adds estimateCharWidth of every
`char` of the string up to the terminating zero. -/
def Fp.estimateUtf8Width (utf8Str : String) : D :=
  ((utf8Chars utf8Str).takeWhile (fun c => c != 0)).foldl
    (fun total c => total + Fp.estimateCharWidth c) (lit 0)

/-! ### PlotStyle -/

/-- A hatch pattern (`PlotStyle::Hatch`). -/
structure Fp.PlotStyle.Hatch (D : Type) [Fp.DoubleOps D] where
  angles : List D := []
  lineScale : D := lit 1
  spaceScale : D := lit 1

/-- Plotting style, used for both layout and SVG rendering.  The members
`prefix` and `suffix` of the source are `cssBefore` and `cssAfter` here. -/
structure Fp.PlotStyle (D : Type) [Fp.DoubleOps D] where
  colours : List String := ["#0073E6", "#CC0000", "#00B300", "#806600", "#E69900", "#CC00CC"]
  dashes : List (List D) :=
    [[], [lit 1.2, lit 1.2], [lit 2.8, lit 1.6], [lit 5, lit 4],
     [lit 4, lit 1, lit 1, lit 1, lit 1, lit 1], [lit 10, lit 3], [lit 4, lit 2, lit 1, lit 2]]
  hatches : List (Fp.PlotStyle.Hatch D) :=
    [{}, { angles := [-lit 50] },
     { angles := [lit 30], lineScale := lit 0.9, spaceScale := lit 0.8 },
     { angles := [lit 8, lit 93], lineScale := lit 0.7, spaceScale := lit 1 }]
  padding : D := lit 10
  labelSize : D := lit 12
  valueSize : D := lit 10
  lineWidth : D := lit 1.5
  fillOpacity : D := lit 0.25
  hatchWidth : D := lit 1
  hatchSpacing : D := lit 3
  textAspect : D := lit 1
  tickH : D := lit 4
  tickV : D := lit 5
  textPadding : D := lit 5
  cssBefore : String := ""
  cssAfter : String := ""

/-- Member `strokeClass`. -/
def Fp.PlotStyle.strokeClass (style : Fp.PlotStyle D) (styleIndex : Int) : String :=
  if styleIndex < 0 ∨ style.colours.length = 0 then ""
  else "svg-plot-s" ++ to_string_int (styleIndex % (style.colours.length : Int))

/-- Member `fillClass`. -/
def Fp.PlotStyle.fillClass (style : Fp.PlotStyle D) (styleIndex : Int) : String :=
  if styleIndex < 0 ∨ style.colours.length = 0 then ""
  else "svg-plot-f" ++ to_string_int (styleIndex % (style.colours.length : Int))

/-- Member `dashClass`. -/
def Fp.PlotStyle.dashClass (style : Fp.PlotStyle D) (styleIndex : Int) : String :=
  if styleIndex < 0 ∨ style.dashes.length = 0 then ""
  else "svg-plot-d" ++ to_string_int (styleIndex % (style.dashes.length : Int))

/-- Member `hatchClass`. -/
def Fp.PlotStyle.hatchClass (style : Fp.PlotStyle D) (styleIndex : Int) : String :=
  if styleIndex < 0 ∨ style.hatches.length = 0 then ""
  else "svg-plot-h" ++ to_string_int (styleIndex % (style.hatches.length : Int))

/-! ### The output stream -/

/-- A point of the plane (`struct Point2D`). -/
structure Fp.Point2D (D : Type) where
  x : D
  y : D

/-- One piece of markup written to the stream, numbers kept as numbers.  A
coordinate of a path is `none` where the source reads `points.back()` or
`points[0]` of an empty vector, which is undefined behaviour. -/
inductive Fp.Svg (D : Type) [Fp.DoubleOps D] where
  /-- The XML declaration and the document type. -/
  | prolog
  /-- The opening `svg` tag: size in points and the view box. -/
  | svgOpen (width height left top : D)
  /-- A `rect` element. -/
  | rect (cls : String) (x y width height : D)
  /-- A `line` element. -/
  | line (cls : String) (x1 x2 y1 y2 : D)
  /-- A `path` element: its class and the coordinate pairs after the `M`. -/
  | path (cls : String) (d : List (Option D × Option D))
  /-- A `clipPath` element with identifier `clip` followed by the number, holding one rect. -/
  | clipPath (clipId : Nat) (x y width height : D)
  /-- An opening `g` tag, with the text of its `clip-path` attribute if it has one. -/
  | gOpen (clipPathAttr : Option String)
  /-- A closing `g` tag. -/
  | gClose
  /-- A `text` element: class, text-anchor style (empty if none), position,
  the translation of a rotated label if it is vertical, and the content. -/
  | text (cls : String) (textAnchor : String) (x y : D) (rotated : Option (D × D))
      (content : String)
  /-- The opening `defs` tag. -/
  | defsOpen
  /-- The opening `mask` tag of hatch `i`. -/
  | maskOpen (i : Nat)
  /-- One rotated rect of the mask of hatch `i`. -/
  | maskRect (i : Nat) (maxBounds : Int) (angle : D)
  /-- The closing `mask` tag. -/
  | maskClose
  /-- The `pattern` element of hatch `i`. -/
  | pattern (i : Nat) (spacing : D)
  /-- The closing `defs` tag. -/
  | defsClose
  /-- The `style` element: the stylesheet of the given style, whitespace stripped. -/
  | style (css : Fp.PlotStyle D)
  /-- The `script` element. -/
  | script
  /-- The closing `svg` tag. -/
  | svgClose

/-- The state that the writing functions act on: the markup written to the
`std::ostream` so far, and the number of calls of `rand()` made so far. -/
structure Fp.Out (D : Type) [Fp.DoubleOps D] where
  svg : List (Fp.Svg D) := []
  randCalls : Nat := 0

/-- The operator `o << piece`. -/
def Fp.Out.put (o : Fp.Out D) (piece : Fp.Svg D) : Fp.Out D :=
  { o with svg := o.svg ++ [piece] }

/-! ### SvgDrawable -/

/-- The bounding box of a drawable (`SvgDrawable::Bounds`); the default
constructor leaves it unset. -/
structure Fp.Bounds (D : Type) [Fp.DoubleOps D] where
  left : D := lit 0
  right : D := lit 0
  top : D := lit 0
  bottom : D := lit 0
  set : Bool := false

/-- Constructor `Bounds(left, right, top, bottom)`. -/
def Fp.Bounds.init (left right top bottom : D) : Fp.Bounds D :=
  { left := left, right := right, top := top, bottom := bottom, set := true }

/-- Member `width`. -/
def Fp.Bounds.width (b : Fp.Bounds D) : D := b.right - b.left

/-- Member `height`. -/
def Fp.Bounds.height (b : Fp.Bounds D) : D := b.bottom - b.top

/-- The data members of `SvgDrawable`, for a node whose children have type `χ`. -/
structure Fp.SvgDrawable (D : Type) [Fp.DoubleOps D] (χ : Type) where
  children : List χ := []
  hasLayout : Bool := false
  bounds : Fp.Bounds D := {}

/-- Member `addChild`. -/
def Fp.SvgDrawable.addChild {χ : Type} (self : Fp.SvgDrawable D χ) (child : χ) :
    Fp.SvgDrawable D χ :=
  { self with children := self.children ++ [child] }

/-- The body of the loop of `SvgDrawable::layout` after the child was laid out:
the child's box `c` is folded into the box `bounds` of the node. -/
def Fp.SvgDrawable.foldBounds (bounds c : Fp.Bounds D) : Fp.Bounds D :=
  if bounds.set then
    if c.set then
      { bounds with
        left := Fp.std_min bounds.left c.left
        top := Fp.std_min bounds.top c.top
        right := Fp.std_max bounds.right c.right
        bottom := Fp.std_max bounds.bottom c.bottom }
    else bounds
  else c

/-- The loop of `SvgDrawable::layout` over the children, in attachment order:
lay the child out (the virtual call `c->layout(style)`), then fold its box.
The only way a layout stops is the assertion of a second layout. -/
def Fp.SvgDrawable.layoutChildren {χ : Type} (childLayout : χ → Except Fault χ)
    (childBounds : χ → Fp.Bounds D) : List χ → Fp.Bounds D → Except Fault (List χ × Fp.Bounds D)
  | [], bounds => Except.ok ([], bounds)
  | c :: rest, bounds =>
    match childLayout c with
    | Except.error e => Except.error e
    | Except.ok c1 =>
      match Fp.SvgDrawable.layoutChildren childLayout childBounds rest
          (Fp.SvgDrawable.foldBounds bounds (childBounds c1)) with
      | Except.error e => Except.error e
      | Except.ok (rest1, bounds1) => Except.ok (c1 :: rest1, bounds1)

/-- Member `SvgDrawable::layout` (the base implementation). -/
def Fp.SvgDrawable.layout {χ : Type} (childLayout : χ → Except Fault χ)
    (childBounds : χ → Fp.Bounds D) (self : Fp.SvgDrawable D χ) :
    Except Fault (Fp.SvgDrawable D χ) :=
  if self.hasLayout then Except.error Fault.assertion
  else
    match Fp.SvgDrawable.layoutChildren childLayout childBounds self.children self.bounds with
    | Except.error e => Except.error e
    | Except.ok (children, bounds) =>
      Except.ok { children := children, hasLayout := true, bounds := bounds }

/-- The loop `for (int i = children.size() - 1; i >= 0; --i)` of the base
writeData and writeLabel, entered with `n = i + 1` children still to visit:
it calls the virtual function of `children[i]` on the stream, then goes on
with `i - 1`. -/
def Fp.SvgDrawable.writeFrom {χ : Type} (childWrite : χ → Fp.Out D → Fp.Out D)
    (children : List χ) : (n : Nat) → n ≤ children.length → Fp.Out D → Fp.Out D
  | 0, _, o => o
  | i + 1, h, o =>
    Fp.SvgDrawable.writeFrom childWrite children i (Nat.le_of_succ_le h)
      (childWrite (children.get ⟨i, h⟩) o)

/-- Member `SvgDrawable::writeData` (the base implementation); `childWriteData`
is the virtual `writeData` of the children. -/
def Fp.SvgDrawable.writeData {χ : Type} (childWriteData : χ → Fp.Out D → Fp.Out D)
    (self : Fp.SvgDrawable D χ) (o : Fp.Out D) : Fp.Out D :=
  Fp.SvgDrawable.writeFrom childWriteData self.children self.children.length (Nat.le_refl _) o

/-- Member `SvgDrawable::writeLabel` (the base implementation); `childWriteLabel`
is the virtual `writeLabel` of the children. -/
def Fp.SvgDrawable.writeLabel {χ : Type} (childWriteLabel : χ → Fp.Out D → Fp.Out D)
    (self : Fp.SvgDrawable D χ) (o : Fp.Out D) : Fp.Out D :=
  Fp.SvgDrawable.writeFrom childWriteLabel self.children self.children.length (Nat.le_refl _) o

/-! ### TextLabel -/

/-- A text label (`class TextLabel`).  No member function of the library
attaches a child to a label, so its children have the empty type. -/
structure Fp.TextLabel (D : Type) [Fp.DoubleOps D] extends Fp.SvgDrawable D Empty where
  textWidth : D := lit 0
  drawAt : Fp.Point2D D
  /-- Alignment: 0=centre, 1=left, -1=right -/
  alignment : D := lit 0
  text : String
  cssClass : String := "svg-plot-label"
  vertical : Bool := false
  isValue : Bool := false

/-- Constructor `TextLabel(at, alignment, text, cssClass, vertical, isValue)`. -/
def Fp.TextLabel.init (atPoint : Fp.Point2D D) (alignment : D) (text : String)
    (cssClass : String) (vertical isValue : Bool) : Fp.TextLabel D :=
  { drawAt := atPoint, alignment := alignment, text := text, cssClass := cssClass,
    vertical := vertical, isValue := isValue }

/-- Member `TextLabel::write`. -/
def Fp.TextLabel.write (self : Fp.TextLabel D) (o : Fp.Out D) : Fp.Out D :=
  let tx := self.drawAt.x
  let ty := self.drawAt.y
  let anchor :=
    if flt (lit 0.5) self.alignment then "start"
    else if flt self.alignment (-lit 0.5) then "end" else ""
  let tx :=
    if flt (lit 0.5) self.alignment then tx + self.textWidth * (self.alignment - lit 1)
    else if flt self.alignment (-lit 0.5) then tx + self.textWidth * (self.alignment + lit 1)
    else tx + self.textWidth * self.alignment
  if self.vertical then
    o.put (Fp.Svg.text (SvgDrawable.escape self.cssClass) anchor (lit 0) (lit 0) (some (-ty, tx))
      (SvgDrawable.escape self.text))
  else
    o.put (Fp.Svg.text (SvgDrawable.escape self.cssClass) anchor tx ty none
      (SvgDrawable.escape self.text))

/-- Member `TextLabel::layout`; it does not call the base implementation. -/
def Fp.TextLabel.layout (style : Fp.PlotStyle D) (self : Fp.TextLabel D) : Fp.TextLabel D :=
  let x := self.drawAt.x
  let y := self.drawAt.y
  let fontSize := if self.isValue then style.valueSize else style.labelSize
  -- Assume all text/labels are UTF-8
  let textWidth := Fp.estimateUtf8Width self.text * fontSize * style.textAspect
  if self.vertical then
    { self with
      textWidth := textWidth
      bounds := Fp.Bounds.init (x - fontSize * lit 0.5) (x + fontSize * lit 0.5)
        (y - textWidth * (self.alignment - lit 1) * lit 0.5)
        (y - textWidth * (self.alignment + lit 1) * lit 0.5) }
  else
    { self with
      textWidth := textWidth
      bounds := Fp.Bounds.init (x + textWidth * (self.alignment - lit 1) * lit 0.5)
        (x + textWidth * (self.alignment + lit 1) * lit 0.5)
        (y - fontSize * lit 0.5) (y + fontSize * lit 0.5) }

/-- Member `writeData` of a text label: inherited from the base class. -/
def Fp.TextLabel.writeData (self : Fp.TextLabel D) (o : Fp.Out D) : Fp.Out D :=
  Fp.SvgDrawable.writeData (fun (c : Empty) _ => c.elim) self.toSvgDrawable o

/-- Member `TextLabel::writeLabel`. -/
def Fp.TextLabel.writeLabel (self : Fp.TextLabel D) (o : Fp.Out D) : Fp.Out D :=
  self.write o

/-! ### Line2D and its labels -/

/-- A label attached to a line (`Line2D::LineLabel`).  The references `axisX`
and `axisY` of the source are arguments of the member functions; the member
`at` is `atPoint` here. -/
structure Fp.LineLabel (D : Type) [Fp.DoubleOps D] extends Fp.TextLabel D where
  atPoint : Fp.Point2D D
  name : String
  /-- Direction: 0=right, 1=up, 2=left, 3=down -/
  direction : D
  distance : D
  drawLineFrom : Fp.Point2D D := { x := lit 0, y := lit 0 }
  drawLineTo : Fp.Point2D D := { x := lit 0, y := lit 0 }
  styleIndex : Int

/-- Constructor `LineLabel(axisX, axisY, at, name, direction, distance, styleIndex)`. -/
def Fp.LineLabel.init (atPoint : Fp.Point2D D) (name : String) (direction distance : D)
    (styleIndex : Int) : Fp.LineLabel D :=
  { Fp.TextLabel.init { x := lit 0, y := lit 0 } (lit 0) name "svg-plot-label" false false with
    atPoint := atPoint, name := name, direction := direction, distance := distance,
    styleIndex := styleIndex }

/-- Member `LineLabel::layout`.  It has no way to stop: a NaN or an infinity
coming out of an axis map is carried into the coordinates. -/
def Fp.LineLabel.layout (libm : Fp.CMath D) (style : Fp.PlotStyle D) (axisX axisY : Fp.Axis D)
    (self : Fp.LineLabel D) : Fp.LineLabel D :=
  let sx := axisX.map self.atPoint.x
  let sy := axisY.map self.atPoint.y
  let placed : Fp.LineLabel D :=
    if flt self.distance (lit 0) then
      { self with alignment := lit 0, drawAt := { x := sx, y := sy } }
    else
      let angle := self.direction * lit 3.14159265358979 / lit 180
      let ax := libm.cos angle
      let ay := libm.sin angle
      let px := sx + self.distance * ax
      let py := sy + self.distance * ay
      let fontSize := style.labelSize
      let letterHeight := fontSize * lit 0.8
      let tx := px
      let ty := py - fontSize * lit 0.1 -- Just a vertical alignment tweak
      let space := fontSize * lit 0.25
      let verticalWiggle := fontSize * lit 0.3
      let lineDistance := self.distance - space
      let drawLineTo : Fp.Point2D D :=
        if flt space lineDistance then { x := sx + ax * space, y := sy + ay * space }
        else { x := px, y := py }
      if flt ax (-lit 0.7) then
        { self with
          alignment := -lit 1
          drawLineFrom := { x := px, y := py }
          drawLineTo := drawLineTo
          drawAt := { x := tx - space, y := ty + ay * verticalWiggle } }
      else if flt (lit 0.7) ax then
        { self with
          alignment := lit 1
          drawLineFrom := { x := px, y := py }
          drawLineTo := drawLineTo
          drawAt := { x := tx + space, y := ty + ay * verticalWiggle } }
      else if flt (lit 0) ay then
        { self with
          alignment := ax
          drawLineFrom := { x := px, y := py }
          drawLineTo := drawLineTo
          drawAt := { x := tx + ax * fontSize, y := ty + letterHeight } }
      else
        { self with
          alignment := ax
          drawLineFrom := { x := px, y := py }
          drawLineTo := drawLineTo
          drawAt := { x := tx + ax * fontSize, y := ty - letterHeight } }
  let classed : Fp.LineLabel D :=
    { placed with cssClass := "svg-plot-label " ++ style.fillClass self.styleIndex }
  { classed with toTextLabel := Fp.TextLabel.layout style classed.toTextLabel }

/-- Member `writeData` of a line label: inherited from the base class. -/
def Fp.LineLabel.writeData (self : Fp.LineLabel D) (o : Fp.Out D) : Fp.Out D :=
  self.toTextLabel.writeData o

/-- Member `LineLabel::writeLabel`. -/
def Fp.LineLabel.writeLabel (style : Fp.PlotStyle D) (self : Fp.LineLabel D) (o : Fp.Out D) :
    Fp.Out D :=
  let o1 :=
    if (!feq self.drawLineTo.x self.drawLineFrom.x) || (!feq self.drawLineTo.y self.drawLineFrom.y)
    then
      o.put (Fp.Svg.line ("svg-plot-tick " ++ style.strokeClass self.styleIndex)
        self.drawLineFrom.x self.drawLineTo.x self.drawLineFrom.y self.drawLineTo.y)
    else o
  self.toTextLabel.writeLabel o1

/-- A line on a 2D plot (`class Line2D`).  The references `axisX` and `axisY`
of the source are arguments of the member functions: the axes of the plot that
created the line.  The only children a line receives are its labels. -/
structure Fp.Line2D (D : Type) [Fp.DoubleOps D] extends Fp.SvgDrawable D (Fp.LineLabel D) where
  _drawLine : Bool := true
  _drawFill : Bool := false
  hasFillToX : Bool := false
  hasFillToY : Bool := false
  fillTo : Fp.Point2D D := { x := lit 0, y := lit 0 }
  points : List (Fp.Point2D D) := []
  styleIndex : Int := 0

/-- Constructor `Line2D(axisX, axisY, styleIndex)`. -/
def Fp.Line2D.init (styleIndex : Int) : Fp.Line2D D :=
  { styleIndex := styleIndex }

/-- Member `add`: the new line together with the two axes it refers to. -/
def Fp.Line2D.add (self : Fp.Line2D D) (axisX axisY : Fp.Axis D) (x y : D) :
    Fp.Line2D D × Fp.Axis D × Fp.Axis D :=
  ({ self with points := self.points ++ [{ x := x, y := y }] },
    axisX.autoValue x, axisY.autoValue y)

/-- Member `drawLine`. -/
def Fp.Line2D.drawLine (self : Fp.Line2D D) (draw : Bool) : Fp.Line2D D :=
  { self with _drawLine := draw }

/-- Member `drawFill`. -/
def Fp.Line2D.drawFill (self : Fp.Line2D D) (draw : Bool) : Fp.Line2D D :=
  { self with _drawFill := draw }

/-- Member `fillToX`. -/
def Fp.Line2D.fillToX (self : Fp.Line2D D) (x : D) : Fp.Line2D D :=
  { self with _drawFill := true, hasFillToX := true, hasFillToY := false,
              fillTo := { x := x, y := lit 0 } }

/-- Member `fillToY`. -/
def Fp.Line2D.fillToY (self : Fp.Line2D D) (y : D) : Fp.Line2D D :=
  { self with _drawFill := true, hasFillToX := false, hasFillToY := true,
              fillTo := { x := lit 0, y := y } }

/-- Member `label(valueX, valueY, name, degrees, distance)`. -/
def Fp.Line2D.label (self : Fp.Line2D D) (axisX axisY : Fp.Axis D) (valueX valueY : D)
    (name : String) (degrees distance : D) : Fp.Line2D D × Fp.Axis D × Fp.Axis D :=
  ({ self with
      toSvgDrawable := self.toSvgDrawable.addChild
        (Fp.LineLabel.init { x := valueX, y := valueY } name degrees distance self.styleIndex) },
    axisX.autoValue valueX, axisY.autoValue valueY)

/-- The coordinate pairs `axisX.map(p.x) axisY.map(p.y)` of the data points, in order. -/
def Fp.Line2D.mapped (axisX axisY : Fp.Axis D) (points : List (Fp.Point2D D)) :
    List (Option D × Option D) :=
  points.map fun p => (some (axisX.map p.x), some (axisY.map p.y))

/-- Member `Line2D::writeData`.  Reading `points.back()` or `points[0]` of an
empty vector is undefined behaviour in the source; the coordinate it would give
is recorded as `none`. -/
def Fp.Line2D.writeData (style : Fp.PlotStyle D) (axisX axisY : Fp.Axis D) (self : Fp.Line2D D)
    (o : Fp.Out D) : Fp.Out D :=
  let o1 :=
    if self._drawFill then
      let closing : List (Option D × Option D) :=
        if self.hasFillToX then
          [(some (axisX.map self.fillTo.x), self.points.getLast?.map fun p => axisY.map p.y),
           (some (axisX.map self.fillTo.x), self.points.head?.map fun p => axisY.map p.y)]
        else if self.hasFillToY then
          [(self.points.getLast?.map fun p => axisX.map p.x, some (axisY.map self.fillTo.y)),
           (self.points.head?.map fun p => axisX.map p.x, some (axisY.map self.fillTo.y))]
        else []
      o.put (Fp.Svg.path
        ("svg-plot-fill " ++ style.fillClass self.styleIndex ++ " "
          ++ style.hatchClass self.styleIndex)
        (Fp.Line2D.mapped axisX axisY self.points ++ closing))
    else o
  let o2 :=
    if self._drawLine then
      o1.put (Fp.Svg.path
        ("svg-plot-line " ++ style.strokeClass self.styleIndex ++ " "
          ++ style.dashClass self.styleIndex)
        (Fp.Line2D.mapped axisX axisY self.points))
    else o1
  Fp.SvgDrawable.writeData Fp.LineLabel.writeData self.toSvgDrawable o2

/-- Member `writeLabel` of a line: inherited from the base class. -/
def Fp.Line2D.writeLabel (style : Fp.PlotStyle D) (self : Fp.Line2D D) (o : Fp.Out D) :
    Fp.Out D :=
  Fp.SvgDrawable.writeLabel (Fp.LineLabel.writeLabel style) self.toSvgDrawable o

/-- Member `layout` of a line: inherited from the base class; the virtual
call on a child is `LineLabel::layout`. -/
def Fp.Line2D.layout (libm : Fp.CMath D) (style : Fp.PlotStyle D) (axisX axisY : Fp.Axis D)
    (self : Fp.Line2D D) : Except Fault (Fp.Line2D D) :=
  match Fp.SvgDrawable.layout (fun c => Except.ok (Fp.LineLabel.layout libm style axisX axisY c))
      (fun c => c.bounds) self.toSvgDrawable with
  | Except.error e => Except.error e
  | Except.ok base => Except.ok { self with toSvgDrawable := base }

end FpDefinitions

section FpPlotDefinitions

open Fp.DoubleOps

variable {D : Type} [Fp.DoubleOps D]

/-! ### SvgFileDrawable -/

/-- The part of `SvgFileDrawable::write` before the two layers: the prolog, the
opening tag sized by the padded box, and the background rect of the box. -/
def Fp.SvgFileDrawable.writeHeader (style : Fp.PlotStyle D) (bounds : Fp.Bounds D)
    (o : Fp.Out D) : Fp.Out D :=
  -- Add padding
  let padded : Fp.Bounds D :=
    { bounds with
      left := bounds.left - style.padding
      right := bounds.right + style.padding
      top := bounds.top - style.padding
      bottom := bounds.bottom + style.padding }
  ((o.put Fp.Svg.prolog).put
      (Fp.Svg.svgOpen padded.width padded.height padded.left padded.top)).put
    (Fp.Svg.rect "svg-plot-bg" bounds.left bounds.top bounds.width bounds.height)

/-- The `mask` and `pattern` definitions of hatch `i` and of those after it. -/
def Fp.SvgFileDrawable.writeHatches (style : Fp.PlotStyle D) (maxBounds : Int) :
    Nat → List (Fp.PlotStyle.Hatch D) → Fp.Out D → Fp.Out D
  | _, [], o => o
  | i, hatch :: rest, o =>
    if hatch.angles.length = 0 then
      Fp.SvgFileDrawable.writeHatches style maxBounds (i + 1) rest o
    else
      let o1 := hatch.angles.foldl
        (fun acc angle => acc.put (Fp.Svg.maskRect i maxBounds angle)) (o.put (Fp.Svg.maskOpen i))
      let spacing := style.hatchSpacing * hatch.spaceScale
      Fp.SvgFileDrawable.writeHatches style maxBounds (i + 1) rest
        ((o1.put Fp.Svg.maskClose).put (Fp.Svg.pattern i spacing))

/-- The part of `SvgFileDrawable::write` after the two layers: the hatch
definitions, the stylesheet, the script and the closing tag. -/
def Fp.SvgFileDrawable.writeTrailer (libm : Fp.CMath D) (style : Fp.PlotStyle D)
    (bounds : Fp.Bounds D) (o : Fp.Out D) : Fp.Out D :=
  let maxBounds : Int := toInt (libm.ceil (Fp.std_max
    (Fp.std_max (fabs bounds.left) (fabs bounds.right))
    (Fp.std_max (fabs bounds.top) (fabs bounds.bottom)) * libm.sqrt (lit 2)))
  let o1 := Fp.SvgFileDrawable.writeHatches style maxBounds 0 style.hatches
    (o.put Fp.Svg.defsOpen)
  (((o1.put Fp.Svg.defsClose).put (Fp.Svg.style style)).put Fp.Svg.script).put Fp.Svg.svgClose

/-- Member `SvgFileDrawable::write(o, style)` for a node of type `α` whose
virtual functions are the arguments `layoutIfNeeded`, `writeData` and
`writeLabel`, and whose box is read by `bounds`. -/
def Fp.SvgFileDrawable.write {α : Type} (libm : Fp.CMath D)
    (layoutIfNeeded : α → Except Fault α) (bounds : α → Fp.Bounds D)
    (writeData writeLabel : α → Fp.Out D → Fp.Out D)
    (style : Fp.PlotStyle D) (self : α) (o : Fp.Out D) : Except Fault (α × Fp.Out D) :=
  match layoutIfNeeded self with
  | Except.error e => Except.error e
  | Except.ok self1 =>
    let o1 := Fp.SvgFileDrawable.writeHeader style (bounds self1) o
    let o2 := writeData self1 o1
    let o3 := writeLabel self1 o2
    Except.ok (self1, Fp.SvgFileDrawable.writeTrailer libm style (bounds self1) o3)

/-! ### Plot2D -/

/-- A child of a plot: a line (or fill) made by `line` or `fill`, or a text
label synthesised by the layout. -/
inductive Fp.PlotChild (D : Type) [Fp.DoubleOps D] where
  | line (l : Fp.Line2D D)
  | label (t : Fp.TextLabel D)

/-- The box of a child. -/
def Fp.PlotChild.bounds : Fp.PlotChild D → Fp.Bounds D
  | Fp.PlotChild.line l => l.bounds
  | Fp.PlotChild.label t => t.bounds

/-- The virtual call `c->layout(style)` on a child of a plot with axes `x`, `y`. -/
def Fp.PlotChild.layout (libm : Fp.CMath D) (style : Fp.PlotStyle D) (x y : Fp.Axis D) :
    Fp.PlotChild D → Except Fault (Fp.PlotChild D)
  | Fp.PlotChild.line l =>
    match Fp.Line2D.layout libm style x y l with
    | Except.error e => Except.error e
    | Except.ok l1 => Except.ok (Fp.PlotChild.line l1)
  | Fp.PlotChild.label t => Except.ok (Fp.PlotChild.label (Fp.TextLabel.layout style t))

/-- The virtual call `writeData` on a child of a plot with axes `x`, `y`. -/
def Fp.PlotChild.writeData (style : Fp.PlotStyle D) (x y : Fp.Axis D) :
    Fp.PlotChild D → Fp.Out D → Fp.Out D
  | Fp.PlotChild.line l => Fp.Line2D.writeData style x y l
  | Fp.PlotChild.label t => Fp.TextLabel.writeData t

/-- The virtual call `writeLabel` on a child of a plot. -/
def Fp.PlotChild.writeLabel (style : Fp.PlotStyle D) : Fp.PlotChild D → Fp.Out D → Fp.Out D
  | Fp.PlotChild.line l => Fp.Line2D.writeLabel style l
  | Fp.PlotChild.label t => Fp.TextLabel.writeLabel t

/-- A plot area with its two axes (`class Plot2D`). -/
structure Fp.Plot2D (D : Type) [Fp.DoubleOps D] extends Fp.SvgDrawable D (Fp.PlotChild D) where
  styleIndex : Int := 0
  x : Fp.Axis D
  y : Fp.Axis D

/-- Constructor `Plot2D(x, y)`. -/
def Fp.Plot2D.ofAxes (x y : Fp.Axis D) : Fp.Plot2D D :=
  { x := x, y := y }

/-- Constructor `Plot2D(width, height)`. -/
def Fp.Plot2D.init (width height : D) : Fp.Plot2D D :=
  Fp.Plot2D.ofAxes (Fp.Axis.init (lit 0) width) (Fp.Axis.init height (lit 0))

/-- Constructor `Plot2D()`. -/
def Fp.Plot2D.default : Fp.Plot2D D :=
  Fp.Plot2D.init (lit 260) (lit 130)

/-- Member `line(styleIndex)`: the new line is the last child of the plot. -/
def Fp.Plot2D.lineWith (self : Fp.Plot2D D) (styleIndex : Int) : Fp.Plot2D D :=
  { self with
    toSvgDrawable := self.toSvgDrawable.addChild (Fp.PlotChild.line (Fp.Line2D.init styleIndex)) }

/-- Member `line()`. -/
def Fp.Plot2D.line (self : Fp.Plot2D D) : Fp.Plot2D D :=
  { self.lineWith self.styleIndex with styleIndex := self.styleIndex + 1 }

/-- Member `fill(styleIndex)`. -/
def Fp.Plot2D.fillWith (self : Fp.Plot2D D) (styleIndex : Int) : Fp.Plot2D D :=
  { self with
    toSvgDrawable := self.toSvgDrawable.addChild
      (Fp.PlotChild.line (((Fp.Line2D.init styleIndex).drawLine false).drawFill true)) }

/-- Member `fill()`. -/
def Fp.Plot2D.fill (self : Fp.Plot2D D) : Fp.Plot2D D :=
  { self.fillWith self.styleIndex with styleIndex := self.styleIndex + 1 }

/-- A call through the reference returned by `line` or `fill`: the member
function `f` of the line at position `i` among the children, run against the
axes of the plot. -/
def Fp.Plot2D.onLine (self : Fp.Plot2D D) (i : Nat)
    (f : Fp.Line2D D → Fp.Axis D → Fp.Axis D → Fp.Line2D D × Fp.Axis D × Fp.Axis D) :
    Fp.Plot2D D :=
  match self.children.get? i with
  | some (Fp.PlotChild.line l) =>
    let r := f l self.x self.y
    { self with
      toSvgDrawable := { self.toSvgDrawable with
        children := self.children.set i (Fp.PlotChild.line r.1) }
      x := r.2.1
      y := r.2.2 }
  | _ => self

/-- The body of the loop of `Plot2D::writeData` over the x ticks: the gridline
of one tick. -/
def Fp.Plot2D.gridLineX (style : Fp.PlotStyle D) (x y : Fp.Axis D) (t : Fp.Tick D)
    (o : Fp.Out D) : Fp.Out D :=
  if t.strength ≠ Tick.Strength.tick then
    let screenX := x.map t.value
    let isMajor : Bool := t.strength = Tick.Strength.major
    -- 1% of a pixel is close enough
    let isLeftBorder : Bool := flt (fabs (screenX - x.drawMin)) (lit 0.01)
    -- Extend using horizontal tick even though it's vertical
    let extraTop : D := if isMajor ∧ isLeftBorder ∧ t.name.length ≠ 0 then style.tickH else lit 0
    o.put (Fp.Svg.line (if isMajor then "svg-plot-major" else "svg-plot-minor")
      screenX screenX (y.drawMin - extraTop) y.drawMax)
  else o

/-- The body of the loop of `Plot2D::writeData` over the y ticks: the gridline
of one tick. -/
def Fp.Plot2D.gridLineY (x y : Fp.Axis D) (t : Fp.Tick D) (o : Fp.Out D) : Fp.Out D :=
  if t.strength ≠ Tick.Strength.tick then
    let screenY := y.map t.value
    let isMajor : Bool := t.strength = Tick.Strength.major
    o.put (Fp.Svg.line (if isMajor then "svg-plot-major" else "svg-plot-minor")
      x.drawMin x.drawMax screenY screenY)
  else o

/-- Member `Plot2D::writeData`; `rand k` is the value the call number `k` of
`rand()` returns. -/
def Fp.Plot2D.writeData (rand : Nat → Nat) (style : Fp.PlotStyle D) (self : Fp.Plot2D D)
    (o : Fp.Out D) : Fp.Out D :=
  let padding := style.lineWidth * lit 0.5
  let clipId := rand o.randCalls
  let o0 : Fp.Out D := { o with randCalls := o.randCalls + 1 }
  let o1 := o0.put (Fp.Svg.rect "svg-plot-axis" self.x.drawMin self.y.drawMin
    self.x.drawSize self.y.drawSize)
  let o2 := self.x.ticks.foldl (fun acc t => Fp.Plot2D.gridLineX style self.x self.y t acc) o1
  let o3 := self.y.ticks.foldl (fun acc t => Fp.Plot2D.gridLineY self.x self.y t acc) o2
  let o4 := o3.put (Fp.Svg.clipPath clipId (self.x.drawMin - padding) (self.y.drawMin - padding)
    (self.x.drawSize + padding * lit 2) (self.y.drawSize + padding * lit 2))
  let o5 := o4.put (Fp.Svg.gOpen (some ("url(#clip" ++ toString clipId)))
  let o6 := Fp.SvgDrawable.writeData (Fp.PlotChild.writeData style self.x self.y)
    self.toSvgDrawable o5
  o6.put Fp.Svg.gClose

/-- The body of the loop of `Plot2D::writeLabel` over the x ticks: the tick mark
of one tick. -/
def Fp.Plot2D.tickMarkX (style : Fp.PlotStyle D) (x y : Fp.Axis D) (t : Fp.Tick D)
    (o : Fp.Out D) : Fp.Out D :=
  let screenX := x.map t.value
  if t.name.length ≠ 0 then
    o.put (Fp.Svg.line "svg-plot-tick" screenX screenX y.drawMax (y.drawMax + style.tickV))
  else o

/-- The body of the loop of `Plot2D::writeLabel` over the y ticks: the tick mark
of one tick. -/
def Fp.Plot2D.tickMarkY (style : Fp.PlotStyle D) (x y : Fp.Axis D) (t : Fp.Tick D)
    (o : Fp.Out D) : Fp.Out D :=
  if t.name.length ≠ 0 then
    let screenY := y.map t.value
    o.put (Fp.Svg.line "svg-plot-tick" (x.drawMin - style.tickH) x.drawMin screenY screenY)
  else o

/-- Member `Plot2D::writeLabel`. -/
def Fp.Plot2D.writeLabel (style : Fp.PlotStyle D) (self : Fp.Plot2D D) (o : Fp.Out D) :
    Fp.Out D :=
  let o1 := o.put (Fp.Svg.gOpen none)
  let o2 := Fp.SvgDrawable.writeLabel (Fp.PlotChild.writeLabel style) self.toSvgDrawable o1
  let o3 := self.x.ticks.foldl (fun acc t => Fp.Plot2D.tickMarkX style self.x self.y t acc) o2
  let o4 := self.y.ticks.foldl (fun acc t => Fp.Plot2D.tickMarkY style self.x self.y t acc) o3
  o4.put Fp.Svg.gClose

/-- The loop of `Plot2D::layout` over the x ticks: a value label below the plot
for every tick with a name, whatever the axis map gives for its value. -/
def Fp.Plot2D.addLabelsX (x : Fp.Axis D) (screenY : D) :
    List (Fp.Tick D) → Fp.SvgDrawable D (Fp.PlotChild D) → Fp.SvgDrawable D (Fp.PlotChild D)
  | [], node => node
  | t :: rest, node =>
    if t.name.length ≠ 0 then
      let screenX := x.map t.value
      Fp.Plot2D.addLabelsX x screenY rest
        (node.addChild (Fp.PlotChild.label
          (Fp.TextLabel.init { x := screenX, y := screenY } (lit 0) t.name "svg-plot-value"
            false true)))
    else Fp.Plot2D.addLabelsX x screenY rest node

/-- The loop of `Plot2D::layout` over the y ticks: a value label left of the
plot for every tick with a name, and the greatest estimated width of the names. -/
def Fp.Plot2D.addLabelsY (y : Fp.Axis D) (screenX : D) :
    List (Fp.Tick D) → Fp.SvgDrawable D (Fp.PlotChild D) × D →
      Fp.SvgDrawable D (Fp.PlotChild D) × D
  | [], acc => acc
  | t :: rest, (node, longestLabel) =>
    if t.name.length ≠ 0 then
      let screenY := y.map t.value
      Fp.Plot2D.addLabelsY y screenX rest
        (node.addChild (Fp.PlotChild.label
          (Fp.TextLabel.init { x := screenX, y := screenY } (-lit 1) t.name "svg-plot-value"
            false true)),
         Fp.std_max longestLabel (Fp.estimateUtf8Width t.name))
    else Fp.Plot2D.addLabelsY y screenX rest (node, longestLabel)

/-- The first part of `Plot2D::layout`, up to the call of the base
implementation: both axes set up, the labels added as children and the box set
to the axis rectangle expanded by the tick lengths. -/
def Fp.Plot2D.prepare (style : Fp.PlotStyle D) (self : Fp.Plot2D D) : Fp.Plot2D D :=
  -- Auto-scale axes if needed
  let x := self.x.autoSetup
  let y := self.y.autoSetup
  -- Add labels for axes
  let screenY := y.drawMax + style.tickV + style.valueSize * lit 0.5 + style.textPadding
  let node1 := Fp.Plot2D.addLabelsX x screenY x.ticks self.toSvgDrawable
  let node2 :=
    if x.label.length ≠ 0 then
      let midX := (x.drawMax + x.drawMin) * lit 0.5
      node1.addChild (Fp.PlotChild.label (Fp.TextLabel.init
        { x := midX, y := screenY + (style.labelSize + style.valueSize) * lit 0.5 } (lit 0) x.label
        "svg-plot-label" false true))
    else node1
  let screenX := x.drawMin - style.tickH - style.textPadding
  let looped := Fp.Plot2D.addLabelsY y screenX y.ticks (node2, lit 0)
  let node3 := looped.1
  let longestLabel := looped.2
  let node4 :=
    if y.label.length ≠ 0 then
      let midY := (y.drawMax + y.drawMin) * lit 0.5
      node3.addChild (Fp.PlotChild.label (Fp.TextLabel.init
        { x := screenX - style.textPadding * lit 1.5 - longestLabel * style.valueSize, y := midY }
        (lit 0) y.label "svg-plot-label" true true))
    else node3
  let node5 : Fp.SvgDrawable D (Fp.PlotChild D) :=
    { node4 with
      bounds := Fp.Bounds.init (x.drawMin - style.tickH) (x.drawMax + style.tickH)
        (y.drawMin - style.tickV) (y.drawMax + style.tickV) }
  { self with toSvgDrawable := node5, x := x, y := y }

/-- Member `Plot2D::layout`: the part above, then `SvgDrawable::layout`. -/
def Fp.Plot2D.layout (libm : Fp.CMath D) (style : Fp.PlotStyle D) (self : Fp.Plot2D D) :
    Except Fault (Fp.Plot2D D) :=
  let p := Fp.Plot2D.prepare style self
  match Fp.SvgDrawable.layout (Fp.PlotChild.layout libm style p.x p.y) Fp.PlotChild.bounds
      p.toSvgDrawable with
  | Except.error e => Except.error e
  | Except.ok node6 => Except.ok { p with toSvgDrawable := node6 }

/-- Member `layoutIfNeeded` of a plot. -/
def Fp.Plot2D.layoutIfNeeded (libm : Fp.CMath D) (style : Fp.PlotStyle D) (self : Fp.Plot2D D) :
    Except Fault (Fp.Plot2D D) :=
  if !self.hasLayout then Fp.Plot2D.layout libm style self else Except.ok self

/-- Member `write(o, style)` of a plot. -/
def Fp.Plot2D.write (libm : Fp.CMath D) (rand : Nat → Nat) (style : Fp.PlotStyle D)
    (self : Fp.Plot2D D) (o : Fp.Out D) : Except Fault (Fp.Plot2D D × Fp.Out D) :=
  Fp.SvgFileDrawable.write libm (Fp.Plot2D.layoutIfNeeded libm style) (fun p => p.bounds)
    (Fp.Plot2D.writeData rand style) (Fp.Plot2D.writeLabel style) style self o

/-! ### Figure -/

/-- A figure holding plots (`class Figure`). -/
structure Fp.Figure (D : Type) [Fp.DoubleOps D] extends Fp.SvgDrawable D (Fp.Plot2D D) where
  style : Fp.PlotStyle D := {}

/-- Member `plot(widthPt, heightPt)`: the new plot is the last child. -/
def Fp.Figure.plot (self : Fp.Figure D) (widthPt heightPt : D) : Fp.Figure D :=
  { self with toSvgDrawable := self.toSvgDrawable.addChild (Fp.Plot2D.init widthPt heightPt) }

/-- Member `plot()`. -/
def Fp.Figure.plotDefault (self : Fp.Figure D) : Fp.Figure D :=
  { self with toSvgDrawable := self.toSvgDrawable.addChild Fp.Plot2D.default }

/-- Member `Figure::layout`. -/
def Fp.Figure.layout (libm : Fp.CMath D) (style : Fp.PlotStyle D) (self : Fp.Figure D) :
    Except Fault (Fp.Figure D) :=
  let node : Fp.SvgDrawable D (Fp.Plot2D D) :=
    { self.toSvgDrawable with bounds := Fp.Bounds.init (lit 0) (lit 0) (lit 0) (lit 0) }
  match Fp.SvgDrawable.layout (Fp.Plot2D.layout libm style) (fun p => p.bounds) node with
  | Except.error e => Except.error e
  | Except.ok node1 => Except.ok { self with toSvgDrawable := node1 }

/-- Member `layoutIfNeeded` of a figure. -/
def Fp.Figure.layoutIfNeeded (libm : Fp.CMath D) (style : Fp.PlotStyle D) (self : Fp.Figure D) :
    Except Fault (Fp.Figure D) :=
  if !self.hasLayout then Fp.Figure.layout libm style self else Except.ok self

/-- Member `writeData` of a figure: inherited from the base class. -/
def Fp.Figure.writeData (rand : Nat → Nat) (style : Fp.PlotStyle D) (self : Fp.Figure D)
    (o : Fp.Out D) : Fp.Out D :=
  Fp.SvgDrawable.writeData (Fp.Plot2D.writeData rand style) self.toSvgDrawable o

/-- Member `writeLabel` of a figure: inherited from the base class. -/
def Fp.Figure.writeLabel (style : Fp.PlotStyle D) (self : Fp.Figure D) (o : Fp.Out D) :
    Fp.Out D :=
  Fp.SvgDrawable.writeLabel (Fp.Plot2D.writeLabel style) self.toSvgDrawable o

/-- Member `Figure::write(o)`: the inherited write with the style of the figure. -/
def Fp.Figure.write (libm : Fp.CMath D) (rand : Nat → Nat) (self : Fp.Figure D) (o : Fp.Out D) :
    Except Fault (Fp.Figure D × Fp.Out D) :=
  Fp.SvgFileDrawable.write libm (Fp.Figure.layoutIfNeeded libm self.style) (fun f => f.bounds)
    (Fp.Figure.writeData rand self.style) (Fp.Figure.writeLabel self.style) self.style self o

end FpPlotDefinitions

section FpLayerDefinitions

open Fp.DoubleOps

variable {D : Type} [Fp.DoubleOps D]

/-! ### The marks of the two layers -/

/-- A run of `o << piece` for the pieces of a list, in order. -/
def Fp.Out.append (o : Fp.Out D) (pieces : List (Fp.Svg D)) : Fp.Out D :=
  { o with svg := o.svg ++ pieces }

/-- The test `t.name.size()` of the loops over the ticks. -/
def Fp.Tick.hasName (t : Fp.Tick D) : Bool :=
  decide (t.name.length ≠ 0)

/-- The test `t.strength != Tick::Strength::tick` of the loops of
`Plot2D::writeData`. -/
def Fp.Tick.hasGridLine (t : Fp.Tick D) : Bool :=
  decide (t.strength ≠ Tick.Strength.tick)

/-- Whether a piece of markup is a mark of the data layer: the rect of the axis
rectangle (class `svg-plot-axis`), a gridline (a line of class `svg-plot-major`
or `svg-plot-minor`), a clip path, or the path of a line or fill. -/
def Fp.Svg.isDataMark : Fp.Svg D → Bool
  | Fp.Svg.rect cls _ _ _ _ => decide (cls = "svg-plot-axis")
  | Fp.Svg.line cls _ _ _ _ => decide (cls = "svg-plot-major") || decide (cls = "svg-plot-minor")
  | Fp.Svg.clipPath _ _ _ _ _ => true
  | Fp.Svg.path _ _ => true
  | _ => false

/-- Whether a piece of markup is a mark of the label layer: a text element, or
a line whose class starts with `svg-plot-tick` (a tick mark, or the connector
of a line label). -/
def Fp.Svg.isLabelMark : Fp.Svg D → Bool
  | Fp.Svg.text _ _ _ _ _ _ => true
  | Fp.Svg.line cls _ _ _ _ => "svg-plot-tick".data.isPrefixOf cls.data
  | _ => false

/-- Whether a piece of markup is an opening or closing `g` tag. -/
def Fp.Svg.isGroupTag : Fp.Svg D → Bool
  | Fp.Svg.gOpen _ => true
  | Fp.Svg.gClose => true
  | _ => false

/-- Whether a piece of markup is a `path` element. -/
def Fp.Svg.isPath : Fp.Svg D → Bool
  | Fp.Svg.path _ _ => true
  | _ => false

/-- Whether a piece of markup is a `line` element of the given class. -/
def Fp.Svg.isLineOfClass (c : String) : Fp.Svg D → Bool
  | Fp.Svg.line cls _ _ _ _ => decide (cls = c)
  | _ => false

/-- The markup that the header part of write appends. -/
def Fp.SvgFileDrawable.header (style : Fp.PlotStyle D) (bounds : Fp.Bounds D) :
    List (Fp.Svg D) :=
  (Fp.SvgFileDrawable.writeHeader style bounds {}).svg

/-- The markup that the trailer part of write appends. -/
def Fp.SvgFileDrawable.trailer (libm : Fp.CMath D) (style : Fp.PlotStyle D)
    (bounds : Fp.Bounds D) : List (Fp.Svg D) :=
  (Fp.SvgFileDrawable.writeTrailer libm style bounds {}).svg

/-- A plot that `Plot2D::layout` can be run on without meeting the assertion:
neither the plot nor any of its lines has been laid out. -/
def Fp.Plot2D.Fresh (p : Fp.Plot2D D) : Prop :=
  p.hasLayout = false ∧ ∀ l, Fp.PlotChild.line l ∈ p.children → l.hasLayout = false

/-- A figure that `Figure::layout` can be run on without meeting the assertion:
neither the figure nor any of its plots or their lines has been laid out. -/
def Fp.Figure.Fresh (fig : Fp.Figure D) : Prop :=
  fig.hasLayout = false ∧ ∀ p ∈ fig.children, Fp.Plot2D.Fresh p

/-- The axis rectangle expanded by the tick lengths: the box that
`Plot2D::layout` sets before it runs the base layout. -/
def Fp.Plot2D.axisBox (style : Fp.PlotStyle D) (x y : Fp.Axis D) : Fp.Bounds D :=
  Fp.Bounds.init (x.drawMin - style.tickH) (x.drawMax + style.tickH)
    (y.drawMin - style.tickV) (y.drawMax + style.tickV)

end FpLayerDefinitions

/-! ## IEEE 754 binary64

The arithmetic of `double` on the platforms the library is built for: binary64
with round to nearest, ties to even, every operation rounded once.  A finite
value is kept as its sign and its magnitude, a rational number; the values
that occur in a run are those whose magnitude is a fixed point of the rounding
and below `2^1024` (`F64.IsDouble`). -/

/-- A value of binary64: a NaN (the payload is not kept), an infinity with its
sign, or a finite value with its sign and magnitude. -/
inductive F64 where
  | nan
  | inf (negative : Bool)
  | fin (negative : Bool) (magnitude : ℚ)
  deriving DecidableEq

/-- The integer nearest to a rational number, the even one of the two at a tie. -/
def F64.roundEven (q : ℚ) : ℤ :=
  if q - ⌊q⌋ < 1 / 2 then ⌊q⌋
  else if 1 / 2 < q - ⌊q⌋ then ⌊q⌋ + 1
  else if ⌊q⌋ % 2 = 0 then ⌊q⌋ else ⌊q⌋ + 1

/-- The spacing of the binary64 values around the magnitude `m`: `2^(e - 52)`
where `2^e ≤ m < 2^(e + 1)`, and `2^(-1074)` below `2^(-1022)` (the subnormal
range). -/
def F64.ulp (m : ℚ) : ℚ :=
  (2 : ℚ) ^ (max (Int.log 2 m) (-1022) - 52)

/-- The magnitude `m` rounded to a multiple of the spacing around it, with no
bound on the exponent. -/
def F64.roundMag (m : ℚ) : ℚ :=
  (F64.roundEven (m / F64.ulp m) : ℚ) * F64.ulp m

/-- The binary64 value with the given sign whose magnitude is nearest to `m`:
an infinity when the rounded magnitude reaches `2^1024`. -/
def F64.ofMag (negative : Bool) (m : ℚ) : F64 :=
  if (2 : ℚ) ^ 1024 ≤ F64.roundMag m then F64.inf negative
  else F64.fin negative (F64.roundMag m)

/-- The binary64 value nearest to a rational number; zero gets the sign plus. -/
def F64.ofRat (q : ℚ) : F64 :=
  F64.ofMag (decide (q < 0)) |q|

/-- The number that a finite value stands for (zero for the other values). -/
def F64.toRat : F64 → ℚ
  | F64.fin negative m => if negative then -m else m
  | _ => 0

/-- The value is a NaN. -/
def F64.isNaN : F64 → Bool
  | F64.nan => true
  | _ => false

/-- The value is finite. -/
def F64.isFinite : F64 → Bool
  | F64.fin _ _ => true
  | _ => false

/-- The value is one that binary64 has: a NaN, an infinity, or a finite value
whose magnitude is not negative, is a fixed point of the rounding and is below
`2^1024`. -/
def F64.IsDouble : F64 → Prop
  | F64.fin _ m => 0 ≤ m ∧ F64.roundMag m = m ∧ m < (2 : ℚ) ^ 1024
  | _ => True

/-- The operator `+`.  An exact sum of zero has the sign plus unless both
operands are negative. -/
def F64.add : F64 → F64 → F64
  | F64.nan, _ => F64.nan
  | _, F64.nan => F64.nan
  | F64.inf s, F64.inf t => if s = t then F64.inf s else F64.nan
  | F64.inf s, F64.fin _ _ => F64.inf s
  | F64.fin _ _, F64.inf t => F64.inf t
  | F64.fin s a, F64.fin t b =>
    if (F64.fin s a).toRat + (F64.fin t b).toRat = 0 then F64.fin (s && t) 0
    else F64.ofRat ((F64.fin s a).toRat + (F64.fin t b).toRat)

/-- The unary operator `-`. -/
def F64.neg : F64 → F64
  | F64.nan => F64.nan
  | F64.inf s => F64.inf (!s)
  | F64.fin s m => F64.fin (!s) m

/-- The operator `-` with two operands. -/
def F64.sub (a b : F64) : F64 :=
  F64.add a (F64.neg b)

/-- The operator `*`. -/
def F64.mul : F64 → F64 → F64
  | F64.nan, _ => F64.nan
  | _, F64.nan => F64.nan
  | F64.inf s, F64.inf t => F64.inf (xor s t)
  | F64.inf s, F64.fin t b => if b = 0 then F64.nan else F64.inf (xor s t)
  | F64.fin s a, F64.inf t => if a = 0 then F64.nan else F64.inf (xor s t)
  | F64.fin s a, F64.fin t b => F64.ofMag (xor s t) (a * b)

/-- The operator `/`: a finite value that is not zero divided by zero is an
infinity, zero divided by zero and an infinity divided by an infinity are NaN. -/
def F64.div : F64 → F64 → F64
  | F64.nan, _ => F64.nan
  | _, F64.nan => F64.nan
  | F64.inf _, F64.inf _ => F64.nan
  | F64.inf s, F64.fin t _ => F64.inf (xor s t)
  | F64.fin s _, F64.inf t => F64.fin (xor s t) 0
  | F64.fin s a, F64.fin t b =>
    if b = 0 then (if a = 0 then F64.nan else F64.inf (xor s t))
    else F64.ofMag (xor s t) (a / b)

/-- The function std::abs. -/
def F64.fabs : F64 → F64
  | F64.nan => F64.nan
  | F64.inf _ => F64.inf false
  | F64.fin _ m => F64.fin false m

/-- The comparison `a < b`; false when an operand is a NaN. -/
def F64.lt : F64 → F64 → Bool
  | F64.nan, _ => false
  | _, F64.nan => false
  | F64.inf s, F64.inf t => s && !t
  | F64.inf s, F64.fin _ _ => s
  | F64.fin _ _, F64.inf t => !t
  | F64.fin s a, F64.fin t b => decide ((F64.fin s a).toRat < (F64.fin t b).toRat)

/-- The comparison `a == b`; false when an operand is a NaN, true for the two
zeros. -/
def F64.eq : F64 → F64 → Bool
  | F64.nan, _ => false
  | _, F64.nan => false
  | F64.inf s, F64.inf t => decide (s = t)
  | F64.inf _, F64.fin _ _ => false
  | F64.fin _ _, F64.inf _ => false
  | F64.fin s a, F64.fin t b => decide ((F64.fin s a).toRat = (F64.fin t b).toRat)

/-- The comparison `a <= b`; false when an operand is a NaN. -/
def F64.le (a b : F64) : Bool :=
  F64.lt a b || F64.eq a b

/-- The function std::to_string at a double, which prints as `%f` does. -/
def F64.to_string : F64 → String
  | F64.nan => "nan"
  | F64.inf s => if s then "-inf" else "inf"
  | F64.fin s m => (if s then "-" else "") ++ to_string_double m

/-- The conversion of a double to `int`: the fraction is dropped.  For a NaN,
an infinity or a value outside the range of `int` the source has undefined
behaviour; the conversion is given the value of the formula, zero for a NaN or
an infinity. -/
def F64.toInt : F64 → Int
  | F64.fin s m => if s then -⌊m⌋ else ⌊m⌋
  | _ => 0

instance : Fp.DoubleOps F64 where
  add := F64.add
  sub := F64.sub
  mul := F64.mul
  div := F64.div
  neg := F64.neg
  lit := F64.ofRat
  fabs := F64.fabs
  flt := F64.lt
  feq := F64.eq
  to_string := F64.to_string
  toInt := F64.toInt

/-- Values for the functions of the C library, used only to run the embedding
on sample plots. -/
def F64.sampleMath : Fp.CMath F64 :=
  { cos := fun _ => F64.fin false 1, sin := fun _ => F64.fin false 0,
    sqrt := fun _ => F64.fin false (3 / 2), ceil := fun v => v }

/-- The comparison chain `outer.left <= inner.left <= inner.right <= outer.right`
and `outer.top <= inner.top <= inner.bottom <= outer.bottom`: the box `inner`
is stored the right way round and lies inside the box `outer`. -/
def F64.Covers (outer inner : Fp.Bounds F64) : Prop :=
  F64.le outer.left inner.left = true ∧ F64.le inner.left inner.right = true ∧
  F64.le inner.right outer.right = true ∧ F64.le outer.top inner.top = true ∧
  F64.le inner.top inner.bottom = true ∧ F64.le inner.bottom outer.bottom = true

/-! ### Sample plots in binary64 -/

/-- The plot of the end-to-end scenario in binary64: a default plot with one
line made by `line()` and the points (0,0), (1,1), (2,4) added to it. -/
def F64.examplePlot : Fp.Plot2D F64 :=
  (((Fp.Plot2D.default.line.onLine 0
    (fun l x y => l.add x y (F64.fin false 0) (F64.fin false 0))).onLine 0
    (fun l x y => l.add x y (F64.fin false 1) (F64.fin false 1))).onLine 0
    (fun l x y => l.add x y (F64.fin false 2) (F64.fin false 4)))

/-- A plot whose y axis sees one value only: a default plot with one line made
by `line()` and the points (0,3), (1,3), (2,3) added to it. -/
def F64.constantPlot : Fp.Plot2D F64 :=
  (((Fp.Plot2D.default.line.onLine 0
    (fun l x y => l.add x y (F64.fin false 0) (F64.fin false 3))).onLine 0
    (fun l x y => l.add x y (F64.fin false 1) (F64.fin false 3))).onLine 0
    (fun l x y => l.add x y (F64.fin false 2) (F64.fin false 3)))

/-- A figure with the two sample plots. -/
def F64.exampleFigure : Fp.Figure F64 :=
  { children := [F64.examplePlot, F64.constantPlot] }

/-! ### Calls that feed an axis and build a plot, for every arithmetic -/

section FpBuildDefinitions

open Fp.DoubleOps

variable {D : Type} [Fp.DoubleOps D]

/-- One call that feeds values to an axis without setting a range: a value
observed for a data point or a label anchor, or a tick registration. -/
inductive Fp.AxisCall (D : Type) [Fp.DoubleOps D] where
  | autoValue (v : D)
  | major (ticks : List (Fp.Tick D))
  | minor (ticks : List (Fp.Tick D))
  | tick (ticks : List (Fp.Tick D))

/-- The effect of one such call on the axis. -/
def Fp.Axis.call (a : Fp.Axis D) : Fp.AxisCall D → Fp.Axis D
  | Fp.AxisCall.autoValue v => a.autoValue v
  | Fp.AxisCall.major ts => a.major ts
  | Fp.AxisCall.minor ts => a.minor ts
  | Fp.AxisCall.tick ts => a.tick ts

/-- The effect of a sequence of such calls, first call first. -/
def Fp.Axis.calls (a : Fp.Axis D) (cs : List (Fp.AxisCall D)) : Fp.Axis D :=
  cs.foldl Fp.Axis.call a

/-- The values that a call passes to autoValue, in order. -/
def Fp.AxisCall.values : Fp.AxisCall D → List D
  | Fp.AxisCall.autoValue v => [v]
  | Fp.AxisCall.major ts => ts.map fun t => t.value
  | Fp.AxisCall.minor ts => ts.map fun t => t.value
  | Fp.AxisCall.tick ts => ts.map fun t => t.value

/-- The ticks that a call appends to the tick list, in order, with the
strength the call gives them. -/
def Fp.AxisCall.ticks : Fp.AxisCall D → List (Fp.Tick D)
  | Fp.AxisCall.autoValue _ => []
  | Fp.AxisCall.major ts => ts.map fun t => { t with strength := Tick.Strength.major }
  | Fp.AxisCall.minor ts => ts.map fun t => { t with strength := Tick.Strength.minor }
  | Fp.AxisCall.tick ts => ts.map fun t => { t with strength := Tick.Strength.tick }

/-- Whether the call is a manual tick registration (major, minor or tick, with
or without tick arguments). -/
def Fp.AxisCall.isTick : Fp.AxisCall D → Bool
  | Fp.AxisCall.autoValue _ => false
  | _ => true

/-- One call on a plot whose axes are left to range themselves: a new line or
fill, a call through the reference to the line at position `i` among the
children, or a call that feeds values or ticks to one of the two axes. -/
inductive Fp.PlotOp (D : Type) [Fp.DoubleOps D] where
  | line
  | lineWith (styleIndex : Int)
  | fill
  | fillWith (styleIndex : Int)
  | add (i : Nat) (x y : D)
  | label (i : Nat) (valueX valueY : D) (name : String) (degrees distance : D)
  | drawLine (i : Nat) (draw : Bool)
  | drawFill (i : Nat) (draw : Bool)
  | fillToX (i : Nat) (x : D)
  | fillToY (i : Nat) (y : D)
  | onX (c : Fp.AxisCall D)
  | onY (c : Fp.AxisCall D)

/-- The effect of one such call on the plot. -/
def Fp.Plot2D.apply (self : Fp.Plot2D D) : Fp.PlotOp D → Fp.Plot2D D
  | Fp.PlotOp.line => self.line
  | Fp.PlotOp.lineWith styleIndex => self.lineWith styleIndex
  | Fp.PlotOp.fill => self.fill
  | Fp.PlotOp.fillWith styleIndex => self.fillWith styleIndex
  | Fp.PlotOp.add i x y => self.onLine i (fun l axisX axisY => l.add axisX axisY x y)
  | Fp.PlotOp.label i valueX valueY name degrees distance =>
    self.onLine i (fun l axisX axisY => l.label axisX axisY valueX valueY name degrees distance)
  | Fp.PlotOp.drawLine i draw =>
    self.onLine i (fun l axisX axisY => (l.drawLine draw, axisX, axisY))
  | Fp.PlotOp.drawFill i draw =>
    self.onLine i (fun l axisX axisY => (l.drawFill draw, axisX, axisY))
  | Fp.PlotOp.fillToX i x => self.onLine i (fun l axisX axisY => (l.fillToX x, axisX, axisY))
  | Fp.PlotOp.fillToY i y => self.onLine i (fun l axisX axisY => (l.fillToY y, axisX, axisY))
  | Fp.PlotOp.onX c => { self with x := self.x.call c }
  | Fp.PlotOp.onY c => { self with y := self.y.call c }

/-- The plot made by `Plot2D(width, height)` after a sequence of such calls. -/
def Fp.Plot2D.build (width height : D) (ops : List (Fp.PlotOp D)) : Fp.Plot2D D :=
  ops.foldl Fp.Plot2D.apply (Fp.Plot2D.init width height)

/-- The values that a call on a plot passes to autoValue of one of its axes. -/
def Fp.PlotOp.values : Fp.PlotOp D → List D
  | Fp.PlotOp.add _ x y => [x, y]
  | Fp.PlotOp.label _ valueX valueY _ _ _ => [valueX, valueY]
  | Fp.PlotOp.onX c => c.values
  | Fp.PlotOp.onY c => c.values
  | _ => []

end FpBuildDefinitions

/-- A finite value that binary64 has. -/
def F64.IsFiniteDouble (x : F64) : Prop :=
  x.IsDouble ∧ x.isFinite = true

/-- The difference `hi - lo` is finite and is computed without a rounding error. -/
def F64.ExactSub (hi lo : F64) : Prop :=
  (hi - lo).isFinite = true ∧ (hi - lo).toRat = hi.toRat - lo.toRat

/-- The accumulator of the axis is live, holds finite values and brackets the
finite value `V`. -/
def F64.Brackets (a : Fp.Axis F64) (V : F64) : Prop :=
  a.autoScale = true ∧ a.hasAutoValue = true ∧
  a.autoMin.IsFiniteDouble ∧ a.autoMax.IsFiniteDouble ∧ V.IsFiniteDouble ∧
  a.autoMin.toRat ≤ V.toRat ∧ V.toRat ≤ a.autoMax.toRat

/-- The accumulator of the axis has seen no value, or holds finite values. -/
def F64.Tame (a : Fp.Axis F64) : Prop :=
  a.autoScale = true ∧
  (a.hasAutoValue = true → a.autoMin.IsFiniteDouble ∧ a.autoMax.IsFiniteDouble)

/-- Both accumulators of the plot are live and bracket every data point of
every line of the plot. -/
def F64.Covered (p : Fp.Plot2D F64) : Prop :=
  F64.Tame p.x ∧ F64.Tame p.y ∧
  ∀ l, Fp.PlotChild.line l ∈ p.children → ∀ pt ∈ l.points,
    F64.Brackets p.x pt.x ∧ F64.Brackets p.y pt.y

/-! ## Theorems -/

/-! ### Library facts -/

theorem std_min_eq_min (a b : ℚ) : std_min a b = min a b := by
  unfold std_min
  split_ifs with h
  · exact (min_eq_right h.le).symm
  · exact (min_eq_left (not_lt.mp h)).symm

theorem std_max_eq_max (a b : ℚ) : std_max a b = max a b := by
  unfold std_max
  split_ifs with h
  · exact (max_eq_right h.le).symm
  · exact (max_eq_left (not_lt.mp h)).symm

/-- Observing values on an axis that already holds a value folds them into the
running minimum and maximum and touches nothing else. -/
theorem Axis.foldl_autoValue_of_hasAutoValue (vs : List ℚ) (a : Axis)
    (hs : a.autoScale = true) (hv : a.hasAutoValue = true) :
    vs.foldl Axis.autoValue a =
      { a with autoMin := vs.foldl min a.autoMin, autoMax := vs.foldl max a.autoMax } := by
  induction vs generalizing a with
  | nil => rfl
  | cons w ws ih =>
    have h1 : a.autoValue w = { a with autoMin := min a.autoMin w, autoMax := max a.autoMax w } := by
      simp [Axis.autoValue, hs, hv, std_min_eq_min, std_max_eq_max]
    rw [List.foldl_cons, h1, ih]
    · rfl
    · exact hs
    · exact hv

/-- Observing a first value and then more on an axis that holds none. -/
theorem Axis.foldl_autoValue_fresh (v : ℚ) (vs : List ℚ) (a : Axis)
    (hs : a.autoScale = true) (hv : a.hasAutoValue = false) :
    (v :: vs).foldl Axis.autoValue a =
      { a with autoMin := vs.foldl min v, autoMax := vs.foldl max v, hasAutoValue := true } := by
  have h1 : a.autoValue v = { a with autoMin := v, autoMax := v, hasAutoValue := true } := by
    simp [Axis.autoValue, hs, hv]
  rw [List.foldl_cons, h1, Axis.foldl_autoValue_of_hasAutoValue]
  · exact hs
  · rfl

/-- The state reached by autoSetup after a non-empty run of observations on an
axis with both automatic behaviours on and no value held before. -/
theorem Axis.autoSetup_after_observations (v : ℚ) (vs : List ℚ) (a : Axis)
    (hs : a.autoScale = true) (hv : a.hasAutoValue = false) (hl : a.autoLabel = true) :
    ((v :: vs).foldl Axis.autoValue a).autoSetup =
      { a with
        unitMap := fun x => fdiv (x - vs.foldl min v) (vs.foldl max v - vs.foldl min v)
        autoMin := vs.foldl min v
        autoMax := vs.foldl max v
        hasAutoValue := true
        autoScale := false
        autoLabel := false
        ticks := a.ticks ++
          [{ value := vs.foldl min v, name := to_string_double (vs.foldl min v),
             strength := Tick.Strength.minor },
           { value := vs.foldl max v, name := to_string_double (vs.foldl max v),
             strength := Tick.Strength.minor }] } := by
  rw [Axis.foldl_autoValue_fresh v vs a hs hv]
  simp [Axis.autoSetup, hs, hl, Axis.linear, Axis.range, Axis.minor, Axis.autoValue,
    Tick.ofDouble]

theorem Axis.init_autoScale (drawLow drawHigh : ℚ) : (Axis.init drawLow drawHigh).autoScale = true := rfl

theorem Axis.init_hasAutoValue (drawLow drawHigh : ℚ) :
    (Axis.init drawLow drawHigh).hasAutoValue = false := rfl

theorem Axis.init_autoLabel (drawLow drawHigh : ℚ) : (Axis.init drawLow drawHigh).autoLabel = true := rfl

/-! ### Calls that feed values never touch the map -/

theorem Axis.autoValue_unitMap (a : Axis) (v : ℚ) :
    (a.autoValue v).unitMap = a.unitMap ∧ (a.autoValue v).autoScale = a.autoScale := by
  unfold Axis.autoValue
  split_ifs <;> exact ⟨rfl, rfl⟩

theorem Axis.major_unitMap (ts : List Tick) (a : Axis) :
    (a.major ts).unitMap = a.unitMap ∧ (a.major ts).autoScale = a.autoScale := by
  induction ts generalizing a with
  | nil => exact ⟨rfl, rfl⟩
  | cons t ts ih =>
    rw [Axis.major]
    exact ⟨(ih _).1.trans (a.autoValue_unitMap t.value).1,
      (ih _).2.trans (a.autoValue_unitMap t.value).2⟩

theorem Axis.minor_unitMap (ts : List Tick) (a : Axis) :
    (a.minor ts).unitMap = a.unitMap ∧ (a.minor ts).autoScale = a.autoScale := by
  induction ts generalizing a with
  | nil => exact ⟨rfl, rfl⟩
  | cons t ts ih =>
    rw [Axis.minor]
    exact ⟨(ih _).1.trans (a.autoValue_unitMap t.value).1,
      (ih _).2.trans (a.autoValue_unitMap t.value).2⟩

theorem Axis.tick_unitMap (ts : List Tick) (a : Axis) :
    (a.tick ts).unitMap = a.unitMap ∧ (a.tick ts).autoScale = a.autoScale := by
  induction ts generalizing a with
  | nil => exact ⟨rfl, rfl⟩
  | cons t ts ih =>
    rw [Axis.tick]
    exact ⟨(ih _).1.trans (a.autoValue_unitMap t.value).1,
      (ih _).2.trans (a.autoValue_unitMap t.value).2⟩

theorem Axis.call_unitMap (a : Axis) (c : AxisCall) :
    (a.call c).unitMap = a.unitMap ∧ (a.call c).autoScale = a.autoScale := by
  cases c with
  | autoValue v => exact a.autoValue_unitMap v
  | major ts => exact Axis.major_unitMap ts a
  | minor ts => exact Axis.minor_unitMap ts a
  | tick ts => exact Axis.tick_unitMap ts a

theorem Axis.calls_unitMap (cs : List AxisCall) (a : Axis) :
    (a.calls cs).unitMap = a.unitMap ∧ (a.calls cs).autoScale = a.autoScale := by
  induction cs generalizing a with
  | nil => exact ⟨rfl, rfl⟩
  | cons c cs ih =>
    have h := ih (a.call c)
    simp only [Axis.calls, List.foldl_cons] at h ⊢
    exact ⟨h.1.trans (a.call_unitMap c).1, h.2.trans (a.call_unitMap c).2⟩

/-- With auto-scaling off, autoValue returns the axis as it was. -/
theorem Axis.autoValue_of_not_autoScale (a : Axis) (v : ℚ) (h : a.autoScale = false) :
    a.autoValue v = a := by
  simp [Axis.autoValue, h]

/-- With auto-scaling off, autoSetup keeps the map. -/
theorem Axis.autoSetup_unitMap_of_not_autoScale (a : Axis) (h : a.autoScale = false) :
    a.autoSetup.unitMap = a.unitMap := by
  unfold Axis.autoSetup
  simp only [h, Bool.false_eq_true, if_false]
  split_ifs
  · exact (Axis.minor_unitMap _ a).1
  · rfl
  · rfl

/-! ### A registered tick value stays inside the accumulated range -/

/-- The countdown loop applies the children's functions last child first:
it is the right fold over the first `n` children. -/
theorem SvgDrawable.writeFrom_eq_foldr {χ : Type} (w : χ → Out → Out) (children : List χ) :
    ∀ (n : Nat) (h : n ≤ children.length) (o : Out),
      SvgDrawable.writeFrom w children n h o = (children.take n).foldr w o := by
  intro n
  induction n with
  | zero => intro h o; simp [SvgDrawable.writeFrom]
  | succ i ih =>
    intro h o
    have hi : i < children.length := h
    have ht : List.take (i + 1) children = List.take i children ++ [children.get ⟨i, hi⟩] := by
      rw [List.take_succ, List.getElem?_eq_getElem hi]
      rfl
    rw [SvgDrawable.writeFrom, ih, ht, List.foldr_append]
    rfl

theorem SvgDrawable.writeData_eq_foldr {χ : Type} (w : χ → Out → Out) (node : SvgDrawable χ)
    (o : Out) : SvgDrawable.writeData w node o = node.children.foldr w o := by
  rw [SvgDrawable.writeData, SvgDrawable.writeFrom_eq_foldr, List.take_length]

theorem SvgDrawable.writeLabel_eq_foldr {χ : Type} (w : χ → Out → Out) (node : SvgDrawable χ)
    (o : Out) : SvgDrawable.writeLabel w node o = node.children.foldr w o := by
  rw [SvgDrawable.writeLabel, SvgDrawable.writeFrom_eq_foldr, List.take_length]

/-- Children that each append a fixed run of markup: the run of the whole loop
is the concatenation of the children's runs, last child first. -/
theorem foldr_append_svg {χ : Type} (f : χ → List Svg) (children : List χ) (o : Out) :
    children.foldr (fun c acc => { acc with svg := acc.svg ++ f c }) o =
      { o with svg := o.svg ++ (children.reverse.map f).flatten } := by
  induction children generalizing o with
  | nil => simp
  | cons c cs ih =>
    rw [List.foldr_cons, ih]
    simp [List.append_assoc]

/-! ### Lines -/

theorem list_empty_eq_nil (l : List Empty) : l = [] := by
  cases l with
  | nil => rfl
  | cons c _ => exact c.elim

/-- A text label writes nothing to the data layer. -/
theorem textLabel_writeData_eq (t : TextLabel) (o : Out) : t.writeData o = o := by
  rw [TextLabel.writeData, SvgDrawable.writeData_eq_foldr, list_empty_eq_nil t.children]
  rfl

/-- A line label writes nothing to the data layer. -/
theorem lineLabel_writeData_eq (c : LineLabel) (o : Out) : c.writeData o = o :=
  textLabel_writeData_eq _ o

/-- The labels of a line write nothing to the data layer. -/
theorem line2D_children_writeData_eq (node : SvgDrawable LineLabel) (o : Out) :
    SvgDrawable.writeData LineLabel.writeData node o = o := by
  rw [SvgDrawable.writeData_eq_foldr]
  induction node.children with
  | nil => rfl
  | cons c cs ih => rw [List.foldr_cons, ih, lineLabel_writeData_eq]

/-- Adding points appends them to the point list and changes nothing else of the line. -/
theorem Line2D.foldl_add (pts : List Point2D) (l : Line2D) (axisX axisY : Axis) :
    (pts.foldl (fun s p => s.1.add s.2.1 s.2.2 p.x p.y) (l, axisX, axisY)).1 =
      { l with points := l.points ++ pts } := by
  induction pts generalizing l axisX axisY with
  | nil => simp
  | cons p ps ih =>
    rw [List.foldl_cons]
    have h := ih (l.add axisX axisY p.x p.y).1 (l.add axisX axisY p.x p.y).2.1
      (l.add axisX axisY p.x p.y).2.2
    rw [h]
    simp [Line2D.add, List.append_assoc]

/-! ### Writing functions only append -/

theorem pureOnly_id (P : Svg → Prop) : PureOnly P (fun o => o) :=
  ⟨[], fun o => by simp, fun e he => by simp at he⟩

theorem pureOnly_put (P : Svg → Prop) (e : Svg) (he : P e) : PureOnly P (fun o => o.put e) :=
  ⟨[e], fun _ => rfl, fun e1 h1 => by rw [List.mem_singleton.mp h1]; exact he⟩

theorem pureOnly_comp {P : Svg → Prop} {W1 W2 : Out → Out} (h1 : PureOnly P W1)
    (h2 : PureOnly P W2) : PureOnly P (fun o => W2 (W1 o)) := by
  obtain ⟨l1, e1, p1⟩ := h1
  obtain ⟨l2, e2, p2⟩ := h2
  refine ⟨l1 ++ l2, fun o => ?_, fun e he => ?_⟩
  · simp only [e1 o, e2, List.append_assoc]
  · rcases List.mem_append.mp he with h | h
    · exact p1 e h
    · exact p2 e h

theorem pureOnly_foldr {χ : Type} {P : Svg → Prop} (w : χ → Out → Out)
    (h : ∀ c, PureOnly P (w c)) (cs : List χ) : PureOnly P (fun o => cs.foldr w o) := by
  induction cs with
  | nil => exact pureOnly_id P
  | cons c cs ih => exact pureOnly_comp ih (h c)

/-- What a pure writing function does to any stream, read off the empty stream. -/
theorem pureOnly_svg {P : Svg → Prop} {W : Out → Out} (h : PureOnly P W) (o : Out) :
    W o = { o with svg := o.svg ++ (W {}).svg } ∧ ∀ e ∈ (W {}).svg, P e := by
  obtain ⟨l, e1, p1⟩ := h
  have h0 : (W {}).svg = l := by rw [e1]; simp
  rw [h0]
  exact ⟨e1 o, p1⟩

theorem pureOnly_congr {P : Svg → Prop} {W W1 : Out → Out} (h : PureOnly P W)
    (heq : ∀ o, W1 o = W o) : PureOnly P W1 := by
  have : W1 = W := funext heq
  rw [this]
  exact h

theorem pureOnly_ite_put (P : Svg → Prop) (c : Prop) [Decidable c] (e : Svg) (he : P e) :
    PureOnly P (fun o => if c then o.put e else o) := by
  by_cases hc : c
  · simp only [hc, if_true]
    exact pureOnly_put P e he
  · simp only [hc, if_false]
    exact pureOnly_id P

theorem pureOnly_foldl {β : Type} {P : Svg → Prop} (g : β → Out → Out)
    (h : ∀ b, PureOnly P (g b)) (bs : List β) :
    PureOnly P (fun o => bs.foldl (fun acc b => g b acc) o) := by
  induction bs with
  | nil => exact pureOnly_id P
  | cons b bs ih => exact pureOnly_comp (h b) ih

/-! ### The label layer, the header and the trailer -/

theorem addLabelsX_ok (x : Axis) (screenY : ℚ) (hx : ∀ v, (x.map v).isSome = true)
    (ts : List Tick) :
    ∀ node : SvgDrawable PlotChild, ∃ node1,
      Plot2D.addLabelsX x screenY ts node = Except.ok node1 ∧
      node1.hasLayout = node.hasLayout ∧
      ∀ c ∈ node1.children, c ∈ node.children ∨ ∃ t, c = PlotChild.label t := by
  induction ts with
  | nil => intro node; exact ⟨node, rfl, rfl, fun c hc => Or.inl hc⟩
  | cons t rest ih =>
    intro node
    by_cases hn : t.name.length ≠ 0
    · obtain ⟨q, hq⟩ := Option.isSome_iff_exists.mp (hx t.value)
      obtain ⟨node1, h1, h2, h3⟩ := ih (node.addChild (PlotChild.label
        (TextLabel.init { x := q, y := screenY } 0 t.name "svg-plot-value" false true)))
      refine ⟨node1, ?_, h2, fun c hc => ?_⟩
      · simp only [Plot2D.addLabelsX, hq, coordinate]
        rw [if_pos hn]
        exact h1
      · rcases h3 c hc with h | h
        · simp only [SvgDrawable.addChild, List.mem_append, List.mem_singleton] at h
          rcases h with h | h
          · exact Or.inl h
          · exact Or.inr ⟨_, h⟩
        · exact Or.inr h
    · obtain ⟨node1, h1, h2, h3⟩ := ih node
      refine ⟨node1, ?_, h2, h3⟩
      simp only [Plot2D.addLabelsX]
      rw [if_neg hn]
      exact h1

theorem addLabelsY_ok (y : Axis) (screenX : ℚ) (hy : ∀ v, (y.map v).isSome = true)
    (ts : List Tick) :
    ∀ (node : SvgDrawable PlotChild) (longest : ℚ), ∃ node1 longest1,
      Plot2D.addLabelsY y screenX ts (node, longest) = Except.ok (node1, longest1) ∧
      node1.hasLayout = node.hasLayout ∧
      ∀ c ∈ node1.children, c ∈ node.children ∨ ∃ t, c = PlotChild.label t := by
  induction ts with
  | nil => intro node longest; exact ⟨node, longest, rfl, rfl, fun c hc => Or.inl hc⟩
  | cons t rest ih =>
    intro node longest
    by_cases hn : t.name.length ≠ 0
    · obtain ⟨q, hq⟩ := Option.isSome_iff_exists.mp (hy t.value)
      obtain ⟨node1, longest1, h1, h2, h3⟩ := ih (node.addChild (PlotChild.label
        (TextLabel.init { x := screenX, y := q } (-1) t.name "svg-plot-value" false true)))
        (std_max longest (estimateUtf8Width t.name))
      refine ⟨node1, longest1, ?_, h2, fun c hc => ?_⟩
      · simp only [Plot2D.addLabelsY, hq, coordinate]
        rw [if_pos hn]
        exact h1
      · rcases h3 c hc with h | h
        · simp only [SvgDrawable.addChild, List.mem_append, List.mem_singleton] at h
          rcases h with h | h
          · exact Or.inl h
          · exact Or.inr ⟨_, h⟩
        · exact Or.inr h
    · obtain ⟨node1, longest1, h1, h2, h3⟩ := ih node longest
      refine ⟨node1, longest1, ?_, h2, h3⟩
      simp only [Plot2D.addLabelsY]
      rw [if_neg hn]
      exact h1

theorem layoutChildren_ok {χ : Type} (childLayout : χ → Except Fault χ)
    (childBounds : χ → Bounds) (cs : List χ)
    (h : ∀ c ∈ cs, ∃ c1, childLayout c = Except.ok c1) :
    ∀ b : Bounds, ∃ r, SvgDrawable.layoutChildren childLayout childBounds cs b = Except.ok r := by
  induction cs with
  | nil => intro b; exact ⟨_, rfl⟩
  | cons c rest ih =>
    intro b
    obtain ⟨c1, hc1⟩ := h c (List.mem_cons_self _ _)
    obtain ⟨r, hr⟩ := ih (fun d hd => h d (List.mem_cons_of_mem _ hd))
      (SvgDrawable.foldBounds b (childBounds c1))
    refine ⟨(c1 :: r.1, r.2), ?_⟩
    simp only [SvgDrawable.layoutChildren, hc1, hr]

theorem lineLabel_layout_ok (libm : CMath) (style : PlotStyle) (x y : Axis)
    (hx : ∀ v, (x.map v).isSome = true) (hy : ∀ v, (y.map v).isSome = true) (c : LineLabel) :
    ∃ c1, LineLabel.layout libm style x y c = Except.ok c1 := by
  obtain ⟨qx, hqx⟩ := Option.isSome_iff_exists.mp (hx c.atPoint.x)
  obtain ⟨qy, hqy⟩ := Option.isSome_iff_exists.mp (hy c.atPoint.y)
  simp only [LineLabel.layout, hqx, hqy, coordinate]
  exact ⟨_, rfl⟩

theorem line2D_layout_ok (libm : CMath) (style : PlotStyle) (x y : Axis)
    (hx : ∀ v, (x.map v).isSome = true) (hy : ∀ v, (y.map v).isSome = true) (l : Line2D)
    (hl : l.hasLayout = false) :
    ∃ l1, Line2D.layout libm style x y l = Except.ok l1 := by
  obtain ⟨r, hr⟩ := layoutChildren_ok (LineLabel.layout libm style x y) (fun c => c.bounds)
    l.children (fun c _ => lineLabel_layout_ok libm style x y hx hy c) l.bounds
  simp only [Line2D.layout, SvgDrawable.layout, hl, hr]
  exact ⟨_, rfl⟩

/-- The layout of a plot returns whenever the plot was not laid out before,
none of its lines was, and both axis maps are defined after autoSetup. -/
theorem plot2D_layout_ok (libm : CMath) (style : PlotStyle) (p : Plot2D)
    (hp : p.hasLayout = false)
    (hx : ∀ v, (p.x.autoSetup.map v).isSome = true)
    (hy : ∀ v, (p.y.autoSetup.map v).isSome = true)
    (hc : ∀ l, PlotChild.line l ∈ p.children → l.hasLayout = false) :
    ∃ p1, Plot2D.layout libm style p = Except.ok p1 := by
  obtain ⟨node1, h1, h1l, h1c⟩ := addLabelsX_ok p.x.autoSetup
    (p.y.autoSetup.drawMax + style.tickV + style.valueSize * 0.5 + style.textPadding) hx
    p.x.autoSetup.ticks p.toSvgDrawable
  -- the node after the optional x axis label
  have h2 : ∀ extra : PlotChild, (∃ t, extra = PlotChild.label t) → ∀ c ∈
      (if p.x.autoSetup.label.length ≠ 0 then node1.addChild extra else node1).children,
      c ∈ p.children ∨ ∃ t, c = PlotChild.label t := by
    intro extra hex c hcm
    split_ifs at hcm
    · simp only [SvgDrawable.addChild, List.mem_append, List.mem_singleton] at hcm
      rcases hcm with h | h
      · exact h1c c h
      · exact Or.inr (h ▸ hex)
    · exact h1c c hcm
  have h2l : ∀ extra : PlotChild,
      (if p.x.autoSetup.label.length ≠ 0 then node1.addChild extra else node1).hasLayout
        = false := by
    intro extra
    split_ifs
    · exact h1l.trans hp
    · exact h1l.trans hp
  obtain ⟨node3, longest, h3, h3l, h3c⟩ := addLabelsY_ok p.y.autoSetup
    (p.x.autoSetup.drawMin - style.tickH - style.textPadding) hy p.y.autoSetup.ticks
    (if p.x.autoSetup.label.length ≠ 0 then
      node1.addChild (PlotChild.label (TextLabel.init
        { x := (p.x.autoSetup.drawMax + p.x.autoSetup.drawMin) * 0.5,
          y := p.y.autoSetup.drawMax + style.tickV + style.valueSize * 0.5 + style.textPadding
            + (style.labelSize + style.valueSize) * 0.5 } 0 p.x.autoSetup.label
        "svg-plot-label" false true))
     else node1) 0
  have h4 : ∀ extra : PlotChild, (∃ t, extra = PlotChild.label t) → ∀ c ∈
      (if p.y.autoSetup.label.length ≠ 0 then node3.addChild extra else node3).children,
      ∃ c1, PlotChild.layout libm style p.x.autoSetup p.y.autoSetup c = Except.ok c1 := by
    intro extra hex c hcm
    have hcases : c ∈ p.children ∨ ∃ t, c = PlotChild.label t := by
      split_ifs at hcm
      · simp only [SvgDrawable.addChild, List.mem_append, List.mem_singleton] at hcm
        rcases hcm with h | h
        · rcases h3c c h with h5 | h5
          · exact h2 _ ⟨_, rfl⟩ c h5
          · exact Or.inr h5
        · exact Or.inr (h ▸ hex)
      · rcases h3c c hcm with h5 | h5
        · exact h2 _ ⟨_, rfl⟩ c h5
        · exact Or.inr h5
    rcases hcases with h | ⟨t, ht⟩
    · cases c with
      | line l =>
        obtain ⟨l1, hl1⟩ := line2D_layout_ok libm style _ _ hx hy l (hc l h)
        exact ⟨PlotChild.line l1, by simp only [PlotChild.layout, hl1]⟩
      | label t => exact ⟨_, rfl⟩
    · rw [ht]
      exact ⟨_, rfl⟩
  have h4l : ∀ extra : PlotChild,
      (if p.y.autoSetup.label.length ≠ 0 then node3.addChild extra else node3).hasLayout
        = false := by
    intro extra
    split_ifs
    · exact h3l.trans (h2l _)
    · exact h3l.trans (h2l _)
  obtain ⟨r, hr⟩ := layoutChildren_ok (PlotChild.layout libm style p.x.autoSetup p.y.autoSetup)
    PlotChild.bounds _ (h4 (PlotChild.label (TextLabel.init
      { x := p.x.autoSetup.drawMin - style.tickH - style.textPadding
          - style.textPadding * 1.5 - longest * style.valueSize,
        y := (p.y.autoSetup.drawMax + p.y.autoSetup.drawMin) * 0.5 }
      0 p.y.autoSetup.label "svg-plot-label" true true)) ⟨_, rfl⟩)
    (Bounds.init (p.x.autoSetup.drawMin - style.tickH) (p.x.autoSetup.drawMax + style.tickH)
      (p.y.autoSetup.drawMin - style.tickV) (p.y.autoSetup.drawMax + style.tickV))
  simp only [Plot2D.layout, h1, h3, SvgDrawable.layout, h4l, hr]
  exact ⟨_, rfl⟩

/-- A second autoSetup changes nothing. -/
theorem autoSetup_autoSetup (a : Axis) : a.autoSetup.autoSetup = a.autoSetup := by
  cases hv : a.hasAutoValue
  · simp [Axis.autoSetup, hv]
  · cases hs : a.autoScale <;> cases hl : a.autoLabel <;>
      simp [Axis.autoSetup, hv, hs, hl, Axis.linear, Axis.range, Axis.minor, Axis.autoValue]

/-! ### Tick ranges -/

/-- The ascending loop with a positive step visits t, t + step, ... up to the
last such value that does not exceed the end, in that order, and returns when
the fuel allows one test more than the number of values. -/
theorem rangeUp_eq (body : Axis → Int → Axis) (end_ step : Int) (hs : 0 < step) (n : Nat) :
    ∀ (t : Int) (a : Axis) (fuel : Nat), t + n * step ≤ end_ → end_ < t + (n + 1) * step →
      n + 2 ≤ fuel →
      Axis.rangeUp body fuel t end_ step a
        = some ((List.range (n + 1)).foldl (fun (acc : Axis) (i : Nat) => body acc (t + (i : Int) * step)) a) := by
  induction n with
  | zero =>
    intro t a fuel h1 h2 hf
    obtain ⟨f, rfl⟩ : ∃ f, fuel = f + 2 := ⟨fuel - 2, by omega⟩
    have ht : t ≤ end_ := by simpa using h1
    have ht2 : ¬ t + step ≤ end_ := by
      have : end_ < t + step := by simpa using h2
      omega
    simp [Axis.rangeUp, ht, ht2, List.range_succ]
  | succ n ih =>
    intro t a fuel h1 h2 hf
    obtain ⟨f, rfl⟩ : ∃ f, fuel = f + 1 := ⟨fuel - 1, by omega⟩
    have hn : (0 : Int) ≤ (n : Int) * step := by positivity
    have ht : t ≤ end_ := by push_cast at h1; nlinarith
    have h1' : (t + step) + n * step ≤ end_ := by push_cast at h1; linarith
    have h2' : end_ < (t + step) + (n + 1) * step := by push_cast at h2; linarith
    rw [Axis.rangeUp, if_pos ht, ih (t + step) (body a t) f h1' h2' (by omega)]
    rw [List.range_succ_eq_map (n + 1), List.foldl_cons, List.foldl_map]
    congr 1
    simp only [Nat.cast_zero, zero_mul, add_zero]
    congr 1
    funext acc i
    congr 1
    push_cast
    ring

/-- The descending loop entered below its bound runs no iteration. -/
theorem rangeDown_of_lt (body : Axis → Int → Axis) (fuel : Nat) (t start step : Int) (a : Axis)
    (h : t < start) : Axis.rangeDown body (fuel + 1) t start step a = some a := by
  have h2 : ¬ t ≥ start := by omega
  rw [Axis.rangeDown, if_neg h2]

theorem majorAt_eq_call (useLabels : Bool) (a : Axis) (t : Int) :
    Axis.majorAt useLabels a t = a.call (AxisCall.major [Axis.rangeTick useLabels t]) := by
  cases useLabels <;> rfl

theorem minorAt_eq_call (useLabels : Bool) (a : Axis) (t : Int) :
    Axis.minorAt useLabels a t = a.call (AxisCall.minor [Axis.rangeTick useLabels t]) := by
  cases useLabels <;> rfl

theorem tickAt_eq_call (useLabels : Bool) (a : Axis) (t : Int) :
    Axis.tickAt useLabels a t = a.call (AxisCall.tick [Axis.rangeTick useLabels t]) := by
  cases useLabels <;> rfl

/-- A loop whose body is one call is the sequence of those calls. -/
theorem foldl_body_eq_calls (body : Axis → Int → Axis) (mk : Int → AxisCall)
    (h : ∀ a t, body a t = a.call (mk t)) (f : Nat → Int) (is : List Nat) (a : Axis) :
    is.foldl (fun (acc : Axis) (i : Nat) => body acc (f i)) a
      = a.calls (is.map fun i => mk (f i)) := by
  simp only [Axis.calls, List.foldl_map, h]

/-- An ascending range member with a non-zero step is the sequence of its
registration calls at start, start + |step|, ..., the last value not above end. -/
theorem range_up_eq_calls (body : Axis → Int → Axis) (mk : Int → AxisCall)
    (h : ∀ a t, body a t = a.call (mk t)) (fuel : Nat) (a : Axis) (start end_ step : Int)
    (hstep : step ≠ 0) (n : Nat) (h1 : start + n * |step| ≤ end_)
    (h2 : end_ < start + (n + 1) * |step|) (hf : n + 2 ≤ fuel) :
    Axis.rangeUp body fuel start end_ |step| a
      = some (a.calls ((List.range (n + 1)).map fun (i : Nat) => mk (start + (i : Int) * |step|))) := by
  rw [rangeUp_eq body end_ |step| (abs_pos.mpr hstep) n start a fuel h1 h2 hf,
    foldl_body_eq_calls body mk h]

/-! ### Style classes -/

/-- The numeral that a style lookup appends, for a non-negative index and a
non-empty table of length n: that of a natural number below n. -/
theorem styleIndex_mod (k : Int) (n : Nat) (hn : n ≠ 0) :
    to_string_int (k % (n : Int)) = toString (k % (n : Int)).toNat ∧
    (k % (n : Int)).toNat < n ∧ (k + (n : Int)) % (n : Int) = k % (n : Int) := by
  have hn' : (0 : Int) < (n : Int) := by exact_mod_cast Nat.pos_of_ne_zero hn
  have h0 : 0 ≤ k % (n : Int) := Int.emod_nonneg k (ne_of_gt hn')
  have h1 : k % (n : Int) < (n : Int) := Int.emod_lt_of_pos k hn'
  refine ⟨?_, ?_, Int.add_emod_self⟩
  · conv_lhs => rw [← Int.toNat_of_nonneg h0]
    rfl
  · omega

theorem dot_append (p s : String) : "." ++ (p ++ s) = ("." ++ p) ++ s :=
  (String.append_assoc _ _ _).symm

theorem mem_cssSelectors_of_rule (libm : CMath) (style : PlotStyle) (r : Css) (sel : String)
    (hr : r ∈ style.cssColours ∨ r ∈ style.cssDashes ∨ r ∈ style.cssHatches libm)
    (hs : sel ∈ r.selectors) : sel ∈ style.cssSelectors libm := by
  refine List.mem_flatMap.mpr ⟨r, ?_, hs⟩
  simp only [PlotStyle.css, List.mem_append]
  rcases hr with h | h | h
  · exact Or.inl (Or.inl (Or.inl (Or.inl (Or.inr h))))
  · exact Or.inl (Or.inl (Or.inl (Or.inr h)))
  · exact Or.inl (Or.inl (Or.inr h))

theorem mem_cssSelectors_stroke (libm : CMath) (style : PlotStyle) (i : Nat)
    (hi : i < style.colours.length) :
    ".svg-plot-s" ++ toString i ∈ style.cssSelectors libm ∧
    ".svg-plot-f" ++ toString i ∈ style.cssSelectors libm := by
  constructor
  · refine mem_cssSelectors_of_rule libm style
      (Css.rule [".svg-plot-s" ++ toString i]
        [("stroke", CssValue.text (style.colours.getD i ""))]) _ (Or.inl ?_)
      (List.mem_cons_self _ _)
    exact List.mem_flatMap.mpr ⟨i, List.mem_range.mpr hi, List.mem_cons_self _ _⟩
  · refine mem_cssSelectors_of_rule libm style
      (Css.rule [".svg-plot-f" ++ toString i, ".svg-plot-t" ++ toString i]
        [("fill", CssValue.text (style.colours.getD i ""))]) _ (Or.inl ?_)
      (List.mem_cons_self _ _)
    exact List.mem_flatMap.mpr ⟨i, List.mem_range.mpr hi,
      List.mem_cons_of_mem _ (List.mem_cons_self _ _)⟩

theorem mem_cssSelectors_dash (libm : CMath) (style : PlotStyle) (i : Nat)
    (hi : i < style.dashes.length) :
    ".svg-plot-d" ++ toString i ∈ style.cssSelectors libm := by
  refine mem_cssSelectors_of_rule libm style _ _
    (Or.inr (Or.inl (List.mem_map.mpr ⟨i, List.mem_range.mpr hi, rfl⟩))) ?_
  simp only []
  split_ifs <;> exact List.mem_cons_self _ _

theorem mem_cssSelectors_hatch (libm : CMath) (style : PlotStyle) (i : Nat)
    (hi : i < style.hatches.length) :
    ".svg-plot-h" ++ toString i ∈ style.cssSelectors libm := by
  refine mem_cssSelectors_of_rule libm style _ _
    (Or.inr (Or.inr (List.mem_map.mpr ⟨i, List.mem_range.mpr hi, rfl⟩))) ?_
  simp only []
  split_ifs <;> exact List.mem_cons_self _ _

/-! ### The closest point -/

theorem utf8EncodeChar_ascii (c : Char) (h : c.toNat < 128) :
    String.utf8EncodeChar c = [c.val.toUInt8] ∧ (c.val.toUInt8).toNat = c.toNat := by
  have h1 : c.val.toNat < 128 := h
  have h2 : c.val ≤ 0x7f := by
    show c.val.toNat ≤ 127
    omega
  constructor
  · simp [String.utf8EncodeChar, h2]
  · show (c.val.toNat.toUInt8).toNat = c.val.toNat
    simp [Nat.toUInt8, UInt8.toNat, UInt8.ofNat, Fin.ofNat]
    omega

/-- The chars that the width loop reads from a string of ASCII characters are
the code points of the string. -/
theorem utf8Chars_ascii (cs : List Char) (h : ∀ c ∈ cs, c.toNat < 128) :
    utf8Chars (String.mk cs) = cs.map fun c => (c.toNat : Int) := by
  induction cs with
  | nil => rfl
  | cons c cs ih =>
    have hc := utf8EncodeChar_ascii c (h c (List.mem_cons_self _ _))
    have ih' := ih (fun d hd => h d (List.mem_cons_of_mem _ hd))
    simp only [utf8Chars, List.flatMap_cons, List.map_append, List.map_cons] at ih' ⊢
    rw [ih', hc.1]
    simp only [List.map_cons, List.map_nil, List.singleton_append, hc.2]
    have : c.toNat < 128 := h c (List.mem_cons_self _ _)
    simp [this]

theorem foldl_add_eq_sum {β : Type} (f : β → ℚ) (l : List β) (init : ℚ) :
    l.foldl (fun total c => total + f c) init = init + (l.map f).sum := by
  induction l generalizing init with
  | nil => simp
  | cons c l ih => rw [List.foldl_cons, ih, List.map_cons, List.sum_cons, add_assoc]

/-- On a string of printable ASCII characters the estimate is the sum of the
widths of its code points. -/
theorem estimateUtf8Width_ascii (cs : List Char)
    (h : ∀ c ∈ cs, 32 ≤ c.toNat ∧ c.toNat < 127) :
    estimateUtf8Width (String.mk cs)
      = (cs.map fun c => estimateCharWidth (c.toNat : Int)).sum := by
  have h1 : ∀ c ∈ cs, c.toNat < 128 := fun c hc => by have := (h c hc).2; omega
  rw [estimateUtf8Width, utf8Chars_ascii cs h1]
  have h2 : (cs.map fun c => (c.toNat : Int)).takeWhile (fun c => c != 0)
      = cs.map fun c => (c.toNat : Int) := by
    apply List.takeWhile_eq_self_iff.mpr
    intro x hx
    obtain ⟨c, hc, rfl⟩ := List.mem_map.mp hx
    have := (h c hc).1
    simp only [bne_iff_ne, ne_eq]
    omega
  rw [h2, foldl_add_eq_sum, zero_add, List.map_map]
  rfl

/-! ### Escaping -/

theorem foldl_append_data (l : List String) (acc : String) :
    (l.foldl (fun r s => r ++ s) acc).data = acc.data ++ l.flatMap String.data := by
  induction l generalizing acc with
  | nil => simp
  | cons s l ih => rw [List.foldl_cons, ih, String.data_append, List.flatMap_cons,
      List.append_assoc]

theorem join_data (l : List String) : (String.join l).data = l.flatMap String.data := by
  rw [String.join, foldl_append_data]
  rfl

/-- The characters that escape writes: the pieces of the characters of the
string up to its first zero character. -/
theorem escape_data (s : String) :
    (SvgDrawable.escape s).data
      = (s.data.takeWhile fun c => c != Char.ofNat 0).flatMap escapePiece := by
  rw [SvgDrawable.escape, join_data, List.flatMap_map]
  congr 1
  funext c
  simp only [escapePiece]
  split_ifs <;> rfl

theorem escapePiece_no_special (c : Char) :
    ∀ d ∈ escapePiece c, d ≠ '<' ∧ d ≠ Char.ofNat 34 := by
  intro d hd
  unfold escapePiece at hd
  split_ifs at hd with h1 h2 h3
  · simp only [List.mem_cons, List.mem_singleton, List.not_mem_nil, or_false] at hd
    rcases hd with h | h | h | h <;> rw [h] <;> decide
  · simp only [List.mem_cons, List.mem_singleton, List.not_mem_nil, or_false] at hd
    rcases hd with h | h | h | h | h <;> rw [h] <;> decide
  · simp only [List.mem_cons, List.mem_singleton, List.not_mem_nil, or_false] at hd
    rcases hd with h | h | h | h | h | h <;> rw [h] <;> decide
  · rw [List.mem_singleton.mp hd]
    exact ⟨h1, h3⟩

theorem entitiesOk_escapePiece (c : Char) (out : List Char) (h : entitiesOk out = true) :
    entitiesOk (escapePiece c ++ out) = true := by
  unfold escapePiece
  split_ifs with h1 h2 h3
  · simp [entitiesOk, h]
  · simp [entitiesOk, h]
  · simp [entitiesOk, h]
  · simp [entitiesOk, h2, h]

theorem decodeEntities_escapePiece (c : Char) (out : List Char) :
    decodeEntities (escapePiece c ++ out) = c :: decodeEntities out := by
  unfold escapePiece
  split_ifs with h1 h2 h3
  · simp [decodeEntities, h1]
  · simp [decodeEntities, h2]
  · simp [decodeEntities, h3]
  · rw [List.singleton_append, decodeEntities]
    all_goals simp [h2]

theorem entitiesOk_flatMap (l : List Char) : entitiesOk (l.flatMap escapePiece) = true := by
  induction l with
  | nil => rfl
  | cons c l ih => rw [List.flatMap_cons]; exact entitiesOk_escapePiece c _ ih

theorem decodeEntities_flatMap (l : List Char) : decodeEntities (l.flatMap escapePiece) = l := by
  induction l with
  | nil => simp [decodeEntities]
  | cons c l ih => rw [List.flatMap_cons, decodeEntities_escapePiece, ih]

theorem takeWhile_of_all {β : Type} (p : β → Bool) (l : List β) (h : ∀ c ∈ l, p c = true) :
    l.takeWhile p = l :=
  List.takeWhile_eq_self_iff.mpr h

/-! ### The box of a plot -/

theorem addLabelsX_hasLayout (x : Axis) (screenY : ℚ) (ts : List Tick) :
    ∀ node node1 : SvgDrawable PlotChild,
      Plot2D.addLabelsX x screenY ts node = Except.ok node1 →
      node1.hasLayout = node.hasLayout := by
  induction ts with
  | nil =>
    intro node node1 h
    simp only [Plot2D.addLabelsX, Except.ok.injEq] at h
    rw [h]
  | cons t rest ih =>
    intro node node1 h
    rw [Plot2D.addLabelsX] at h
    split_ifs at h with hn
    · split at h
      · exact absurd h (by simp)
      · exact (ih _ _ h).trans rfl
    · exact ih _ _ h

theorem addLabelsY_hasLayout (y : Axis) (screenX : ℚ) (ts : List Tick) :
    ∀ (node node1 : SvgDrawable PlotChild) (longest longest1 : ℚ),
      Plot2D.addLabelsY y screenX ts (node, longest) = Except.ok (node1, longest1) →
      node1.hasLayout = node.hasLayout := by
  induction ts with
  | nil =>
    intro node node1 longest longest1 h
    simp only [Plot2D.addLabelsY, Except.ok.injEq, Prod.mk.injEq] at h
    rw [h.1]
  | cons t rest ih =>
    intro node node1 longest longest1 h
    rw [Plot2D.addLabelsY] at h
    split_ifs at h with hn
    · split at h
      · exact absurd h (by simp)
      · exact (ih _ _ _ _ h).trans rfl
    · exact ih _ _ _ _ h

/-- What a returned base layout tells: the node was not laid out before, it is
now, and its children and box come out of the loop over its children. -/
theorem svgDrawable_layout_inv {χ : Type} (childLayout : χ → Except Fault χ)
    (childBounds : χ → Bounds) (node node1 : SvgDrawable χ)
    (h : SvgDrawable.layout childLayout childBounds node = Except.ok node1) :
    node.hasLayout = false ∧ node1.hasLayout = true ∧
    SvgDrawable.layoutChildren childLayout childBounds node.children node.bounds
      = Except.ok (node1.children, node1.bounds) := by
  unfold SvgDrawable.layout at h
  cases hl : node.hasLayout
  · rw [hl] at h
    simp only [Bool.false_eq_true, if_false] at h
    split at h
    · exact absurd h (by simp)
    · rename_i cs bs hcs
      simp only [Except.ok.injEq] at h
      subst h
      exact ⟨rfl, rfl, hcs⟩
  · rw [hl] at h
    exact absurd h (by simp)

theorem addLabelsX_keeps_children (x : Axis) (screenY : ℚ) (ts : List Tick) :
    ∀ node node1 : SvgDrawable PlotChild,
      Plot2D.addLabelsX x screenY ts node = Except.ok node1 →
      node.children <+: node1.children := by
  induction ts with
  | nil =>
    intro node node1 h
    simp only [Plot2D.addLabelsX, Except.ok.injEq] at h
    rw [h]
  | cons t rest ih =>
    intro node node1 h
    rw [Plot2D.addLabelsX] at h
    split_ifs at h with hn
    · split at h
      · exact absurd h (by simp)
      · exact (List.prefix_append _ _).trans (ih _ _ h)
    · exact ih _ _ h

theorem addLabelsY_keeps_children (y : Axis) (screenX : ℚ) (ts : List Tick) :
    ∀ (node node1 : SvgDrawable PlotChild) (longest longest1 : ℚ),
      Plot2D.addLabelsY y screenX ts (node, longest) = Except.ok (node1, longest1) →
      node.children <+: node1.children := by
  induction ts with
  | nil =>
    intro node node1 longest longest1 h
    simp only [Plot2D.addLabelsY, Except.ok.injEq, Prod.mk.injEq] at h
    rw [h.1]
  | cons t rest ih =>
    intro node node1 longest longest1 h
    rw [Plot2D.addLabelsY] at h
    split_ifs at h with hn
    · split at h
      · exact absurd h (by simp)
      · exact (List.prefix_append _ _).trans (ih _ _ _ _ h)
    · exact ih _ _ _ _ h

/-- The loop of the layout returns the laid-out children, one for each child
and in the same order. -/
theorem layoutChildren_forall₂ {χ : Type} (childLayout : χ → Except Fault χ)
    (childBounds : χ → Bounds) (cs : List χ) :
    ∀ (b : Bounds) (r : List χ × Bounds),
      SvgDrawable.layoutChildren childLayout childBounds cs b = Except.ok r →
      List.Forall₂ (fun c c1 => childLayout c = Except.ok c1) cs r.1 := by
  induction cs with
  | nil =>
    intro b r h
    simp only [SvgDrawable.layoutChildren, Except.ok.injEq] at h
    subst h
    exact List.Forall₂.nil
  | cons c rest ih =>
    intro b r h
    rw [SvgDrawable.layoutChildren] at h
    cases hc : childLayout c with
    | error e => rw [hc] at h; exact absurd h (by simp)
    | ok c1 =>
      rw [hc] at h
      simp only at h
      cases hr : SvgDrawable.layoutChildren childLayout childBounds rest
          (SvgDrawable.foldBounds b (childBounds c1)) with
      | error e => rw [hr] at h; exact absurd h (by simp)
      | ok r1 =>
        rw [hr] at h
        simp only [Except.ok.injEq] at h
        subst h
        exact List.Forall₂.cons hc (ih _ r1 hr)

/-- What a returned layout of a plot tells: the plot was not laid out before,
it is now, its axes are the old ones after autoSetup, and its children and box
come out of the loop over a list of children that starts with the children
the plot had, entered with the axis rectangle expanded by the tick lengths. -/
theorem plot2D_layout_inv (libm : CMath) (style : PlotStyle) (p p1 : Plot2D)
    (h : Plot2D.layout libm style p = Except.ok p1) :
    p.hasLayout = false ∧ p1.hasLayout = true ∧
    p1.x = p.x.autoSetup ∧ p1.y = p.y.autoSetup ∧ p1.styleIndex = p.styleIndex ∧
    ∃ cs0, p.children <+: cs0 ∧ SvgDrawable.layoutChildren
        (PlotChild.layout libm style p.x.autoSetup p.y.autoSetup) PlotChild.bounds cs0
        (Plot2D.axisBox style p.x.autoSetup p.y.autoSetup)
      = Except.ok (p1.children, p1.bounds) := by
  unfold Plot2D.layout at h
  simp only at h
  split at h
  · exact absurd h (by simp)
  · rename_i node1 h1
    split at h
    · exact absurd h (by simp)
    · rename_i node3 longest h3
      split at h
      · exact absurd h (by simp)
      · rename_i node6 h6
        simp only [Except.ok.injEq] at h
        subst h
        obtain ⟨k1, k2, k3⟩ := svgDrawable_layout_inv _ _ _ _ h6
        have h1l := addLabelsX_hasLayout _ _ _ _ _ h1
        have h3l := addLabelsY_hasLayout _ _ _ _ _ _ _ h3
        have h1p := addLabelsX_keeps_children _ _ _ _ _ h1
        have h3p := addLabelsY_keeps_children _ _ _ _ _ _ _ h3
        refine ⟨?_, k2, rfl, rfl, rfl, _, ?_, k3⟩
        · have e3 : node3.hasLayout = false := by
            split_ifs at k1 <;> simpa [SvgDrawable.addChild] using k1
          rw [← h1l]
          rw [e3] at h3l
          split_ifs at h3l <;> simpa [SvgDrawable.addChild] using h3l.symm
        · have p2 : p.children <+: node3.children := by
            refine List.IsPrefix.trans ?_ h3p
            split_ifs
            · exact h1p.trans (List.prefix_append _ _)
            · exact h1p
          show p.children <+: (if _ then _ else _ : SvgDrawable PlotChild).children
          split_ifs
          · exact p2.trans (List.prefix_append _ _)
          · exact p2

/-! ### The parts of the data layer of a plot -/

theorem line2D_writeData_paths (style : PlotStyle) (axisX axisY : Axis) (l : Line2D) :
    PureOnly Svg.IsPath (Line2D.writeData style axisX axisY l) := by
  have hfill := pureOnly_ite_put Svg.IsPath (l._drawFill = true)
    (Svg.path
      ("svg-plot-fill " ++ style.fillClass l.styleIndex ++ " "
        ++ style.hatchClass l.styleIndex)
      (Line2D.mapped axisX axisY l.points ++
        (if l.hasFillToX then
          [(axisX.map l.fillTo.x, l.points.getLast?.bind fun p => axisY.map p.y),
           (axisX.map l.fillTo.x, l.points.head?.bind fun p => axisY.map p.y)]
        else if l.hasFillToY then
          [(l.points.getLast?.bind fun p => axisX.map p.x, axisY.map l.fillTo.y),
           (l.points.head?.bind fun p => axisX.map p.x, axisY.map l.fillTo.y)]
        else []))) ⟨_, _, rfl⟩
  have hline := pureOnly_ite_put Svg.IsPath (l._drawLine = true)
    (Svg.path
      ("svg-plot-line " ++ style.strokeClass l.styleIndex ++ " "
        ++ style.dashClass l.styleIndex)
      (Line2D.mapped axisX axisY l.points)) ⟨_, _, rfl⟩
  refine pureOnly_congr (pureOnly_comp hfill hline) (fun o => ?_)
  simp only [Line2D.writeData, line2D_children_writeData_eq]

theorem plotChild_writeData_paths (style : PlotStyle) (x y : Axis) (c : PlotChild) :
    PureOnly Svg.IsPath (PlotChild.writeData style x y c) := by
  cases c with
  | line l => exact line2D_writeData_paths style x y l
  | label t => exact pureOnly_congr (pureOnly_id _) (fun o => textLabel_writeData_eq t o)

/-- The children of a plot put only `path` elements in the data layer. -/
theorem plot2D_childrenData_paths (style : PlotStyle) (p : Plot2D) :
    PureOnly Svg.IsPath
      (SvgDrawable.writeData (PlotChild.writeData style p.x p.y) p.toSvgDrawable) :=
  pureOnly_congr (pureOnly_foldr _ (plotChild_writeData_paths style p.x p.y) p.children)
    (fun o => SvgDrawable.writeData_eq_foldr _ _ o)

/-- The two loops over the ticks put only `line` elements on the stream. -/
theorem plot2D_gridLines_lines (style : PlotStyle) (p : Plot2D) :
    PureOnly Svg.IsLine (fun o : Out =>
      p.y.ticks.foldl (fun acc t => Plot2D.gridLineY p.x p.y t acc)
        (p.x.ticks.foldl (fun acc t => Plot2D.gridLineX style p.x p.y t acc) o)) :=
  pureOnly_comp
    (pureOnly_foldl _ (fun _ => pureOnly_ite_put Svg.IsLine _ _ ⟨_, _, _, _, _, rfl⟩) p.x.ticks)
    (pureOnly_foldl _ (fun _ => pureOnly_ite_put Svg.IsLine _ _ ⟨_, _, _, _, _, rfl⟩) p.y.ticks)

/-- The data layer of a plot, piece by piece. -/
theorem plot2D_dataLayer_eq (rand : Nat → Nat) (style : PlotStyle) (p : Plot2D) (k : Nat) :
    Plot2D.dataLayer rand style p k
      = Svg.rect "svg-plot-axis" p.x.drawMin p.y.drawMin p.x.drawSize p.y.drawSize
        :: (Plot2D.gridLines style p
          ++ [Svg.clipPath (rand k) (p.x.drawMin - style.lineWidth * 0.5)
                (p.y.drawMin - style.lineWidth * 0.5) (p.x.drawSize + style.lineWidth * 0.5 * 2)
                (p.y.drawSize + style.lineWidth * 0.5 * 2),
              Svg.gOpen (some ("url(#clip" ++ toString (rand k)))]
          ++ Plot2D.childrenData style p ++ [Svg.gClose]) := by
  have hG := fun o => (pureOnly_svg (plot2D_gridLines_lines style p) o).1
  have hC := fun o => (pureOnly_svg (plot2D_childrenData_paths style p) o).1
  simp only [Plot2D.dataLayer, Plot2D.writeData, Plot2D.gridLines, Plot2D.childrenData]
  rw [hC]
  simp only [Out.put]
  rw [hG]
  simp

/-! ### Layout at most once -/

/-- A write returns exactly when its layout step does, with the same node. -/
theorem svgFileDrawable_write_ok_iff {α : Type} (libm : CMath)
    (layoutIfNeeded : α → Except Fault α) (bounds : α → Bounds)
    (writeData writeLabel : α → Out → Out) (style : PlotStyle) (self self1 : α) (o : Out) :
    (∃ o1, SvgFileDrawable.write libm layoutIfNeeded bounds writeData writeLabel style self o
        = Except.ok (self1, o1))
      ↔ layoutIfNeeded self = Except.ok self1 := by
  unfold SvgFileDrawable.write
  cases h : layoutIfNeeded self with
  | error e => simp
  | ok s =>
    simp only [Except.ok.injEq, Prod.mk.injEq]
    constructor
    · rintro ⟨_, h1, _⟩
      exact h1
    · intro h1
      exact ⟨_, h1, rfl⟩

/-- A write fails exactly as its layout step does. -/
theorem svgFileDrawable_write_error {α : Type} (libm : CMath)
    (layoutIfNeeded : α → Except Fault α) (bounds : α → Bounds)
    (writeData writeLabel : α → Out → Out) (style : PlotStyle) (self : α) (o : Out) (e : Fault)
    (h : layoutIfNeeded self = Except.error e) :
    SvgFileDrawable.write libm layoutIfNeeded bounds writeData writeLabel style self o
      = Except.error e := by
  unfold SvgFileDrawable.write
  rw [h]

/-- The layout of a plot that was laid out before reaches the assertion, when
both axis maps are defined after autoSetup. -/
theorem plot2D_layout_again (libm : CMath) (style : PlotStyle) (p : Plot2D)
    (hp : p.hasLayout = true)
    (hx : ∀ v, (p.x.autoSetup.map v).isSome = true)
    (hy : ∀ v, (p.y.autoSetup.map v).isSome = true) :
    Plot2D.layout libm style p = Except.error Fault.assertion := by
  obtain ⟨node1, h1, h1l, _⟩ := addLabelsX_ok p.x.autoSetup
    (p.y.autoSetup.drawMax + style.tickV + style.valueSize * 0.5 + style.textPadding) hx
    p.x.autoSetup.ticks p.toSvgDrawable
  have h2l : ∀ extra : PlotChild,
      (if p.x.autoSetup.label.length ≠ 0 then node1.addChild extra else node1).hasLayout
        = true := by
    intro extra
    split_ifs
    · exact h1l.trans hp
    · exact h1l.trans hp
  obtain ⟨node3, longest, h3, h3l, _⟩ := addLabelsY_ok p.y.autoSetup
    (p.x.autoSetup.drawMin - style.tickH - style.textPadding) hy p.y.autoSetup.ticks
    (if p.x.autoSetup.label.length ≠ 0 then
      node1.addChild (PlotChild.label (TextLabel.init
        { x := (p.x.autoSetup.drawMax + p.x.autoSetup.drawMin) * 0.5,
          y := p.y.autoSetup.drawMax + style.tickV + style.valueSize * 0.5 + style.textPadding
            + (style.labelSize + style.valueSize) * 0.5 } 0 p.x.autoSetup.label
        "svg-plot-label" false true))
     else node1) 0
  have h4l : ∀ extra : PlotChild,
      (if p.y.autoSetup.label.length ≠ 0 then node3.addChild extra else node3).hasLayout
        = true := by
    intro extra
    split_ifs
    · exact h3l.trans (h2l _)
    · exact h3l.trans (h2l _)
  simp only [Plot2D.layout, h1, h3, SvgDrawable.layout, h4l, if_true]

/-- The loop of the layout stops with the fault of the first child whose
layout fails. -/
theorem layoutChildren_error_at {χ : Type} (childLayout : χ → Except Fault χ)
    (childBounds : χ → Bounds) (e : Fault) (c : χ) (post : List χ)
    (hc : childLayout c = Except.error e) (pre : List χ)
    (hpre : ∀ d ∈ pre, ∃ d1, childLayout d = Except.ok d1) :
    ∀ b : Bounds,
      SvgDrawable.layoutChildren childLayout childBounds (pre ++ c :: post) b
        = Except.error e := by
  induction pre with
  | nil =>
    intro b
    simp only [List.nil_append, SvgDrawable.layoutChildren, hc]
  | cons d rest ih =>
    intro b
    obtain ⟨d1, hd1⟩ := hpre d (List.mem_cons_self _ _)
    have := ih (fun x hx => hpre x (List.mem_cons_of_mem _ hx))
      (SvgDrawable.foldBounds b (childBounds d1))
    rw [List.cons_append, SvgDrawable.layoutChildren, hd1]
    simp only
    rw [this]

/-- A second layout-if-needed of a laid-out plot does nothing. -/
theorem plot2D_layoutIfNeeded_done (libm : CMath) (style : PlotStyle) (p : Plot2D)
    (hp : p.hasLayout = true) : Plot2D.layoutIfNeeded libm style p = Except.ok p := by
  simp [Plot2D.layoutIfNeeded, hp]

/-- After a layout-if-needed that returned, the plot is laid out. -/
theorem plot2D_layoutIfNeeded_hasLayout (libm : CMath) (style : PlotStyle) (p p1 : Plot2D)
    (h : Plot2D.layoutIfNeeded libm style p = Except.ok p1) : p1.hasLayout = true := by
  unfold Plot2D.layoutIfNeeded at h
  cases hp : p.hasLayout
  · rw [hp] at h
    exact (plot2D_layout_inv libm style p p1 (by simpa using h)).2.1
  · rw [hp] at h
    simp only [Bool.not_true, Bool.false_eq_true, if_false, Except.ok.injEq] at h
    rw [← h]
    exact hp

/-- After a layout-if-needed that returned, the figure is laid out and keeps
its style. -/
theorem figure_layoutIfNeeded_hasLayout (libm : CMath) (style : PlotStyle) (fig f1 : Figure)
    (h : Figure.layoutIfNeeded libm style fig = Except.ok f1) :
    f1.hasLayout = true ∧ f1.style = fig.style := by
  unfold Figure.layoutIfNeeded at h
  cases hp : fig.hasLayout
  · rw [hp] at h
    simp only [Bool.not_false, if_true, Figure.layout] at h
    split at h
    · exact absurd h (by simp)
    · rename_i node1 hn
      simp only [Except.ok.injEq] at h
      subst h
      exact ⟨(svgDrawable_layout_inv _ _ _ _ hn).2.1, rfl⟩
  · rw [hp] at h
    simp only [Bool.not_true, Bool.false_eq_true, if_false, Except.ok.injEq] at h
    rw [← h]
    exact ⟨hp, rfl⟩

/-- A second layout-if-needed of a laid-out figure does nothing. -/
theorem figure_layoutIfNeeded_done (libm : CMath) (style : PlotStyle) (fig : Figure)
    (hp : fig.hasLayout = true) : Figure.layoutIfNeeded libm style fig = Except.ok fig := by
  simp [Figure.layoutIfNeeded, hp]

/-- The default plot satisfies the conditions under which layout returns. -/
theorem default_plot_ready :
    Plot2D.default.hasLayout = false ∧
    (∀ v, (Plot2D.default.x.autoSetup.map v).isSome = true) ∧
    (∀ v, (Plot2D.default.y.autoSetup.map v).isSome = true) ∧
    ∀ l, PlotChild.line l ∈ Plot2D.default.children → l.hasLayout = false := by
  refine ⟨rfl, ?_, ?_, ?_⟩
  · intro v
    simp [Plot2D.default, Plot2D.init, Plot2D.ofAxes, Axis.init, Axis.autoSetup, Axis.map,
      Axis.linear, Axis.range, fdiv]
  · intro v
    simp [Plot2D.default, Plot2D.init, Plot2D.ofAxes, Axis.init, Axis.autoSetup, Axis.map,
      Axis.linear, Axis.range, fdiv]
  · intro l hl
    exact absurd hl (List.not_mem_nil _)

/-- A plot of a figure written on its own, then the figure: the write of the
plot returns and lays the plot out in place; the layout of the figure then
calls the layout of that plot again, unguarded, and reaches the assertion. -/
theorem figure_write_after_plot_write (libm : CMath) (rand : Nat → Nat) (style : PlotStyle)
    (fig : Figure) (i : Nat) (o o2 : Out)
    (hf : fig.hasLayout = false) (hi : i < fig.children.length)
    (hq : ∀ q ∈ fig.children, q.hasLayout = false ∧
      (∀ v, (q.x.autoSetup.map v).isSome = true) ∧
      (∀ v, (q.y.autoSetup.map v).isSome = true) ∧
      ∀ l, PlotChild.line l ∈ q.children → l.hasLayout = false) :
    ∃ f1 o1, Figure.writePlot libm rand style fig i o = Except.ok (f1, o1) ∧
      Figure.write libm rand f1 o2 = Except.error Fault.assertion := by
  have hget : fig.children.get? i = some fig.children[i] := by
    rw [List.get?_eq_getElem?, List.getElem?_eq_getElem hi]
  have hmem : fig.children[i] ∈ fig.children := List.getElem_mem hi
  obtain ⟨h0, hx, hy, hl⟩ := hq _ hmem
  obtain ⟨p1, hp1⟩ := plot2D_layout_ok libm style _ h0 hx hy hl
  have hlin : Plot2D.layoutIfNeeded libm style fig.children[i] = Except.ok p1 := by
    simp only [Plot2D.layoutIfNeeded, h0, Bool.not_false, if_true]
    exact hp1
  obtain ⟨o1, hw⟩ := (svgFileDrawable_write_ok_iff libm (Plot2D.layoutIfNeeded libm style)
    (fun p => p.bounds) (Plot2D.writeData rand style) (Plot2D.writeLabel style) style
    fig.children[i] p1 o).mpr hlin
  refine ⟨{ fig with
    toSvgDrawable := { fig.toSvgDrawable with children := fig.children.set i p1 } }, o1, ?_, ?_⟩
  · simp only [Figure.writePlot, hget, Plot2D.write, hw]
  · obtain ⟨k1, k2, kx, ky, _, _⟩ := plot2D_layout_inv libm style _ p1 hp1
    have hagain : Plot2D.layout libm fig.style p1 = Except.error Fault.assertion := by
      refine plot2D_layout_again libm fig.style p1 k2 ?_ ?_
      · rw [kx, autoSetup_autoSetup]
        exact hx
      · rw [ky, autoSetup_autoSetup]
        exact hy
    obtain ⟨pre, post, hsplit, _, hset⟩ := @List.exists_of_set Plot2D i p1 fig.children hi
    have hpre : ∀ d ∈ pre, ∃ d1, Plot2D.layout libm fig.style d = Except.ok d1 := by
      intro d hd
      have hdm : d ∈ fig.children := by
        rw [hsplit]
        exact List.mem_append_left _ hd
      obtain ⟨d0, dx, dy, dl⟩ := hq d hdm
      exact plot2D_layout_ok libm fig.style d d0 dx dy dl
    have herr := layoutChildren_error_at (Plot2D.layout libm fig.style) (fun p => p.bounds)
      Fault.assertion p1 post hagain pre hpre (Bounds.init 0 0 0 0)
    refine svgFileDrawable_write_error libm _ _ _ _ _ _ _ _ ?_
    simp only [Figure.layoutIfNeeded, hf, Bool.not_false, if_true, Figure.layout,
      SvgDrawable.layout, Bool.false_eq_true, if_false]
    rw [hset, herr]

theorem set_of_get?_eq_some {α : Type} : ∀ (l : List α) (j : Nat) (q : α),
    l.get? j = some q → l.set j q = l
  | [], _, _, h => by simp at h
  | a :: l, 0, q, h => by
    simp only [List.get?, Option.some.injEq] at h
    rw [List.set, h]
  | a :: l, j + 1, q, h => by
    simp only [List.get?] at h
    rw [List.set, set_of_get?_eq_some l j q h]

theorem forall₂_right_all {α : Type} {R : α → α → Prop} {P : α → Prop}
    (hR : ∀ a b, R a b → P b) {l1 l2 : List α} (h : List.Forall₂ R l1 l2) :
    ∀ b ∈ l2, P b := by
  induction h with
  | nil => intro b hb; exact absurd hb (List.not_mem_nil b)
  | cons hab _ ih =>
    intro b hb
    rcases List.mem_cons.mp hb with h1 | h1
    · rw [h1]
      exact hR _ _ hab
    · exact ih b h1

/-- After the layout of a figure returned, every plot of the figure is laid out. -/
theorem figure_layout_children_hasLayout (libm : CMath) (style : PlotStyle) (g g1 : Figure)
    (h : Figure.layout libm style g = Except.ok g1) :
    ∀ q ∈ g1.children, q.hasLayout = true := by
  simp only [Figure.layout] at h
  split at h
  · exact absurd h (by simp)
  · rename_i node1 hn
    simp only [Except.ok.injEq] at h
    subst h
    have hcs := (svgDrawable_layout_inv _ _ _ _ hn).2.2
    exact forall₂_right_all (fun a b hab => (plot2D_layout_inv libm style a b hab).2.1)
      (layoutChildren_forall₂ _ _ _ _ _ hcs)

/-- A write on a plot of a figure all of whose plots are laid out returns and
leaves the figure as it is. -/
theorem figure_writePlot_done (libm : CMath) (rand : Nat → Nat) (style : PlotStyle)
    (g : Figure) (j : Nat) (o : Out) (h : ∀ q ∈ g.children, q.hasLayout = true) :
    ∃ o1, Figure.writePlot libm rand style g j o = Except.ok (g, o1) := by
  unfold Figure.writePlot
  cases hj : g.children.get? j with
  | none => exact ⟨o, rfl⟩
  | some q =>
    have hmem : q ∈ g.children := List.get?_mem hj
    obtain ⟨o1, hw⟩ := (svgFileDrawable_write_ok_iff libm (Plot2D.layoutIfNeeded libm style)
      (fun p => p.bounds) (Plot2D.writeData rand style) (Plot2D.writeLabel style) style
      q q o).mpr (plot2D_layoutIfNeeded_done libm style q (h q hmem))
    refine ⟨o1, ?_⟩
    simp only [Plot2D.write, hw, set_of_get?_eq_some _ _ _ hj]

/-! ### The connector of a line label -/

theorem string_append_left_cancel (p a b : String) (h : p ++ a = p ++ b) : a = b := by
  have hd := congrArg String.data h
  rw [String.data_append, String.data_append] at hd
  exact String.ext (List.append_cancel_left hd)

/-- The numerals of the numbers below 7 are pairwise distinct. -/
theorem small_numeral_inj (a b : Nat) (ha : a < 7) (hb : b < 7)
    (h : toString a = toString b) : a = b := by
  interval_cases a <;> interval_cases b <;> first | rfl | (exfalso; revert h; decide)

/-- Two style classes with the same class text and indices that are not
negative are equal exactly when the indices agree modulo the table length,
for a table of at most 7 entries. -/
theorem class_eq_iff (p : String) (n : Nat) (hn : n ≠ 0) (hn7 : n ≤ 7) (i j : Int) :
    p ++ to_string_int (i % (n : Int)) = p ++ to_string_int (j % (n : Int))
      ↔ i % (n : Int) = j % (n : Int) := by
  constructor
  · intro h
    have h1 := string_append_left_cancel _ _ _ h
    obtain ⟨ei, li, _⟩ := styleIndex_mod i n hn
    obtain ⟨ej, lj, _⟩ := styleIndex_mod j n hn
    rw [ei, ej] at h1
    have h2 := small_numeral_inj _ _ (by omega) (by omega) h1
    have hn' : (0 : Int) < (n : Int) := by exact_mod_cast Nat.pos_of_ne_zero hn
    have h0i : 0 ≤ i % (n : Int) := Int.emod_nonneg i (ne_of_gt hn')
    have h0j : 0 ≤ j % (n : Int) := Int.emod_nonneg j (ne_of_gt hn')
    omega
  · intro h
    rw [h]

theorem default_strokeClass_eq_iff (i j : Int) (hi : 0 ≤ i) (hj : 0 ≤ j) :
    ({} : PlotStyle).strokeClass i = ({} : PlotStyle).strokeClass j ↔ i % 6 = j % 6 := by
  have hi' : ¬ i < 0 := not_lt.mpr hi
  have hj' : ¬ j < 0 := not_lt.mpr hj
  simp only [PlotStyle.strokeClass, hi', hj', List.length_cons, List.length_nil, false_or]
  exact class_eq_iff "svg-plot-s" 6 (by decide) (by decide) i j

theorem default_dashClass_eq_iff (i j : Int) (hi : 0 ≤ i) (hj : 0 ≤ j) :
    ({} : PlotStyle).dashClass i = ({} : PlotStyle).dashClass j ↔ i % 7 = j % 7 := by
  have hi' : ¬ i < 0 := not_lt.mpr hi
  have hj' : ¬ j < 0 := not_lt.mpr hj
  simp only [PlotStyle.dashClass, hi', hj', List.length_cons, List.length_nil, false_or]
  exact class_eq_iff "svg-plot-d" 7 (by decide) (by decide) i j

theorem default_hatchClass_eq_iff (i j : Int) (hi : 0 ≤ i) (hj : 0 ≤ j) :
    ({} : PlotStyle).hatchClass i = ({} : PlotStyle).hatchClass j ↔ i % 4 = j % 4 := by
  have hi' : ¬ i < 0 := not_lt.mpr hi
  have hj' : ¬ j < 0 := not_lt.mpr hj
  simp only [PlotStyle.hatchClass, hi', hj', List.length_cons, List.length_nil, false_or]
  exact class_eq_iff "svg-plot-h" 4 (by decide) (by decide) i j

/-- The style indices that repeated calls of `line()` hand out: the n-th call
makes a line with style index n - 1 counted from the index the plot holds. -/
theorem iterate_line (p : Plot2D) (n : Nat) :
    (Plot2D.line^[n] p).styleIndex = p.styleIndex + n ∧
    (Plot2D.line^[n] p).children
      = p.children ++ (List.range n).map fun (k : Nat) =>
          PlotChild.line (Line2D.init (p.styleIndex + (k : Int))) := by
  induction n with
  | zero => simp
  | succ n ih =>
    rw [Function.iterate_succ_apply']
    obtain ⟨h1, h2⟩ := ih
    constructor
    · simp only [Plot2D.line, Plot2D.lineWith, h1]
      push_cast
      ring
    · simp only [Plot2D.line, Plot2D.lineWith, SvgDrawable.addChild, h2, h1, List.range_succ,
        List.map_append, List.map_cons, List.map_nil, List.append_assoc]

/-! ### The box of a text label -/

/-- The estimated width of the one-letter text a. -/
theorem estimateUtf8Width_a : estimateUtf8Width (String.mk ['a']) = 57 / 100 := by
  rw [estimateUtf8Width_ascii ['a'] (by decide)]
  have hc : (('a'.toNat : Nat) : Int) = 97 := by decide
  simp only [List.map, List.sum_cons, List.sum_nil, hc, add_zero]
  have h1 : ((97 : Int) ≥ 32 ∧ (97 : Int) < 127) := by decide
  have h2 : ((97 : Int) - 32).toNat = 65 := by decide
  simp only [estimateCharWidth, if_pos h1, tableWidth, h2]
  norm_num [List.getD]

/-! ### The two axis classes step together -/

theorem toAxis1D_autoValue (a : Axis) (v : ℚ) :
    a.toAxis1D.autoValue v = (a.autoValue v).toAxis1D := by
  unfold Axis1D.autoValue Axis.autoValue
  simp only [Axis.toAxis1D]
  split_ifs <;> rfl

theorem toAxis1D_linear (a : Axis) (low high : ℚ) :
    a.toAxis1D.linear low high = (a.linear low high).toAxis1D := rfl

theorem toAxis1D_init (drawLow drawHigh : ℚ) :
    Axis1D.init drawLow drawHigh = (Axis.init drawLow drawHigh).toAxis1D := rfl

theorem toAxis1D_push (a : Axis) (t : Tick) :
    ({ a.toAxis1D with ticks := a.toAxis1D.ticks ++ [t.toAxis1D] } : Axis1D)
      = ({ a with ticks := a.ticks ++ [t] } : Axis).toAxis1D := by
  simp [Axis.toAxis1D]

theorem toAxis1D_major (ts : List (ℚ × String)) :
    ∀ a : Axis, a.toAxis1D.major (ts.map Axis1D.Tick.ofPair)
      = (a.major (ts.map Tick.ofPair)).toAxis1D := by
  induction ts with
  | nil => intro a; rfl
  | cons t ts ih =>
    intro a
    simp only [List.map_cons, Axis1D.major, Axis.major]
    rw [toAxis1D_autoValue, ← ih]
    congr 1
    exact toAxis1D_push (a.autoValue (Tick.ofPair t).value)
      { Tick.ofPair t with strength := Tick.Strength.major }

theorem toAxis1D_minor (ts : List (ℚ × String)) :
    ∀ a : Axis, a.toAxis1D.minor (ts.map Axis1D.Tick.ofPair)
      = (a.minor (ts.map Tick.ofPair)).toAxis1D := by
  induction ts with
  | nil => intro a; rfl
  | cons t ts ih =>
    intro a
    simp only [List.map_cons, Axis1D.minor, Axis.minor]
    rw [toAxis1D_autoValue, ← ih]
    congr 1
    exact toAxis1D_push (a.autoValue (Tick.ofPair t).value)
      { Tick.ofPair t with strength := Tick.Strength.minor }

theorem toAxis1D_tick (ts : List (ℚ × String)) :
    ∀ a : Axis, a.toAxis1D.tick (ts.map Axis1D.Tick.ofPair)
      = (a.tick (ts.map Tick.ofPair)).toAxis1D := by
  induction ts with
  | nil => intro a; rfl
  | cons t ts ih =>
    intro a
    simp only [List.map_cons, Axis1D.tick, Axis.tick]
    rw [toAxis1D_autoValue, ← ih]
    congr 1
    exact toAxis1D_push (a.autoValue (Tick.ofPair t).value)
      { Tick.ofPair t with strength := Tick.Strength.tick }

theorem toAxis1D_autoSetup (a : Axis) : a.toAxis1D.autoSetup = a.autoSetup.toAxis1D := by
  have hm : ∀ b : Axis,
      b.toAxis1D.minor [Axis1D.Tick.ofDouble b.autoMin, Axis1D.Tick.ofDouble b.autoMax]
        = (b.minor [Tick.ofDouble b.autoMin, Tick.ofDouble b.autoMax]).toAxis1D :=
    fun b => toAxis1D_minor
      [(b.autoMin, to_string_double b.autoMin), (b.autoMax, to_string_double b.autoMax)] b
  unfold Axis1D.autoSetup Axis.autoSetup
  cases hv : a.hasAutoValue
  · simp [Axis.toAxis1D, hv]
  · cases hs : a.autoScale <;> cases hl : a.autoLabel
    · simp [Axis.toAxis1D, hv, hs, hl]
    · have h := hm a
      simp only [Axis.toAxis1D, hv, hs, hl, if_true, Bool.false_eq_true, if_false] at h ⊢
      exact h
    · simp [Axis.toAxis1D, hv, hs, hl, Axis1D.linear, Axis.linear, Axis.range]
    · have h := hm (a.linear a.autoMin a.autoMax)
      simp only [Axis.toAxis1D, hv, hs, hl, if_true, Axis1D.linear, Axis.linear, Axis.range]
        at h ⊢
      exact h

theorem toAxis1D_step (a : Axis) (op : AxisOp) : a.toAxis1D.step op = (a.step op).toAxis1D := by
  cases op with
  | autoValue v => exact toAxis1D_autoValue a v
  | linear low high => exact toAxis1D_linear a low high
  | major ts => exact toAxis1D_major ts a
  | minor ts => exact toAxis1D_minor ts a
  | tick ts => exact toAxis1D_tick ts a
  | autoSetup => exact toAxis1D_autoSetup a

theorem toAxis1D_steps (ops : List AxisOp) :
    ∀ a : Axis, ops.foldl Axis1D.step a.toAxis1D = (ops.foldl Axis.step a).toAxis1D := by
  induction ops with
  | nil => intro a; rfl
  | cons op ops ih =>
    intro a
    rw [List.foldl_cons, List.foldl_cons, toAxis1D_step, ih]

/-! ### The writers, for every arithmetic -/

section FpWriters

open Fp.DoubleOps

variable {D : Type} [Fp.DoubleOps D]

theorem fp_append_nil (o : Fp.Out D) : o.append [] = o := by
  simp [Fp.Out.append]

theorem fp_append_append (o : Fp.Out D) (l1 l2 : List (Fp.Svg D)) :
    (o.append l1).append l2 = o.append (l1 ++ l2) := by
  simp [Fp.Out.append, List.append_assoc]

theorem fp_put_eq_append (o : Fp.Out D) (e : Fp.Svg D) : o.put e = o.append [e] := rfl

theorem fp_append_svg (o : Fp.Out D) (l : List (Fp.Svg D)) : (o.append l).svg = o.svg ++ l := rfl

theorem fp_append_randCalls (o : Fp.Out D) (l : List (Fp.Svg D)) :
    (o.append l).randCalls = o.randCalls := rfl

theorem fp_empty_append_svg (l : List (Fp.Svg D)) : (({} : Fp.Out D).append l).svg = l := by
  simp [Fp.Out.append]

theorem fp_ite_put (c : Prop) [Decidable c] (o : Fp.Out D) (e : Fp.Svg D) :
    (if c then o.put e else o) = o.append (if c then [e] else []) := by
  split_ifs
  · rfl
  · exact (fp_append_nil o).symm

/-- The countdown loop applies the children's functions last child first:
it is the right fold over the first `n` children. -/
theorem fp_writeFrom_eq_foldr {χ : Type} (w : χ → Fp.Out D → Fp.Out D) (children : List χ) :
    ∀ (n : Nat) (h : n ≤ children.length) (o : Fp.Out D),
      Fp.SvgDrawable.writeFrom w children n h o = (children.take n).foldr w o := by
  intro n
  induction n with
  | zero => intro h o; simp [Fp.SvgDrawable.writeFrom]
  | succ i ih =>
    intro h o
    have hi : i < children.length := h
    have ht : List.take (i + 1) children = List.take i children ++ [children.get ⟨i, hi⟩] := by
      rw [List.take_succ, List.getElem?_eq_getElem hi]
      rfl
    rw [Fp.SvgDrawable.writeFrom, ih, ht, List.foldr_append]
    rfl

theorem fp_writeData_eq_foldr {χ : Type} (w : χ → Fp.Out D → Fp.Out D)
    (node : Fp.SvgDrawable D χ) (o : Fp.Out D) :
    Fp.SvgDrawable.writeData w node o = node.children.foldr w o := by
  rw [Fp.SvgDrawable.writeData, fp_writeFrom_eq_foldr, List.take_length]

theorem fp_writeLabel_eq_foldr {χ : Type} (w : χ → Fp.Out D → Fp.Out D)
    (node : Fp.SvgDrawable D χ) (o : Fp.Out D) :
    Fp.SvgDrawable.writeLabel w node o = node.children.foldr w o := by
  rw [Fp.SvgDrawable.writeLabel, fp_writeFrom_eq_foldr, List.take_length]

/-- Children that each append a run of markup of their own: the run of the
whole loop is the concatenation of the children's runs, last child first. -/
theorem fp_foldr_append {χ : Type} (w : χ → Fp.Out D → Fp.Out D) (f : χ → List (Fp.Svg D))
    (hw : ∀ c o, w c o = o.append (f c)) (children : List χ) (o : Fp.Out D) :
    children.foldr w o = o.append (children.reverse.flatMap f) := by
  induction children generalizing o with
  | nil => simp [fp_append_nil]
  | cons c cs ih =>
    rw [List.foldr_cons, ih, hw, fp_append_append]
    simp

/-- A loop of steps that each append a run of markup appends the runs in order. -/
theorem fp_foldl_append {β : Type} (g : β → Fp.Out D → Fp.Out D) (f : β → List (Fp.Svg D))
    (hg : ∀ b o, g b o = o.append (f b)) (bs : List β) :
    ∀ o : Fp.Out D, bs.foldl (fun acc b => g b acc) o = o.append (bs.flatMap f) := by
  induction bs with
  | nil => intro o; simp [fp_append_nil]
  | cons b bs ih =>
    intro o
    rw [List.foldl_cons, ih, hg, fp_append_append]
    simp

/-- A text label writes nothing to the data layer. -/
theorem fp_textLabel_writeData (t : Fp.TextLabel D) (o : Fp.Out D) : t.writeData o = o := by
  rw [Fp.TextLabel.writeData, fp_writeData_eq_foldr, list_empty_eq_nil t.children]
  rfl

/-- A line label writes nothing to the data layer. -/
theorem fp_lineLabel_writeData (c : Fp.LineLabel D) (o : Fp.Out D) : c.writeData o = o :=
  fp_textLabel_writeData _ o

/-- The labels of a line write nothing to the data layer. -/
theorem fp_line2D_children_writeData (node : Fp.SvgDrawable D (Fp.LineLabel D))
    (o : Fp.Out D) : Fp.SvgDrawable.writeData Fp.LineLabel.writeData node o = o := by
  rw [fp_writeData_eq_foldr]
  induction node.children with
  | nil => rfl
  | cons c cs ih => rw [List.foldr_cons, ih, fp_lineLabel_writeData]

/-- The fill path of a line, if it draws one, then its stroke path, if it draws one. -/
theorem fp_line2D_writeData (style : Fp.PlotStyle D) (axisX axisY : Fp.Axis D)
    (l : Fp.Line2D D) (o : Fp.Out D) :
    Fp.Line2D.writeData style axisX axisY l o = o.append
      ((if l._drawFill then
          [Fp.Svg.path
            ("svg-plot-fill " ++ style.fillClass l.styleIndex ++ " "
              ++ style.hatchClass l.styleIndex)
            (Fp.Line2D.mapped axisX axisY l.points ++
              (if l.hasFillToX then
                [(some (axisX.map l.fillTo.x), l.points.getLast?.map fun p => axisY.map p.y),
                 (some (axisX.map l.fillTo.x), l.points.head?.map fun p => axisY.map p.y)]
              else if l.hasFillToY then
                [(l.points.getLast?.map fun p => axisX.map p.x, some (axisY.map l.fillTo.y)),
                 (l.points.head?.map fun p => axisX.map p.x, some (axisY.map l.fillTo.y))]
              else []))]
        else []) ++
       (if l._drawLine then
          [Fp.Svg.path
            ("svg-plot-line " ++ style.strokeClass l.styleIndex ++ " "
              ++ style.dashClass l.styleIndex)
            (Fp.Line2D.mapped axisX axisY l.points)]
        else [])) := by
  simp only [Fp.Line2D.writeData, fp_line2D_children_writeData, fp_ite_put, fp_append_append]

/-- What a line appends to the data layer is made of paths. -/
theorem fp_line2D_writeData_paths (style : Fp.PlotStyle D) (axisX axisY : Fp.Axis D)
    (l : Fp.Line2D D) :
    ∀ e ∈ (Fp.Line2D.writeData style axisX axisY l {}).svg, e.isPath = true := by
  intro e he
  rw [fp_line2D_writeData, fp_empty_append_svg] at he
  rcases List.mem_append.mp he with h | h
  · by_cases hf : l._drawFill = true
    · rw [if_pos hf] at h
      rw [List.mem_singleton.mp h]
      rfl
    · rw [if_neg hf] at h
      simp at h
  · by_cases hf : l._drawLine = true
    · rw [if_pos hf] at h
      rw [List.mem_singleton.mp h]
      rfl
    · rw [if_neg hf] at h
      simp at h

/-- A text label writes one text element to the label layer. -/
theorem fp_textLabel_write (t : Fp.TextLabel D) :
    ∃ anchor x y rotated, ∀ o : Fp.Out D, t.write o = o.append
      [Fp.Svg.text (SvgDrawable.escape t.cssClass) anchor x y rotated
        (SvgDrawable.escape t.text)] := by
  cases hv : t.vertical
  · exact ⟨_, _, _, _, fun o => by simp only [Fp.TextLabel.write, hv]; rfl⟩
  · exact ⟨_, _, _, _, fun o => by simp only [Fp.TextLabel.write, hv]; rfl⟩

/-- A line label writes its connector, if the two ends differ, and then its
text element. -/
theorem fp_lineLabel_writeLabel (style : Fp.PlotStyle D) (c : Fp.LineLabel D) :
    ∃ anchor x y rotated, ∀ o : Fp.Out D, c.writeLabel style o = o.append
      ((if ((!feq c.drawLineTo.x c.drawLineFrom.x) || (!feq c.drawLineTo.y c.drawLineFrom.y))
            = true then
          [Fp.Svg.line ("svg-plot-tick " ++ style.strokeClass c.styleIndex)
            c.drawLineFrom.x c.drawLineTo.x c.drawLineFrom.y c.drawLineTo.y]
        else []) ++
       [Fp.Svg.text (SvgDrawable.escape c.cssClass) anchor x y rotated
         (SvgDrawable.escape c.text)]) := by
  obtain ⟨a, x, y, r, h⟩ := fp_textLabel_write c.toTextLabel
  refine ⟨a, x, y, r, fun o => ?_⟩
  simp only [Fp.LineLabel.writeLabel, Fp.TextLabel.writeLabel, h, fp_ite_put, fp_append_append]

/-- A writing function that appends the same markup to every stream. -/
theorem fp_appends_of_exists {W : Fp.Out D → Fp.Out D}
    (h : ∃ l, ∀ o, W o = o.append l) (o : Fp.Out D) : W o = o.append (W {}).svg := by
  obtain ⟨l, hl⟩ := h
  rw [hl o, hl {}, fp_empty_append_svg]

theorem fp_textLabel_writeLabel_appends (t : Fp.TextLabel D) (o : Fp.Out D) :
    t.writeLabel o = o.append (t.writeLabel {}).svg := by
  obtain ⟨a, x, y, r, h⟩ := fp_textLabel_write t
  exact fp_appends_of_exists ⟨_, h⟩ o

theorem fp_lineLabel_writeLabel_appends (style : Fp.PlotStyle D) (c : Fp.LineLabel D)
    (o : Fp.Out D) : c.writeLabel style o = o.append (c.writeLabel style {}).svg := by
  obtain ⟨a, x, y, r, h⟩ := fp_lineLabel_writeLabel style c
  exact fp_appends_of_exists ⟨_, h⟩ o

/-- A line writes the label output of its labels, last label first. -/
theorem fp_line2D_writeLabel (style : Fp.PlotStyle D) (l : Fp.Line2D D) (o : Fp.Out D) :
    Fp.Line2D.writeLabel style l o
      = o.append (l.children.reverse.flatMap fun c => (c.writeLabel style {}).svg) := by
  rw [Fp.Line2D.writeLabel, fp_writeLabel_eq_foldr]
  exact fp_foldr_append _ _ (fp_lineLabel_writeLabel_appends style) _ o

theorem fp_plotChild_writeData_appends (style : Fp.PlotStyle D) (x y : Fp.Axis D)
    (c : Fp.PlotChild D) (o : Fp.Out D) :
    Fp.PlotChild.writeData style x y c o
      = o.append (Fp.PlotChild.writeData style x y c {}).svg := by
  cases c with
  | line l => exact fp_appends_of_exists ⟨_, fp_line2D_writeData style x y l⟩ o
  | label t =>
    simp only [Fp.PlotChild.writeData, fp_textLabel_writeData]
    exact (fp_append_nil o).symm

theorem fp_plotChild_writeLabel_appends (style : Fp.PlotStyle D) (c : Fp.PlotChild D)
    (o : Fp.Out D) :
    Fp.PlotChild.writeLabel style c o = o.append (Fp.PlotChild.writeLabel style c {}).svg := by
  cases c with
  | line l => exact fp_appends_of_exists ⟨_, fp_line2D_writeLabel style l⟩ o
  | label t => exact fp_textLabel_writeLabel_appends t o

/-- What a child of a plot appends to the data layer is made of paths. -/
theorem fp_plotChild_writeData_paths (style : Fp.PlotStyle D) (x y : Fp.Axis D)
    (c : Fp.PlotChild D) :
    ∀ e ∈ (Fp.PlotChild.writeData style x y c {}).svg, e.isPath = true := by
  cases c with
  | line l => exact fp_line2D_writeData_paths style x y l
  | label t =>
    intro e he
    simp only [Fp.PlotChild.writeData, fp_textLabel_writeData] at he
    simp at he

theorem fp_gridLineX (style : Fp.PlotStyle D) (x y : Fp.Axis D) (t : Fp.Tick D)
    (o : Fp.Out D) :
    Fp.Plot2D.gridLineX style x y t o = o.append (Fp.Plot2D.gridLineX style x y t {}).svg := by
  unfold Fp.Plot2D.gridLineX
  by_cases h : t.strength ≠ Tick.Strength.tick
  · simp only [if_pos h]
    rfl
  · simp only [if_neg h]
    exact (fp_append_nil o).symm

theorem fp_gridLineY (x y : Fp.Axis D) (t : Fp.Tick D) (o : Fp.Out D) :
    Fp.Plot2D.gridLineY x y t o = o.append (Fp.Plot2D.gridLineY x y t {}).svg := by
  unfold Fp.Plot2D.gridLineY
  by_cases h : t.strength ≠ Tick.Strength.tick
  · simp only [if_pos h]
    rfl
  · simp only [if_neg h]
    exact (fp_append_nil o).symm

theorem fp_tickMarkX (style : Fp.PlotStyle D) (x y : Fp.Axis D) (t : Fp.Tick D)
    (o : Fp.Out D) :
    Fp.Plot2D.tickMarkX style x y t o = o.append (Fp.Plot2D.tickMarkX style x y t {}).svg := by
  unfold Fp.Plot2D.tickMarkX
  by_cases h : t.name.length ≠ 0
  · simp only [if_pos h]
    rfl
  · simp only [if_neg h]
    exact (fp_append_nil o).symm

theorem fp_tickMarkY (style : Fp.PlotStyle D) (x y : Fp.Axis D) (t : Fp.Tick D)
    (o : Fp.Out D) :
    Fp.Plot2D.tickMarkY style x y t o = o.append (Fp.Plot2D.tickMarkY style x y t {}).svg := by
  unfold Fp.Plot2D.tickMarkY
  by_cases h : t.name.length ≠ 0
  · simp only [if_pos h]
    rfl
  · simp only [if_neg h]
    exact (fp_append_nil o).symm

/-- The gridline of an x tick: one line of class major or minor for a tick of
that strength, nothing for a plain tick, whatever its name. -/
theorem fp_gridLineX_svg (style : Fp.PlotStyle D) (x y : Fp.Axis D) (t : Fp.Tick D) :
    (t.strength = Tick.Strength.tick → (Fp.Plot2D.gridLineX style x y t {}).svg = []) ∧
    (t.strength = Tick.Strength.major → ∃ y1,
      (Fp.Plot2D.gridLineX style x y t {}).svg
        = [Fp.Svg.line "svg-plot-major" (x.map t.value) (x.map t.value) y1 y.drawMax]) ∧
    (t.strength = Tick.Strength.minor →
      (Fp.Plot2D.gridLineX style x y t {}).svg
        = [Fp.Svg.line "svg-plot-minor" (x.map t.value) (x.map t.value)
            (y.drawMin - lit 0) y.drawMax]) := by
  refine ⟨fun h => ?_, fun h => ?_, fun h => ?_⟩
  · simp [Fp.Plot2D.gridLineX, h]
  · exact ⟨_, by simp [Fp.Plot2D.gridLineX, h, Fp.Out.put]; rfl⟩
  · simp [Fp.Plot2D.gridLineX, h, Fp.Out.put]

/-- The gridline of a y tick. -/
theorem fp_gridLineY_svg (x y : Fp.Axis D) (t : Fp.Tick D) :
    (Fp.Plot2D.gridLineY x y t {}).svg =
      if t.strength = Tick.Strength.tick then []
      else [Fp.Svg.line (if t.strength = Tick.Strength.major then "svg-plot-major"
          else "svg-plot-minor") x.drawMin x.drawMax (y.map t.value) (y.map t.value)] := by
  by_cases h : t.strength = Tick.Strength.tick
  · simp [Fp.Plot2D.gridLineY, h]
  · simp [Fp.Plot2D.gridLineY, h, Fp.Out.put]

/-- The tick mark of an x tick: one line of class `svg-plot-tick` if the tick
has a name, nothing otherwise. -/
theorem fp_tickMarkX_svg (style : Fp.PlotStyle D) (x y : Fp.Axis D) (t : Fp.Tick D) :
    (Fp.Plot2D.tickMarkX style x y t {}).svg =
      if t.name.length ≠ 0 then
        [Fp.Svg.line "svg-plot-tick" (x.map t.value) (x.map t.value) y.drawMax
          (y.drawMax + style.tickV)]
      else [] := by
  by_cases h : t.name.length ≠ 0
  · simp only [Fp.Plot2D.tickMarkX, if_pos h]; rfl
  · simp only [Fp.Plot2D.tickMarkX, if_neg h]

/-- The tick mark of a y tick. -/
theorem fp_tickMarkY_svg (style : Fp.PlotStyle D) (x y : Fp.Axis D) (t : Fp.Tick D) :
    (Fp.Plot2D.tickMarkY style x y t {}).svg =
      if t.name.length ≠ 0 then
        [Fp.Svg.line "svg-plot-tick" (x.drawMin - style.tickH) x.drawMin (y.map t.value)
          (y.map t.value)]
      else [] := by
  by_cases h : t.name.length ≠ 0
  · simp only [Fp.Plot2D.tickMarkY, if_pos h]; rfl
  · simp only [Fp.Plot2D.tickMarkY, if_neg h]

/-- The data output of a plot, piece by piece: the rect of the axis rectangle,
the gridlines of the x ticks and of the y ticks, the clip path and the opening
tag of the clip group, the data output of the children last child first, and
the closing tag. -/
theorem fp_plot2D_writeData (rand : Nat → Nat) (style : Fp.PlotStyle D) (p : Fp.Plot2D D)
    (o : Fp.Out D) :
    Fp.Plot2D.writeData rand style p o =
      { svg := o.svg ++
          ([Fp.Svg.rect "svg-plot-axis" p.x.drawMin p.y.drawMin p.x.drawSize p.y.drawSize]
          ++ (p.x.ticks.flatMap fun t => (Fp.Plot2D.gridLineX style p.x p.y t {}).svg)
          ++ (p.y.ticks.flatMap fun t => (Fp.Plot2D.gridLineY p.x p.y t {}).svg)
          ++ [Fp.Svg.clipPath (rand o.randCalls) (p.x.drawMin - style.lineWidth * lit 0.5)
                (p.y.drawMin - style.lineWidth * lit 0.5)
                (p.x.drawSize + style.lineWidth * lit 0.5 * lit 2)
                (p.y.drawSize + style.lineWidth * lit 0.5 * lit 2),
              Fp.Svg.gOpen (some ("url(#clip" ++ toString (rand o.randCalls)))]
          ++ (p.children.reverse.flatMap fun c => (Fp.PlotChild.writeData style p.x p.y c {}).svg)
          ++ [Fp.Svg.gClose]),
        randCalls := o.randCalls + 1 } := by
  simp only [Fp.Plot2D.writeData, fp_writeData_eq_foldr,
    fp_foldr_append _ _ (fp_plotChild_writeData_appends style p.x p.y),
    fp_foldl_append _ _ (fp_gridLineX style p.x p.y),
    fp_foldl_append _ _ (fp_gridLineY p.x p.y), fp_put_eq_append, fp_append_append]
  simp [Fp.Out.append, List.append_assoc]

/-- The label output of a plot, piece by piece: the opening tag of the group,
the label output of the children last child first, the tick marks of the x
ticks and of the y ticks, and the closing tag. -/
theorem fp_plot2D_writeLabel (style : Fp.PlotStyle D) (p : Fp.Plot2D D) (o : Fp.Out D) :
    Fp.Plot2D.writeLabel style p o = o.append
      ([Fp.Svg.gOpen none]
        ++ (p.children.reverse.flatMap fun c => (Fp.PlotChild.writeLabel style c {}).svg)
        ++ (p.x.ticks.flatMap fun t => (Fp.Plot2D.tickMarkX style p.x p.y t {}).svg)
        ++ (p.y.ticks.flatMap fun t => (Fp.Plot2D.tickMarkY style p.x p.y t {}).svg)
        ++ [Fp.Svg.gClose]) := by
  simp only [Fp.Plot2D.writeLabel, fp_writeLabel_eq_foldr,
    fp_foldr_append _ _ (fp_plotChild_writeLabel_appends style),
    fp_foldl_append _ _ (fp_tickMarkX style p.x p.y),
    fp_foldl_append _ _ (fp_tickMarkY style p.x p.y), fp_put_eq_append, fp_append_append]

end FpWriters

/-! ### The layout, for every arithmetic -/

section FpLayout

open Fp.DoubleOps

variable {D : Type} [Fp.DoubleOps D]

/-- The loop of the base layout returns when the layout of every child does:
the children are laid out one by one and the box is the fold of their boxes. -/
theorem fp_layoutChildren_ok {χ : Type} (childLayout : χ → Except Fault χ)
    (childBounds : χ → Fp.Bounds D) (cs : List χ)
    (h : ∀ c ∈ cs, ∃ c1, childLayout c = Except.ok c1) :
    ∀ b : Fp.Bounds D, ∃ cs1,
      Fp.SvgDrawable.layoutChildren childLayout childBounds cs b
        = Except.ok (cs1, (cs1.map childBounds).foldl Fp.SvgDrawable.foldBounds b) ∧
      List.Forall₂ (fun c c1 => childLayout c = Except.ok c1) cs cs1 := by
  induction cs with
  | nil => intro b; exact ⟨[], rfl, List.Forall₂.nil⟩
  | cons c rest ih =>
    intro b
    obtain ⟨c1, hc1⟩ := h c (List.mem_cons_self _ _)
    obtain ⟨rest1, hr, hf⟩ := ih (fun d hd => h d (List.mem_cons_of_mem _ hd))
      (Fp.SvgDrawable.foldBounds b (childBounds c1))
    refine ⟨c1 :: rest1, ?_, List.Forall₂.cons hc1 hf⟩
    rw [Fp.SvgDrawable.layoutChildren, hc1]
    simp only
    rw [hr]
    rfl

/-- The base layout of a node that has not been laid out returns when the
layout of every child does. -/
theorem fp_svgDrawable_layout_ok {χ : Type} (childLayout : χ → Except Fault χ)
    (childBounds : χ → Fp.Bounds D) (node : Fp.SvgDrawable D χ) (hn : node.hasLayout = false)
    (h : ∀ c ∈ node.children, ∃ c1, childLayout c = Except.ok c1) :
    ∃ cs1,
      Fp.SvgDrawable.layout childLayout childBounds node
        = Except.ok { children := cs1, hasLayout := true,
                      bounds := (cs1.map childBounds).foldl Fp.SvgDrawable.foldBounds
                        node.bounds } ∧
      List.Forall₂ (fun c c1 => childLayout c = Except.ok c1) node.children cs1 := by
  obtain ⟨cs1, h1, h2⟩ := fp_layoutChildren_ok childLayout childBounds node.children h node.bounds
  refine ⟨cs1, ?_, h2⟩
  rw [Fp.SvgDrawable.layout, hn]
  simp only [Bool.false_eq_true, if_false]
  rw [h1]

theorem forall₂_map_of_fun {α β : Type} (R : α → β → Prop) (g : α → β)
    (hR : ∀ a b, R a b → b = g a) (l : List α) (l1 : List β) (h : List.Forall₂ R l l1) :
    l1 = l.map g := by
  induction h with
  | nil => rfl
  | cons hab _ ih => rw [List.map_cons, ← hR _ _ hab, ih]

theorem forall₂_append_split {α β : Type} (R : α → β → Prop) (l1 l2 : List α) :
    ∀ l : List β, List.Forall₂ R (l1 ++ l2) l →
      ∃ m1 m2, l = m1 ++ m2 ∧ List.Forall₂ R l1 m1 ∧ List.Forall₂ R l2 m2 := by
  induction l1 with
  | nil => intro l h; exact ⟨[], l, rfl, List.Forall₂.nil, h⟩
  | cons a as ih =>
    intro l h
    cases h with
    | cons hab hrest =>
      obtain ⟨m1, m2, e, h1, h2⟩ := ih _ hrest
      exact ⟨_ :: m1, m2, by rw [e]; rfl, List.Forall₂.cons hab h1, h2⟩

/-- The layout of a line that has not been laid out returns: its labels are
laid out one by one, whatever the axis maps give. -/
theorem fp_line2D_layout_ok (libm : Fp.CMath D) (style : Fp.PlotStyle D) (x y : Fp.Axis D)
    (l : Fp.Line2D D) (hl : l.hasLayout = false) :
    ∃ l1, Fp.Line2D.layout libm style x y l = Except.ok l1 ∧ l1.hasLayout = true ∧
      l1.children = l.children.map (Fp.LineLabel.layout libm style x y) ∧
      l1.points = l.points := by
  obtain ⟨cs1, h1, h2⟩ := fp_svgDrawable_layout_ok
    (fun c => Except.ok (Fp.LineLabel.layout libm style x y c)) (fun c => c.bounds)
    l.toSvgDrawable hl (fun c _ => ⟨_, rfl⟩)
  have h3 : Fp.Line2D.layout libm style x y l = Except.ok
      { l with toSvgDrawable :=
          { children := cs1, hasLayout := true,
            bounds := (cs1.map fun c => c.bounds).foldl Fp.SvgDrawable.foldBounds l.bounds } } := by
    rw [Fp.Line2D.layout, h1]
  exact ⟨_, h3, rfl,
    forall₂_map_of_fun _ _ (fun a b hab => (Except.ok.inj hab).symm) _ _ h2, rfl⟩

/-- The layout of a child of a plot returns unless the child is a line that
has been laid out before. -/
theorem fp_plotChild_layout_ok (libm : Fp.CMath D) (style : Fp.PlotStyle D) (x y : Fp.Axis D)
    (c : Fp.PlotChild D) (hc : ∀ l, c = Fp.PlotChild.line l → l.hasLayout = false) :
    ∃ c1, Fp.PlotChild.layout libm style x y c = Except.ok c1 := by
  cases c with
  | line l =>
    obtain ⟨l1, h1, _⟩ := fp_line2D_layout_ok libm style x y l (hc l rfl)
    exact ⟨Fp.PlotChild.line l1, by rw [Fp.PlotChild.layout, h1]⟩
  | label t => exact ⟨_, rfl⟩

/-- The layout of a label child is the layout of the label. -/
theorem fp_plotChild_layout_label (libm : Fp.CMath D) (style : Fp.PlotStyle D)
    (x y : Fp.Axis D) (t : Fp.TextLabel D) (c1 : Fp.PlotChild D)
    (h : Fp.PlotChild.layout libm style x y (Fp.PlotChild.label t) = Except.ok c1) :
    c1 = Fp.PlotChild.label (Fp.TextLabel.layout style t) :=
  (Except.ok.inj h).symm

/-- The loop over the x ticks adds one value label for every tick with a name,
in the order of the ticks, and nothing else. -/
theorem fp_addLabelsX (x : Fp.Axis D) (screenY : D) (ts : List (Fp.Tick D)) :
    ∀ node : Fp.SvgDrawable D (Fp.PlotChild D),
      Fp.Plot2D.addLabelsX x screenY ts node =
        { node with children := node.children ++ (ts.filter Fp.Tick.hasName).map fun t =>
            Fp.PlotChild.label (Fp.TextLabel.init { x := x.map t.value, y := screenY } (lit 0)
              t.name "svg-plot-value" false true) } := by
  induction ts with
  | nil => intro node; simp [Fp.Plot2D.addLabelsX]
  | cons t rest ih =>
    intro node
    rw [Fp.Plot2D.addLabelsX]
    by_cases hn : t.name.length ≠ 0
    · have hf : Fp.Tick.hasName t = true := by simp [Fp.Tick.hasName, hn]
      rw [if_pos hn]
      simp only
      rw [ih, List.filter_cons_of_pos hf]
      simp [Fp.SvgDrawable.addChild]
    · have hf : ¬ Fp.Tick.hasName t = true := by simp [Fp.Tick.hasName, hn]
      rw [if_neg hn, ih, List.filter_cons_of_neg hf]

/-- The loop over the y ticks adds one value label for every tick with a name,
in the order of the ticks, and nothing else. -/
theorem fp_addLabelsY (y : Fp.Axis D) (screenX : D) (ts : List (Fp.Tick D)) :
    ∀ (node : Fp.SvgDrawable D (Fp.PlotChild D)) (longest : D),
      (Fp.Plot2D.addLabelsY y screenX ts (node, longest)).1 =
        { node with children := node.children ++ (ts.filter Fp.Tick.hasName).map fun t =>
            Fp.PlotChild.label (Fp.TextLabel.init { x := screenX, y := y.map t.value } (-lit 1)
              t.name "svg-plot-value" false true) } := by
  induction ts with
  | nil => intro node longest; simp [Fp.Plot2D.addLabelsY]
  | cons t rest ih =>
    intro node longest
    rw [Fp.Plot2D.addLabelsY]
    by_cases hn : t.name.length ≠ 0
    · have hf : Fp.Tick.hasName t = true := by simp [Fp.Tick.hasName, hn]
      rw [if_pos hn]
      simp only
      rw [ih, List.filter_cons_of_pos hf]
      simp [Fp.SvgDrawable.addChild]
    · have hf : ¬ Fp.Tick.hasName t = true := by simp [Fp.Tick.hasName, hn]
      rw [if_neg hn, ih, List.filter_cons_of_neg hf]

/-- The greatest estimated width that the loop over the y ticks returns. -/
theorem fp_addLabelsY_longest (y : Fp.Axis D) (screenX : D) (ts : List (Fp.Tick D)) :
    ∀ (node : Fp.SvgDrawable D (Fp.PlotChild D)) (longest : D),
      (Fp.Plot2D.addLabelsY y screenX ts (node, longest)).2 =
        (ts.filter Fp.Tick.hasName).foldl
          (fun acc t => Fp.std_max acc (Fp.estimateUtf8Width t.name)) longest := by
  induction ts with
  | nil => intro node longest; simp [Fp.Plot2D.addLabelsY]
  | cons t rest ih =>
    intro node longest
    rw [Fp.Plot2D.addLabelsY]
    by_cases hn : t.name.length ≠ 0
    · have hf : Fp.Tick.hasName t = true := by simp [Fp.Tick.hasName, hn]
      rw [if_pos hn]
      simp only
      rw [ih, List.filter_cons_of_pos hf]
      rfl
    · have hf : ¬ Fp.Tick.hasName t = true := by simp [Fp.Tick.hasName, hn]
      rw [if_neg hn, ih, List.filter_cons_of_neg hf]

theorem fp_addChild_if {χ : Type} (c : Prop) [Decidable c] (node : Fp.SvgDrawable D χ)
    (extra : χ) :
    (if c then node.addChild extra else node)
      = { node with children := node.children ++ (if c then [extra] else []) } := by
  split_ifs <;> simp [Fp.SvgDrawable.addChild]

/-- The first part of the layout of a plot: the axes are set up, the box is the
axis rectangle expanded by the tick lengths, and the children are those the plot
had followed by the labels added, in the order they are added: one value label
for every named x tick, the x axis label if the axis has one, one value label
for every named y tick, the y axis label if the axis has one.  The ticks and
labels are those of the axes after autoSetup. -/
theorem fp_prepare (style : Fp.PlotStyle D) (p : Fp.Plot2D D) :
    (Fp.Plot2D.prepare style p).x = p.x.autoSetup ∧
    (Fp.Plot2D.prepare style p).y = p.y.autoSetup ∧
    (Fp.Plot2D.prepare style p).hasLayout = p.hasLayout ∧
    (Fp.Plot2D.prepare style p).bounds = Fp.Plot2D.axisBox style p.x.autoSetup p.y.autoSetup ∧
    (Fp.Plot2D.prepare style p).children = p.children
      ++ ((p.x.autoSetup.ticks.filter Fp.Tick.hasName).map fun t =>
          Fp.PlotChild.label (Fp.TextLabel.init
            { x := p.x.autoSetup.map t.value,
              y := p.y.autoSetup.drawMax + style.tickV + style.valueSize * lit 0.5
                + style.textPadding }
            (lit 0) t.name "svg-plot-value" false true))
      ++ (if p.x.autoSetup.label.length ≠ 0 then
          [Fp.PlotChild.label (Fp.TextLabel.init
            { x := (p.x.autoSetup.drawMax + p.x.autoSetup.drawMin) * lit 0.5,
              y := p.y.autoSetup.drawMax + style.tickV + style.valueSize * lit 0.5
                + style.textPadding + (style.labelSize + style.valueSize) * lit 0.5 }
            (lit 0) p.x.autoSetup.label "svg-plot-label" false true)]
        else [])
      ++ ((p.y.autoSetup.ticks.filter Fp.Tick.hasName).map fun t =>
          Fp.PlotChild.label (Fp.TextLabel.init
            { x := p.x.autoSetup.drawMin - style.tickH - style.textPadding,
              y := p.y.autoSetup.map t.value }
            (-lit 1) t.name "svg-plot-value" false true))
      ++ (if p.y.autoSetup.label.length ≠ 0 then
          [Fp.PlotChild.label (Fp.TextLabel.init
            { x := p.x.autoSetup.drawMin - style.tickH - style.textPadding
                - style.textPadding * lit 1.5
                - (p.y.autoSetup.ticks.filter Fp.Tick.hasName).foldl
                    (fun acc t => Fp.std_max acc (Fp.estimateUtf8Width t.name)) (lit 0)
                  * style.valueSize,
              y := (p.y.autoSetup.drawMax + p.y.autoSetup.drawMin) * lit 0.5 }
            (lit 0) p.y.autoSetup.label "svg-plot-label" true true)]
        else []) := by
  refine ⟨rfl, rfl, ?_, rfl, ?_⟩
  · simp only [Fp.Plot2D.prepare, fp_addChild_if, fp_addLabelsX, fp_addLabelsY]
  · simp only [Fp.Plot2D.prepare, fp_addChild_if, fp_addLabelsX, fp_addLabelsY,
      fp_addLabelsY_longest, List.append_assoc]

end FpLayout

/-! ### Laying out and writing a tree, for every arithmetic -/

section FpWrite

open Fp.DoubleOps

variable {D : Type} [Fp.DoubleOps D]

/-- The layout of a fresh plot returns.  The plot it returns is laid out, has
the axes after autoSetup, its children are the laid-out children of the first
part of the layout, and its box is the fold of their boxes into the axis
rectangle expanded by the tick lengths. -/
theorem fp_plot2D_layout_ok (libm : Fp.CMath D) (style : Fp.PlotStyle D) (p : Fp.Plot2D D)
    (hp : Fp.Plot2D.Fresh p) :
    ∃ p1, Fp.Plot2D.layout libm style p = Except.ok p1 ∧ p1.hasLayout = true ∧
      p1.x = p.x.autoSetup ∧ p1.y = p.y.autoSetup ∧
      List.Forall₂
        (fun c c1 => Fp.PlotChild.layout libm style p.x.autoSetup p.y.autoSetup c = Except.ok c1)
        (Fp.Plot2D.prepare style p).children p1.children ∧
      p1.bounds = (p1.children.map Fp.PlotChild.bounds).foldl Fp.SvgDrawable.foldBounds
        (Fp.Plot2D.axisBox style p.x.autoSetup p.y.autoSetup) := by
  obtain ⟨hx, hy, hl, hb, hc⟩ := fp_prepare style p
  have hkids : ∀ c ∈ (Fp.Plot2D.prepare style p).children,
      ∃ c1, Fp.PlotChild.layout libm style (Fp.Plot2D.prepare style p).x
        (Fp.Plot2D.prepare style p).y c = Except.ok c1 := by
    intro c hc1
    refine fp_plotChild_layout_ok libm style _ _ c (fun l hl1 => ?_)
    rw [hc, hl1] at hc1
    simp only [List.mem_append, List.mem_map, List.mem_ite_nil_right, List.mem_singleton,
      reduceCtorEq, and_false, exists_false, or_false] at hc1
    exact hp.2 l hc1
  obtain ⟨cs1, h1, h2⟩ := fp_svgDrawable_layout_ok
    (Fp.PlotChild.layout libm style (Fp.Plot2D.prepare style p).x (Fp.Plot2D.prepare style p).y)
    Fp.PlotChild.bounds (Fp.Plot2D.prepare style p).toSvgDrawable (hl.trans hp.1) hkids
  have h3 : Fp.Plot2D.layout libm style p = Except.ok
      { Fp.Plot2D.prepare style p with
        toSvgDrawable :=
          { children := cs1, hasLayout := true,
            bounds := (cs1.map Fp.PlotChild.bounds).foldl Fp.SvgDrawable.foldBounds
              (Fp.Plot2D.prepare style p).bounds } } := by
    rw [Fp.Plot2D.layout]
    simp only
    rw [h1]
  refine ⟨_, h3, rfl, hx, hy, ?_, ?_⟩
  · rw [← hx, ← hy]
    exact h2
  · simp only
    rw [hb]

/-- The member layoutIfNeeded of a plot returns for a fresh plot and for a plot
that has been laid out. -/
theorem fp_plot2D_layoutIfNeeded_ok (libm : Fp.CMath D) (style : Fp.PlotStyle D)
    (p : Fp.Plot2D D) (hp : p.hasLayout = false → Fp.Plot2D.Fresh p) :
    ∃ p1, Fp.Plot2D.layoutIfNeeded libm style p = Except.ok p1 ∧ p1.hasLayout = true := by
  cases hl : p.hasLayout
  · obtain ⟨p1, h1, h2, _⟩ := fp_plot2D_layout_ok libm style p (hp hl)
    exact ⟨p1, by rw [Fp.Plot2D.layoutIfNeeded, hl]; exact h1, h2⟩
  · exact ⟨p, by rw [Fp.Plot2D.layoutIfNeeded, hl]; rfl, hl⟩

/-- The layout of a fresh figure returns. -/
theorem fp_figure_layout_ok (libm : Fp.CMath D) (style : Fp.PlotStyle D) (fig : Fp.Figure D)
    (hf : Fp.Figure.Fresh fig) :
    ∃ fig1, Fp.Figure.layout libm style fig = Except.ok fig1 ∧ fig1.hasLayout = true ∧
      List.Forall₂ (fun c c1 => Fp.Plot2D.layout libm style c = Except.ok c1)
        fig.children fig1.children := by
  obtain ⟨cs1, h1, h2⟩ := fp_svgDrawable_layout_ok (Fp.Plot2D.layout libm style)
    (fun p => p.bounds)
    ({ fig.toSvgDrawable with bounds := Fp.Bounds.init (lit 0) (lit 0) (lit 0) (lit 0) } :
      Fp.SvgDrawable D (Fp.Plot2D D)) hf.1
    (fun c hc => by
      obtain ⟨p1, hp1, _⟩ := fp_plot2D_layout_ok libm style c (hf.2 c hc)
      exact ⟨p1, hp1⟩)
  have h3 : Fp.Figure.layout libm style fig = Except.ok
      { fig with
        toSvgDrawable :=
          { children := cs1, hasLayout := true,
            bounds := (cs1.map fun p => p.bounds).foldl Fp.SvgDrawable.foldBounds
              (Fp.Bounds.init (lit 0) (lit 0) (lit 0) (lit 0)) } } := by
    rw [Fp.Figure.layout]
    simp only
    rw [h1]
  exact ⟨_, h3, rfl, h2⟩

/-- The member layoutIfNeeded of a figure returns for a fresh figure and for a
figure that has been laid out. -/
theorem fp_figure_layoutIfNeeded_ok (libm : Fp.CMath D) (style : Fp.PlotStyle D)
    (fig : Fp.Figure D) (hf : fig.hasLayout = false → Fp.Figure.Fresh fig) :
    ∃ fig1, Fp.Figure.layoutIfNeeded libm style fig = Except.ok fig1 ∧
      fig1.hasLayout = true ∧ fig1.style = fig.style := by
  cases hl : fig.hasLayout
  · obtain ⟨fig1, h1, h2, _⟩ := fp_figure_layout_ok libm style fig (hf hl)
    refine ⟨fig1, by rw [Fp.Figure.layoutIfNeeded, hl]; exact h1, h2, ?_⟩
    rw [Fp.Figure.layout] at h1
    simp only at h1
    split at h1
    · exact absurd h1 (by simp)
    · rw [← Except.ok.inj h1]
  · exact ⟨fig, by rw [Fp.Figure.layoutIfNeeded, hl]; rfl, hl, rfl⟩

/-- The header: the prolog, the opening tag and the background rect. -/
theorem fp_writeHeader (style : Fp.PlotStyle D) (bounds : Fp.Bounds D) (o : Fp.Out D) :
    Fp.SvgFileDrawable.writeHeader style bounds o
      = o.append (Fp.SvgFileDrawable.header style bounds) := by
  simp only [Fp.SvgFileDrawable.header, Fp.SvgFileDrawable.writeHeader, fp_put_eq_append,
    fp_append_append, fp_empty_append_svg]

/-- The pieces of the header are marks of neither layer. -/
theorem fp_header_marks (style : Fp.PlotStyle D) (bounds : Fp.Bounds D) :
    ∀ e ∈ Fp.SvgFileDrawable.header style bounds,
      e.isDataMark = false ∧ e.isLabelMark = false ∧ e.isGroupTag = false := by
  intro e he
  simp only [Fp.SvgFileDrawable.header, Fp.SvgFileDrawable.writeHeader, fp_put_eq_append,
    fp_append_append, fp_empty_append_svg, List.cons_append, List.nil_append, List.mem_cons,
    List.mem_singleton, List.not_mem_nil, or_false] at he
  rcases he with h | h | h <;> rw [h] <;> exact ⟨by simp [Fp.Svg.isDataMark], rfl, rfl⟩

/-- The hatch definitions only append, and what they append are marks of
neither layer. -/
theorem fp_writeHatches (style : Fp.PlotStyle D) (maxBounds : Int)
    (hatches : List (Fp.PlotStyle.Hatch D)) :
    ∀ i : Nat, ∃ l : List (Fp.Svg D),
      (∀ o, Fp.SvgFileDrawable.writeHatches style maxBounds i hatches o = o.append l) ∧
      ∀ e ∈ l, e.isDataMark = false ∧ e.isLabelMark = false ∧ e.isGroupTag = false := by
  induction hatches with
  | nil => intro i; exact ⟨[], fun o => (fp_append_nil o).symm, fun e he => by simp at he⟩
  | cons hatch rest ih =>
    intro i
    obtain ⟨l, hl, hm⟩ := ih (i + 1)
    by_cases hc : hatch.angles.length = 0
    · exact ⟨l, fun o => by rw [Fp.SvgFileDrawable.writeHatches, if_pos hc, hl], hm⟩
    · refine ⟨[Fp.Svg.maskOpen i] ++ (hatch.angles.flatMap fun angle =>
          [Fp.Svg.maskRect i maxBounds angle])
          ++ [Fp.Svg.maskClose, Fp.Svg.pattern i (style.hatchSpacing * hatch.spaceScale)] ++ l,
        fun o => ?_, fun e he => ?_⟩
      · rw [Fp.SvgFileDrawable.writeHatches, if_neg hc]
        simp only [hl, fp_put_eq_append,
          fp_foldl_append (fun angle acc => acc.append [Fp.Svg.maskRect i maxBounds angle])
            (fun angle => [Fp.Svg.maskRect i maxBounds angle]) (fun _ _ => rfl),
          fp_append_append, List.append_assoc, List.cons_append, List.nil_append]
      · simp only [List.mem_append, List.mem_singleton, List.mem_flatMap, List.mem_cons,
          List.not_mem_nil, or_false] at he
        rcases he with ((h | ⟨a, _, h⟩) | h | h) | h
        · rw [h]; exact ⟨rfl, rfl, rfl⟩
        · rw [h]; exact ⟨rfl, rfl, rfl⟩
        · rw [h]; exact ⟨rfl, rfl, rfl⟩
        · rw [h]; exact ⟨rfl, rfl, rfl⟩
        · exact hm e h

/-- The trailer only appends, and its pieces are marks of neither layer. -/
theorem fp_writeTrailer (libm : Fp.CMath D) (style : Fp.PlotStyle D) (bounds : Fp.Bounds D) :
    (∀ o, Fp.SvgFileDrawable.writeTrailer libm style bounds o
      = o.append (Fp.SvgFileDrawable.trailer libm style bounds)) ∧
    ∀ e ∈ Fp.SvgFileDrawable.trailer libm style bounds,
      e.isDataMark = false ∧ e.isLabelMark = false ∧ e.isGroupTag = false := by
  obtain ⟨l, hl, hm⟩ := fp_writeHatches style
    (toInt (libm.ceil (Fp.std_max
      (Fp.std_max (fabs bounds.left) (fabs bounds.right))
      (Fp.std_max (fabs bounds.top) (fabs bounds.bottom)) * libm.sqrt (lit 2))))
    style.hatches 0
  have h1 : ∀ o, Fp.SvgFileDrawable.writeTrailer libm style bounds o
      = o.append ([Fp.Svg.defsOpen] ++ l
        ++ [Fp.Svg.defsClose, Fp.Svg.style style, Fp.Svg.script, Fp.Svg.svgClose]) := by
    intro o
    simp only [Fp.SvgFileDrawable.writeTrailer, hl, fp_put_eq_append, fp_append_append,
      List.append_assoc, List.cons_append, List.nil_append]
  have h2 : Fp.SvgFileDrawable.trailer libm style bounds = [Fp.Svg.defsOpen] ++ l
        ++ [Fp.Svg.defsClose, Fp.Svg.style style, Fp.Svg.script, Fp.Svg.svgClose] := by
    rw [Fp.SvgFileDrawable.trailer, h1, fp_empty_append_svg]
  refine ⟨fun o => by rw [h2]; exact h1 o, fun e he => ?_⟩
  rw [h2] at he
  simp only [List.mem_append, List.mem_singleton, List.mem_cons, List.not_mem_nil,
    or_false] at he
  rcases he with (h | h) | h | h | h | h
  · rw [h]; exact ⟨rfl, rfl, rfl⟩
  · exact hm e h
  · rw [h]; exact ⟨rfl, rfl, rfl⟩
  · rw [h]; exact ⟨rfl, rfl, rfl⟩
  · rw [h]; exact ⟨rfl, rfl, rfl⟩
  · rw [h]; exact ⟨rfl, rfl, rfl⟩

/-- What the writeData of a plot appends depends on the stream only through
the number of earlier calls of `rand()`, and it makes one call. -/
theorem fp_plot2D_writeData_appends (rand : Nat → Nat) (style : Fp.PlotStyle D)
    (p : Fp.Plot2D D) (o : Fp.Out D) :
    Fp.Plot2D.writeData rand style p o =
      { svg := o.svg
          ++ (Fp.Plot2D.writeData rand style p { svg := [], randCalls := o.randCalls }).svg,
        randCalls := o.randCalls + 1 } := by
  rw [fp_plot2D_writeData rand style p o,
    fp_plot2D_writeData rand style p { svg := [], randCalls := o.randCalls }]
  simp

theorem fp_plot2D_writeLabel_appends (style : Fp.PlotStyle D) (p : Fp.Plot2D D)
    (o : Fp.Out D) :
    Fp.Plot2D.writeLabel style p o = o.append (Fp.Plot2D.writeLabel style p {}).svg :=
  fp_appends_of_exists ⟨_, fp_plot2D_writeLabel style p⟩ o

/-- The data output of a figure is that of its plots, last plot first, each
making one call of `rand()`. -/
theorem fp_plots_writeData (rand : Nat → Nat) (style : Fp.PlotStyle D)
    (plots : List (Fp.Plot2D D)) :
    ∀ o : Fp.Out D, plots.foldr (Fp.Plot2D.writeData rand style) o =
      { svg := o.svg ++ (plots.foldr (Fp.Plot2D.writeData rand style)
          { svg := [], randCalls := o.randCalls }).svg,
        randCalls := o.randCalls + plots.length } := by
  induction plots with
  | nil => intro o; simp
  | cons p rest ih =>
    intro o
    rw [List.foldr_cons, List.foldr_cons, fp_plot2D_writeData_appends, ih o,
      fp_plot2D_writeData_appends rand style p
        (rest.foldr (Fp.Plot2D.writeData rand style) { svg := [], randCalls := o.randCalls }),
      ih { svg := [], randCalls := o.randCalls }]
    simp [List.append_assoc, Nat.add_assoc]

theorem fp_figure_writeData_appends (rand : Nat → Nat) (style : Fp.PlotStyle D)
    (fig : Fp.Figure D) (o : Fp.Out D) :
    Fp.Figure.writeData rand style fig o =
      { svg := o.svg
          ++ (Fp.Figure.writeData rand style fig { svg := [], randCalls := o.randCalls }).svg,
        randCalls := o.randCalls + fig.children.length } := by
  simp only [Fp.Figure.writeData, fp_writeData_eq_foldr]
  exact fp_plots_writeData rand style fig.children o

theorem fp_figure_writeLabel_appends (style : Fp.PlotStyle D) (fig : Fp.Figure D)
    (o : Fp.Out D) :
    Fp.Figure.writeLabel style fig o = o.append (Fp.Figure.writeLabel style fig {}).svg := by
  refine fp_appends_of_exists
    ⟨fig.children.reverse.flatMap fun p => (Fp.Plot2D.writeLabel style p {}).svg, fun o1 => ?_⟩ o
  rw [Fp.Figure.writeLabel, fp_writeLabel_eq_foldr]
  exact fp_foldr_append _ _ (fp_plot2D_writeLabel_appends style) _ o1

/-- The markup of a document written by the generic write of a node that the
layout returns for: what was on the stream, the header, what writeData
appends, what writeLabel appends, the trailer. -/
theorem fp_write_svg {α : Type} (libm : Fp.CMath D) (layoutIfNeeded : α → Except Fault α)
    (bounds : α → Fp.Bounds D) (writeData writeLabel : α → Fp.Out D → Fp.Out D)
    (style : Fp.PlotStyle D) (self self1 : α) (o : Fp.Out D)
    (hl : layoutIfNeeded self = Except.ok self1)
    (hData : ∀ o1 : Fp.Out D, (writeData self1 o1).svg
      = o1.svg ++ (writeData self1 { svg := [], randCalls := o1.randCalls }).svg)
    (hLabel : ∀ o1 : Fp.Out D, writeLabel self1 o1 = o1.append (writeLabel self1 {}).svg) :
    ∃ o2, Fp.SvgFileDrawable.write libm layoutIfNeeded bounds writeData writeLabel style self o
        = Except.ok (self1, o2) ∧
      o2.svg = o.svg ++ (Fp.SvgFileDrawable.header style (bounds self1)
        ++ (writeData self1 { svg := [], randCalls := o.randCalls }).svg
        ++ (writeLabel self1 {}).svg
        ++ Fp.SvgFileDrawable.trailer libm style (bounds self1)) := by
  refine ⟨_, by rw [Fp.SvgFileDrawable.write, hl], ?_⟩
  rw [(fp_writeTrailer libm style (bounds self1)).1, hLabel, fp_append_append, fp_append_svg,
    hData, fp_writeHeader, fp_append_svg, fp_append_randCalls]
  simp only [List.append_assoc]

end FpWrite

/-! ### The marks of the two layers -/

section FpMarks

open Fp.DoubleOps

variable {D : Type} [Fp.DoubleOps D]

/-- No piece of markup is a mark of both layers. -/
theorem fp_marks_disjoint (e : Fp.Svg D) (h : e.isDataMark = true) : e.isLabelMark = false := by
  cases e with
  | line cls x1 x2 y1 y2 =>
    simp only [Fp.Svg.isDataMark, Bool.or_eq_true, decide_eq_true_eq] at h
    rcases h with h | h
    · rw [h]
      show "svg-plot-tick".data.isPrefixOf "svg-plot-major".data = false
      decide
    · rw [h]
      show "svg-plot-tick".data.isPrefixOf "svg-plot-minor".data = false
      decide
  | text cls a x y r c => simp [Fp.Svg.isDataMark] at h
  | _ => rfl

/-- A group tag is a mark of neither layer. -/
theorem fp_groupTag_no_mark (e : Fp.Svg D) (h : e.isGroupTag = true) :
    e.isDataMark = false ∧ e.isLabelMark = false := by
  cases e <;> first | exact ⟨rfl, rfl⟩ | simp [Fp.Svg.isGroupTag] at h

theorem fp_path_isDataMark (e : Fp.Svg D) (h : e.isPath = true) : e.isDataMark = true := by
  cases e <;> first | rfl | simp [Fp.Svg.isPath] at h

/-- The gridline of a tick is a data mark. -/
theorem fp_gridLineX_marks (style : Fp.PlotStyle D) (x y : Fp.Axis D) (t : Fp.Tick D) :
    ∀ e ∈ (Fp.Plot2D.gridLineX style x y t {}).svg, e.isDataMark = true := by
  intro e he
  obtain ⟨h1, h2, h3⟩ := fp_gridLineX_svg style x y t
  cases hs : t.strength with
  | tick => rw [h1 hs] at he; simp at he
  | major =>
    obtain ⟨y1, hy⟩ := h2 hs
    rw [hy, List.mem_singleton] at he
    rw [he]
    rfl
  | minor =>
    rw [h3 hs, List.mem_singleton] at he
    rw [he]
    rfl

theorem fp_gridLineY_marks (x y : Fp.Axis D) (t : Fp.Tick D) :
    ∀ e ∈ (Fp.Plot2D.gridLineY x y t {}).svg, e.isDataMark = true := by
  intro e he
  rw [fp_gridLineY_svg] at he
  cases hs : t.strength with
  | tick => rw [hs] at he; simp at he
  | major =>
    rw [hs] at he
    simp only [reduceCtorEq, if_false, if_true, List.mem_singleton] at he
    rw [he]
    rfl
  | minor =>
    rw [hs] at he
    simp only [reduceCtorEq, if_false, List.mem_singleton] at he
    rw [he]
    rfl

/-- The tick mark of a tick is a label mark. -/
theorem fp_tickMarkX_marks (style : Fp.PlotStyle D) (x y : Fp.Axis D) (t : Fp.Tick D) :
    ∀ e ∈ (Fp.Plot2D.tickMarkX style x y t {}).svg, e.isLabelMark = true := by
  intro e he
  rw [fp_tickMarkX_svg] at he
  by_cases h : t.name.length ≠ 0
  · rw [if_pos h, List.mem_singleton] at he
    rw [he]
    show "svg-plot-tick".data.isPrefixOf "svg-plot-tick".data = true
    decide
  · rw [if_neg h] at he
    simp at he

theorem fp_tickMarkY_marks (style : Fp.PlotStyle D) (x y : Fp.Axis D) (t : Fp.Tick D) :
    ∀ e ∈ (Fp.Plot2D.tickMarkY style x y t {}).svg, e.isLabelMark = true := by
  intro e he
  rw [fp_tickMarkY_svg] at he
  by_cases h : t.name.length ≠ 0
  · rw [if_pos h, List.mem_singleton] at he
    rw [he]
    show "svg-plot-tick".data.isPrefixOf "svg-plot-tick".data = true
    decide
  · rw [if_neg h] at he
    simp at he

/-- The text element of a label is a label mark. -/
theorem fp_textLabel_marks (t : Fp.TextLabel D) :
    ∀ e ∈ (t.writeLabel {}).svg, e.isLabelMark = true := by
  intro e he
  obtain ⟨a, x, y, r, h⟩ := fp_textLabel_write t
  rw [Fp.TextLabel.writeLabel, h, fp_empty_append_svg, List.mem_singleton] at he
  rw [he]
  rfl

/-- The connector and the text element of a line label are label marks. -/
theorem fp_lineLabel_marks (style : Fp.PlotStyle D) (c : Fp.LineLabel D) :
    ∀ e ∈ (c.writeLabel style {}).svg, e.isLabelMark = true := by
  intro e he
  obtain ⟨a, x, y, r, h⟩ := fp_lineLabel_writeLabel style c
  rw [h, fp_empty_append_svg] at he
  rcases List.mem_append.mp he with h1 | h1
  · split_ifs at h1
    · rw [List.mem_singleton.mp h1]
      simp [Fp.Svg.isLabelMark, String.data_append]
    · simp at h1
  · rw [List.mem_singleton.mp h1]
    rfl

/-- What a child of a plot appends to the label layer are label marks. -/
theorem fp_plotChild_writeLabel_marks (style : Fp.PlotStyle D) (c : Fp.PlotChild D) :
    ∀ e ∈ (Fp.PlotChild.writeLabel style c {}).svg, e.isLabelMark = true := by
  cases c with
  | line l =>
    intro e he
    rw [Fp.PlotChild.writeLabel, fp_line2D_writeLabel, fp_empty_append_svg] at he
    obtain ⟨c, _, hc⟩ := List.mem_flatMap.mp he
    exact fp_lineLabel_marks style c e hc
  | label t => exact fp_textLabel_marks t

/-- The connector of a line label is not a tick mark: its class is longer than
`svg-plot-tick`. -/
theorem fp_plotChild_writeLabel_no_tick (style : Fp.PlotStyle D) (c : Fp.PlotChild D) :
    ∀ e ∈ (Fp.PlotChild.writeLabel style c {}).svg, e.isLineOfClass "svg-plot-tick" = false := by
  have hne : ∀ s : String, ("svg-plot-tick " ++ s) ≠ "svg-plot-tick" := by
    intro s h
    have h1 := congrArg String.length h
    have h2 : "svg-plot-tick ".length = 14 := by decide
    have h3 : "svg-plot-tick".length = 13 := by decide
    rw [String.length_append, h2, h3] at h1
    omega
  have hlab : ∀ (t : Fp.TextLabel D), ∀ e ∈ (t.writeLabel {}).svg,
      e.isLineOfClass "svg-plot-tick" = false := by
    intro t e he
    obtain ⟨a, x, y, r, h⟩ := fp_textLabel_write t
    rw [Fp.TextLabel.writeLabel, h, fp_empty_append_svg, List.mem_singleton] at he
    rw [he]
    rfl
  cases c with
  | label t => exact hlab t
  | line l =>
    intro e he
    rw [Fp.PlotChild.writeLabel, fp_line2D_writeLabel, fp_empty_append_svg] at he
    obtain ⟨c, _, hc⟩ := List.mem_flatMap.mp he
    obtain ⟨a, x, y, r, h⟩ := fp_lineLabel_writeLabel style c
    rw [h, fp_empty_append_svg] at hc
    rcases List.mem_append.mp hc with h1 | h1
    · split_ifs at h1
      · rw [List.mem_singleton.mp h1]
        simp [Fp.Svg.isLineOfClass, hne]
      · simp at h1
    · rw [List.mem_singleton.mp h1]
      rfl

/-- Every piece of the data output of a plot is a data mark or a group tag. -/
theorem fp_plot2D_writeData_marks (rand : Nat → Nat) (style : Fp.PlotStyle D)
    (p : Fp.Plot2D D) (k : Nat) :
    ∀ e ∈ (Fp.Plot2D.writeData rand style p { svg := [], randCalls := k }).svg,
      e.isDataMark = true ∨ e.isGroupTag = true := by
  intro e he
  rw [fp_plot2D_writeData] at he
  simp only [List.nil_append, List.mem_append, List.mem_singleton, List.mem_cons,
    List.mem_flatMap, List.not_mem_nil, or_false] at he
  rcases he with ((((h | ⟨t, _, h⟩) | ⟨t, _, h⟩) | h | h) | ⟨c, _, h⟩) | h
  · rw [h]; exact Or.inl rfl
  · exact Or.inl (fp_gridLineX_marks style p.x p.y t e h)
  · exact Or.inl (fp_gridLineY_marks p.x p.y t e h)
  · rw [h]; exact Or.inl rfl
  · rw [h]; exact Or.inr rfl
  · exact Or.inl (fp_path_isDataMark e (fp_plotChild_writeData_paths style p.x p.y c e h))
  · rw [h]; exact Or.inr rfl

/-- Every piece of the label output of a plot is a label mark or a group tag. -/
theorem fp_plot2D_writeLabel_marks (style : Fp.PlotStyle D) (p : Fp.Plot2D D) :
    ∀ e ∈ (Fp.Plot2D.writeLabel style p {}).svg,
      e.isLabelMark = true ∨ e.isGroupTag = true := by
  intro e he
  rw [fp_plot2D_writeLabel, fp_empty_append_svg] at he
  simp only [List.mem_append, List.mem_singleton, List.mem_flatMap] at he
  rcases he with (((h | ⟨c, _, h⟩) | ⟨t, _, h⟩) | ⟨t, _, h⟩) | h
  · rw [h]; exact Or.inr rfl
  · exact Or.inl (fp_plotChild_writeLabel_marks style c e h)
  · exact Or.inl (fp_tickMarkX_marks style p.x p.y t e h)
  · exact Or.inl (fp_tickMarkY_marks style p.x p.y t e h)
  · rw [h]; exact Or.inr rfl

/-- Every piece of the data output of a figure is a data mark or a group tag. -/
theorem fp_plots_writeData_marks (rand : Nat → Nat) (style : Fp.PlotStyle D)
    (plots : List (Fp.Plot2D D)) :
    ∀ k, ∀ e ∈ (plots.foldr (Fp.Plot2D.writeData rand style) { svg := [], randCalls := k }).svg,
      e.isDataMark = true ∨ e.isGroupTag = true := by
  induction plots with
  | nil => intro k e he; simp at he
  | cons p rest ih =>
    intro k e he
    rw [List.foldr_cons, fp_plot2D_writeData_appends] at he
    rcases List.mem_append.mp he with h | h
    · exact ih k e h
    · exact fp_plot2D_writeData_marks rand style p _ e h

theorem fp_figure_writeData_marks (rand : Nat → Nat) (style : Fp.PlotStyle D)
    (fig : Fp.Figure D) (k : Nat) :
    ∀ e ∈ (Fp.Figure.writeData rand style fig { svg := [], randCalls := k }).svg,
      e.isDataMark = true ∨ e.isGroupTag = true := by
  simp only [Fp.Figure.writeData, fp_writeData_eq_foldr]
  exact fp_plots_writeData_marks rand style fig.children k

/-- Every piece of the label output of a figure is a label mark or a group tag. -/
theorem fp_figure_writeLabel_marks (style : Fp.PlotStyle D) (fig : Fp.Figure D) :
    ∀ e ∈ (Fp.Figure.writeLabel style fig {}).svg,
      e.isLabelMark = true ∨ e.isGroupTag = true := by
  intro e he
  rw [Fp.Figure.writeLabel, fp_writeLabel_eq_foldr,
    fp_foldr_append _ _ (fp_plot2D_writeLabel_appends style), fp_empty_append_svg] at he
  obtain ⟨p, _, hp⟩ := List.mem_flatMap.mp he
  exact fp_plot2D_writeLabel_marks style p e hp

/-- In a document made of a header, a data layer, a label layer and a trailer,
no data mark comes after a label mark. -/
theorem fp_document_order (header data label trailer : List (Fp.Svg D))
    (hh : ∀ e ∈ header, e.isDataMark = false ∧ e.isLabelMark = false ∧ e.isGroupTag = false)
    (hd : ∀ e ∈ data, e.isDataMark = true ∨ e.isGroupTag = true)
    (hl : ∀ e ∈ label, e.isLabelMark = true ∨ e.isGroupTag = true)
    (ht : ∀ e ∈ trailer, e.isDataMark = false ∧ e.isLabelMark = false ∧ e.isGroupTag = false) :
    List.Pairwise (fun a b => ¬ (a.isLabelMark = true ∧ b.isDataMark = true))
      (header ++ data ++ label ++ trailer) := by
  have hA : ∀ e ∈ header ++ data, e.isLabelMark = false := by
    intro e he
    rcases List.mem_append.mp he with h | h
    · exact (hh e h).2.1
    · rcases hd e h with h1 | h1
      · exact fp_marks_disjoint e h1
      · exact (fp_groupTag_no_mark e h1).2
  have hB : ∀ e ∈ label ++ trailer, e.isDataMark = false := by
    intro e he
    rcases List.mem_append.mp he with h | h
    · rcases hl e h with h1 | h1
      · cases hdm : e.isDataMark
        · rfl
        · rw [fp_marks_disjoint e hdm] at h1
          exact absurd h1 (by simp)
      · exact (fp_groupTag_no_mark e h1).1
    · exact (ht e h).1
  rw [List.append_assoc (header ++ data)]
  refine List.pairwise_append.mpr ⟨?_, ?_, ?_⟩
  · exact List.pairwise_of_forall_mem_list (fun a ha b _ h => by rw [hA a ha] at h; simp at h)
  · exact List.pairwise_of_forall_mem_list (fun a _ b hb h => by rw [hB b hb] at h; simp at h)
  · intro a ha b _ h
    rw [hA a ha] at h
    simp at h

end FpMarks

/-! ### The sample plots -/

theorem f64_constantPlot_children :
    F64.constantPlot.children = [Fp.PlotChild.line
      { points := [{ x := F64.fin false 0, y := F64.fin false 3 },
                   { x := F64.fin false 1, y := F64.fin false 3 },
                   { x := F64.fin false 2, y := F64.fin false 3 }] }] := rfl

theorem f64_examplePlot_children :
    F64.examplePlot.children = [Fp.PlotChild.line
      { points := [{ x := F64.fin false 0, y := F64.fin false 0 },
                   { x := F64.fin false 1, y := F64.fin false 1 },
                   { x := F64.fin false 2, y := F64.fin false 4 }] }] := rfl

/-- The plot with the constant series has not been laid out, nor has its line. -/
theorem f64_constantPlot_fresh : Fp.Plot2D.Fresh F64.constantPlot := by
  refine ⟨rfl, fun l hl => ?_⟩
  rw [f64_constantPlot_children, List.mem_singleton] at hl
  rw [Fp.PlotChild.line.inj hl]

/-- The sample plot has not been laid out, nor has its line. -/
theorem f64_examplePlot_fresh : Fp.Plot2D.Fresh F64.examplePlot := by
  refine ⟨rfl, fun l hl => ?_⟩
  rw [f64_examplePlot_children, List.mem_singleton] at hl
  rw [Fp.PlotChild.line.inj hl]

/-! ### What a plot draws for its ticks, for every arithmetic -/

section FpTicks

open Fp.DoubleOps

variable {D : Type} [Fp.DoubleOps D]

theorem fp_flatMap_if_singleton {β : Type} (test : β → Bool) (f : β → Fp.Svg D)
    (bs : List β) :
    (bs.flatMap fun b => if test b = true then [f b] else []) = (bs.filter test).map f := by
  induction bs with
  | nil => rfl
  | cons b bs ih =>
    rw [List.flatMap_cons, ih]
    cases hb : test b <;> simp [List.filter, hb]

/-- The tick marks of the x ticks: one line of class `svg-plot-tick` for every
tick with a name, in the order of the ticks. -/
theorem fp_tickMarksX (style : Fp.PlotStyle D) (x y : Fp.Axis D) (ts : List (Fp.Tick D)) :
    (ts.flatMap fun t => (Fp.Plot2D.tickMarkX style x y t {}).svg)
      = (ts.filter Fp.Tick.hasName).map fun t =>
          Fp.Svg.line "svg-plot-tick" (x.map t.value) (x.map t.value) y.drawMax
            (y.drawMax + style.tickV) := by
  rw [← fp_flatMap_if_singleton]
  congr 1
  funext t
  rw [fp_tickMarkX_svg]
  simp [Fp.Tick.hasName]

/-- The tick marks of the y ticks: one line of class `svg-plot-tick` for every
tick with a name, in the order of the ticks. -/
theorem fp_tickMarksY (style : Fp.PlotStyle D) (x y : Fp.Axis D) (ts : List (Fp.Tick D)) :
    (ts.flatMap fun t => (Fp.Plot2D.tickMarkY style x y t {}).svg)
      = (ts.filter Fp.Tick.hasName).map fun t =>
          Fp.Svg.line "svg-plot-tick" (x.drawMin - style.tickH) x.drawMin (y.map t.value)
            (y.map t.value) := by
  rw [← fp_flatMap_if_singleton]
  congr 1
  funext t
  rw [fp_tickMarkY_svg]
  simp [Fp.Tick.hasName]

/-- The gridlines of the y ticks: one line for every tick of major or minor
strength, in the order of the ticks. -/
theorem fp_gridLinesY (x y : Fp.Axis D) (ts : List (Fp.Tick D)) :
    (ts.flatMap fun t => (Fp.Plot2D.gridLineY x y t {}).svg)
      = (ts.filter Fp.Tick.hasGridLine).map fun t =>
          Fp.Svg.line (if t.strength = Tick.Strength.major then "svg-plot-major"
            else "svg-plot-minor") x.drawMin x.drawMax (y.map t.value) (y.map t.value) := by
  rw [← fp_flatMap_if_singleton]
  congr 1
  funext t
  rw [fp_gridLineY_svg]
  by_cases h : t.strength = Tick.Strength.tick <;> simp [Fp.Tick.hasGridLine, h]

/-- The gridlines of the x ticks: one line for every tick of major or minor
strength, in the order of the ticks; its upper end is `y.drawMin()`, or that
less `tickH` for a named major tick at the left border. -/
theorem fp_gridLinesX (style : Fp.PlotStyle D) (x y : Fp.Axis D) (ts : List (Fp.Tick D)) :
    (ts.flatMap fun t => (Fp.Plot2D.gridLineX style x y t {}).svg)
      = (ts.filter Fp.Tick.hasGridLine).map fun t =>
          Fp.Svg.line (if t.strength = Tick.Strength.major then "svg-plot-major"
            else "svg-plot-minor") (x.map t.value) (x.map t.value)
            (y.drawMin - (if t.strength = Tick.Strength.major
                ∧ flt (fabs (x.map t.value - x.drawMin)) (lit 0.01) = true
                ∧ t.name.length ≠ 0 then style.tickH else lit 0))
            y.drawMax := by
  rw [← fp_flatMap_if_singleton]
  congr 1
  funext t
  by_cases h : t.strength = Tick.Strength.tick
  · simp [Fp.Plot2D.gridLineX, Fp.Tick.hasGridLine, h]
  · simp [Fp.Plot2D.gridLineX, Fp.Tick.hasGridLine, h, Fp.Out.put]

/-- The children of a plot after the layout of a fresh plot: the laid-out
children the plot had, then the laid-out labels that the layout adds. -/
theorem fp_plot2D_layout_children (libm : Fp.CMath D) (style : Fp.PlotStyle D)
    (p : Fp.Plot2D D) (hp : Fp.Plot2D.Fresh p) :
    ∃ p1 kids, Fp.Plot2D.layout libm style p = Except.ok p1 ∧ p1.hasLayout = true ∧
      p1.x = p.x.autoSetup ∧ p1.y = p.y.autoSetup ∧
      List.Forall₂
        (fun c c1 => Fp.PlotChild.layout libm style p1.x p1.y c = Except.ok c1) p.children kids ∧
      p1.bounds = (p1.children.map Fp.PlotChild.bounds).foldl Fp.SvgDrawable.foldBounds
        (Fp.Plot2D.axisBox style p1.x p1.y) ∧
      p1.children = kids
        ++ ((p1.x.ticks.filter Fp.Tick.hasName).map fun t =>
            Fp.PlotChild.label (Fp.TextLabel.layout style (Fp.TextLabel.init
              { x := p1.x.map t.value,
                y := p1.y.drawMax + style.tickV + style.valueSize * lit 0.5 + style.textPadding }
              (lit 0) t.name "svg-plot-value" false true)))
        ++ (if p1.x.label.length ≠ 0 then
            [Fp.PlotChild.label (Fp.TextLabel.layout style (Fp.TextLabel.init
              { x := (p1.x.drawMax + p1.x.drawMin) * lit 0.5,
                y := p1.y.drawMax + style.tickV + style.valueSize * lit 0.5
                  + style.textPadding + (style.labelSize + style.valueSize) * lit 0.5 }
              (lit 0) p1.x.label "svg-plot-label" false true))]
          else [])
        ++ ((p1.y.ticks.filter Fp.Tick.hasName).map fun t =>
            Fp.PlotChild.label (Fp.TextLabel.layout style (Fp.TextLabel.init
              { x := p1.x.drawMin - style.tickH - style.textPadding, y := p1.y.map t.value }
              (-lit 1) t.name "svg-plot-value" false true)))
        ++ (if p1.y.label.length ≠ 0 then
            [Fp.PlotChild.label (Fp.TextLabel.layout style (Fp.TextLabel.init
              { x := p1.x.drawMin - style.tickH - style.textPadding
                  - style.textPadding * lit 1.5
                  - (p1.y.ticks.filter Fp.Tick.hasName).foldl
                      (fun acc t => Fp.std_max acc (Fp.estimateUtf8Width t.name)) (lit 0)
                    * style.valueSize,
                y := (p1.y.drawMax + p1.y.drawMin) * lit 0.5 }
              (lit 0) p1.y.label "svg-plot-label" true true))]
          else []) := by
  obtain ⟨p1, h1, h2, hx, hy, hf, hb⟩ := fp_plot2D_layout_ok libm style p hp
  rw [(fp_prepare style p).2.2.2.2] at hf
  obtain ⟨m1, e4, e, hf1, hE⟩ := forall₂_append_split _ _ _ _ hf
  obtain ⟨m2, e3, e1, hf2, hC⟩ := forall₂_append_split _ _ _ _ hf1
  obtain ⟨m3, e2, e0, hf3, hB⟩ := forall₂_append_split _ _ _ _ hf2
  obtain ⟨kids, e1', e00, hK, hA⟩ := forall₂_append_split _ _ _ _ hf3
  have hlab : ∀ {α : Type} (ts : List α) (f : α → Fp.TextLabel D)
      (m : List (Fp.PlotChild D)),
      List.Forall₂ (fun c c1 => Fp.PlotChild.layout libm style p.x.autoSetup p.y.autoSetup c
        = Except.ok c1) (ts.map fun t => Fp.PlotChild.label (f t)) m →
      m = ts.map fun t => Fp.PlotChild.label (Fp.TextLabel.layout style (f t)) := by
    intro α ts f m hm
    rw [List.forall₂_map_left_iff] at hm
    exact forall₂_map_of_fun _ _ (fun a b hab => fp_plotChild_layout_label _ _ _ _ _ _ hab) _ _ hm
  have hone : ∀ (c : Prop) [Decidable c] (t : Fp.TextLabel D) (m : List (Fp.PlotChild D)),
      List.Forall₂ (fun c c1 => Fp.PlotChild.layout libm style p.x.autoSetup p.y.autoSetup c
        = Except.ok c1) (if c then [Fp.PlotChild.label t] else []) m →
      m = if c then [Fp.PlotChild.label (Fp.TextLabel.layout style t)] else [] := by
    intro c _ t m hm
    by_cases hc : c
    · rw [if_pos hc] at hm ⊢
      have := hlab [t] (fun _ => t) m (by simpa using hm)
      simpa using this
    · rw [if_neg hc] at hm ⊢
      cases hm
      rfl
  refine ⟨p1, kids, h1, h2, hx, hy, ?_, ?_, ?_⟩
  · rw [hx, hy]
    exact hK
  · rw [hx, hy]
    exact hb
  · rw [e, e1, e0, e00, hlab _ _ _ hA, hone _ _ _ hB, hlab _ _ _ hC, hone _ _ _ hE, hx, hy]

end FpTicks

/-! ### The accumulator of an axis, for every arithmetic -/

section FpAxis

open Fp.DoubleOps

variable {D : Type} [Fp.DoubleOps D]

/-- Observing values on an axis that ranges itself and has seen a value folds
them into the running minimum and maximum and changes nothing else. -/
theorem fp_observe_live (a : Fp.Axis D) (hs : a.autoScale = true) (hv : a.hasAutoValue = true)
    (vs : List D) :
    a.observe vs = { a with autoMin := vs.foldl Fp.std_min a.autoMin,
                            autoMax := vs.foldl Fp.std_max a.autoMax } := by
  induction vs generalizing a with
  | nil => rfl
  | cons w ws ih =>
    have h1 : a.autoValue w =
        { a with autoMin := (Fp.std_min a.autoMin w), autoMax := (Fp.std_max a.autoMax w) } := by
      simp [Fp.Axis.autoValue, hs, hv]
    rw [Fp.Axis.observe, List.foldl_cons, h1]
    exact ih _ hs hv

/-- The state of a constructor-built axis after a non-empty sequence of
observations. -/
theorem fp_observe_init (lo hi v : D) (vs : List D) :
    (Fp.Axis.init lo hi).observe (v :: vs) =
      { unitMap := fun x => (x - lit 0) / (lit 1 - lit 0),
        autoMin := vs.foldl Fp.std_min v, autoMax := vs.foldl Fp.std_max v,
        hasAutoValue := true, autoScale := true, autoLabel := true, label := "",
        drawLow := lo, drawHigh := hi, ticks := [] } := by
  have h1 : (Fp.Axis.init lo hi).autoValue v =
      { unitMap := fun x => (x - lit 0) / (lit 1 - lit 0), autoMin := v, autoMax := v,
        hasAutoValue := true, autoScale := true, autoLabel := true, label := "",
        drawLow := lo, drawHigh := hi, ticks := [] } := by
    simp [Fp.Axis.autoValue, Fp.Axis.init, Fp.Axis.linear, Fp.Axis.range]
  rw [Fp.Axis.observe, List.foldl_cons, h1]
  exact fp_observe_live _ rfl rfl vs

/-- The state after autoSetup: the linear range from the least to the greatest
observed value is committed, with no test of the two, and the two minor ticks
are installed; the screen endpoints are those of the constructor. -/
theorem fp_autoSetup_observe (lo hi v : D) (vs : List D) :
    ((Fp.Axis.init lo hi).observe (v :: vs)).autoSetup =
      { unitMap := fun x => (x - vs.foldl Fp.std_min v)
          / (vs.foldl Fp.std_max v - vs.foldl Fp.std_min v),
        autoMin := vs.foldl Fp.std_min v, autoMax := vs.foldl Fp.std_max v,
        hasAutoValue := true, autoScale := false, autoLabel := false, label := "",
        drawLow := lo, drawHigh := hi,
        ticks := [{ value := vs.foldl Fp.std_min v, name := to_string (vs.foldl Fp.std_min v),
                    strength := Tick.Strength.minor },
                  { value := vs.foldl Fp.std_max v, name := to_string (vs.foldl Fp.std_max v),
                    strength := Tick.Strength.minor }] } := by
  rw [fp_observe_init]
  simp [Fp.Axis.autoSetup, Fp.Axis.linear, Fp.Axis.range, Fp.Axis.minor, Fp.Axis.autoValue,
    Fp.Tick.ofDouble]

/-- The map of an axis after autoSetup: the interpolation between the screen
endpoints at the quotient `(x - min)/(max - min)`. -/
theorem fp_autoSetup_map (lo hi v : D) (vs : List D) (x : D) :
    ((Fp.Axis.init lo hi).observe (v :: vs)).autoSetup.map x =
      lo + (x - vs.foldl Fp.std_min v) / (vs.foldl Fp.std_max v - vs.foldl Fp.std_min v)
        * (hi - lo) := by
  rw [fp_autoSetup_observe]
  rfl

end FpAxis

/-! ### Sequences of calls on an axis, for every arithmetic -/

section FpCalls

open Fp.DoubleOps

variable {D : Type} [Fp.DoubleOps D]

theorem fp_autoValue_with_ticks (a : Fp.Axis D) (ts : List (Fp.Tick D)) (al : Bool) (v : D) :
    ({ a with ticks := ts, autoLabel := al } : Fp.Axis D).autoValue v
      = { a.autoValue v with ticks := ts, autoLabel := al } := by
  unfold Fp.Axis.autoValue
  split_ifs <;> rfl

theorem fp_foldl_autoValue_with_ticks (vs : List D) (a : Fp.Axis D) (ts : List (Fp.Tick D))
    (al : Bool) :
    vs.foldl Fp.Axis.autoValue ({ a with ticks := ts, autoLabel := al } : Fp.Axis D)
      = { vs.foldl Fp.Axis.autoValue a with ticks := ts, autoLabel := al } := by
  induction vs generalizing a with
  | nil => rfl
  | cons v vs ih =>
    rw [List.foldl_cons, List.foldl_cons, fp_autoValue_with_ticks, ih]

theorem fp_autoValue_ticks (a : Fp.Axis D) (v : D) :
    (a.autoValue v).ticks = a.ticks ∧ (a.autoValue v).autoLabel = a.autoLabel ∧
    (a.autoValue v).autoScale = a.autoScale ∧ (a.autoValue v).drawLow = a.drawLow ∧
    (a.autoValue v).drawHigh = a.drawHigh := by
  unfold Fp.Axis.autoValue
  split_ifs <;> exact ⟨rfl, rfl, rfl, rfl, rfl⟩

/-- The effect of major: the tick values are observed in order, the ticks are
appended as major ticks, and automatic labelling is switched off. -/
theorem fp_major_eq (ts : List (Fp.Tick D)) (a : Fp.Axis D) :
    a.major ts = { (ts.map fun t => t.value).foldl Fp.Axis.autoValue a with
      ticks := a.ticks ++ ts.map fun t => { t with strength := Tick.Strength.major }
      autoLabel := false } := by
  induction ts generalizing a with
  | nil => simp [Fp.Axis.major]
  | cons t ts ih =>
    rw [Fp.Axis.major, ih]
    simp only [(fp_autoValue_ticks a t.value).1, List.map_cons, List.foldl_cons,
      List.append_assoc, List.singleton_append]
    have h := fp_foldl_autoValue_with_ticks (ts.map fun t => t.value) (a.autoValue t.value)
      (a.ticks ++ [{ t with strength := Tick.Strength.major }]) (a.autoValue t.value).autoLabel
    simp only [List.append_assoc, List.singleton_append] at h
    rw [h]

theorem fp_minor_eq (ts : List (Fp.Tick D)) (a : Fp.Axis D) :
    a.minor ts = { (ts.map fun t => t.value).foldl Fp.Axis.autoValue a with
      ticks := a.ticks ++ ts.map fun t => { t with strength := Tick.Strength.minor }
      autoLabel := false } := by
  induction ts generalizing a with
  | nil => simp [Fp.Axis.minor]
  | cons t ts ih =>
    rw [Fp.Axis.minor, ih]
    simp only [(fp_autoValue_ticks a t.value).1, List.map_cons, List.foldl_cons,
      List.append_assoc, List.singleton_append]
    have h := fp_foldl_autoValue_with_ticks (ts.map fun t => t.value) (a.autoValue t.value)
      (a.ticks ++ [{ t with strength := Tick.Strength.minor }]) (a.autoValue t.value).autoLabel
    simp only [List.append_assoc, List.singleton_append] at h
    rw [h]

theorem fp_tick_eq (ts : List (Fp.Tick D)) (a : Fp.Axis D) :
    a.tick ts = { (ts.map fun t => t.value).foldl Fp.Axis.autoValue a with
      ticks := a.ticks ++ ts.map fun t => { t with strength := Tick.Strength.tick }
      autoLabel := false } := by
  induction ts generalizing a with
  | nil => simp [Fp.Axis.tick]
  | cons t ts ih =>
    rw [Fp.Axis.tick, ih]
    simp only [(fp_autoValue_ticks a t.value).1, List.map_cons, List.foldl_cons,
      List.append_assoc, List.singleton_append]
    have h := fp_foldl_autoValue_with_ticks (ts.map fun t => t.value) (a.autoValue t.value)
      (a.ticks ++ [{ t with strength := Tick.Strength.tick }]) (a.autoValue t.value).autoLabel
    simp only [List.append_assoc, List.singleton_append] at h
    rw [h]

/-- The effect of one call: its values are observed in order, its ticks are
appended, and automatic labelling stays on only if it is no tick registration. -/
theorem fp_call_eq (c : Fp.AxisCall D) (a : Fp.Axis D) :
    a.call c = { a.observe c.values with
      ticks := a.ticks ++ c.ticks
      autoLabel := a.autoLabel && !c.isTick } := by
  cases c with
  | autoValue v =>
    simp only [Fp.Axis.call, Fp.AxisCall.values, Fp.AxisCall.ticks, Fp.AxisCall.isTick,
      Fp.Axis.observe, List.foldl_cons, List.foldl_nil, List.append_nil, Bool.not_false,
      Bool.and_true, ← (fp_autoValue_ticks a v).1, ← (fp_autoValue_ticks a v).2.1]
  | major ts =>
    simp only [Fp.Axis.call, Fp.AxisCall.values, Fp.AxisCall.ticks, Fp.AxisCall.isTick,
      Fp.Axis.observe, Bool.not_true, Bool.and_false, fp_major_eq]
  | minor ts =>
    simp only [Fp.Axis.call, Fp.AxisCall.values, Fp.AxisCall.ticks, Fp.AxisCall.isTick,
      Fp.Axis.observe, Bool.not_true, Bool.and_false, fp_minor_eq]
  | tick ts =>
    simp only [Fp.Axis.call, Fp.AxisCall.values, Fp.AxisCall.ticks, Fp.AxisCall.isTick,
      Fp.Axis.observe, Bool.not_true, Bool.and_false, fp_tick_eq]

/-- The state after a sequence of calls: the values of the calls are observed
in order, the ticks of the calls are appended in order, and automatic labelling
stays on only if no call was a tick registration. -/
theorem fp_calls_eq (cs : List (Fp.AxisCall D)) (a : Fp.Axis D) :
    a.calls cs = { a.observe (cs.flatMap Fp.AxisCall.values) with
      ticks := a.ticks ++ cs.flatMap Fp.AxisCall.ticks
      autoLabel := a.autoLabel && !(cs.any Fp.AxisCall.isTick) } := by
  induction cs generalizing a with
  | nil => simp [Fp.Axis.calls, Fp.Axis.observe]
  | cons c cs ih =>
    have hstep : a.calls (c :: cs) = (a.call c).calls cs := rfl
    rw [hstep, ih, fp_call_eq]
    simp only [Fp.Axis.observe, List.flatMap_cons, List.foldl_append, List.any_cons,
      fp_foldl_autoValue_with_ticks, List.append_assoc, Bool.not_or, Bool.and_assoc]

/-- The accumulator of a constructor-built axis after a sequence of calls that
fed it at least one value. -/
theorem fp_calls_live (lo hi : D) (cs : List (Fp.AxisCall D)) (v : D) (vs : List D)
    (h : cs.flatMap Fp.AxisCall.values = v :: vs) :
    ((Fp.Axis.init lo hi).calls cs).autoScale = true ∧
    ((Fp.Axis.init lo hi).calls cs).hasAutoValue = true ∧
    ((Fp.Axis.init lo hi).calls cs).autoMin = vs.foldl Fp.std_min v ∧
    ((Fp.Axis.init lo hi).calls cs).autoMax = vs.foldl Fp.std_max v ∧
    ((Fp.Axis.init lo hi).calls cs).drawLow = lo ∧
    ((Fp.Axis.init lo hi).calls cs).drawHigh = hi := by
  rw [fp_calls_eq, h, fp_observe_init]
  exact ⟨rfl, rfl, rfl, rfl, rfl, rfl⟩

/-- What autoSetup commits on an axis with a live accumulator: the linear range
from the least to the greatest observed value, with no test of the two; the
screen endpoints and the accumulator stay. -/
theorem fp_autoSetup_live (a : Fp.Axis D) (hs : a.autoScale = true) (hv : a.hasAutoValue = true) :
    a.autoSetup.unitMap = (fun x => (x - a.autoMin) / (a.autoMax - a.autoMin)) ∧
    a.autoSetup.drawLow = a.drawLow ∧ a.autoSetup.drawHigh = a.drawHigh ∧
    a.autoSetup.autoScale = false ∧
    ∀ x, a.autoSetup.map x
      = a.drawLow + (x - a.autoMin) / (a.autoMax - a.autoMin) * (a.drawHigh - a.drawLow) := by
  cases hl : a.autoLabel <;>
    simp [Fp.Axis.autoSetup, hv, hs, hl, Fp.Axis.linear, Fp.Axis.range, Fp.Axis.minor,
      Fp.Axis.autoValue, Fp.Axis.map]

/-- The axis after autoSetup keeps its screen endpoints. -/
theorem fp_autoSetup_draw (a : Fp.Axis D) :
    a.autoSetup.drawLow = a.drawLow ∧ a.autoSetup.drawHigh = a.drawHigh := by
  cases hv : a.hasAutoValue
  · simp [Fp.Axis.autoSetup, hv]
  · cases hs : a.autoScale <;> cases hl : a.autoLabel <;>
      simp [Fp.Axis.autoSetup, hv, hs, hl, Fp.Axis.linear, Fp.Axis.range, Fp.Axis.minor,
        Fp.Axis.autoValue]

/-- The map that autoSetup commits after a sequence of calls that fed the axis
at least one value. -/
theorem fp_calls_autoSetup (lo hi : D) (cs : List (Fp.AxisCall D)) (v : D) (vs : List D)
    (h : cs.flatMap Fp.AxisCall.values = v :: vs) :
    ((Fp.Axis.init lo hi).calls cs).autoSetup.unitMap
      = (fun x => (x - vs.foldl Fp.std_min v)
          / (vs.foldl Fp.std_max v - vs.foldl Fp.std_min v)) ∧
    ((Fp.Axis.init lo hi).calls cs).autoSetup.drawLow = lo ∧
    ((Fp.Axis.init lo hi).calls cs).autoSetup.drawHigh = hi ∧
    ∀ x, ((Fp.Axis.init lo hi).calls cs).autoSetup.map x
      = lo + (x - vs.foldl Fp.std_min v) / (vs.foldl Fp.std_max v - vs.foldl Fp.std_min v)
          * (hi - lo) := by
  obtain ⟨hs, hv, hmin, hmax, hlo, hhi⟩ := fp_calls_live lo hi cs v vs h
  obtain ⟨h1, h2, h3, _, h5⟩ := fp_autoSetup_live _ hs hv
  rw [hmin, hmax] at h1
  rw [hlo] at h2
  rw [hhi] at h3
  refine ⟨h1, h2, h3, fun x => ?_⟩
  rw [h5 x, hmin, hmax, hlo, hhi]

end FpCalls

/-! ### Plots built through their public members, for every arithmetic -/

section FpBuild

open Fp.DoubleOps

variable {D : Type} [Fp.DoubleOps D]

theorem fp_forall₂_right_exists {α β : Type} {R : α → β → Prop} {l1 : List α} {l2 : List β}
    (h : List.Forall₂ R l1 l2) : ∀ b ∈ l2, ∃ a ∈ l1, R a b := by
  induction h with
  | nil => intro b hb; exact absurd hb (List.not_mem_nil b)
  | cons hab _ ih =>
    intro b hb
    rcases List.mem_cons.mp hb with h1 | h1
    · exact ⟨_, List.mem_cons_self _ _, h1 ▸ hab⟩
    · obtain ⟨a, ha, hr⟩ := ih b h1
      exact ⟨a, List.mem_cons_of_mem _ ha, hr⟩

/-- A child whose layout gives a line is a line with the same points. -/
theorem fp_plotChild_layout_line (libm : Fp.CMath D) (style : Fp.PlotStyle D) (x y : Fp.Axis D)
    (c : Fp.PlotChild D) (l1 : Fp.Line2D D)
    (h : Fp.PlotChild.layout libm style x y c = Except.ok (Fp.PlotChild.line l1)) :
    ∃ l, c = Fp.PlotChild.line l ∧ l1.points = l.points := by
  cases c with
  | label t => simp [Fp.PlotChild.layout] at h
  | line l =>
    refine ⟨l, rfl, ?_⟩
    simp only [Fp.PlotChild.layout, Fp.Line2D.layout] at h
    split at h
    · exact absurd h (by simp)
    · rename_i l2 hl2
      split at hl2
      · exact absurd hl2 (by simp)
      · simp only [Except.ok.injEq] at hl2
        simp only [Except.ok.injEq, Fp.PlotChild.line.injEq] at h
        rw [← h, ← hl2]

/-- The layout of a fresh plot returns, and every line among the children of
the laid-out plot is the laid-out image of a line the plot had, with the same
points. -/
theorem fp_plot2D_layout_lines (libm : Fp.CMath D) (style : Fp.PlotStyle D)
    (p : Fp.Plot2D D) (hp : Fp.Plot2D.Fresh p) :
    ∃ p1, Fp.Plot2D.layout libm style p = Except.ok p1 ∧
      p1.x = p.x.autoSetup ∧ p1.y = p.y.autoSetup ∧
      ∀ l1, Fp.PlotChild.line l1 ∈ p1.children →
        ∃ l, Fp.PlotChild.line l ∈ p.children ∧ l1.points = l.points := by
  obtain ⟨p1, kids, h1, _, hx, hy, hk, _, hc⟩ := fp_plot2D_layout_children libm style p hp
  refine ⟨p1, h1, hx, hy, fun l1 hl1 => ?_⟩
  rw [hc] at hl1
  have hkid : Fp.PlotChild.line l1 ∈ kids := by
    simp only [List.mem_append, List.mem_map] at hl1
    rcases hl1 with (((h | ⟨_, _, h⟩) | h) | ⟨_, _, h⟩) | h
    · exact h
    · exact absurd h (by simp)
    · split_ifs at h
      · exact absurd (List.mem_singleton.mp h) (by simp)
      · exact absurd h (List.not_mem_nil _)
    · exact absurd h (by simp)
    · split_ifs at h
      · exact absurd (List.mem_singleton.mp h) (by simp)
      · exact absurd h (List.not_mem_nil _)
  obtain ⟨c, hc1, hlay⟩ := fp_forall₂_right_exists hk _ hkid
  obtain ⟨l, e, hpts⟩ := fp_plotChild_layout_line libm style _ _ c l1 hlay
  exact ⟨l, e ▸ hc1, hpts⟩

theorem fp_observe_frame (vs : List D) (a : Fp.Axis D) :
    (a.observe vs).drawLow = a.drawLow ∧ (a.observe vs).drawHigh = a.drawHigh := by
  induction vs generalizing a with
  | nil => exact ⟨rfl, rfl⟩
  | cons v vs ih =>
    have h := fp_autoValue_ticks a v
    exact ⟨(ih (a.autoValue v)).1.trans h.2.2.2.1, (ih (a.autoValue v)).2.trans h.2.2.2.2⟩

theorem fp_call_frame (a : Fp.Axis D) (c : Fp.AxisCall D) :
    (a.call c).drawLow = a.drawLow ∧ (a.call c).drawHigh = a.drawHigh := by
  rw [fp_call_eq]
  exact fp_observe_frame c.values a

/-- A call through the reference to a line keeps the plot fresh and keeps the
screen endpoints of its axes, when the member called does. -/
theorem fp_onLine_frame (p : Fp.Plot2D D) (i : Nat)
    (f : Fp.Line2D D → Fp.Axis D → Fp.Axis D → Fp.Line2D D × Fp.Axis D × Fp.Axis D)
    (hf : ∀ l ax ay, (f l ax ay).1.hasLayout = l.hasLayout ∧
      (f l ax ay).2.1.drawLow = ax.drawLow ∧ (f l ax ay).2.1.drawHigh = ax.drawHigh ∧
      (f l ax ay).2.2.drawLow = ay.drawLow ∧ (f l ax ay).2.2.drawHigh = ay.drawHigh)
    (hp : Fp.Plot2D.Fresh p) :
    Fp.Plot2D.Fresh (p.onLine i f) ∧
    (p.onLine i f).x.drawLow = p.x.drawLow ∧ (p.onLine i f).x.drawHigh = p.x.drawHigh ∧
    (p.onLine i f).y.drawLow = p.y.drawLow ∧ (p.onLine i f).y.drawHigh = p.y.drawHigh := by
  unfold Fp.Plot2D.onLine
  cases hget : p.children.get? i with
  | none => exact ⟨hp, rfl, rfl, rfl, rfl⟩
  | some c =>
    cases c with
    | label t => exact ⟨hp, rfl, rfl, rfl, rfl⟩
    | line l =>
      obtain ⟨g1, g2, g3, g4, g5⟩ := hf l p.x p.y
      have hl : Fp.PlotChild.line l ∈ p.children := List.get?_mem hget
      refine ⟨⟨hp.1, fun l2 hl2 => ?_⟩, g2, g3, g4, g5⟩
      rcases List.mem_or_eq_of_mem_set hl2 with h | h
      · exact hp.2 l2 h
      · injection h with h
        rw [h, g1]
        exact hp.2 l hl

theorem fp_addChild_line_frame (p : Fp.Plot2D D) (l0 : Fp.Line2D D) (s : Int)
    (h0 : l0.hasLayout = false) (hp : Fp.Plot2D.Fresh p) :
    Fp.Plot2D.Fresh ({ p with toSvgDrawable := p.toSvgDrawable.addChild (Fp.PlotChild.line l0),
                              styleIndex := s } : Fp.Plot2D D) := by
  refine ⟨hp.1, fun l hl => ?_⟩
  simp only [Fp.SvgDrawable.addChild, List.mem_append, List.mem_singleton] at hl
  rcases hl with h | h
  · exact hp.2 l h
  · injection h with h
    rw [h]
    exact h0

/-- Every call on a plot keeps it fresh and keeps the screen endpoints of its
axes. -/
theorem fp_apply_frame (p : Fp.Plot2D D) (op : Fp.PlotOp D) (hp : Fp.Plot2D.Fresh p) :
    Fp.Plot2D.Fresh (p.apply op) ∧
    (p.apply op).x.drawLow = p.x.drawLow ∧ (p.apply op).x.drawHigh = p.x.drawHigh ∧
    (p.apply op).y.drawLow = p.y.drawLow ∧ (p.apply op).y.drawHigh = p.y.drawHigh := by
  cases op with
  | line => exact ⟨fp_addChild_line_frame p _ _ rfl hp, rfl, rfl, rfl, rfl⟩
  | lineWith s => exact ⟨fp_addChild_line_frame p _ _ rfl hp, rfl, rfl, rfl, rfl⟩
  | fill => exact ⟨fp_addChild_line_frame p _ _ rfl hp, rfl, rfl, rfl, rfl⟩
  | fillWith s => exact ⟨fp_addChild_line_frame p _ _ rfl hp, rfl, rfl, rfl, rfl⟩
  | add i x y =>
    exact fp_onLine_frame p i _ (fun l ax ay =>
      ⟨rfl, (fp_autoValue_ticks ax x).2.2.2.1, (fp_autoValue_ticks ax x).2.2.2.2,
        (fp_autoValue_ticks ay y).2.2.2.1, (fp_autoValue_ticks ay y).2.2.2.2⟩) hp
  | label i valueX valueY name degrees distance =>
    exact fp_onLine_frame p i _ (fun l ax ay =>
      ⟨rfl, (fp_autoValue_ticks ax valueX).2.2.2.1, (fp_autoValue_ticks ax valueX).2.2.2.2,
        (fp_autoValue_ticks ay valueY).2.2.2.1, (fp_autoValue_ticks ay valueY).2.2.2.2⟩) hp
  | drawLine i draw => exact fp_onLine_frame p i _ (fun _ _ _ => ⟨rfl, rfl, rfl, rfl, rfl⟩) hp
  | drawFill i draw => exact fp_onLine_frame p i _ (fun _ _ _ => ⟨rfl, rfl, rfl, rfl, rfl⟩) hp
  | fillToX i x => exact fp_onLine_frame p i _ (fun _ _ _ => ⟨rfl, rfl, rfl, rfl, rfl⟩) hp
  | fillToY i y => exact fp_onLine_frame p i _ (fun _ _ _ => ⟨rfl, rfl, rfl, rfl, rfl⟩) hp
  | onX c => exact ⟨hp, (fp_call_frame p.x c).1, (fp_call_frame p.x c).2, rfl, rfl⟩
  | onY c => exact ⟨hp, rfl, rfl, (fp_call_frame p.y c).1, (fp_call_frame p.y c).2⟩

theorem fp_foldl_apply_frame (ops : List (Fp.PlotOp D)) :
    ∀ p : Fp.Plot2D D, Fp.Plot2D.Fresh p →
      Fp.Plot2D.Fresh (ops.foldl Fp.Plot2D.apply p) ∧
      (ops.foldl Fp.Plot2D.apply p).x.drawLow = p.x.drawLow ∧
      (ops.foldl Fp.Plot2D.apply p).x.drawHigh = p.x.drawHigh ∧
      (ops.foldl Fp.Plot2D.apply p).y.drawLow = p.y.drawLow ∧
      (ops.foldl Fp.Plot2D.apply p).y.drawHigh = p.y.drawHigh := by
  induction ops with
  | nil => intro p hp; exact ⟨hp, rfl, rfl, rfl, rfl⟩
  | cons op ops ih =>
    intro p hp
    obtain ⟨a1, a2, a3, a4, a5⟩ := fp_apply_frame p op hp
    obtain ⟨b1, b2, b3, b4, b5⟩ := ih _ a1
    exact ⟨b1, b2.trans a2, b3.trans a3, b4.trans a4, b5.trans a5⟩

/-- Every plot built through its public members is fresh, and its axes have
the screen endpoints that the constructor gave them: `(0, width)` and
`(height, 0)`. -/
theorem fp_build_frame (width height : D) (ops : List (Fp.PlotOp D)) :
    Fp.Plot2D.Fresh (Fp.Plot2D.build width height ops) ∧
    (Fp.Plot2D.build width height ops).x.drawLow = lit 0 ∧
    (Fp.Plot2D.build width height ops).x.drawHigh = width ∧
    (Fp.Plot2D.build width height ops).y.drawLow = height ∧
    (Fp.Plot2D.build width height ops).y.drawHigh = lit 0 :=
  fp_foldl_apply_frame ops _ ⟨rfl, fun _ hl => absurd hl (List.not_mem_nil _)⟩

end FpBuild

/-! ### Rounding to binary64 -/

theorem roundEven_intCast (n : ℤ) : F64.roundEven (n : ℚ) = n := by
  simp [F64.roundEven]

theorem roundEven_bounds (q : ℚ) : ⌊q⌋ ≤ F64.roundEven q ∧ F64.roundEven q ≤ ⌊q⌋ + 1 := by
  unfold F64.roundEven
  split_ifs <;> omega

/-- Rounding to the nearest integer is monotone. -/
theorem roundEven_mono {p q : ℚ} (h : p ≤ q) : F64.roundEven p ≤ F64.roundEven q := by
  have hf : ⌊p⌋ ≤ ⌊q⌋ := Int.floor_mono h
  rcases lt_or_eq_of_le hf with hlt | heq
  · have h1 := (roundEven_bounds p).2
    have h2 := (roundEven_bounds q).1
    omega
  · unfold F64.roundEven
    rw [heq]
    split_ifs <;> first | omega | (exfalso; linarith)

theorem roundEven_nonneg {q : ℚ} (h : 0 ≤ q) : 0 ≤ F64.roundEven q := by
  have := roundEven_mono h
  rwa [show ((0 : ℚ)) = ((0 : ℤ) : ℚ) by norm_num, roundEven_intCast] at this

theorem ulp_pos (m : ℚ) : 0 < F64.ulp m := by
  unfold F64.ulp
  positivity

theorem ulp_exp_ge (m : ℚ) : (-1074 : ℤ) ≤ max (Int.log 2 m) (-1022) - 52 := by
  have := le_max_right (Int.log 2 m) (-1022)
  omega

theorem roundMag_zero : F64.roundMag 0 = 0 := by
  simp [F64.roundMag, F64.roundEven]

theorem roundMag_nonneg {m : ℚ} (h : 0 ≤ m) : 0 ≤ F64.roundMag m := by
  unfold F64.roundMag
  have h1 : 0 ≤ m / F64.ulp m := div_nonneg h (ulp_pos m).le
  have h2 := roundEven_nonneg h1
  have h3 : (0 : ℚ) ≤ (F64.roundEven (m / F64.ulp m) : ℚ) := by exact_mod_cast h2
  exact mul_nonneg h3 (ulp_pos m).le

/-- A positive magnitude is below `2^53` spacings. -/
theorem div_ulp_lt {m : ℚ} (_hm : 0 < m) : m / F64.ulp m < (2 : ℚ) ^ (53 : ℕ) := by
  rw [div_lt_iff₀ (ulp_pos m)]
  have h1 : m < ((2 : ℕ) : ℚ) ^ (Int.log 2 m + 1) := Int.lt_zpow_succ_log_self (by norm_num) m
  have h2 : ((2 : ℕ) : ℚ) ^ (Int.log 2 m + 1)
      ≤ (2 : ℚ) ^ (53 : ℕ) * F64.ulp m := by
    unfold F64.ulp
    rw [← zpow_natCast (2 : ℚ) 53, ← zpow_add₀ (by norm_num : (2 : ℚ) ≠ 0)]
    push_cast
    apply zpow_le_zpow_right₀ (by norm_num)
    have := le_max_left (Int.log 2 m) (-1022)
    omega
  exact lt_of_lt_of_le h1 h2

/-- A magnitude in the normal range is at least `2^52` spacings. -/
theorem le_div_ulp {m : ℚ} (hm : 0 < m) (hn : (-1022 : ℤ) ≤ Int.log 2 m) :
    (2 : ℚ) ^ (52 : ℕ) ≤ m / F64.ulp m := by
  rw [le_div_iff₀ (ulp_pos m)]
  have h1 : ((2 : ℕ) : ℚ) ^ (Int.log 2 m) ≤ m := Int.zpow_log_le_self (by norm_num) hm
  have h2 : (2 : ℚ) ^ (52 : ℕ) * F64.ulp m = ((2 : ℕ) : ℚ) ^ (Int.log 2 m) := by
    unfold F64.ulp
    rw [max_eq_left hn, ← zpow_natCast (2 : ℚ) 52, ← zpow_add₀ (by norm_num : (2 : ℚ) ≠ 0)]
    push_cast
    congr 1
    omega
  rw [h2]
  exact h1

/-- The rounded count of spacings is at most `2^53`. -/
theorem roundEven_div_ulp_le {m : ℚ} (hm : 0 < m) :
    F64.roundEven (m / F64.ulp m) ≤ (2 : ℤ) ^ (53 : ℕ) := by
  have h1 := div_ulp_lt hm
  have h2 : F64.roundEven (m / F64.ulp m) ≤ F64.roundEven (((2 : ℤ) ^ (53 : ℕ) : ℤ) : ℚ) :=
    roundEven_mono (by push_cast; exact h1.le)
  rwa [roundEven_intCast] at h2

/-- Every `n * 2^e` with `n < 2^53` and `e ≥ -1074` is a fixed point of the
rounding: it is a binary64 magnitude. -/
theorem roundMag_of_nat_mul (n : ℕ) (e : ℤ) (hn : n < 2 ^ 53) (he : -1074 ≤ e) :
    F64.roundMag ((n : ℚ) * (2 : ℚ) ^ e) = (n : ℚ) * (2 : ℚ) ^ e := by
  rcases Nat.eq_zero_or_pos n with h0 | hpos
  · rw [h0]
    simp [roundMag_zero]
  · have hm : (0 : ℚ) < (n : ℚ) * (2 : ℚ) ^ e := by positivity
    have hlog : Int.log 2 ((n : ℚ) * (2 : ℚ) ^ e) < e + 53 := by
      rw [← Int.lt_zpow_iff_log_lt (by norm_num) hm]
      push_cast
      rw [zpow_add₀ (by norm_num : (2 : ℚ) ≠ 0), mul_comm ((2 : ℚ) ^ e)]
      apply mul_lt_mul_of_pos_right _ (by positivity)
      exact_mod_cast hn
    obtain ⟨k, hk⟩ : ∃ k : ℕ, (k : ℤ)
        = e - (max (Int.log 2 ((n : ℚ) * (2 : ℚ) ^ e)) (-1022) - 52) := by
      refine ⟨(e - (max (Int.log 2 ((n : ℚ) * (2 : ℚ) ^ e)) (-1022) - 52)).toNat, ?_⟩
      rw [Int.toNat_of_nonneg]
      have := max_le (Int.le_of_lt_add_one (show Int.log 2 ((n : ℚ) * (2 : ℚ) ^ e) < e + 52 + 1
        by omega)) (show (-1022 : ℤ) ≤ e + 52 by omega)
      omega
    have hdiv : (n : ℚ) * (2 : ℚ) ^ e / F64.ulp ((n : ℚ) * (2 : ℚ) ^ e)
        = (((n * 2 ^ k : ℕ) : ℤ) : ℚ) := by
      unfold F64.ulp
      rw [mul_div_assoc, ← zpow_sub₀ (by norm_num : (2 : ℚ) ≠ 0), ← hk]
      push_cast
      rw [zpow_natCast]
    unfold F64.roundMag
    rw [hdiv, roundEven_intCast]
    unfold F64.ulp
    push_cast
    rw [mul_assoc, ← zpow_natCast (2 : ℚ) k, ← zpow_add₀ (by norm_num : (2 : ℚ) ≠ 0), hk]
    congr 2
    omega

/-- Rounding a magnitude gives a binary64 magnitude: some `n * 2^e` with
`n < 2^53` and `e ≥ -1074`. -/
theorem roundMag_form {m : ℚ} (hm : 0 ≤ m) :
    ∃ (n : ℕ) (e : ℤ), n < 2 ^ 53 ∧ -1074 ≤ e ∧ F64.roundMag m = (n : ℚ) * (2 : ℚ) ^ e := by
  rcases eq_or_lt_of_le hm with h0 | hpos
  · exact ⟨0, 0, by norm_num, by norm_num, by rw [← h0, roundMag_zero]; simp⟩
  · have h1 := roundEven_div_ulp_le hpos
    have h2 : 0 ≤ F64.roundEven (m / F64.ulp m) :=
      roundEven_nonneg (div_nonneg hm (ulp_pos m).le)
    obtain ⟨N, hN⟩ : ∃ N : ℕ, (N : ℤ) = F64.roundEven (m / F64.ulp m) :=
      ⟨_, Int.toNat_of_nonneg h2⟩
    rw [← hN] at h1
    have h3 : N ≤ 2 ^ 53 := by exact_mod_cast h1
    rcases lt_or_eq_of_le h3 with hlt | heq
    · refine ⟨N, max (Int.log 2 m) (-1022) - 52, hlt, ulp_exp_ge m, ?_⟩
      unfold F64.roundMag
      rw [← hN]
      rfl
    · refine ⟨2 ^ 52, max (Int.log 2 m) (-1022) - 52 + 1, by norm_num,
        by have := ulp_exp_ge m; omega, ?_⟩
      unfold F64.roundMag
      rw [← hN, heq]
      unfold F64.ulp
      rw [zpow_add₀ (by norm_num : (2 : ℚ) ≠ 0)]
      push_cast
      ring

/-- Rounding is idempotent. -/
theorem roundMag_idem {m : ℚ} (hm : 0 ≤ m) : F64.roundMag (F64.roundMag m) = F64.roundMag m := by
  obtain ⟨n, e, hn, he, h⟩ := roundMag_form hm
  rw [h, roundMag_of_nat_mul n e hn he]

/-- Rounding is monotone. -/
theorem roundMag_mono {a b : ℚ} (ha : 0 ≤ a) (hab : a ≤ b) : F64.roundMag a ≤ F64.roundMag b := by
  rcases eq_or_lt_of_le ha with h0 | hpos
  · rw [← h0, roundMag_zero]
    exact roundMag_nonneg (le_trans ha hab)
  · have hb : 0 < b := lt_of_lt_of_le hpos hab
    have hlog : Int.log 2 a ≤ Int.log 2 b := Int.log_mono_right hpos hab
    have hE : max (Int.log 2 a) (-1022) ≤ max (Int.log 2 b) (-1022) :=
      max_le_max hlog le_rfl
    rcases eq_or_lt_of_le hE with heq | hlt
    · have hu : F64.ulp a = F64.ulp b := by unfold F64.ulp; rw [heq]
      unfold F64.roundMag
      rw [hu]
      apply mul_le_mul_of_nonneg_right _ (ulp_pos b).le
      exact_mod_cast roundEven_mono (div_le_div_of_nonneg_right hab (ulp_pos b).le)
    · have hnb : (-1022 : ℤ) ≤ Int.log 2 b := by
        by_contra hc
        rw [max_eq_right (le_of_lt (not_le.mp hc))] at hlt
        have := le_max_right (Int.log 2 a) (-1022)
        omega
      have h1 : F64.roundMag a ≤ (2 : ℚ) ^ (53 : ℕ) * F64.ulp a := by
        unfold F64.roundMag
        apply mul_le_mul_of_nonneg_right _ (ulp_pos a).le
        exact_mod_cast roundEven_div_ulp_le hpos
      have h2 : (2 : ℚ) ^ (52 : ℕ) * F64.ulp b ≤ F64.roundMag b := by
        unfold F64.roundMag
        apply mul_le_mul_of_nonneg_right _ (ulp_pos b).le
        have := roundEven_mono (le_div_ulp hb hnb)
        rw [show ((2 : ℚ) ^ (52 : ℕ)) = (((2 : ℤ) ^ (52 : ℕ) : ℤ) : ℚ) by push_cast; rfl,
          roundEven_intCast] at this
        exact_mod_cast this
      have h3 : (2 : ℚ) ^ (53 : ℕ) * F64.ulp a ≤ (2 : ℚ) ^ (52 : ℕ) * F64.ulp b := by
        unfold F64.ulp
        rw [← zpow_natCast (2 : ℚ) 53, ← zpow_natCast (2 : ℚ) 52,
          ← zpow_add₀ (by norm_num : (2 : ℚ) ≠ 0), ← zpow_add₀ (by norm_num : (2 : ℚ) ≠ 0)]
        apply zpow_le_zpow_right₀ (by norm_num)
        push_cast
        omega
      exact le_trans h1 (le_trans h3 h2)

/-- A binary64 magnitude is a whole number of the smallest spacing `2^(-1074)`. -/
theorem roundMag_grid {m : ℚ} (hm : 0 ≤ m) (hr : F64.roundMag m = m) :
    ∃ k : ℕ, m = (k : ℚ) * (2 : ℚ) ^ (-1074 : ℤ) := by
  obtain ⟨n, e, _, he, h⟩ := roundMag_form hm
  obtain ⟨j, hj⟩ : ∃ j : ℕ, (j : ℤ) = e + 1074 := ⟨(e + 1074).toNat, Int.toNat_of_nonneg (by omega)⟩
  refine ⟨n * 2 ^ j, ?_⟩
  rw [← hr, h]
  push_cast
  rw [mul_assoc, ← zpow_natCast (2 : ℚ) j, ← zpow_add₀ (by norm_num : (2 : ℚ) ≠ 0), hj]
  congr 2
  omega

/-- The smallest spacing is a binary64 magnitude. -/
theorem roundMag_min : F64.roundMag ((2 : ℚ) ^ (-1074 : ℤ)) = (2 : ℚ) ^ (-1074 : ℤ) := by
  have := roundMag_of_nat_mul 1 (-1074) (by norm_num) le_rfl
  simpa using this

/-- One is a binary64 magnitude. -/
theorem roundMag_one : F64.roundMag 1 = 1 := by
  have := roundMag_of_nat_mul 1 0 (by norm_num) (by norm_num)
  simpa using this

/-- Every natural number below `2^53` is a binary64 magnitude. -/
theorem roundMag_natCast (n : ℕ) (hn : n < 2 ^ 53) : F64.roundMag (n : ℚ) = (n : ℚ) := by
  have := roundMag_of_nat_mul n 0 hn (by norm_num)
  simpa using this

/-! ### The operations of binary64 -/

theorem f64_add_def (a b : F64) : a + b = F64.add a b := rfl

theorem f64_sub_def (a b : F64) : a - b = F64.add a (F64.neg b) := rfl

theorem f64_mul_def (a b : F64) : a * b = F64.mul a b := rfl

theorem f64_div_def (a b : F64) : a / b = F64.div a b := rfl

theorem f64_neg_def (a : F64) : -a = F64.neg a := rfl

theorem f64_flt_def (a b : F64) : Fp.DoubleOps.flt a b = F64.lt a b := rfl

theorem add_fin_fin (s t : Bool) (a b : ℚ) :
    F64.add (F64.fin s a) (F64.fin t b) =
      if (F64.fin s a).toRat + (F64.fin t b).toRat = 0 then F64.fin (s && t) 0
      else F64.ofRat ((F64.fin s a).toRat + (F64.fin t b).toRat) := rfl

theorem mul_fin_fin (s t : Bool) (a b : ℚ) :
    F64.mul (F64.fin s a) (F64.fin t b) = F64.ofMag (xor s t) (a * b) := rfl

theorem div_fin_fin (s t : Bool) (a b : ℚ) :
    F64.div (F64.fin s a) (F64.fin t b) =
      if b = 0 then (if a = 0 then F64.nan else F64.inf (xor s t))
      else F64.ofMag (xor s t) (a / b) := rfl

/-- A magnitude that binary64 has is kept by the conversion. -/
theorem ofMag_of_double (s : Bool) (m : ℚ) (h : (F64.fin s m).IsDouble) :
    F64.ofMag s m = F64.fin s m := by
  obtain ⟨_, h2, h3⟩ := h
  rw [F64.ofMag, h2, if_neg (not_le.mpr h3)]

/-- Whether the conversion of a magnitude overflows does not depend on the sign. -/
theorem ofMag_isFinite (s : Bool) (m : ℚ) :
    (F64.ofMag s m).isFinite = decide (F64.roundMag m < (2 : ℚ) ^ 1024) := by
  unfold F64.ofMag
  split_ifs with h
  · simp [F64.isFinite, not_lt.mpr h]
  · simp [F64.isFinite, not_le.mp h]

theorem ofMag_toRat (s : Bool) (m : ℚ) (h : (F64.ofMag s m).isFinite = true) :
    (F64.ofMag s m).toRat = if s then -F64.roundMag m else F64.roundMag m := by
  unfold F64.ofMag at h ⊢
  split_ifs at h ⊢ <;> simp_all [F64.isFinite, F64.toRat]

theorem ofMag_ne_nan (s : Bool) (m : ℚ) : F64.ofMag s m ≠ F64.nan := by
  unfold F64.ofMag
  split_ifs <;> simp

theorem ofRat_ne_nan (q : ℚ) : F64.ofRat q ≠ F64.nan := ofMag_ne_nan _ _

/-- The conversion of a magnitude gives a value that binary64 has. -/
theorem ofMag_isDouble (s : Bool) {m : ℚ} (hm : 0 ≤ m) : (F64.ofMag s m).IsDouble := by
  unfold F64.ofMag
  split_ifs with h
  · trivial
  · exact ⟨roundMag_nonneg hm, roundMag_idem hm, not_le.mp h⟩

theorem ofRat_isDouble (q : ℚ) : (F64.ofRat q).IsDouble := ofMag_isDouble _ (abs_nonneg q)

theorem ofRat_zero : F64.ofRat 0 = F64.fin false 0 := by
  simp [F64.ofRat, F64.ofMag, roundMag_zero]

theorem toRat_abs (s : Bool) {m : ℚ} (hm : 0 ≤ m) : |(F64.fin s m).toRat| = m := by
  cases s <;> simp [F64.toRat, abs_of_nonneg hm]

/-- The conversion of a number is finite when that of a number of greater
magnitude is. -/
theorem ofRat_isFinite_of_abs_le {q r : ℚ} (h : |q| ≤ |r|)
    (hr : (F64.ofRat r).isFinite = true) : (F64.ofRat q).isFinite = true := by
  unfold F64.ofRat at hr ⊢
  rw [ofMag_isFinite, decide_eq_true_eq] at hr ⊢
  exact lt_of_le_of_lt (roundMag_mono (abs_nonneg q) h) hr

theorem ofRat_toRat (q : ℚ) (h : (F64.ofRat q).isFinite = true) :
    (F64.ofRat q).toRat = if q < 0 then -F64.roundMag |q| else F64.roundMag |q| := by
  unfold F64.ofRat at h ⊢
  rw [ofMag_toRat _ _ h]
  simp

/-- The conversion to binary64 is monotone. -/
theorem ofRat_mono {q r : ℚ} (h : q ≤ r) (hq : (F64.ofRat q).isFinite = true)
    (hr : (F64.ofRat r).isFinite = true) : (F64.ofRat q).toRat ≤ (F64.ofRat r).toRat := by
  rw [ofRat_toRat q hq, ofRat_toRat r hr]
  have h1 := roundMag_nonneg (abs_nonneg q)
  have h2 := roundMag_nonneg (abs_nonneg r)
  split_ifs with hq0 hr0 hr0
  · have : |r| ≤ |q| := by rw [abs_of_neg hq0, abs_of_neg hr0]; linarith
    have := roundMag_mono (abs_nonneg r) this
    linarith
  · linarith
  · linarith
  · have : |q| ≤ |r| := by
      rw [abs_of_nonneg (not_lt.mp hq0), abs_of_nonneg (not_lt.mp hr0)]; exact h
    exact roundMag_mono (abs_nonneg q) this

/-- A finite value that binary64 has is the conversion of the number it stands
for, up to the sign of zero. -/
theorem ofRat_toRat_of_double (x : F64) (hx : x.IsDouble) (hf : x.isFinite = true) :
    (F64.ofRat x.toRat).isFinite = true ∧ (F64.ofRat x.toRat).toRat = x.toRat := by
  cases x with
  | nan => simp [F64.isFinite] at hf
  | inf s => simp [F64.isFinite] at hf
  | fin s m =>
    obtain ⟨h1, h2, h3⟩ := hx
    have hfin : (F64.ofRat (F64.fin s m).toRat).isFinite = true := by
      unfold F64.ofRat
      rw [ofMag_isFinite, toRat_abs s h1, h2]
      simpa using h3
    refine ⟨hfin, ?_⟩
    rw [ofRat_toRat _ hfin, toRat_abs s h1, h2]
    cases s
    · simp [F64.toRat, not_lt.mpr h1]
    · simp only [F64.toRat, if_true]
      split_ifs with h
      · rfl
      · have : m = 0 := by linarith [not_lt.mp h]
        rw [this]
        norm_num

/-- The sum of two finite values is the conversion of the exact sum, up to the
sign of zero. -/
theorem add_fin (x y : F64) (hx : x.isFinite = true) (hy : y.isFinite = true) :
    (x + y).isFinite = (F64.ofRat (x.toRat + y.toRat)).isFinite ∧
    (x + y).toRat = (F64.ofRat (x.toRat + y.toRat)).toRat ∧ x + y ≠ F64.nan := by
  cases x with
  | nan => simp [F64.isFinite] at hx
  | inf s => simp [F64.isFinite] at hx
  | fin s a =>
    cases y with
    | nan => simp [F64.isFinite] at hy
    | inf t => simp [F64.isFinite] at hy
    | fin t b =>
      rw [f64_add_def, add_fin_fin]
      split_ifs with h0
      · rw [h0, ofRat_zero]
        simp [F64.isFinite, F64.toRat]
      · exact ⟨rfl, rfl, ofRat_ne_nan _⟩

theorem neg_fin (y : F64) (hy : y.isFinite = true) :
    (-y).isFinite = true ∧ (-y).toRat = -y.toRat := by
  cases y with
  | nan => simp [F64.isFinite] at hy
  | inf t => simp [F64.isFinite] at hy
  | fin t b => cases t <;> simp [f64_neg_def, F64.neg, F64.isFinite, F64.toRat]

/-- The difference of two finite values is the conversion of the exact
difference, up to the sign of zero. -/
theorem sub_fin (x y : F64) (hx : x.isFinite = true) (hy : y.isFinite = true) :
    (x - y).isFinite = (F64.ofRat (x.toRat - y.toRat)).isFinite ∧
    (x - y).toRat = (F64.ofRat (x.toRat - y.toRat)).toRat ∧ x - y ≠ F64.nan := by
  have h := add_fin x (-y) hx (neg_fin y hy).1
  rw [(neg_fin y hy).2, ← sub_eq_add_neg] at h
  exact h

/-- The product of two finite values is the conversion of the exact product,
up to the sign of zero. -/
theorem mul_fin (x y : F64) (hx : x.isFinite = true) (hy : y.isFinite = true)
    (dx : x.IsDouble) (dy : y.IsDouble) :
    (x * y).isFinite = (F64.ofRat (x.toRat * y.toRat)).isFinite ∧
    ((x * y).isFinite = true → (x * y).toRat = (F64.ofRat (x.toRat * y.toRat)).toRat) ∧
    x * y ≠ F64.nan := by
  cases x with
  | nan => simp [F64.isFinite] at hx
  | inf s => simp [F64.isFinite] at hx
  | fin s a =>
    cases y with
    | nan => simp [F64.isFinite] at hy
    | inf t => simp [F64.isFinite] at hy
    | fin t b =>
      have ha := dx.1
      have hb := dy.1
      have habs : |(F64.fin s a).toRat * (F64.fin t b).toRat| = a * b := by
        rw [abs_mul, toRat_abs s ha, toRat_abs t hb]
      have hfin : (F64.fin s a * F64.fin t b).isFinite
          = (F64.ofRat ((F64.fin s a).toRat * (F64.fin t b).toRat)).isFinite := by
        rw [f64_mul_def, mul_fin_fin]
        unfold F64.ofRat
        rw [ofMag_isFinite, ofMag_isFinite, habs]
      refine ⟨hfin, fun hf => ?_, ?_⟩
      · have hf2 := hfin ▸ hf
        rw [ofRat_toRat _ hf2, habs]
        rw [f64_mul_def, mul_fin_fin] at hf ⊢
        rw [ofMag_toRat _ _ hf]
        rcases eq_or_lt_of_le (mul_nonneg ha hb) with h0 | hpos
        · rw [← h0, roundMag_zero]
          simp
        · have ha0 : 0 < a := by
            rcases eq_or_lt_of_le ha with h | h
            · rw [← h] at hpos; simp at hpos
            · exact h
          have hb0 : 0 < b := by
            rcases eq_or_lt_of_le hb with h | h
            · rw [← h] at hpos; simp at hpos
            · exact h
          cases s <;> cases t <;> simp [F64.toRat, hpos, not_lt.mpr hpos.le]
      · rw [f64_mul_def, mul_fin_fin]
        exact ofMag_ne_nan _ _

/-- The quotient of two finite values, the divisor not zero, is the conversion
of the exact quotient, up to the sign of zero. -/
theorem div_fin (x y : F64) (hx : x.isFinite = true) (hy : y.isFinite = true)
    (dx : x.IsDouble) (dy : y.IsDouble) (hy0 : y.toRat ≠ 0) :
    (x / y).isFinite = (F64.ofRat (x.toRat / y.toRat)).isFinite ∧
    ((x / y).isFinite = true → (x / y).toRat = (F64.ofRat (x.toRat / y.toRat)).toRat) ∧
    x / y ≠ F64.nan := by
  cases x with
  | nan => simp [F64.isFinite] at hx
  | inf s => simp [F64.isFinite] at hx
  | fin s a =>
    cases y with
    | nan => simp [F64.isFinite] at hy
    | inf t => simp [F64.isFinite] at hy
    | fin t b =>
      have ha := dx.1
      have hb := dy.1
      have hb0 : b ≠ 0 := by
        intro h
        apply hy0
        cases t <;> simp [F64.toRat, h]
      have hbpos : 0 < b := lt_of_le_of_ne hb (Ne.symm hb0)
      have habs : |(F64.fin s a).toRat / (F64.fin t b).toRat| = a / b := by
        rw [abs_div, toRat_abs s ha, toRat_abs t hb]
      have hfin : (F64.fin s a / F64.fin t b).isFinite
          = (F64.ofRat ((F64.fin s a).toRat / (F64.fin t b).toRat)).isFinite := by
        rw [f64_div_def, div_fin_fin, if_neg hb0]
        unfold F64.ofRat
        rw [ofMag_isFinite, ofMag_isFinite, habs]
      refine ⟨hfin, fun hf => ?_, ?_⟩
      · have hf2 := hfin ▸ hf
        rw [ofRat_toRat _ hf2, habs]
        rw [f64_div_def, div_fin_fin, if_neg hb0] at hf ⊢
        rw [ofMag_toRat _ _ hf]
        rcases eq_or_lt_of_le ha with h0 | hpos
        · rw [← h0]
          simp [roundMag_zero]
        · have hq : 0 < a / b := div_pos hpos hbpos
          have hq2 : ¬ (a / b < 0) := not_lt.mpr hq.le
          have hq3 : ¬ (a / -b < 0) ↔ False := by
            rw [div_neg]; simp [hq]
          cases s <;> cases t <;>
            simp [F64.toRat, hq, hq2, div_neg, neg_div, not_lt.mpr hq.le]
      · rw [f64_div_def, div_fin_fin, if_neg hb0]
        exact ofMag_ne_nan _ _

/-- The comparison `<` of two finite values is that of the numbers they stand for. -/
theorem lt_fin (x y : F64) (hx : x.isFinite = true) (hy : y.isFinite = true) :
    F64.lt x y = decide (x.toRat < y.toRat) := by
  cases x with
  | nan => simp [F64.isFinite] at hx
  | inf s => simp [F64.isFinite] at hx
  | fin s a =>
    cases y with
    | nan => simp [F64.isFinite] at hy
    | inf t => simp [F64.isFinite] at hy
    | fin t b => rfl

/-- The comparison `==` of two finite values is that of the numbers they stand for. -/
theorem eq_fin (x y : F64) (hx : x.isFinite = true) (hy : y.isFinite = true) :
    F64.eq x y = decide (x.toRat = y.toRat) := by
  cases x with
  | nan => simp [F64.isFinite] at hx
  | inf s => simp [F64.isFinite] at hx
  | fin s a =>
    cases y with
    | nan => simp [F64.isFinite] at hy
    | inf t => simp [F64.isFinite] at hy
    | fin t b => rfl

/-- The comparison `<=` of two finite values is that of the numbers they stand for. -/
theorem le_fin (x y : F64) (hx : x.isFinite = true) (hy : y.isFinite = true) :
    F64.le x y = decide (x.toRat ≤ y.toRat) := by
  rw [F64.le, lt_fin x y hx hy, eq_fin x y hx hy]
  by_cases h : x.toRat ≤ y.toRat
  · rcases lt_or_eq_of_le h with h1 | h1 <;> simp [h, h1]
  · simp [h, not_le.mp h |>.ne', (not_le.mp h).not_lt]

/-- A comparison with a NaN is false. -/
theorem le_nan_right (x : F64) : F64.le x F64.nan = false := by
  cases x <;> rfl

theorem le_nan_left (x : F64) : F64.le F64.nan x = false := by
  cases x <;> rfl

/-- The functions std::min and std::max return one of their arguments. -/
theorem std_min_mem (a b : F64) : Fp.std_min a b = a ∨ Fp.std_min a b = b := by
  unfold Fp.std_min
  split_ifs
  · exact Or.inr rfl
  · exact Or.inl rfl

theorem std_max_mem (a b : F64) : Fp.std_max a b = a ∨ Fp.std_max a b = b := by
  unfold Fp.std_max
  split_ifs
  · exact Or.inr rfl
  · exact Or.inl rfl

theorem std_min_toRat (a b : F64) (ha : a.isFinite = true) (hb : b.isFinite = true) :
    (Fp.std_min a b).isFinite = true ∧ (Fp.std_min a b).toRat = min a.toRat b.toRat := by
  unfold Fp.std_min
  rw [f64_flt_def, lt_fin b a hb ha]
  by_cases h : b.toRat < a.toRat
  · simp [h, hb, min_eq_right h.le]
  · simp [h, ha, min_eq_left (not_lt.mp h)]

theorem std_max_toRat (a b : F64) (ha : a.isFinite = true) (hb : b.isFinite = true) :
    (Fp.std_max a b).isFinite = true ∧ (Fp.std_max a b).toRat = max a.toRat b.toRat := by
  unfold Fp.std_max
  rw [f64_flt_def, lt_fin a b ha hb]
  by_cases h : a.toRat < b.toRat
  · simp [h, hb, max_eq_right h.le]
  · simp [h, ha, max_eq_left (not_lt.mp h)]

/-! ### An axis in binary64 -/

/-- The running minimum of finite values is one of them and is below all of them. -/
theorem f64_fold_min (vs : List F64) :
    ∀ v : F64, (∀ w ∈ v :: vs, w.isFinite = true) →
      vs.foldl Fp.std_min v ∈ v :: vs ∧
      ∀ w ∈ v :: vs, (vs.foldl Fp.std_min v).toRat ≤ w.toRat := by
  induction vs with
  | nil => intro v _; simp
  | cons u us ih =>
    intro v hf
    have hv := hf v (List.mem_cons_self _ _)
    have hu := hf u (List.mem_cons_of_mem _ (List.mem_cons_self _ _))
    have hm := std_min_toRat v u hv hu
    have hfin : ∀ w ∈ Fp.std_min v u :: us, w.isFinite = true := by
      intro w hw
      rcases List.mem_cons.mp hw with h | h
      · rw [h]; exact hm.1
      · exact hf w (List.mem_cons_of_mem _ (List.mem_cons_of_mem _ h))
    obtain ⟨h1, h2⟩ := ih (Fp.std_min v u) hfin
    rw [List.foldl_cons]
    refine ⟨?_, fun w hw => ?_⟩
    · rcases List.mem_cons.mp h1 with h | h
      · rw [h]
        rcases std_min_mem v u with e | e <;> rw [e] <;> simp
      · exact List.mem_cons_of_mem _ (List.mem_cons_of_mem _ h)
    · have h3 := h2 (Fp.std_min v u) (List.mem_cons_self _ _)
      rw [hm.2] at h3
      rcases List.mem_cons.mp hw with h | h
      · rw [h]; exact le_trans h3 (min_le_left _ _)
      · rcases List.mem_cons.mp h with h | h
        · rw [h]; exact le_trans h3 (min_le_right _ _)
        · exact h2 w (List.mem_cons_of_mem _ h)

/-- The running maximum of finite values is one of them and is above all of them. -/
theorem f64_fold_max (vs : List F64) :
    ∀ v : F64, (∀ w ∈ v :: vs, w.isFinite = true) →
      vs.foldl Fp.std_max v ∈ v :: vs ∧
      ∀ w ∈ v :: vs, w.toRat ≤ (vs.foldl Fp.std_max v).toRat := by
  induction vs with
  | nil => intro v _; simp
  | cons u us ih =>
    intro v hf
    have hv := hf v (List.mem_cons_self _ _)
    have hu := hf u (List.mem_cons_of_mem _ (List.mem_cons_self _ _))
    have hm := std_max_toRat v u hv hu
    have hfin : ∀ w ∈ Fp.std_max v u :: us, w.isFinite = true := by
      intro w hw
      rcases List.mem_cons.mp hw with h | h
      · rw [h]; exact hm.1
      · exact hf w (List.mem_cons_of_mem _ (List.mem_cons_of_mem _ h))
    obtain ⟨h1, h2⟩ := ih (Fp.std_max v u) hfin
    rw [List.foldl_cons]
    refine ⟨?_, fun w hw => ?_⟩
    · rcases List.mem_cons.mp h1 with h | h
      · rw [h]
        rcases std_max_mem v u with e | e <;> rw [e] <;> simp
      · exact List.mem_cons_of_mem _ (List.mem_cons_of_mem _ h)
    · have h3 := h2 (Fp.std_max v u) (List.mem_cons_self _ _)
      rw [hm.2] at h3
      rcases List.mem_cons.mp hw with h | h
      · rw [h]; exact le_trans (le_max_left _ _) h3
      · rcases List.mem_cons.mp h with h | h
        · rw [h]; exact le_trans (le_max_right _ _) h3
        · exact h2 w (List.mem_cons_of_mem _ h)

/-- The number a finite binary64 value stands for is a whole number of the
smallest spacing. -/
theorem toRat_grid (x : F64) (hx : x.IsDouble) (hf : x.isFinite = true) :
    ∃ k : ℤ, x.toRat = (k : ℚ) * (2 : ℚ) ^ (-1074 : ℤ) := by
  cases x with
  | nan => simp [F64.isFinite] at hf
  | inf s => simp [F64.isFinite] at hf
  | fin s m =>
    obtain ⟨k, hk⟩ := roundMag_grid hx.1 hx.2.1
    cases s
    · exact ⟨k, by simp [F64.toRat, hk]⟩
    · exact ⟨-k, by simp [F64.toRat, hk]⟩

/-- Two binary64 values that differ are at least the smallest spacing apart, so
their difference does not round to zero. -/
theorem sub_pos_of_lt (x y : F64) (hx : x.IsDouble) (hy : y.IsDouble)
    (fx : x.isFinite = true) (fy : y.isFinite = true) (h : x.toRat < y.toRat) :
    (2 : ℚ) ^ (-1074 : ℤ) ≤ F64.roundMag |y.toRat - x.toRat| ∧ 0 < y.toRat - x.toRat := by
  obtain ⟨k, hk⟩ := toRat_grid x hx fx
  obtain ⟨j, hj⟩ := toRat_grid y hy fy
  have hpos : (0 : ℚ) < (2 : ℚ) ^ (-1074 : ℤ) := by positivity
  have hlt : k < j := by
    rw [hk, hj] at h
    have := lt_of_mul_lt_mul_right h hpos.le
    exact_mod_cast this
  have h1 : (1 : ℚ) ≤ (j : ℚ) - (k : ℚ) := by
    have : (1 : ℤ) ≤ j - k := by omega
    exact_mod_cast this
  have h2 : (2 : ℚ) ^ (-1074 : ℤ) ≤ y.toRat - x.toRat := by
    rw [hk, hj, ← sub_mul]
    calc (2 : ℚ) ^ (-1074 : ℤ) = 1 * (2 : ℚ) ^ (-1074 : ℤ) := (one_mul _).symm
      _ ≤ ((j : ℚ) - (k : ℚ)) * (2 : ℚ) ^ (-1074 : ℤ) :=
        mul_le_mul_of_nonneg_right h1 hpos.le
  have h3 : 0 < y.toRat - x.toRat := lt_of_lt_of_le hpos h2
  refine ⟨?_, h3⟩
  rw [abs_of_pos h3, ← roundMag_min]
  exact roundMag_mono hpos.le h2

/-- The results of the operators are values that binary64 has. -/
theorem add_isDouble (x y : F64) : (x + y).IsDouble := by
  rw [f64_add_def]
  cases x <;> cases y <;> try exact True.intro
  · show F64.IsDouble (if _ = _ then F64.inf _ else F64.nan)
    split_ifs <;> trivial
  · rw [add_fin_fin]
    split_ifs
    · exact ⟨le_rfl, roundMag_zero, pow_pos (by norm_num) 1024⟩
    · exact ofRat_isDouble _

theorem sub_isDouble (x y : F64) : (x - y).IsDouble := add_isDouble x (-y)

theorem mul_isDouble (x y : F64) (hx : x.IsDouble) (hy : y.IsDouble) : (x * y).IsDouble := by
  rw [f64_mul_def]
  cases x <;> cases y <;> try exact True.intro
  · show F64.IsDouble (if _ = (0 : ℚ) then F64.nan else F64.inf _)
    split_ifs <;> trivial
  · show F64.IsDouble (if _ = (0 : ℚ) then F64.nan else F64.inf _)
    split_ifs <;> trivial
  · rw [mul_fin_fin]
    exact ofMag_isDouble _ (mul_nonneg hx.1 hy.1)

theorem div_isDouble (x y : F64) (hx : x.IsDouble) (hy : y.IsDouble) : (x / y).IsDouble := by
  rw [f64_div_def]
  cases x <;> cases y <;> try exact True.intro
  · exact ⟨le_rfl, roundMag_zero, pow_pos (by norm_num) 1024⟩
  · rw [div_fin_fin]
    split_ifs
    · trivial
    · trivial
    · exact ofMag_isDouble _ (div_nonneg hx.1 hy.1)

/-- The difference of a greater and a smaller finite value, when it does not
overflow, is a finite value above zero. -/
theorem sub_of_lt (x y : F64) (hx : x.IsDouble) (hy : y.IsDouble)
    (fx : x.isFinite = true) (fy : y.isFinite = true) (h : x.toRat < y.toRat) :
    y - x = F64.inf false ∨ ∃ d : ℚ, y - x = F64.fin false d ∧ 0 < d ∧ (F64.fin false d).IsDouble := by
  obtain ⟨h1, h2⟩ := sub_pos_of_lt x y hx hy fx fy h
  cases x with
  | nan => simp [F64.isFinite] at fx
  | inf s => simp [F64.isFinite] at fx
  | fin s a =>
    cases y with
    | nan => simp [F64.isFinite] at fy
    | inf t => simp [F64.isFinite] at fy
    | fin t b =>
      have hneg : (F64.neg (F64.fin s a)).toRat = -(F64.fin s a).toRat := by
        cases s <;> simp [F64.neg, F64.toRat]
      have hexact : (F64.fin t b).toRat + (F64.fin (!s) a).toRat
          = (F64.fin t b).toRat - (F64.fin s a).toRat := by
        have : F64.fin (!s) a = F64.neg (F64.fin s a) := rfl
        rw [this, hneg]
        ring
      have e : F64.fin t b - F64.fin s a
          = F64.ofRat ((F64.fin t b).toRat - (F64.fin s a).toRat) := by
        rw [f64_sub_def]
        show F64.add (F64.fin t b) (F64.fin (!s) a) = _
        rw [add_fin_fin, hexact, if_neg (ne_of_gt h2)]
      rw [e]
      unfold F64.ofRat F64.ofMag
      rw [decide_eq_false (not_lt.mpr h2.le)]
      split_ifs with ho
      · exact Or.inl rfl
      · refine Or.inr ⟨_, rfl, lt_of_lt_of_le (by positivity) h1, ?_⟩
        exact ⟨roundMag_nonneg (abs_nonneg _), roundMag_idem (abs_nonneg _), not_le.mp ho⟩

/-- A finite value less itself is the zero with the sign plus. -/
theorem sub_self_fin (x : F64) (fx : x.isFinite = true) : x - x = F64.fin false 0 := by
  cases x with
  | nan => simp [F64.isFinite] at fx
  | inf s => simp [F64.isFinite] at fx
  | fin s a =>
    rw [f64_sub_def]
    show F64.add (F64.fin s a) (F64.fin (!s) a) = _
    rw [add_fin_fin]
    have : (F64.fin s a).toRat + (F64.fin (!s) a).toRat = 0 := by
      cases s <;> simp [F64.toRat]
    rw [if_pos this]
    cases s <;> rfl

/-- The difference of two finite values that compare equal is a zero. -/
theorem sub_of_eq (x y : F64) (fx : x.isFinite = true) (fy : y.isFinite = true)
    (h : x.toRat = y.toRat) : ∃ s, y - x = F64.fin s 0 := by
  cases x with
  | nan => simp [F64.isFinite] at fx
  | inf s => simp [F64.isFinite] at fx
  | fin s a =>
    cases y with
    | nan => simp [F64.isFinite] at fy
    | inf t => simp [F64.isFinite] at fy
    | fin t b =>
      rw [f64_sub_def]
      show ∃ r, F64.add (F64.fin t b) (F64.fin (!s) a) = _
      rw [add_fin_fin]
      have : (F64.fin t b).toRat + (F64.fin (!s) a).toRat = 0 := by
        have : (F64.fin (!s) a).toRat = -(F64.fin s a).toRat := by
          cases s <;> simp [F64.toRat]
        rw [this, h]
        ring
      rw [if_pos this]
      exact ⟨_, rfl⟩

/-- Zero divided by a finite value above zero is zero. -/
theorem zero_div_pos (d : ℚ) (hd : 0 < d) :
    F64.fin false 0 / F64.fin false d = F64.fin false 0 := by
  rw [f64_div_def, div_fin_fin, if_neg (ne_of_gt hd)]
  simp [F64.ofMag, roundMag_zero]

/-- A finite value above zero divided by itself is one. -/
theorem div_self_pos (d : ℚ) (hd : 0 < d) :
    F64.fin false d / F64.fin false d = F64.fin false 1 := by
  rw [f64_div_def, div_fin_fin, if_neg (ne_of_gt hd), div_self (ne_of_gt hd)]
  simp only [Bool.xor_self, F64.ofMag, roundMag_one]
  rw [if_neg]
  rw [not_le]
  exact one_lt_pow₀ (by norm_num) (by norm_num)

/-- One times a finite value is that value. -/
theorem one_mul_fin (x : F64) (hx : x.IsDouble) (fx : x.isFinite = true) :
    F64.fin false 1 * x = x := by
  cases x with
  | nan => simp [F64.isFinite] at fx
  | inf s => simp [F64.isFinite] at fx
  | fin s a =>
    rw [f64_mul_def, mul_fin_fin, one_mul, Bool.false_xor]
    exact ofMag_of_double s a hx

/-- Zero times a finite value is a zero. -/
theorem zero_mul_fin (x : F64) (fx : x.isFinite = true) :
    ∃ s, F64.fin false 0 * x = F64.fin s 0 := by
  cases x with
  | nan => simp [F64.isFinite] at fx
  | inf s => simp [F64.isFinite] at fx
  | fin s a =>
    rw [f64_mul_def, mul_fin_fin, zero_mul, F64.ofMag, roundMag_zero,
      if_neg (not_le.mpr (pow_pos (by norm_num) 1024))]
    exact ⟨_, rfl⟩

/-- A finite value plus a zero compares equal to the value. -/
theorem add_zero_fin (x : F64) (hx : x.IsDouble) (fx : x.isFinite = true) (s : Bool) :
    (x + F64.fin s 0).isFinite = true ∧ (x + F64.fin s 0).toRat = x.toRat := by
  have h := add_fin x (F64.fin s 0) fx rfl
  have h0 : (F64.fin s 0).toRat = 0 := by cases s <;> simp [F64.toRat]
  rw [h0, add_zero] at h
  obtain ⟨h1, h2⟩ := ofRat_toRat_of_double x hx fx
  exact ⟨h.1.trans h1, h.2.1.trans h2⟩

/-! ### The map of an axis in binary64 -/

theorem ofRat_one : F64.ofRat 1 = F64.fin false 1 := by
  unfold F64.ofRat F64.ofMag
  rw [abs_one, roundMag_one, if_neg (not_le.mpr (one_lt_pow₀ (by norm_num) (by norm_num)))]
  simp

/-- The conversion of a number between two numbers whose conversions are finite
is finite and lies between the two. -/
theorem ofRat_between {a q b : ℚ} (h1 : a ≤ q) (h2 : q ≤ b)
    (fa : (F64.ofRat a).isFinite = true) (fb : (F64.ofRat b).isFinite = true) :
    (F64.ofRat q).isFinite = true ∧ (F64.ofRat a).toRat ≤ (F64.ofRat q).toRat ∧
      (F64.ofRat q).toRat ≤ (F64.ofRat b).toRat := by
  have fq : (F64.ofRat q).isFinite = true := by
    rcases le_total 0 q with h | h
    · refine ofRat_isFinite_of_abs_le ?_ fb
      rw [abs_of_nonneg h, abs_of_nonneg (le_trans h h2)]
      exact h2
    · refine ofRat_isFinite_of_abs_le ?_ fa
      rw [abs_of_nonpos h, abs_of_nonpos (le_trans h1 h)]
      linarith
  exact ⟨fq, ofRat_mono h1 fa fq, ofRat_mono h2 fq fb⟩

theorem neg_isDouble (x : F64) (hx : x.IsDouble) : (-x).IsDouble := by
  cases x with
  | nan => exact True.intro
  | inf s => exact True.intro
  | fin s a => exact hx

theorem add_nan (x : F64) : x + F64.nan = F64.nan := by
  cases x <;> rfl

theorem nan_sub (x : F64) : F64.nan - x = F64.nan := by
  cases x <;> rfl

theorem nan_mul (x : F64) : F64.nan * x = F64.nan := by
  cases x <;> rfl

/-- A division by a zero has no finite result. -/
theorem div_zero_not_finite (x : F64) (s : Bool) : (x / F64.fin s 0).isFinite = false := by
  cases x with
  | nan => rfl
  | inf t => rfl
  | fin t a =>
    rw [f64_div_def, div_fin_fin, if_pos rfl]
    split_ifs <;> rfl

/-- Zero divided by zero is a NaN. -/
theorem zero_div_zero (s t : Bool) : F64.fin t 0 / F64.fin s 0 = F64.nan := by
  rw [f64_div_def, div_fin_fin, if_pos rfl, if_pos rfl]

theorem mul_not_finite (u e : F64) (h : u.isFinite = false) : (u * e).isFinite = false := by
  cases u with
  | nan => rw [nan_mul]; rfl
  | inf s =>
    cases e with
    | nan => rfl
    | inf t => rfl
    | fin t b =>
      show F64.isFinite (if b = 0 then F64.nan else F64.inf (xor s t)) = false
      split_ifs <;> rfl
  | fin s a => simp [F64.isFinite] at h

theorem add_not_finite (lo t : F64) (h : t.isFinite = false) : (lo + t).isFinite = false := by
  cases t with
  | nan => rw [add_nan]; rfl
  | inf s =>
    cases lo with
    | nan => rfl
    | inf r =>
      show F64.isFinite (if r = s then F64.inf r else F64.nan) = false
      split_ifs <;> rfl
    | fin r a => rfl
  | fin s a => simp [F64.isFinite] at h

/-- With a least value that equals the greatest, the quotient of the map is a
division by zero: it is finite at no value and a NaN at the observed value,
and so is the mapped coordinate. -/
theorem f64_map_degenerate (lo hi m M : F64) (fm : m.isFinite = true) (fM : M.isFinite = true)
    (h : m.toRat = M.toRat) :
    (∃ s, M - m = F64.fin s 0) ∧
    (∀ x : F64, ((x - m) / (M - m)).isFinite = false ∧
      (lo + (x - m) / (M - m) * (hi - lo)).isFinite = false) ∧
    (∀ x : F64, x.isFinite = true → x.toRat = m.toRat →
      (x - m) / (M - m) = F64.nan ∧ lo + (x - m) / (M - m) * (hi - lo) = F64.nan) := by
  obtain ⟨s, hs⟩ := sub_of_eq m M fm fM h
  refine ⟨⟨s, hs⟩, fun x => ?_, fun x fx hx => ?_⟩
  · rw [hs]
    have h1 := div_zero_not_finite (x - m) s
    exact ⟨h1, add_not_finite _ _ (mul_not_finite _ _ h1)⟩
  · obtain ⟨t, ht⟩ := sub_of_eq m x fm fx hx.symm
    rw [hs, ht, zero_div_zero, nan_mul, add_nan]
    exact ⟨rfl, rfl⟩

/-- The committed divisor for a least value below the greatest: above zero,
finite or the infinity of an overflow. -/
theorem f64_divisor_pos (m M : F64) (hm : m.IsFiniteDouble) (hM : M.IsFiniteDouble)
    (h : m.toRat < M.toRat) :
    F64.lt (F64.fin false 0) (M - m) = true ∧ (M - m).IsDouble ∧
    ((M - m).isFinite = true → 0 < (M - m).toRat) := by
  rcases sub_of_lt m M hm.1 hM.1 hm.2 hM.2 h with e | ⟨d, e, hd, dd⟩
  · rw [e]
    exact ⟨rfl, True.intro, fun hf => by simp [F64.isFinite] at hf⟩
  · rw [e]
    refine ⟨?_, dd, fun _ => by simpa [F64.toRat] using hd⟩
    simp [F64.lt, F64.toRat, hd]

/-- The quotient of the map at a finite value is no NaN when the divisor did
not overflow. -/
theorem f64_unit_not_nan (m M x : F64) (hm : m.IsFiniteDouble) (hM : M.IsFiniteDouble)
    (h : m.toRat < M.toRat) (hD : (M - m).isFinite = true) (fx : x.isFinite = true) :
    (x - m) / (M - m) ≠ F64.nan := by
  rcases sub_of_lt m M hm.1 hM.1 hm.2 hM.2 h with e | ⟨d, e, hd, _⟩
  · rw [e] at hD
    simp [F64.isFinite] at hD
  · rw [e]
    have h1 := (sub_fin x m fx hm.2).2.2
    generalize x - m = n at h1
    cases n with
    | nan => exact absurd rfl h1
    | inf s => exact fun h2 => F64.noConfusion h2
    | fin s a =>
      rw [f64_div_def, div_fin_fin, if_neg (ne_of_gt hd)]
      exact ofMag_ne_nan _ _

/-- The mapped coordinate is no NaN when the quotient is none, the screen
difference is finite and either is not zero or the quotient is finite. -/
theorem f64_map_not_nan (lo u e : F64) (flo : lo.isFinite = true) (hu : u ≠ F64.nan)
    (fe : e.isFinite = true) (h : e.toRat ≠ 0 ∨ u.isFinite = true) :
    lo + u * e ≠ F64.nan := by
  have h1 : u * e ≠ F64.nan := by
    cases u with
    | nan => exact absurd rfl hu
    | inf s =>
      cases e with
      | nan => simp [F64.isFinite] at fe
      | inf t => simp [F64.isFinite] at fe
      | fin t b =>
        have hb : b ≠ 0 := by
          rcases h with h | h
          · intro hb
            apply h
            rw [hb]
            cases t <;> simp [F64.toRat]
          · simp [F64.isFinite] at h
        show (if b = 0 then F64.nan else F64.inf (xor s t)) ≠ F64.nan
        rw [if_neg hb]
        exact fun h2 => F64.noConfusion h2
    | fin s a =>
      cases e with
      | nan => simp [F64.isFinite] at fe
      | inf t => simp [F64.isFinite] at fe
      | fin t b =>
        rw [f64_mul_def, mul_fin_fin]
        exact ofMag_ne_nan _ _
  generalize u * e = w at h1
  cases lo with
  | nan => simp [F64.isFinite] at flo
  | inf r => simp [F64.isFinite] at flo
  | fin r c =>
    cases w with
    | nan => exact absurd rfl h1
    | inf s => exact fun h2 => F64.noConfusion h2
    | fin s a => exact (add_fin (F64.fin r c) (F64.fin s a) rfl rfl).2.2

/-- When the committed divisor overflows, the map is a NaN at the greatest
observed value. -/
theorem f64_map_overflow (lo hi m M : F64) (h : M - m = F64.inf false) :
    lo + (M - m) / (M - m) * (hi - lo) = F64.nan := by
  rw [h]
  show lo + F64.nan * (hi - lo) = F64.nan
  rw [nan_mul, add_nan]

/-- The map at the least observed value compares equal to the low screen
endpoint. -/
theorem f64_map_at_min (lo hi m M : F64) (hlo : lo.IsFiniteDouble) (hm : m.IsFiniteDouble)
    (hM : M.IsFiniteDouble) (h : m.toRat < M.toRat) (fe : (hi - lo).isFinite = true) :
    (lo + (m - m) / (M - m) * (hi - lo)).isFinite = true ∧
    (lo + (m - m) / (M - m) * (hi - lo)).toRat = lo.toRat := by
  have h0 : (m - m) / (M - m) = F64.fin false 0 := by
    rw [sub_self_fin m hm.2]
    rcases sub_of_lt m M hm.1 hM.1 hm.2 hM.2 h with e | ⟨d, e, hd, _⟩
    · rw [e]
      rfl
    · rw [e]
      exact zero_div_pos d hd
  rw [h0]
  obtain ⟨s, hs⟩ := zero_mul_fin (hi - lo) fe
  rw [hs]
  exact add_zero_fin lo hlo.1 hlo.2 s

/-- The map at the greatest observed value is the sum `lo + (hi - lo)` as
binary64 computes it. -/
theorem f64_map_at_max (lo hi m M : F64) (hm : m.IsFiniteDouble)
    (hM : M.IsFiniteDouble) (h : m.toRat < M.toRat) (hD : (M - m).isFinite = true)
    (fe : (hi - lo).isFinite = true) :
    lo + (M - m) / (M - m) * (hi - lo) = lo + (hi - lo) := by
  rcases sub_of_lt m M hm.1 hM.1 hm.2 hM.2 h with e | ⟨d, e, hd, _⟩
  · rw [e] at hD
    simp [F64.isFinite] at hD
  · rw [e, div_self_pos d hd, one_mul_fin (hi - lo) (sub_isDouble hi lo) fe]

/-- The screen difference is exact when one of the two endpoints is zero. -/
theorem exactSub_of_zero (hi lo : F64) (hhi : hi.IsFiniteDouble) (hlo : lo.IsFiniteDouble)
    (h : lo.toRat = 0 ∨ hi.toRat = 0) : F64.ExactSub hi lo := by
  obtain ⟨h1, h2, _⟩ := sub_fin hi lo hhi.2 hlo.2
  unfold F64.ExactSub
  rw [h1, h2]
  rcases h with h | h
  · rw [h, sub_zero]
    exact ofRat_toRat_of_double hi hhi.1 hhi.2
  · rw [h, zero_sub, ← (neg_fin lo hlo.2).2]
    exact ofRat_toRat_of_double (-lo) (neg_isDouble lo hlo.1) (neg_fin lo hlo.2).1

/-- With an exact screen difference the sum `lo + (hi - lo)` compares equal to
the high screen endpoint. -/
theorem exactSub_add (hi lo : F64) (hhi : hi.IsFiniteDouble) (hlo : lo.IsFiniteDouble)
    (h : F64.ExactSub hi lo) :
    (lo + (hi - lo)).isFinite = true ∧ (lo + (hi - lo)).toRat = hi.toRat := by
  obtain ⟨h1, h2, _⟩ := add_fin lo (hi - lo) hlo.2 h.1
  rw [h1, h2, h.2]
  have e : lo.toRat + (hi.toRat - lo.toRat) = hi.toRat := by ring
  rw [e]
  exact ofRat_toRat_of_double hi hhi.1 hhi.2

/-- The quotient of the map at a value between the least and the greatest
observed value is a finite value between zero and one. -/
theorem f64_unit_between (m M x : F64) (hm : m.IsFiniteDouble) (hM : M.IsFiniteDouble)
    (hx : x.IsFiniteDouble) (h : m.toRat < M.toRat) (hD : (M - m).isFinite = true)
    (h1 : m.toRat ≤ x.toRat) (h2 : x.toRat ≤ M.toRat) :
    ((x - m) / (M - m)).IsFiniteDouble ∧ 0 ≤ ((x - m) / (M - m)).toRat ∧
      ((x - m) / (M - m)).toRat ≤ 1 := by
  obtain ⟨_, dD, hpos⟩ := f64_divisor_pos m M hm hM h
  have hd := hpos hD
  obtain ⟨n1, n2, _⟩ := sub_fin x m hx.2 hm.2
  obtain ⟨d1, d2, _⟩ := sub_fin M m hM.2 hm.2
  have f0 : (F64.ofRat 0).isFinite = true := by rw [ofRat_zero]; rfl
  have t0 : (F64.ofRat 0).toRat = 0 := by rw [ofRat_zero]; rfl
  have f1 : (F64.ofRat 1).isFinite = true := by rw [ofRat_one]; rfl
  have t1 : (F64.ofRat 1).toRat = 1 := by rw [ofRat_one]; rfl
  have fD : (F64.ofRat (M.toRat - m.toRat)).isFinite = true := by rw [← d1]; exact hD
  obtain ⟨b1, b2, b3⟩ := ofRat_between (a := 0) (q := x.toRat - m.toRat)
    (b := M.toRat - m.toRat) (by linarith) (by linarith) f0 fD
  have fn : (x - m).isFinite = true := n1.trans b1
  rw [← n2, t0] at b2
  rw [← n2, ← d2] at b3
  obtain ⟨u1, u2, _⟩ := div_fin (x - m) (M - m) fn hD (sub_isDouble x m) dD (ne_of_gt hd)
  obtain ⟨c1, c2, c3⟩ := ofRat_between (a := 0) (q := (x - m).toRat / (M - m).toRat) (b := 1)
    (div_nonneg b2 hd.le) ((div_le_one hd).mpr b3) f0 f1
  have fu : ((x - m) / (M - m)).isFinite = true := u1.trans c1
  rw [← u2 fu, t0] at c2
  rw [← u2 fu, t1] at c3
  exact ⟨⟨div_isDouble _ _ (sub_isDouble x m) dD, fu⟩, c2, c3⟩

/-- The product of a quotient between zero and one with the screen difference
is a finite value between zero and the screen difference. -/
theorem f64_scaled_between (u e : F64) (hu : u.IsFiniteDouble) (he : e.IsFiniteDouble)
    (h0 : 0 ≤ u.toRat) (h1 : u.toRat ≤ 1) :
    (u * e).IsFiniteDouble ∧
    (0 ≤ e.toRat → 0 ≤ (u * e).toRat ∧ (u * e).toRat ≤ e.toRat) ∧
    (e.toRat ≤ 0 → e.toRat ≤ (u * e).toRat ∧ (u * e).toRat ≤ 0) := by
  obtain ⟨m1, m2, _⟩ := mul_fin u e hu.2 he.2 hu.1 he.1
  obtain ⟨fe, te⟩ := ofRat_toRat_of_double e he.1 he.2
  have f0 : (F64.ofRat 0).isFinite = true := by rw [ofRat_zero]; rfl
  have t0 : (F64.ofRat 0).toRat = 0 := by rw [ofRat_zero]; rfl
  have key : (u * e).isFinite = true ∧
      (0 ≤ e.toRat → 0 ≤ (F64.ofRat (u.toRat * e.toRat)).toRat ∧
        (F64.ofRat (u.toRat * e.toRat)).toRat ≤ e.toRat) ∧
      (e.toRat ≤ 0 → e.toRat ≤ (F64.ofRat (u.toRat * e.toRat)).toRat ∧
        (F64.ofRat (u.toRat * e.toRat)).toRat ≤ 0) := by
    rcases le_total 0 e.toRat with hs | hs
    · obtain ⟨c1, c2, c3⟩ := ofRat_between (a := 0) (q := u.toRat * e.toRat) (b := e.toRat)
        (mul_nonneg h0 hs) (mul_le_of_le_one_left hs h1) f0 fe
      rw [t0] at c2
      rw [te] at c3
      refine ⟨m1.trans c1, fun _ => ⟨c2, c3⟩, fun hs2 => ?_⟩
      have e0 : e.toRat = 0 := le_antisymm hs2 hs
      exact ⟨by linarith, by linarith⟩
    · obtain ⟨c1, c2, c3⟩ := ofRat_between (a := e.toRat) (q := u.toRat * e.toRat) (b := 0)
        (by nlinarith) (mul_nonpos_of_nonneg_of_nonpos h0 hs) fe f0
      rw [te] at c2
      rw [t0] at c3
      refine ⟨m1.trans c1, fun hs2 => ?_, fun _ => ⟨c2, c3⟩⟩
      have e0 : e.toRat = 0 := le_antisymm hs hs2
      exact ⟨by linarith, by linarith⟩
  obtain ⟨k1, k2, k3⟩ := key
  rw [← m2 k1] at k2 k3
  exact ⟨⟨mul_isDouble u e hu.1 he.1, k1⟩, k2, k3⟩

/-- The sum of the low screen endpoint and a value between zero and the screen
difference is a finite value between the low screen endpoint and the sum
`lo + e` as binary64 computes it. -/
theorem f64_sum_between (lo t e : F64) (hlo : lo.IsFiniteDouble) (ft : t.isFinite = true)
    (fe : e.isFinite = true) (fP : (lo + e).isFinite = true)
    (h : (0 ≤ t.toRat ∧ t.toRat ≤ e.toRat) ∨ (e.toRat ≤ t.toRat ∧ t.toRat ≤ 0)) :
    (lo + t).IsFiniteDouble ∧
    ((lo.toRat ≤ (lo + t).toRat ∧ (lo + t).toRat ≤ (lo + e).toRat) ∨
      ((lo + e).toRat ≤ (lo + t).toRat ∧ (lo + t).toRat ≤ lo.toRat)) := by
  obtain ⟨a1, a2, _⟩ := add_fin lo t hlo.2 ft
  obtain ⟨p1, p2, _⟩ := add_fin lo e hlo.2 fe
  obtain ⟨fl, tl⟩ := ofRat_toRat_of_double lo hlo.1 hlo.2
  have fP2 : (F64.ofRat (lo.toRat + e.toRat)).isFinite = true := by rw [← p1]; exact fP
  rcases h with ⟨h1, h2⟩ | ⟨h1, h2⟩
  · obtain ⟨c1, c2, c3⟩ := ofRat_between (a := lo.toRat) (q := lo.toRat + t.toRat)
      (b := lo.toRat + e.toRat) (by linarith) (by linarith) fl fP2
    rw [tl, ← a2] at c2
    rw [← a2, ← p2] at c3
    exact ⟨⟨add_isDouble lo t, a1.trans c1⟩, Or.inl ⟨c2, c3⟩⟩
  · obtain ⟨c1, c2, c3⟩ := ofRat_between (a := lo.toRat + e.toRat) (q := lo.toRat + t.toRat)
      (b := lo.toRat) (by linarith) (by linarith) fP2 fl
    rw [← p2, ← a2] at c2
    rw [← a2, tl] at c3
    exact ⟨⟨add_isDouble lo t, a1.trans c1⟩, Or.inr ⟨c2, c3⟩⟩

/-- The map at a value between the least and the greatest observed value: a
finite coordinate between the low screen endpoint and the sum `lo + (hi - lo)`
as binary64 computes it. -/
theorem f64_map_between (lo hi m M x : F64) (hlo : lo.IsFiniteDouble)
    (hm : m.IsFiniteDouble) (hM : M.IsFiniteDouble) (hx : x.IsFiniteDouble)
    (h : m.toRat < M.toRat) (hD : (M - m).isFinite = true)
    (fe : (hi - lo).isFinite = true) (fP : (lo + (hi - lo)).isFinite = true)
    (h1 : m.toRat ≤ x.toRat) (h2 : x.toRat ≤ M.toRat) :
    (lo + (x - m) / (M - m) * (hi - lo)).IsFiniteDouble ∧
    ((lo.toRat ≤ (lo + (x - m) / (M - m) * (hi - lo)).toRat ∧
        (lo + (x - m) / (M - m) * (hi - lo)).toRat ≤ (lo + (hi - lo)).toRat) ∨
      ((lo + (hi - lo)).toRat ≤ (lo + (x - m) / (M - m) * (hi - lo)).toRat ∧
        (lo + (x - m) / (M - m) * (hi - lo)).toRat ≤ lo.toRat)) := by
  obtain ⟨hu, u0, u1⟩ := f64_unit_between m M x hm hM hx h hD h1 h2
  obtain ⟨ht, t1, t2⟩ := f64_scaled_between _ (hi - lo) hu ⟨sub_isDouble hi lo, fe⟩ u0 u1
  refine f64_sum_between lo _ (hi - lo) hlo ht.2 fe fP ?_
  rcases le_total 0 (hi - lo).toRat with hs | hs
  · exact Or.inl (t1 hs)
  · exact Or.inr (t2 hs)

/-- With an exact screen difference the map at a value between the least and
the greatest observed value lies between the lesser and the greater screen
endpoint. -/
theorem f64_map_inside (lo hi m M x : F64) (hlo : lo.IsFiniteDouble) (hhi : hi.IsFiniteDouble)
    (hm : m.IsFiniteDouble) (hM : M.IsFiniteDouble) (hx : x.IsFiniteDouble)
    (h : m.toRat < M.toRat) (hD : (M - m).isFinite = true) (he : F64.ExactSub hi lo)
    (h1 : m.toRat ≤ x.toRat) (h2 : x.toRat ≤ M.toRat) :
    (lo + (x - m) / (M - m) * (hi - lo)).IsFiniteDouble ∧
    F64.le (Fp.std_min lo hi) (lo + (x - m) / (M - m) * (hi - lo)) = true ∧
    F64.le (lo + (x - m) / (M - m) * (hi - lo)) (Fp.std_max lo hi) = true := by
  obtain ⟨fP, tP⟩ := exactSub_add hi lo hhi hlo he
  obtain ⟨hr, hb⟩ := f64_map_between lo hi m M x hlo hm hM hx h hD he.1 fP h1 h2
  obtain ⟨fmin, tmin⟩ := std_min_toRat lo hi hlo.2 hhi.2
  obtain ⟨fmax, tmax⟩ := std_max_toRat lo hi hlo.2 hhi.2
  rw [tP] at hb
  rw [le_fin _ _ fmin hr.2, le_fin _ _ hr.2 fmax, tmin, tmax]
  refine ⟨hr, ?_, ?_⟩
  · rw [decide_eq_true_eq]
    rcases hb with ⟨b1, _⟩ | ⟨b1, _⟩
    · exact le_trans (min_le_left _ _) b1
    · exact le_trans (min_le_right _ _) b1
  · rw [decide_eq_true_eq]
    rcases hb with ⟨_, b2⟩ | ⟨_, b2⟩
    · exact le_trans b2 (le_max_right _ _)
    · exact le_trans b2 (le_max_left _ _)

/-! ### Binary64 at concrete values -/

theorem roundEven_of_close (q : ℚ) (N : ℤ) (h1 : (N : ℚ) - 1 / 2 < q) (h2 : q < (N : ℚ) + 1 / 2) :
    F64.roundEven q = N := by
  unfold F64.roundEven
  rcases le_or_lt (N : ℚ) q with hq | hq
  · have hf : ⌊q⌋ = N := by
      rw [Int.floor_eq_iff]
      constructor
      · exact hq
      · linarith
    rw [hf, if_pos (by linarith)]
  · have hf : ⌊q⌋ = N - 1 := by
      rw [Int.floor_eq_iff]
      push_cast
      constructor <;> linarith
    rw [hf]
    push_cast
    rw [if_neg (by linarith), if_pos (by linarith)]
    ring

/-- The rounding of a magnitude in the binade of `2^k`, from the integer
nearest to its quotient by the spacing. -/
theorem roundMag_eval (q : ℚ) (k N : ℤ) (hk : -1022 ≤ k) (h1 : (2 : ℚ) ^ k ≤ q)
    (h2 : q < (2 : ℚ) ^ (k + 1)) (h3 : (N : ℚ) - 1 / 2 < q / (2 : ℚ) ^ (k - 52))
    (h4 : q / (2 : ℚ) ^ (k - 52) < (N : ℚ) + 1 / 2) :
    F64.roundMag q = (N : ℚ) * (2 : ℚ) ^ (k - 52) := by
  have hpos : 0 < q := lt_of_lt_of_le (by positivity) h1
  have hlog : Int.log 2 q = k := by
    have a1 : k ≤ Int.log 2 q :=
      (Int.zpow_le_iff_le_log (by norm_num) hpos).mp (by exact_mod_cast h1)
    have a2 : Int.log 2 q < k + 1 :=
      (Int.lt_zpow_iff_log_lt (by norm_num) hpos).mp (by exact_mod_cast h2)
    omega
  unfold F64.roundMag F64.ulp
  rw [hlog, max_eq_left hk, roundEven_of_close _ N h3 h4]

/-- The conversion of a number above zero in the binade of `2^k`. -/
theorem ofRat_eval_pos (q : ℚ) (k N : ℤ) (hk : -1022 ≤ k) (h1 : (2 : ℚ) ^ k ≤ q)
    (h2 : q < (2 : ℚ) ^ (k + 1)) (h3 : (N : ℚ) - 1 / 2 < q / (2 : ℚ) ^ (k - 52))
    (h4 : q / (2 : ℚ) ^ (k - 52) < (N : ℚ) + 1 / 2)
    (h5 : (N : ℚ) * (2 : ℚ) ^ (k - 52) < (2 : ℚ) ^ 1024) :
    F64.ofRat q = F64.fin false ((N : ℚ) * (2 : ℚ) ^ (k - 52)) := by
  have hpos : 0 < q := lt_of_lt_of_le (by positivity) h1
  unfold F64.ofRat F64.ofMag
  rw [abs_of_pos hpos, roundMag_eval q k N hk h1 h2 h3 h4, if_neg (not_le.mpr h5),
    decide_eq_false (not_lt.mpr hpos.le)]

/-- The conversion of a number below zero, from its magnitude in the binade of
`2^k`. -/
theorem ofRat_eval_neg (q : ℚ) (k N : ℤ) (hk : -1022 ≤ k) (h1 : (2 : ℚ) ^ k ≤ q)
    (h2 : q < (2 : ℚ) ^ (k + 1)) (h3 : (N : ℚ) - 1 / 2 < q / (2 : ℚ) ^ (k - 52))
    (h4 : q / (2 : ℚ) ^ (k - 52) < (N : ℚ) + 1 / 2)
    (h5 : (N : ℚ) * (2 : ℚ) ^ (k - 52) < (2 : ℚ) ^ 1024) :
    F64.ofRat (-q) = F64.fin true ((N : ℚ) * (2 : ℚ) ^ (k - 52)) := by
  have hpos : 0 < q := lt_of_lt_of_le (by positivity) h1
  unfold F64.ofRat F64.ofMag
  rw [abs_neg, abs_of_pos hpos, roundMag_eval q k N hk h1 h2 h3 h4, if_neg (not_le.mpr h5),
    decide_eq_true (neg_lt_zero.mpr hpos)]

/-- Every natural number below `2^53` is a value of binary64. -/
theorem ofRat_natCast (n : ℕ) (hn : n < 2 ^ 53) : F64.ofRat (n : ℚ) = F64.fin false (n : ℚ) := by
  unfold F64.ofRat F64.ofMag
  have h0 : (0 : ℚ) ≤ (n : ℚ) := Nat.cast_nonneg n
  have h1 : (n : ℚ) < (2 : ℚ) ^ 1024 := by
    have h2 : (n : ℚ) < (2 : ℚ) ^ 53 := by exact_mod_cast hn
    exact lt_trans h2 (pow_lt_pow_right₀ (by norm_num) (by norm_num))
  rw [abs_of_nonneg h0, roundMag_natCast n hn, if_neg (not_le.mpr h1),
    decide_eq_false (not_lt.mpr h0)]

/-- The double nearest to 0.7. -/
theorem ofRat_seven_tenths :
    F64.ofRat (7 / 10) = F64.fin false (6305039478318694 / 2 ^ 53) := by
  rw [ofRat_eval_pos (7 / 10) (-1) 6305039478318694 (by norm_num) (by norm_num) (by norm_num)
    (by norm_num) (by norm_num) (by norm_num)]
  norm_num

/-- The double nearest to 0.1. -/
theorem ofRat_one_tenth :
    F64.ofRat (1 / 10) = F64.fin false (7205759403792794 / 2 ^ 56) := by
  rw [ofRat_eval_pos (1 / 10) (-4) 7205759403792794 (by norm_num) (by norm_num) (by norm_num)
    (by norm_num) (by norm_num) (by norm_num)]
  norm_num

/-- The difference 0.1 - 0.7 in binary64. -/
theorem sub_tenths :
    F64.fin false (7205759403792794 / 2 ^ 56) - F64.fin false (6305039478318694 / 2 ^ 53)
      = F64.fin true (5404319552844595 / 2 ^ 53) := by
  rw [f64_sub_def]
  show F64.add (F64.fin false (7205759403792794 / 2 ^ 56))
    (F64.fin true (6305039478318694 / 2 ^ 53)) = _
  rw [add_fin_fin]
  have e : (F64.fin false (7205759403792794 / 2 ^ 56)).toRat
      + (F64.fin true (6305039478318694 / 2 ^ 53)).toRat
      = -(43234556422756758 / 2 ^ 56 : ℚ) := by
    simp only [F64.toRat]
    norm_num
  rw [e, if_neg (by norm_num),
    ofRat_eval_neg (43234556422756758 / 2 ^ 56) (-1) 5404319552844595 (by norm_num)
      (by norm_num) (by norm_num) (by norm_num) (by norm_num) (by norm_num)]
  norm_num

/-- The sum 0.7 + (0.1 - 0.7) in binary64: two spacings below the double
nearest to 0.1. -/
theorem add_tenths :
    F64.fin false (6305039478318694 / 2 ^ 53) + F64.fin true (5404319552844595 / 2 ^ 53)
      = F64.fin false (7205759403792792 / 2 ^ 56) := by
  rw [f64_add_def, add_fin_fin]
  have e : (F64.fin false (6305039478318694 / 2 ^ 53)).toRat
      + (F64.fin true (5404319552844595 / 2 ^ 53)).toRat
      = (7205759403792792 / 2 ^ 56 : ℚ) := by
    simp only [F64.toRat]
    norm_num
  rw [e, if_neg (by norm_num),
    ofRat_eval_pos (7205759403792792 / 2 ^ 56) (-4) 7205759403792792 (by norm_num)
      (by norm_num) (by norm_num) (by norm_num) (by norm_num) (by norm_num)]
  norm_num

/-- The difference 4 - 0 in binary64. -/
theorem four_sub_zero : F64.fin false 4 - F64.fin false 0 = F64.fin false 4 := by
  rw [f64_sub_def]
  show F64.add (F64.fin false 4) (F64.fin true 0) = _
  rw [add_fin_fin]
  have e : (F64.fin false 4).toRat + (F64.fin true 0).toRat = ((4 : ℕ) : ℚ) := by
    simp only [F64.toRat]
    norm_num
  rw [e, if_neg (by norm_num), ofRat_natCast 4 (by norm_num)]
  norm_num

/-- The axis with the screen endpoints 0.7 and 0.1 that has observed 0, 1 and
4 maps the greatest observed value to the double two spacings below its high
screen endpoint. -/
theorem f64_skewed_axis :
    ((Fp.Axis.init (F64.ofRat (7 / 10)) (F64.ofRat (1 / 10))).observe
        [F64.fin false 0, F64.fin false 1, F64.fin false 4]).autoSetup.map (F64.fin false 4)
      = F64.fin false (7205759403792792 / 2 ^ 56) ∧
    ((Fp.Axis.init (F64.ofRat (7 / 10)) (F64.ofRat (1 / 10))).observe
        [F64.fin false 0, F64.fin false 1, F64.fin false 4]).autoSetup.drawHigh
      = F64.fin false (7205759403792794 / 2 ^ 56) ∧
    ((Fp.Axis.init (F64.ofRat (7 / 10)) (F64.ofRat (1 / 10))).observe
        [F64.fin false 0, F64.fin false 1, F64.fin false 4]).autoSetup.drawMin
      = F64.fin false (7205759403792794 / 2 ^ 56) := by
  have hm : [F64.fin false 1, F64.fin false 4].foldl Fp.std_min (F64.fin false 0)
      = F64.fin false 0 := by decide
  have hM : [F64.fin false 1, F64.fin false 4].foldl Fp.std_max (F64.fin false 0)
      = F64.fin false 4 := by decide
  refine ⟨?_, ?_, ?_⟩
  · rw [fp_autoSetup_map, hm, hM, four_sub_zero, div_self_pos 4 (by norm_num),
      ofRat_seven_tenths, ofRat_one_tenth, sub_tenths]
    have h1 : F64.fin false 1 * F64.fin true (5404319552844595 / 2 ^ 53)
        = F64.fin true (5404319552844595 / 2 ^ 53) := by
      refine one_mul_fin _ ?_ rfl
      rw [← sub_tenths]
      exact sub_isDouble _ _
    rw [h1, add_tenths]
  · rw [fp_autoSetup_observe, ofRat_one_tenth]
  · rw [fp_autoSetup_observe]
    show Fp.std_min (F64.ofRat (7 / 10)) (F64.ofRat (1 / 10)) = _
    rw [ofRat_seven_tenths, ofRat_one_tenth]
    unfold Fp.std_min
    rw [f64_flt_def, if_pos]
    simp only [F64.lt, F64.toRat]
    norm_num

/-! ### The accumulator of an axis in binary64 -/

/-- Every natural number below `2^53` is a finite value of binary64. -/
theorem natCast_isFiniteDouble (n : ℕ) (hn : n < 2 ^ 53) :
    (F64.fin false (n : ℚ)).IsFiniteDouble := by
  refine ⟨⟨Nat.cast_nonneg n, roundMag_natCast n hn, ?_⟩, rfl⟩
  have h2 : (n : ℚ) < (2 : ℚ) ^ 53 := by exact_mod_cast hn
  exact lt_trans h2 (pow_lt_pow_right₀ (by norm_num) (by norm_num))

/-- Values that compare equal are not below one another. -/
theorem lt_of_eq (a b : F64) (h : F64.eq a b = true) :
    F64.lt a b = false ∧ F64.lt b a = false := by
  cases a with
  | nan => simp [F64.eq] at h
  | inf s =>
    cases b with
    | nan => simp [F64.eq] at h
    | inf t =>
      have e : s = t := by simpa [F64.eq] using h
      rw [e]
      cases t <;> exact ⟨rfl, rfl⟩
    | fin t b => simp [F64.eq] at h
  | fin s a =>
    cases b with
    | nan => simp [F64.eq] at h
    | inf t => simp [F64.eq] at h
    | fin t b =>
      have e : (F64.fin s a).toRat = (F64.fin t b).toRat := by simpa [F64.eq] using h
      simp only [F64.lt, e, lt_self_iff_false, decide_False, and_self]

/-- When every later value compares equal to the first, the running minimum
and maximum stay at the first value. -/
theorem f64_fold_eq (v : F64) (vs : List F64) (h : ∀ w ∈ vs, F64.eq w v = true) :
    vs.foldl Fp.std_min v = v ∧ vs.foldl Fp.std_max v = v := by
  induction vs with
  | nil => exact ⟨rfl, rfl⟩
  | cons u us ih =>
    have hu := lt_of_eq u v (h u (List.mem_cons_self _ _))
    have e1 : Fp.std_min v u = v := by
      unfold Fp.std_min
      rw [f64_flt_def, hu.1]
      rfl
    have e2 : Fp.std_max v u = v := by
      unfold Fp.std_max
      rw [f64_flt_def, hu.2]
      rfl
    rw [List.foldl_cons, List.foldl_cons, e1, e2]
    exact ih (fun w hw => h w (List.mem_cons_of_mem _ hw))

/-- The least and the greatest of a non-empty sequence of finite values: both
are in the sequence, and every value of the sequence lies between them. -/
theorem f64_fold_bounds (v : F64) (vs : List F64) (h : ∀ w ∈ v :: vs, w.IsFiniteDouble) :
    vs.foldl Fp.std_min v ∈ v :: vs ∧ vs.foldl Fp.std_max v ∈ v :: vs ∧
    (vs.foldl Fp.std_min v).IsFiniteDouble ∧ (vs.foldl Fp.std_max v).IsFiniteDouble ∧
    (∀ w ∈ v :: vs, (vs.foldl Fp.std_min v).toRat ≤ w.toRat ∧
      w.toRat ≤ (vs.foldl Fp.std_max v).toRat) ∧
    (∀ w ∈ v :: vs, F64.le (vs.foldl Fp.std_min v) w = true ∧
      F64.le w (vs.foldl Fp.std_max v) = true) := by
  obtain ⟨a1, a2⟩ := f64_fold_min vs v (fun w hw => (h w hw).2)
  obtain ⟨b1, b2⟩ := f64_fold_max vs v (fun w hw => (h w hw).2)
  refine ⟨a1, b1, h _ a1, h _ b1, fun w hw => ⟨a2 w hw, b2 w hw⟩, fun w hw => ?_⟩
  rw [le_fin _ _ (h _ a1).2 (h w hw).2, le_fin _ _ (h w hw).2 (h _ b1).2]
  exact ⟨decide_eq_true (a2 w hw), decide_eq_true (b2 w hw)⟩

/-- Two values of the sequence that do not compare equal put the least value
below the greatest. -/
theorem f64_fold_spread (v : F64) (vs : List F64) (h : ∀ w ∈ v :: vs, w.IsFiniteDouble)
    (p q : F64) (hp : p ∈ v :: vs) (hq : q ∈ v :: vs) (hpq : F64.eq p q = false) :
    (vs.foldl Fp.std_min v).toRat < (vs.foldl Fp.std_max v).toRat := by
  obtain ⟨_, _, _, _, hb, _⟩ := f64_fold_bounds v vs h
  rw [eq_fin p q (h p hp).2 (h q hq).2, decide_eq_false_iff_not] at hpq
  obtain ⟨p1, p2⟩ := hb p hp
  obtain ⟨q1, q2⟩ := hb q hq
  rcases lt_or_gt_of_ne hpq with h1 | h1
  · linarith
  · linarith

/-- A value above zero and its negative: the negative is the least of the two,
and the two do not compare equal. -/
theorem f64_opposite_pair (a : ℚ) (ha : 0 < a) :
    [F64.fin false a].foldl Fp.std_min (F64.fin true a) = F64.fin true a ∧
    [F64.fin false a].foldl Fp.std_max (F64.fin true a) = F64.fin false a ∧
    F64.eq (F64.fin true a) (F64.fin false a) = false := by
  have h1 : F64.lt (F64.fin false a) (F64.fin true a) = false := by
    simp only [F64.lt, F64.toRat]
    exact decide_eq_false (by simp only [if_true, Bool.false_eq_true, if_false]; linarith)
  have h2 : F64.lt (F64.fin true a) (F64.fin false a) = true := by
    simp only [F64.lt, F64.toRat]
    exact decide_eq_true (by simp only [if_true, Bool.false_eq_true, if_false]; linarith)
  have h3 : F64.eq (F64.fin true a) (F64.fin false a) = false := by
    simp only [F64.eq, F64.toRat]
    exact decide_eq_false (by simp only [if_true, Bool.false_eq_true, if_false]; linarith)
  refine ⟨?_, ?_, h3⟩
  · simp only [List.foldl, Fp.std_min, f64_flt_def, h1]
    rfl
  · simp only [List.foldl, Fp.std_max, f64_flt_def, h2]
    rfl

/-- The difference of two natural numbers below `2^53` does not overflow. -/
theorem sub_natCast_isFinite (a b : ℕ) (ha : a < 2 ^ 53) (hb : b < 2 ^ 53) :
    (F64.fin false (a : ℚ) - F64.fin false (b : ℚ)).isFinite = true := by
  rw [(sub_fin (F64.fin false (a : ℚ)) (F64.fin false (b : ℚ)) rfl rfl).1]
  have ta : (F64.fin false (a : ℚ)).toRat = (a : ℚ) := by simp [F64.toRat]
  have tb : (F64.fin false (b : ℚ)).toRat = (b : ℚ) := by simp [F64.toRat]
  have fa : (F64.ofRat (a : ℚ)).isFinite = true := by rw [ofRat_natCast a ha]; rfl
  have fb : (F64.ofRat (b : ℚ)).isFinite = true := by rw [ofRat_natCast b hb]; rfl
  have h0a : (0 : ℚ) ≤ (a : ℚ) := Nat.cast_nonneg a
  have h0b : (0 : ℚ) ≤ (b : ℚ) := Nat.cast_nonneg b
  rw [ta, tb]
  rcases le_total (b : ℚ) (a : ℚ) with h | h
  · refine ofRat_isFinite_of_abs_le ?_ fa
    rw [abs_of_nonneg (sub_nonneg.mpr h), abs_of_nonneg h0a]
    linarith
  · refine ofRat_isFinite_of_abs_le ?_ fb
    rw [abs_of_nonpos (sub_nonpos.mpr h), abs_of_nonneg h0b]
    linarith

/-- The sample plot is the default plot after line(), add(0, 0), add(1, 1)
and add(2, 4) on that line. -/
theorem f64_build_examplePlot :
    Fp.Plot2D.build (Fp.DoubleOps.lit 260) (Fp.DoubleOps.lit 130)
      [Fp.PlotOp.line, Fp.PlotOp.add 0 (F64.fin false 0) (F64.fin false 0),
        Fp.PlotOp.add 0 (F64.fin false 1) (F64.fin false 1),
        Fp.PlotOp.add 0 (F64.fin false 2) (F64.fin false 4)] = F64.examplePlot := rfl

/-- A natural number below `2^53` that is not zero, less zero, is itself. -/
theorem natCast_sub_zero (n : ℕ) (hn : n < 2 ^ 53) (h0 : n ≠ 0) :
    F64.fin false (n : ℚ) - F64.fin false 0 = F64.fin false (n : ℚ) := by
  rw [f64_sub_def]
  show F64.add (F64.fin false (n : ℚ)) (F64.fin true 0) = _
  rw [add_fin_fin]
  have e : (F64.fin false (n : ℚ)).toRat + (F64.fin true 0).toRat = (n : ℚ) := by
    simp [F64.toRat]
  have hne : (n : ℚ) ≠ 0 := Nat.cast_ne_zero.mpr h0
  rw [e, if_neg hne, ofRat_natCast n hn]

/-- The power `2^1023` is a finite value of binary64, with either sign. -/
theorem pow_1023_isFiniteDouble (s : Bool) : (F64.fin s ((2 : ℚ) ^ 1023)).IsFiniteDouble := by
  have e : ((2 : ℚ) ^ 1023) = ((1 : ℕ) : ℚ) * (2 : ℚ) ^ (1023 : ℤ) := by
    rw [Nat.cast_one, one_mul]
    exact (zpow_natCast (2 : ℚ) 1023).symm
  refine ⟨⟨by positivity, ?_, pow_lt_pow_right₀ (by norm_num) (by norm_num)⟩, rfl⟩
  rw [e]
  exact roundMag_of_nat_mul 1 1023 (by norm_num) (by norm_num)

/-! ### Every data point is observed, in binary64 -/

/-- Observing a finite value keeps the accumulator tame, brackets the value,
and keeps what was bracketed. -/
theorem f64_autoValue_tame (a : Fp.Axis F64) (v : F64) (ha : F64.Tame a)
    (hv : v.IsFiniteDouble) :
    F64.Tame (a.autoValue v) ∧ F64.Brackets (a.autoValue v) v ∧
    ∀ V, F64.Brackets a V → F64.Brackets (a.autoValue v) V := by
  obtain ⟨hs, ht⟩ := ha
  cases hav : a.hasAutoValue with
  | false =>
    have e : a.autoValue v = { a with autoMin := v, autoMax := v, hasAutoValue := true } := by
      simp [Fp.Axis.autoValue, hs, hav]
    rw [e]
    refine ⟨⟨hs, fun _ => ⟨hv, hv⟩⟩, ⟨hs, rfl, hv, hv, hv, le_rfl, le_rfl⟩, fun V hV => ?_⟩
    have h1 := hV.2.1
    rw [hav] at h1
    exact absurd h1 (by simp)
  | true =>
    obtain ⟨hmin, hmax⟩ := ht hav
    have e : a.autoValue v = { a with autoMin := (Fp.std_min a.autoMin v), autoMax := (Fp.std_max a.autoMax v) } := by
      simp [Fp.Axis.autoValue, hs, hav]
    obtain ⟨_, t1⟩ := std_min_toRat a.autoMin v hmin.2 hv.2
    obtain ⟨_, t2⟩ := std_max_toRat a.autoMax v hmax.2 hv.2
    have d1 : (Fp.std_min a.autoMin v).IsFiniteDouble := by
      rcases std_min_mem a.autoMin v with h | h <;> rw [h] <;> assumption
    have d2 : (Fp.std_max a.autoMax v).IsFiniteDouble := by
      rcases std_max_mem a.autoMax v with h | h <;> rw [h] <;> assumption
    rw [e]
    refine ⟨⟨hs, fun _ => ⟨d1, d2⟩⟩, ⟨hs, hav, d1, d2, hv, ?_, ?_⟩,
      fun V hV => ⟨hs, hav, d1, d2, hV.2.2.2.2.1, ?_, ?_⟩⟩
    · show (Fp.std_min a.autoMin v).toRat ≤ v.toRat
      rw [t1]
      exact min_le_right _ _
    · show v.toRat ≤ (Fp.std_max a.autoMax v).toRat
      rw [t2]
      exact le_max_right _ _
    · show (Fp.std_min a.autoMin v).toRat ≤ V.toRat
      rw [t1]
      exact le_trans (min_le_left _ _) hV.2.2.2.2.2.1
    · show V.toRat ≤ (Fp.std_max a.autoMax v).toRat
      rw [t2]
      exact le_trans hV.2.2.2.2.2.2 (le_max_left _ _)

theorem f64_observe_tame (vs : List F64) :
    ∀ a : Fp.Axis F64, F64.Tame a → (∀ w ∈ vs, w.IsFiniteDouble) →
      F64.Tame (a.observe vs) ∧ ∀ V, F64.Brackets a V → F64.Brackets (a.observe vs) V := by
  induction vs with
  | nil => intro a ha _; exact ⟨ha, fun _ h => h⟩
  | cons v vs ih =>
    intro a ha hvs
    obtain ⟨h1, _, h3⟩ := f64_autoValue_tame a v ha (hvs v (List.mem_cons_self _ _))
    obtain ⟨k1, k2⟩ := ih (a.autoValue v) h1 (fun w hw => hvs w (List.mem_cons_of_mem _ hw))
    exact ⟨k1, fun V hV => k2 V (h3 V hV)⟩

/-- A call that feeds finite values to an axis keeps the accumulator tame and
keeps what was bracketed. -/
theorem f64_call_tame (a : Fp.Axis F64) (c : Fp.AxisCall F64) (ha : F64.Tame a)
    (hc : ∀ w ∈ c.values, w.IsFiniteDouble) :
    F64.Tame (a.call c) ∧ ∀ V, F64.Brackets a V → F64.Brackets (a.call c) V := by
  rw [fp_call_eq]
  exact f64_observe_tame c.values a ha hc

/-- A call through the reference to a line keeps the plot covered, when the
member called keeps the accumulators tame, keeps what they bracket, and has
every new point of the line observed by both axes. -/
theorem f64_onLine_covered (p : Fp.Plot2D F64) (i : Nat)
    (f : Fp.Line2D F64 → Fp.Axis F64 → Fp.Axis F64 → Fp.Line2D F64 × Fp.Axis F64 × Fp.Axis F64)
    (hf : ∀ l ax ay, F64.Tame ax → F64.Tame ay →
      F64.Tame (f l ax ay).2.1 ∧ F64.Tame (f l ax ay).2.2 ∧
      (∀ V, F64.Brackets ax V → F64.Brackets (f l ax ay).2.1 V) ∧
      (∀ V, F64.Brackets ay V → F64.Brackets (f l ax ay).2.2 V) ∧
      ∀ pt ∈ (f l ax ay).1.points,
        pt ∈ l.points ∨
          (F64.Brackets (f l ax ay).2.1 pt.x ∧ F64.Brackets (f l ax ay).2.2 pt.y))
    (hp : F64.Covered p) : F64.Covered (p.onLine i f) := by
  obtain ⟨hx, hy, hpts⟩ := hp
  unfold Fp.Plot2D.onLine
  cases hget : p.children.get? i with
  | none => exact ⟨hx, hy, hpts⟩
  | some c =>
    cases c with
    | label t => exact ⟨hx, hy, hpts⟩
    | line l =>
      obtain ⟨g1, g2, g3, g4, g5⟩ := hf l p.x p.y hx hy
      have hl : Fp.PlotChild.line l ∈ p.children := List.get?_mem hget
      refine ⟨g1, g2, ?_⟩
      intro l2 hl2 pt hpt
      rcases List.mem_or_eq_of_mem_set hl2 with h | h
      · obtain ⟨b1, b2⟩ := hpts l2 h pt hpt
        exact ⟨g3 _ b1, g4 _ b2⟩
      · injection h with h
        rw [h] at hpt
        rcases g5 pt hpt with h5 | h5
        · obtain ⟨b1, b2⟩ := hpts l hl pt h5
          exact ⟨g3 _ b1, g4 _ b2⟩
        · exact h5

/-- A call through the reference to a line that touches neither the points nor
the axes keeps the plot covered. -/
theorem f64_onLine_styling_covered (p : Fp.Plot2D F64) (i : Nat)
    (g : Fp.Line2D F64 → Fp.Line2D F64) (hg : ∀ l, (g l).points = l.points)
    (hp : F64.Covered p) :
    F64.Covered (p.onLine i (fun l axisX axisY => (g l, axisX, axisY))) :=
  f64_onLine_covered p i _ (fun l ax ay hx hy => ⟨hx, hy, fun _ h => h, fun _ h => h,
    fun pt hpt => Or.inl (by rw [← hg l]; exact hpt)⟩) hp

theorem f64_addChild_line_covered (p : Fp.Plot2D F64) (l0 : Fp.Line2D F64) (s : Int)
    (h0 : l0.points = []) (hp : F64.Covered p) :
    F64.Covered ({ p with toSvgDrawable := p.toSvgDrawable.addChild (Fp.PlotChild.line l0),
                          styleIndex := s } : Fp.Plot2D F64) := by
  obtain ⟨hx, hy, hpts⟩ := hp
  refine ⟨hx, hy, ?_⟩
  intro l hl pt hpt
  simp only [Fp.SvgDrawable.addChild, List.mem_append, List.mem_singleton] at hl
  rcases hl with h | h
  · exact hpts l h pt hpt
  · injection h with h
    rw [h, h0] at hpt
    exact absurd hpt (List.not_mem_nil pt)

theorem f64_apply_covered (p : Fp.Plot2D F64) (op : Fp.PlotOp F64) (hp : F64.Covered p)
    (hop : ∀ w ∈ op.values, w.IsFiniteDouble) : F64.Covered (p.apply op) := by
  cases op with
  | line => exact f64_addChild_line_covered p _ _ rfl hp
  | lineWith s => exact f64_addChild_line_covered p _ _ rfl hp
  | fill => exact f64_addChild_line_covered p _ _ rfl hp
  | fillWith s => exact f64_addChild_line_covered p _ _ rfl hp
  | add i x y =>
    have hx : x.IsFiniteDouble := hop x (by simp [Fp.PlotOp.values])
    have hy : y.IsFiniteDouble := hop y (by simp [Fp.PlotOp.values])
    refine f64_onLine_covered p i _ (fun l ax ay tx ty => ?_) hp
    obtain ⟨a1, a2, a3⟩ := f64_autoValue_tame ax x tx hx
    obtain ⟨b1, b2, b3⟩ := f64_autoValue_tame ay y ty hy
    refine ⟨a1, b1, a3, b3, ?_⟩
    intro pt hpt
    simp only [Fp.Line2D.add, List.mem_append, List.mem_singleton] at hpt
    rcases hpt with h | h
    · exact Or.inl h
    · rw [h]
      exact Or.inr ⟨a2, b2⟩
  | label i valueX valueY name degrees distance =>
    have hx : valueX.IsFiniteDouble := hop valueX (by simp [Fp.PlotOp.values])
    have hy : valueY.IsFiniteDouble := hop valueY (by simp [Fp.PlotOp.values])
    refine f64_onLine_covered p i _ (fun l ax ay tx ty => ?_) hp
    obtain ⟨a1, _, a3⟩ := f64_autoValue_tame ax valueX tx hx
    obtain ⟨b1, _, b3⟩ := f64_autoValue_tame ay valueY ty hy
    exact ⟨a1, b1, a3, b3, fun pt hpt => Or.inl hpt⟩
  | drawLine i draw => exact f64_onLine_styling_covered p i _ (fun _ => rfl) hp
  | drawFill i draw => exact f64_onLine_styling_covered p i _ (fun _ => rfl) hp
  | fillToX i x => exact f64_onLine_styling_covered p i _ (fun _ => rfl) hp
  | fillToY i y => exact f64_onLine_styling_covered p i _ (fun _ => rfl) hp
  | onX c =>
    obtain ⟨hx, hy, hpts⟩ := hp
    obtain ⟨a1, a2⟩ := f64_call_tame p.x c hx hop
    exact ⟨a1, hy, fun l hl pt hpt => ⟨a2 _ (hpts l hl pt hpt).1, (hpts l hl pt hpt).2⟩⟩
  | onY c =>
    obtain ⟨hx, hy, hpts⟩ := hp
    obtain ⟨a1, a2⟩ := f64_call_tame p.y c hy hop
    exact ⟨hx, a1, fun l hl pt hpt => ⟨(hpts l hl pt hpt).1, a2 _ (hpts l hl pt hpt).2⟩⟩

theorem f64_foldl_apply_covered (ops : List (Fp.PlotOp F64)) :
    ∀ p : Fp.Plot2D F64, F64.Covered p →
      (∀ op ∈ ops, ∀ w ∈ op.values, w.IsFiniteDouble) →
      F64.Covered (ops.foldl Fp.Plot2D.apply p) := by
  induction ops with
  | nil => intro p hp _; exact hp
  | cons op ops ih =>
    intro p hp hops
    exact ih _ (f64_apply_covered p op hp (hops op (List.mem_cons_self _ _)))
      (fun o ho => hops o (List.mem_cons_of_mem _ ho))

/-- Every plot built through its public members from finite values is covered. -/
theorem f64_build_covered (width height : F64) (ops : List (Fp.PlotOp F64))
    (hops : ∀ op ∈ ops, ∀ w ∈ op.values, w.IsFiniteDouble) :
    F64.Covered (Fp.Plot2D.build width height ops) :=
  f64_foldl_apply_covered ops _
    ⟨⟨rfl, fun h => absurd h (by simp [Fp.Plot2D.init, Fp.Plot2D.ofAxes, Fp.Axis.init,
        Fp.Axis.linear, Fp.Axis.range])⟩,
      ⟨rfl, fun h => absurd h (by simp [Fp.Plot2D.init, Fp.Plot2D.ofAxes, Fp.Axis.init,
        Fp.Axis.linear, Fp.Axis.range])⟩,
      fun _ hl => absurd hl (List.not_mem_nil _)⟩ hops

/-- On an axis whose accumulator brackets V, with the least value below the
greatest, a divisor that does not overflow and an exact screen difference, the
map after autoSetup sends V to a finite coordinate in the screen interval. -/
theorem f64_autoSetup_map_of_brackets (a : Fp.Axis F64) (V : F64) (hb : F64.Brackets a V)
    (hlo : a.drawLow.IsFiniteDouble) (hhi : a.drawHigh.IsFiniteDouble)
    (hlt : F64.lt a.autoMin a.autoMax = true) (hD : (a.autoMax - a.autoMin).isFinite = true)
    (he : F64.ExactSub a.drawHigh a.drawLow) :
    (a.autoSetup.map V).IsFiniteDouble ∧
    F64.le a.autoSetup.drawMin (a.autoSetup.map V) = true ∧
    F64.le (a.autoSetup.map V) a.autoSetup.drawMax = true := by
  obtain ⟨hs, hv, hm, hM, hV, h1, h2⟩ := hb
  obtain ⟨_, e2, e3, _, e5⟩ := fp_autoSetup_live a hs hv
  rw [lt_fin _ _ hm.2 hM.2, decide_eq_true_eq] at hlt
  have key := f64_map_inside a.drawLow a.drawHigh a.autoMin a.autoMax V hlo hhi hm hM hV hlt hD he
    h1 h2
  rw [e5 V]
  unfold Fp.Axis.drawMin Fp.Axis.drawMax
  rw [e2, e3]
  exact key

/-! ### The box of a plot in binary64 -/

section FpBox

open Fp.DoubleOps

variable {D : Type} [Fp.DoubleOps D]

/-- The fold of the child boxes into a set box, edge by edge: each edge of the
result is the fold of `std::min` or `std::max` over that edge of the child
boxes that are set. -/
theorem fp_foldBounds_edges (bs : List (Fp.Bounds D)) :
    ∀ b : Fp.Bounds D, b.set = true →
      (bs.foldl Fp.SvgDrawable.foldBounds b).set = true ∧
      (bs.foldl Fp.SvgDrawable.foldBounds b).left
        = bs.foldl (fun acc c => if c.set then Fp.std_min acc c.left else acc) b.left ∧
      (bs.foldl Fp.SvgDrawable.foldBounds b).right
        = bs.foldl (fun acc c => if c.set then Fp.std_max acc c.right else acc) b.right ∧
      (bs.foldl Fp.SvgDrawable.foldBounds b).top
        = bs.foldl (fun acc c => if c.set then Fp.std_min acc c.top else acc) b.top ∧
      (bs.foldl Fp.SvgDrawable.foldBounds b).bottom
        = bs.foldl (fun acc c => if c.set then Fp.std_max acc c.bottom else acc) b.bottom := by
  induction bs with
  | nil => intro b hb; exact ⟨hb, rfl, rfl, rfl, rfl⟩
  | cons c cs ih =>
    intro b hb
    simp only [List.foldl_cons]
    cases hc : c.set
    · have e : Fp.SvgDrawable.foldBounds b c = b := by
        simp [Fp.SvgDrawable.foldBounds, hb, hc]
      rw [e]
      simp only [Bool.false_eq_true, if_false]
      exact ih b hb
    · have e : Fp.SvgDrawable.foldBounds b c =
          { b with left := Fp.std_min b.left c.left, top := Fp.std_min b.top c.top,
                   right := Fp.std_max b.right c.right,
                   bottom := Fp.std_max b.bottom c.bottom } := by
        simp [Fp.SvgDrawable.foldBounds, hb, hc]
      rw [e]
      simp only [if_true]
      exact ih _ hb

/-- Folding child boxes none of which is set leaves a set box as it is. -/
theorem fp_foldBounds_unset (bs : List (Fp.Bounds D)) (b : Fp.Bounds D) (hb : b.set = true)
    (h : ∀ c ∈ bs, c.set = false) : bs.foldl Fp.SvgDrawable.foldBounds b = b := by
  induction bs with
  | nil => rfl
  | cons c cs ih =>
    have e : Fp.SvgDrawable.foldBounds b c = b := by
      simp [Fp.SvgDrawable.foldBounds, hb, h c (List.mem_cons_self _ _)]
    rw [List.foldl_cons, e]
    exact ih (fun d hd => h d (List.mem_cons_of_mem _ hd))

end FpBox

/-- Only values that are no NaN compare. -/
theorem f64_le_not_nan (a b : F64) (h : F64.le a b = true) :
    a.isNaN = false ∧ b.isNaN = false := by
  cases a with
  | nan => rw [le_nan_left] at h; exact absurd h (by simp)
  | inf s =>
    cases b with
    | nan => rw [le_nan_right] at h; exact absurd h (by simp)
    | inf t => exact ⟨rfl, rfl⟩
    | fin t y => exact ⟨rfl, rfl⟩
  | fin s x =>
    cases b with
    | nan => rw [le_nan_right] at h; exact absurd h (by simp)
    | inf t => exact ⟨rfl, rfl⟩
    | fin t y => exact ⟨rfl, rfl⟩

theorem f64_lt_not_nan (a b : F64) (h : F64.lt a b = true) :
    a.isNaN = false ∧ b.isNaN = false :=
  f64_le_not_nan a b (by unfold F64.le; rw [h]; rfl)

theorem f64_le_refl (a : F64) (h : a.isNaN = false) : F64.le a a = true := by
  cases a with
  | nan => simp [F64.isNaN] at h
  | inf s => cases s <;> rfl
  | fin s x => rw [le_fin (F64.fin s x) (F64.fin s x) rfl rfl]; exact decide_eq_true le_rfl

theorem f64_le_of_lt (a b : F64) (h : F64.lt a b = true) : F64.le a b = true := by
  unfold F64.le
  rw [h]
  rfl

/-- Of two values that are no NaN, the first is at most the second when the
second is not below the first. -/
theorem f64_le_of_not_lt (a b : F64) (ha : a.isNaN = false) (hb : b.isNaN = false)
    (h : F64.lt b a = false) : F64.le a b = true := by
  cases a with
  | nan => simp [F64.isNaN] at ha
  | inf s =>
    cases b with
    | nan => simp [F64.isNaN] at hb
    | inf t => cases s <;> cases t <;> simp_all [F64.le, F64.lt, F64.eq]
    | fin t y => cases s <;> simp_all [F64.le, F64.lt, F64.eq]
  | fin s x =>
    cases b with
    | nan => simp [F64.isNaN] at hb
    | inf t => cases t <;> simp_all [F64.le, F64.lt, F64.eq]
    | fin t y =>
      rw [lt_fin (F64.fin t y) (F64.fin s x) rfl rfl, decide_eq_false_iff_not, not_lt] at h
      rw [le_fin (F64.fin s x) (F64.fin t y) rfl rfl]
      exact decide_eq_true h

theorem f64_le_trans (a b c : F64) (h1 : F64.le a b = true) (h2 : F64.le b c = true) :
    F64.le a c = true := by
  cases a with
  | nan => rw [le_nan_left] at h1; exact absurd h1 (by simp)
  | inf s =>
    cases b with
    | nan => rw [le_nan_right] at h1; exact absurd h1 (by simp)
    | inf t =>
      cases c with
      | nan => rw [le_nan_right] at h2; exact absurd h2 (by simp)
      | inf u => cases s <;> cases t <;> cases u <;> simp_all [F64.le, F64.lt, F64.eq]
      | fin u z => cases s <;> cases t <;> simp_all [F64.le, F64.lt, F64.eq]
    | fin t y =>
      cases c with
      | nan => rw [le_nan_right] at h2; exact absurd h2 (by simp)
      | inf u => cases s <;> cases u <;> simp_all [F64.le, F64.lt, F64.eq]
      | fin u z => cases s <;> simp_all [F64.le, F64.lt, F64.eq]
  | fin s x =>
    cases b with
    | nan => rw [le_nan_right] at h1; exact absurd h1 (by simp)
    | inf t =>
      cases c with
      | nan => rw [le_nan_right] at h2; exact absurd h2 (by simp)
      | inf u => cases t <;> cases u <;> simp_all [F64.le, F64.lt, F64.eq]
      | fin u z => cases t <;> simp_all [F64.le, F64.lt, F64.eq]
    | fin t y =>
      cases c with
      | nan => rw [le_nan_right] at h2; exact absurd h2 (by simp)
      | inf u => cases u <;> simp_all [F64.le, F64.lt, F64.eq]
      | fin u z =>
        rw [le_fin (F64.fin s x) (F64.fin t y) rfl rfl, decide_eq_true_eq] at h1
        rw [le_fin (F64.fin t y) (F64.fin u z) rfl rfl, decide_eq_true_eq] at h2
        rw [le_fin (F64.fin s x) (F64.fin u z) rfl rfl]
        exact decide_eq_true (le_trans h1 h2)

/-- The function std::min at an accumulator that is no NaN: the result is no
NaN, is at most the accumulator, and is at most the other argument unless that
is a NaN. -/
theorem f64_std_min_edge (acc c : F64) (ha : acc.isNaN = false) :
    (Fp.std_min acc c).isNaN = false ∧ F64.le (Fp.std_min acc c) acc = true ∧
    (c.isNaN = false → F64.le (Fp.std_min acc c) c = true) := by
  unfold Fp.std_min
  rw [f64_flt_def]
  cases h : F64.lt c acc
  · simp only [Bool.false_eq_true, if_false]
    exact ⟨ha, f64_le_refl acc ha, fun hc => f64_le_of_not_lt acc c ha hc h⟩
  · simp only [if_true]
    have hc := (f64_lt_not_nan c acc h).1
    exact ⟨hc, f64_le_of_lt c acc h, fun _ => f64_le_refl c hc⟩

/-- The function std::max at an accumulator that is no NaN. -/
theorem f64_std_max_edge (acc c : F64) (ha : acc.isNaN = false) :
    (Fp.std_max acc c).isNaN = false ∧ F64.le acc (Fp.std_max acc c) = true ∧
    (c.isNaN = false → F64.le c (Fp.std_max acc c) = true) := by
  unfold Fp.std_max
  rw [f64_flt_def]
  cases h : F64.lt acc c
  · simp only [Bool.false_eq_true, if_false]
    exact ⟨ha, f64_le_refl acc ha, fun hc => f64_le_of_not_lt c acc hc ha h⟩
  · simp only [if_true]
    have hc := (f64_lt_not_nan acc c h).2
    exact ⟨hc, f64_le_of_lt acc c h, fun _ => f64_le_refl c hc⟩

/-- The fold of `std::min` over one edge of the child boxes that are set, from
a start that is no NaN: the result is at most the start and at most that edge
of every child box that is set and whose edge is no NaN. -/
theorem f64_fold_min_edge (f : Fp.Bounds F64 → F64) (bs : List (Fp.Bounds F64)) :
    ∀ a : F64, a.isNaN = false →
      (bs.foldl (fun acc c => if c.set then Fp.std_min acc (f c) else acc) a).isNaN = false ∧
      F64.le (bs.foldl (fun acc c => if c.set then Fp.std_min acc (f c) else acc) a) a = true ∧
      ∀ c ∈ bs, c.set = true → (f c).isNaN = false →
        F64.le (bs.foldl (fun acc c => if c.set then Fp.std_min acc (f c) else acc) a) (f c)
          = true := by
  induction bs with
  | nil =>
    intro a ha
    exact ⟨ha, f64_le_refl a ha, fun c hc => absurd hc (List.not_mem_nil c)⟩
  | cons b bs ih =>
    intro a ha
    simp only [List.foldl_cons]
    cases hb : b.set
    · simp only [Bool.false_eq_true, if_false]
      obtain ⟨i1, i2, i3⟩ := ih a ha
      refine ⟨i1, i2, fun c hc hs hn => ?_⟩
      rcases List.mem_cons.mp hc with e | e
      · rw [e, hb] at hs
        exact absurd hs (by simp)
      · exact i3 c e hs hn
    · simp only [if_true]
      obtain ⟨m1, m2, m3⟩ := f64_std_min_edge a (f b) ha
      obtain ⟨i1, i2, i3⟩ := ih (Fp.std_min a (f b)) m1
      refine ⟨i1, f64_le_trans _ _ _ i2 m2, fun c hc hs hn => ?_⟩
      rcases List.mem_cons.mp hc with e | e
      · rw [e]
        rw [e] at hn
        exact f64_le_trans _ _ _ i2 (m3 hn)
      · exact i3 c e hs hn

/-- The fold of `std::max` over one edge of the child boxes that are set. -/
theorem f64_fold_max_edge (f : Fp.Bounds F64 → F64) (bs : List (Fp.Bounds F64)) :
    ∀ a : F64, a.isNaN = false →
      (bs.foldl (fun acc c => if c.set then Fp.std_max acc (f c) else acc) a).isNaN = false ∧
      F64.le a (bs.foldl (fun acc c => if c.set then Fp.std_max acc (f c) else acc) a) = true ∧
      ∀ c ∈ bs, c.set = true → (f c).isNaN = false →
        F64.le (f c) (bs.foldl (fun acc c => if c.set then Fp.std_max acc (f c) else acc) a)
          = true := by
  induction bs with
  | nil =>
    intro a ha
    exact ⟨ha, f64_le_refl a ha, fun c hc => absurd hc (List.not_mem_nil c)⟩
  | cons b bs ih =>
    intro a ha
    simp only [List.foldl_cons]
    cases hb : b.set
    · simp only [Bool.false_eq_true, if_false]
      obtain ⟨i1, i2, i3⟩ := ih a ha
      refine ⟨i1, i2, fun c hc hs hn => ?_⟩
      rcases List.mem_cons.mp hc with e | e
      · rw [e, hb] at hs
        exact absurd hs (by simp)
      · exact i3 c e hs hn
    · simp only [if_true]
      obtain ⟨m1, m2, m3⟩ := f64_std_max_edge a (f b) ha
      obtain ⟨i1, i2, i3⟩ := ih (Fp.std_max a (f b)) m1
      refine ⟨i1, f64_le_trans _ _ _ m2 i2, fun c hc hs hn => ?_⟩
      rcases List.mem_cons.mp hc with e | e
      · rw [e]
        rw [e] at hn
        exact f64_le_trans _ _ _ (m3 hn) i2
      · exact i3 c e hs hn

/-- The fold of the child boxes into a set box none of whose edges is a NaN:
the result contains the start box, and it covers every child box that is set
and stored the right way round. -/
theorem f64_foldBounds_covers (bs : List (Fp.Bounds F64)) (b : Fp.Bounds F64)
    (hb : b.set = true) (hl : b.left.isNaN = false) (hr : b.right.isNaN = false)
    (ht : b.top.isNaN = false) (hbt : b.bottom.isNaN = false) :
    F64.le (bs.foldl Fp.SvgDrawable.foldBounds b).left b.left = true ∧
    F64.le b.right (bs.foldl Fp.SvgDrawable.foldBounds b).right = true ∧
    F64.le (bs.foldl Fp.SvgDrawable.foldBounds b).top b.top = true ∧
    F64.le b.bottom (bs.foldl Fp.SvgDrawable.foldBounds b).bottom = true ∧
    ∀ c ∈ bs, c.set = true → F64.le c.left c.right = true → F64.le c.top c.bottom = true →
      F64.Covers (bs.foldl Fp.SvgDrawable.foldBounds b) c := by
  obtain ⟨_, e1, e2, e3, e4⟩ := fp_foldBounds_edges bs b hb
  obtain ⟨_, l2, l3⟩ := f64_fold_min_edge (fun c => c.left) bs b.left hl
  obtain ⟨_, r2, r3⟩ := f64_fold_max_edge (fun c => c.right) bs b.right hr
  obtain ⟨_, t2, t3⟩ := f64_fold_min_edge (fun c => c.top) bs b.top ht
  obtain ⟨_, b2, b3⟩ := f64_fold_max_edge (fun c => c.bottom) bs b.bottom hbt
  rw [e1, e2, e3, e4]
  refine ⟨l2, r2, t2, b2, fun c hc hs h1 h2 => ?_⟩
  obtain ⟨n1, n2⟩ := f64_le_not_nan _ _ h1
  obtain ⟨n3, n4⟩ := f64_le_not_nan _ _ h2
  unfold F64.Covers
  rw [e1, e2, e3, e4]
  exact ⟨l3 c hc hs n1, h1, r3 c hc hs n2, t3 c hc hs n3, h2, b3 c hc hs n4⟩

/-- The difference and the sum of finite values are no NaN. -/
theorem f64_finite_edges (a b t : F64) (ha : a.isFinite = true) (hb : b.isFinite = true)
    (ht : t.isFinite = true) :
    (Fp.std_min a b - t).isNaN = false ∧ (Fp.std_max a b + t).isNaN = false := by
  have h1 : (Fp.std_min a b).isFinite = true := by
    rcases std_min_mem a b with e | e <;> rw [e] <;> assumption
  have h2 : (Fp.std_max a b).isFinite = true := by
    rcases std_max_mem a b with e | e <;> rw [e] <;> assumption
  have n1 := (sub_fin _ _ h1 ht).2.2
  have n2 := (add_fin _ _ h2 ht).2.2
  constructor
  · generalize Fp.std_min a b - t = w at n1
    cases w with
    | nan => exact absurd rfl n1
    | inf s => rfl
    | fin s x => rfl
  · generalize Fp.std_max a b + t = w at n2
    cases w with
    | nan => exact absurd rfl n2
    | inf s => rfl
    | fin s x => rfl

/-! ### The box of the sample plots -/

section FpBoxLabels

open Fp.DoubleOps

variable {D : Type} [Fp.DoubleOps D]

/-- The children of a plot after the layout of a fresh plot: the laid-out
children the plot had, then labels only. -/
theorem fp_plot2D_layout_labels (libm : Fp.CMath D) (style : Fp.PlotStyle D)
    (p : Fp.Plot2D D) (hp : Fp.Plot2D.Fresh p) :
    ∃ (p1 : Fp.Plot2D D) (kids : List (Fp.PlotChild D)) (labels : List (Fp.TextLabel D)),
      Fp.Plot2D.layout libm style p = Except.ok p1 ∧
      p1.x = p.x.autoSetup ∧ p1.y = p.y.autoSetup ∧
      List.Forall₂
        (fun c c1 => Fp.PlotChild.layout libm style p1.x p1.y c = Except.ok c1) p.children kids ∧
      p1.bounds = (p1.children.map Fp.PlotChild.bounds).foldl Fp.SvgDrawable.foldBounds
        (Fp.Plot2D.axisBox style p1.x p1.y) ∧
      p1.children = kids ++ labels.map Fp.PlotChild.label := by
  obtain ⟨p1, kids, h1, _, hx, hy, hk, hb, hc⟩ := fp_plot2D_layout_children libm style p hp
  refine ⟨p1, kids,
    ((p1.x.ticks.filter Fp.Tick.hasName).map fun t =>
        Fp.TextLabel.layout style (Fp.TextLabel.init
          { x := p1.x.map t.value,
            y := p1.y.drawMax + style.tickV + style.valueSize * lit 0.5 + style.textPadding }
          (lit 0) t.name "svg-plot-value" false true))
      ++ (if p1.x.label.length ≠ 0 then
          [Fp.TextLabel.layout style (Fp.TextLabel.init
            { x := (p1.x.drawMax + p1.x.drawMin) * lit 0.5,
              y := p1.y.drawMax + style.tickV + style.valueSize * lit 0.5
                + style.textPadding + (style.labelSize + style.valueSize) * lit 0.5 }
            (lit 0) p1.x.label "svg-plot-label" false true)]
        else [])
      ++ ((p1.y.ticks.filter Fp.Tick.hasName).map fun t =>
          Fp.TextLabel.layout style (Fp.TextLabel.init
            { x := p1.x.drawMin - style.tickH - style.textPadding, y := p1.y.map t.value }
            (-lit 1) t.name "svg-plot-value" false true))
      ++ (if p1.y.label.length ≠ 0 then
          [Fp.TextLabel.layout style (Fp.TextLabel.init
            { x := p1.x.drawMin - style.tickH - style.textPadding
                - style.textPadding * lit 1.5
                - (p1.y.ticks.filter Fp.Tick.hasName).foldl
                    (fun acc t => Fp.std_max acc (Fp.estimateUtf8Width t.name)) (lit 0)
                  * style.valueSize,
              y := (p1.y.drawMax + p1.y.drawMin) * lit 0.5 }
            (lit 0) p1.y.label "svg-plot-label" true true)]
        else []),
    h1, hx, hy, hk, hb, ?_⟩
  rw [hc]
  simp only [List.map_append, List.map_map, List.append_assoc, Function.comp_def]
  congr 2
  congr 1
  · split_ifs <;> rfl
  · congr 1
    split_ifs <;> rfl

/-- The box of a horizontal label after its layout: it is set, and its top edge
is the anchor less half the font size. -/
theorem fp_textLabel_layout_horizontal (style : Fp.PlotStyle D) (pt : Fp.Point2D D)
    (alignment : D) (text cls : String) :
    (Fp.TextLabel.layout style (Fp.TextLabel.init pt alignment text cls false true)).bounds.set
      = true ∧
    (Fp.TextLabel.layout style (Fp.TextLabel.init pt alignment text cls false true)).bounds.top
      = pt.y - style.valueSize * lit 0.5 := by
  simp [Fp.TextLabel.layout, Fp.TextLabel.init, Fp.Bounds.init]

end FpBoxLabels

/-- The tick lengths of the default style. -/
theorem f64_default_ticks :
    ({} : Fp.PlotStyle F64).tickH = F64.fin false 4 ∧
    ({} : Fp.PlotStyle F64).tickV = F64.fin false 5 := by
  constructor
  · show F64.ofRat 4 = _
    simpa using ofRat_natCast 4 (by norm_num)
  · show F64.ofRat 5 = _
    simpa using ofRat_natCast 5 (by norm_num)

/-- The screen endpoints of the sample plot. -/
theorem f64_examplePlot_frame :
    F64.examplePlot.x.drawLow = F64.fin false 0 ∧ F64.examplePlot.x.drawHigh = F64.fin false 260 ∧
    F64.examplePlot.y.drawLow = F64.fin false 130 ∧ F64.examplePlot.y.drawHigh = F64.fin false 0 := by
  have h := fp_build_frame (Fp.DoubleOps.lit 260 : F64) (Fp.DoubleOps.lit 130)
    [Fp.PlotOp.line, Fp.PlotOp.add 0 (F64.fin false 0) (F64.fin false 0),
      Fp.PlotOp.add 0 (F64.fin false 1) (F64.fin false 1),
      Fp.PlotOp.add 0 (F64.fin false 2) (F64.fin false 4)]
  rw [f64_build_examplePlot] at h
  have z : (Fp.DoubleOps.lit 0 : F64) = F64.fin false 0 := ofRat_zero
  have w : (Fp.DoubleOps.lit 260 : F64) = F64.fin false 260 := by
    show F64.ofRat 260 = _
    simpa using ofRat_natCast 260 (by norm_num)
  have g : (Fp.DoubleOps.lit 130 : F64) = F64.fin false 130 := by
    show F64.ofRat 130 = _
    simpa using ofRat_natCast 130 (by norm_num)
  rw [z, w, g] at h
  exact h.2

/-- The y axis of the plot with the constant series has observed the value 3
three times. -/
theorem f64_constantPlot_y :
    F64.constantPlot.y = (Fp.Axis.init (Fp.DoubleOps.lit 130) (Fp.DoubleOps.lit 0)).observe
      [F64.fin false 3, F64.fin false 3, F64.fin false 3] := rfl

/-- After autoSetup the y axis of the plot with the constant series has a tick
with a name at the value 3, and its map is a NaN there. -/
theorem f64_constantPlot_nan_tick :
    (⟨F64.fin false 3, Fp.DoubleOps.to_string (F64.fin false 3), Tick.Strength.minor⟩
        : Fp.Tick F64) ∈ F64.constantPlot.y.autoSetup.ticks.filter Fp.Tick.hasName ∧
    F64.constantPlot.y.autoSetup.map (F64.fin false 3) = F64.nan := by
  obtain ⟨e1, e2⟩ := f64_fold_eq (F64.fin false 3) [F64.fin false 3, F64.fin false 3]
    (by decide)
  constructor
  · rw [f64_constantPlot_y, fp_autoSetup_observe, e1, e2]
    simp only [List.mem_filter]
    refine ⟨List.mem_cons_self _ _, ?_⟩
    decide
  · rw [f64_constantPlot_y, fp_autoSetup_map, e1, e2,
      sub_self_fin (F64.fin false 3) rfl, zero_div_zero, nan_mul, add_nan]

/-! ### The claims -/

/-- C1, as amended, in binary64.  For every axis constructed with finite
screen endpoints `lo` and `hi` and never given an explicit range, and every
non-empty sequence of finite observed values: autoSetup commits the linear
range from the least observed value `m` to the greatest `M`, both of them
observed values that bracket every observed value, so that the unit map is
`x ↦ (x - m)/(M - m)`, and keeps the screen endpoints.  When `m < M` and the
screen difference `hi - lo` does not overflow, `map(m) == lo`; when `M - m`
does not overflow either, `map(M)` is the double `lo + (hi - lo)`, which
compares equal to `hi` whenever the screen difference is exact, and it is
exact when one endpoint is zero, as for both axes of a plot.  When the least
observed value compares equal to the greatest, the map at either is a NaN. -/
theorem C1_autoSetup_commits_observed_range (lo hi v : F64) (vs : List F64)
    (hlo : lo.IsFiniteDouble) (hhi : hi.IsFiniteDouble)
    (hvs : ∀ w ∈ v :: vs, w.IsFiniteDouble) :
    ∃ m M : F64, m ∈ v :: vs ∧ M ∈ v :: vs ∧
      (∀ w ∈ v :: vs, F64.le m w = true ∧ F64.le w M = true) ∧
      ((Fp.Axis.init lo hi).observe (v :: vs)).autoSetup.unitMap
        = (fun x => (x - m) / (M - m)) ∧
      ((Fp.Axis.init lo hi).observe (v :: vs)).autoSetup.drawLow = lo ∧
      ((Fp.Axis.init lo hi).observe (v :: vs)).autoSetup.drawHigh = hi ∧
      (F64.lt m M = true → (hi - lo).isFinite = true →
        F64.eq (((Fp.Axis.init lo hi).observe (v :: vs)).autoSetup.map m) lo = true ∧
        ((M - m).isFinite = true →
          ((Fp.Axis.init lo hi).observe (v :: vs)).autoSetup.map M = lo + (hi - lo) ∧
          (F64.ExactSub hi lo →
            F64.eq (((Fp.Axis.init lo hi).observe (v :: vs)).autoSetup.map M) hi = true))) ∧
      (F64.eq lo (F64.fin false 0) = true ∨ F64.eq hi (F64.fin false 0) = true →
        F64.ExactSub hi lo) ∧
      (F64.eq m M = true →
        ((Fp.Axis.init lo hi).observe (v :: vs)).autoSetup.map m = F64.nan ∧
        ((Fp.Axis.init lo hi).observe (v :: vs)).autoSetup.map M = F64.nan) := by
  obtain ⟨a1, b1, hm, hM, _, hb⟩ := f64_fold_bounds v vs hvs
  refine ⟨vs.foldl Fp.std_min v, vs.foldl Fp.std_max v, a1, b1, hb, ?_, ?_, ?_, ?_, ?_, ?_⟩
  · rw [fp_autoSetup_observe]
  · rw [fp_autoSetup_observe]
  · rw [fp_autoSetup_observe]
  · intro hlt fe
    rw [lt_fin _ _ hm.2 hM.2, decide_eq_true_eq] at hlt
    refine ⟨?_, fun hD => ⟨?_, fun hx => ?_⟩⟩
    · obtain ⟨f1, t1⟩ := f64_map_at_min lo hi _ _ hlo hm hM hlt fe
      rw [fp_autoSetup_map, eq_fin _ _ f1 hlo.2, t1]
      exact decide_eq_true rfl
    · rw [fp_autoSetup_map]
      exact f64_map_at_max lo hi _ _ hm hM hlt hD fe
    · obtain ⟨f1, t1⟩ := exactSub_add hi lo hhi hlo hx
      rw [fp_autoSetup_map, f64_map_at_max lo hi _ _ hm hM hlt hD fe, eq_fin _ _ f1 hhi.2, t1]
      exact decide_eq_true rfl
  · intro h
    refine exactSub_of_zero hi lo hhi hlo ?_
    rcases h with h | h
    · rw [eq_fin lo (F64.fin false 0) hlo.2 rfl, decide_eq_true_eq] at h
      exact Or.inl (by simpa [F64.toRat] using h)
    · rw [eq_fin hi (F64.fin false 0) hhi.2 rfl, decide_eq_true_eq] at h
      exact Or.inr (by simpa [F64.toRat] using h)
  · intro h
    rw [eq_fin _ _ hm.2 hM.2, decide_eq_true_eq] at h
    obtain ⟨_, _, h3⟩ := f64_map_degenerate lo hi _ _ hm.2 hM.2 h
    rw [fp_autoSetup_map, fp_autoSetup_map]
    exact ⟨(h3 _ hm.2 rfl).2, (h3 _ hM.2 h.symm).2⟩

/-- C1 at the y axis of the default plot, `Axis(130, 0)`, after the values 0, 1
and 4: the least observed value 0 is mapped to 130 and the greatest observed
value 4 to 0. -/
theorem C1_autoSetup_commits_observed_range_witness :
    (F64.fin false 130).IsFiniteDouble ∧ (F64.fin false 0).IsFiniteDouble ∧
    (F64.fin false 1).IsFiniteDouble ∧ (F64.fin false 4).IsFiniteDouble ∧
    F64.eq (((Fp.Axis.init (F64.fin false 130) (F64.fin false 0)).observe
      [F64.fin false 0, F64.fin false 1, F64.fin false 4]).autoSetup.map (F64.fin false 0))
      (F64.fin false 130) = true ∧
    F64.eq (((Fp.Axis.init (F64.fin false 130) (F64.fin false 0)).observe
      [F64.fin false 0, F64.fin false 1, F64.fin false 4]).autoSetup.map (F64.fin false 4))
      (F64.fin false 0) = true := by
  have h130 : (F64.fin false 130).IsFiniteDouble := by
    simpa using natCast_isFiniteDouble 130 (by norm_num)
  have h0 : (F64.fin false 0).IsFiniteDouble := by
    simpa using natCast_isFiniteDouble 0 (by norm_num)
  have h1 : (F64.fin false 1).IsFiniteDouble := by
    simpa using natCast_isFiniteDouble 1 (by norm_num)
  have h4 : (F64.fin false 4).IsFiniteDouble := by
    simpa using natCast_isFiniteDouble 4 (by norm_num)
  obtain ⟨m, M, hm, hM, hb, _, _, _, hmain, hex, _⟩ :=
    C1_autoSetup_commits_observed_range (F64.fin false 130) (F64.fin false 0) (F64.fin false 0)
      [F64.fin false 1, F64.fin false 4] h130 h0 (by
        intro w hw
        simp only [List.mem_cons, List.mem_singleton, List.not_mem_nil, or_false] at hw
        rcases hw with e | e | e <;> rw [e] <;> assumption)
  have b0 := hb (F64.fin false 0) (List.mem_cons_self _ _)
  have b4 := hb (F64.fin false 4)
    (List.mem_cons_of_mem _ (List.mem_cons_of_mem _ (List.mem_cons_self _ _)))
  have em : m = F64.fin false 0 := by
    simp only [List.mem_cons, List.mem_singleton, List.not_mem_nil, or_false] at hm
    rcases hm with e | e | e
    · exact e
    · rw [e] at b0
      exact absurd b0.1 (by decide)
    · rw [e] at b0
      exact absurd b0.1 (by decide)
  have eM : M = F64.fin false 4 := by
    simp only [List.mem_cons, List.mem_singleton, List.not_mem_nil, or_false] at hM
    rcases hM with e | e | e
    · rw [e] at b4
      exact absurd b4.2 (by decide)
    · rw [e] at b4
      exact absurd b4.2 (by decide)
    · exact e
  rw [em, eM] at hmain
  have f1 : (F64.fin false 0 - F64.fin false 130).isFinite = true := by
    simpa using sub_natCast_isFinite 0 130 (by norm_num) (by norm_num)
  have f2 : (F64.fin false 4 - F64.fin false 0).isFinite = true := by
    simpa using sub_natCast_isFinite 4 0 (by norm_num) (by norm_num)
  obtain ⟨k1, k2⟩ := hmain (by decide) f1
  exact ⟨h130, h0, h1, h4, k1, ((k2 f2).2 (hex (Or.inr (by decide))))⟩

/-- C1 fails as stated.  The axis `Axis(0.7, 0.1)` that has observed 0, 1 and
4 maps the greatest observed value 4 to the double two spacings below its
high screen endpoint, so `map(max) == drawHigh` is false; and the axis
`Axis(0, 260)` that has observed the single value 3 maps it to a NaN. -/
theorem C1_counterexample_rounded_endpoint :
    F64.eq (((Fp.Axis.init (F64.ofRat (7 / 10)) (F64.ofRat (1 / 10))).observe
        [F64.fin false 0, F64.fin false 1, F64.fin false 4]).autoSetup.map (F64.fin false 4))
      ((Fp.Axis.init (F64.ofRat (7 / 10)) (F64.ofRat (1 / 10))).observe
        [F64.fin false 0, F64.fin false 1, F64.fin false 4]).autoSetup.drawHigh = false ∧
    ((Fp.Axis.init (F64.fin false 0) (F64.fin false 260)).observe
        [F64.fin false 3]).autoSetup.map (F64.fin false 3) = F64.nan := by
  constructor
  · rw [f64_skewed_axis.1, f64_skewed_axis.2.1]
    simp only [F64.eq, F64.toRat]
    norm_num
  · rw [fp_autoSetup_map]
    show F64.fin false 0 + (F64.fin false 3 - F64.fin false 3)
      / (F64.fin false 3 - F64.fin false 3) * (F64.fin false 260 - F64.fin false 0) = F64.nan
    rw [sub_self_fin (F64.fin false 3) rfl, zero_div_zero, nan_mul, add_nan]

/-- C2.  For a drawable whose children were attached in the order c1, ..., cn,
the base writeData, and likewise the base writeLabel, runs the children's
functions on the stream in reverse attachment order, cn first and c1 last.  For
children added as A, B, C the output of C comes first, then that of B, then
that of A; and when every child c appends its own markup f(c), the output is
the concatenation of f(cn), ..., f(c1). -/
theorem C2_base_write_reverse_attachment_order {χ : Type} (w : χ → Out → Out)
    (node : SvgDrawable χ) (o : Out) (A B C : χ) (f : χ → List Svg) :
    SvgDrawable.writeData w node o = node.children.reverse.foldl (fun acc c => w c acc) o ∧
    SvgDrawable.writeLabel w node o = node.children.reverse.foldl (fun acc c => w c acc) o ∧
    SvgDrawable.writeData w ((((({} : SvgDrawable χ).addChild A).addChild B).addChild C)) o
      = w A (w B (w C o)) ∧
    SvgDrawable.writeLabel w ((((({} : SvgDrawable χ).addChild A).addChild B).addChild C)) o
      = w A (w B (w C o)) ∧
    (SvgDrawable.writeData (fun c acc => { acc with svg := acc.svg ++ f c }) node o).svg
      = o.svg ++ (node.children.reverse.map f).flatten ∧
    (SvgDrawable.writeLabel (fun c acc => { acc with svg := acc.svg ++ f c }) node o).svg
      = o.svg ++ (node.children.reverse.map f).flatten ∧
    (SvgDrawable.writeData (fun c acc => { acc with svg := acc.svg ++ f c })
        ((((({} : SvgDrawable χ).addChild A).addChild B).addChild C)) o).svg
      = o.svg ++ (f C ++ (f B ++ f A)) := by
  refine ⟨?_, ?_, ?_, ?_, ?_, ?_, ?_⟩
  · rw [SvgDrawable.writeData_eq_foldr, List.foldl_reverse]
  · rw [SvgDrawable.writeLabel_eq_foldr, List.foldl_reverse]
  · rw [SvgDrawable.writeData_eq_foldr]; rfl
  · rw [SvgDrawable.writeLabel_eq_foldr]; rfl
  · rw [SvgDrawable.writeData_eq_foldr, foldr_append_svg]
  · rw [SvgDrawable.writeLabel_eq_foldr, foldr_append_svg]
  · rw [SvgDrawable.writeData_eq_foldr, foldr_append_svg]
    simp [SvgDrawable.addChild]

/-- C3: for every arithmetic of `double` (so also when an axis map yields an
infinity or a NaN), every plot and every figure that has not been laid out,
or has been laid out by an earlier write, is written by
`SvgFileDrawable::write` as a document that consists of the header, then all
that writeData of the root appends, then all that writeLabel of the root
appends, then the trailer; the write returns.  Across the tree: writeData of a
figure is writeData of its plots, writeData of a plot wraps writeData of its
children (lines, fills, labels), a line writes its paths and its labels write
nothing, and what any of them appends holds only data marks (the axis rect,
gridlines, the clip path, paths) and group tags, no text element and no other
label mark; writeLabel of a figure is writeLabel of its plots, writeLabel of a
plot wraps writeLabel of its children, writeLabel of a line is writeLabel of
its labels, and what any of them appends holds only label marks (text
elements, tick marks, connectors) and group tags, no data mark.  No piece of
markup is a mark of both layers, the header and the trailer hold marks of
neither, and in the document no data mark comes after a label mark. -/
theorem C3_document_is_header_data_labels_trailer {D : Type} [Fp.DoubleOps D]
    (libm : Fp.CMath D) (rand : Nat → Nat) (style : Fp.PlotStyle D) :
    (∀ (p : Fp.Plot2D D) (o : Fp.Out D), (p.hasLayout = false → Fp.Plot2D.Fresh p) →
      ∃ p1 o1, Fp.Plot2D.write libm rand style p o = Except.ok (p1, o1) ∧
        o1.svg = o.svg ++ (Fp.SvgFileDrawable.header style p1.bounds
          ++ (Fp.Plot2D.writeData rand style p1 { svg := [], randCalls := o.randCalls }).svg
          ++ (Fp.Plot2D.writeLabel style p1 {}).svg
          ++ Fp.SvgFileDrawable.trailer libm style p1.bounds) ∧
        List.Pairwise (fun a b => ¬ (a.isLabelMark = true ∧ b.isDataMark = true))
          (Fp.SvgFileDrawable.header style p1.bounds
            ++ (Fp.Plot2D.writeData rand style p1 { svg := [], randCalls := o.randCalls }).svg
            ++ (Fp.Plot2D.writeLabel style p1 {}).svg
            ++ Fp.SvgFileDrawable.trailer libm style p1.bounds)) ∧
    (∀ (fig : Fp.Figure D) (o : Fp.Out D), (fig.hasLayout = false → Fp.Figure.Fresh fig) →
      ∃ fig1 o1, Fp.Figure.write libm rand fig o = Except.ok (fig1, o1) ∧
        o1.svg = o.svg ++ (Fp.SvgFileDrawable.header fig.style fig1.bounds
          ++ (Fp.Figure.writeData rand fig.style fig1
                { svg := [], randCalls := o.randCalls }).svg
          ++ (Fp.Figure.writeLabel fig.style fig1 {}).svg
          ++ Fp.SvgFileDrawable.trailer libm fig.style fig1.bounds) ∧
        List.Pairwise (fun a b => ¬ (a.isLabelMark = true ∧ b.isDataMark = true))
          (Fp.SvgFileDrawable.header fig.style fig1.bounds
            ++ (Fp.Figure.writeData rand fig.style fig1
                  { svg := [], randCalls := o.randCalls }).svg
            ++ (Fp.Figure.writeLabel fig.style fig1 {}).svg
            ++ Fp.SvgFileDrawable.trailer libm fig.style fig1.bounds)) ∧
    (∀ (fig : Fp.Figure D) (o : Fp.Out D),
      Fp.Figure.writeData rand style fig o
        = fig.children.foldr (Fp.Plot2D.writeData rand style) o ∧
      Fp.Figure.writeLabel style fig o = fig.children.foldr (Fp.Plot2D.writeLabel style) o ∧
      (∀ e ∈ (Fp.Figure.writeData rand style fig { svg := [], randCalls := o.randCalls }).svg,
        (e.isDataMark = true ∨ e.isGroupTag = true) ∧ e.isLabelMark = false) ∧
      (∀ e ∈ (Fp.Figure.writeLabel style fig {}).svg,
        (e.isLabelMark = true ∨ e.isGroupTag = true) ∧ e.isDataMark = false)) ∧
    (∀ (p : Fp.Plot2D D) (o : Fp.Out D),
      (∃ own : List (Fp.Svg D),
        (Fp.Plot2D.writeData rand style p o).svg = o.svg ++ (own
          ++ [Fp.Svg.gOpen (some ("url(#clip" ++ toString (rand o.randCalls)))]
          ++ (p.children.reverse.flatMap fun c =>
                (Fp.PlotChild.writeData style p.x p.y c {}).svg)
          ++ [Fp.Svg.gClose])) ∧
      (∃ own : List (Fp.Svg D),
        (Fp.Plot2D.writeLabel style p o).svg = o.svg ++ ([Fp.Svg.gOpen none]
          ++ (p.children.reverse.flatMap fun c => (Fp.PlotChild.writeLabel style c {}).svg)
          ++ own ++ [Fp.Svg.gClose])) ∧
      (∀ e ∈ (Fp.Plot2D.writeData rand style p { svg := [], randCalls := o.randCalls }).svg,
        (e.isDataMark = true ∨ e.isGroupTag = true) ∧ e.isLabelMark = false) ∧
      (∀ e ∈ (Fp.Plot2D.writeLabel style p {}).svg,
        (e.isLabelMark = true ∨ e.isGroupTag = true) ∧ e.isDataMark = false)) ∧
    (∀ (x y : Fp.Axis D) (l : Fp.Line2D D) (o : Fp.Out D),
      (Fp.Line2D.writeData style x y l o).svg
        = o.svg ++ (Fp.Line2D.writeData style x y l {}).svg ∧
      (∀ e ∈ (Fp.Line2D.writeData style x y l {}).svg, e.isPath = true ∧ e.isDataMark = true ∧
        e.isLabelMark = false) ∧
      (Fp.Line2D.writeLabel style l o).svg
        = o.svg ++ (l.children.reverse.flatMap fun c => (c.writeLabel style {}).svg) ∧
      (∀ c ∈ l.children, c.writeData o = o ∧
        ∀ e ∈ (c.writeLabel style {}).svg, e.isLabelMark = true ∧ e.isDataMark = false)) ∧
    (∀ (t : Fp.TextLabel D) (o : Fp.Out D), t.writeData o = o ∧
      ∃ anchor tx ty rotated, (t.writeLabel o).svg = o.svg
        ++ [Fp.Svg.text (SvgDrawable.escape t.cssClass) anchor tx ty rotated
              (SvgDrawable.escape t.text)]) ∧
    (∀ e : Fp.Svg D, ¬ (e.isDataMark = true ∧ e.isLabelMark = true)) ∧
    (∀ (cls anchor : String) (tx ty : D) (rotated : Option (D × D)) (content : String),
      (Fp.Svg.text cls anchor tx ty rotated content).isLabelMark = true ∧
      (Fp.Svg.text cls anchor tx ty rotated content).isDataMark = false) ∧
    (∀ (bounds : Fp.Bounds D),
      (∀ e ∈ Fp.SvgFileDrawable.header style bounds,
        e.isDataMark = false ∧ e.isLabelMark = false) ∧
      (∀ e ∈ Fp.SvgFileDrawable.trailer libm style bounds,
        e.isDataMark = false ∧ e.isLabelMark = false)) := by
  have hno : ∀ e : Fp.Svg D, e.isLabelMark = true ∨ e.isGroupTag = true →
      e.isDataMark = false := by
    intro e he
    rcases he with h | h
    · cases hd : e.isDataMark
      · rfl
      · rw [fp_marks_disjoint e hd] at h
        exact absurd h (by simp)
    · exact (fp_groupTag_no_mark e h).1
  have hnl : ∀ e : Fp.Svg D, e.isDataMark = true ∨ e.isGroupTag = true →
      e.isLabelMark = false := by
    intro e he
    rcases he with h | h
    · exact fp_marks_disjoint e h
    · exact (fp_groupTag_no_mark e h).2
  refine ⟨?_, ?_, ?_, ?_, ?_, ?_, ?_, ?_, ?_⟩
  · intro p o hp
    obtain ⟨p1, h1, _⟩ := fp_plot2D_layoutIfNeeded_ok libm style p hp
    obtain ⟨o1, h2, h3⟩ := fp_write_svg libm (Fp.Plot2D.layoutIfNeeded libm style)
      (fun q => q.bounds) (Fp.Plot2D.writeData rand style) (Fp.Plot2D.writeLabel style) style
      p p1 o h1 (fun o1 => by rw [fp_plot2D_writeData_appends])
      (fp_plot2D_writeLabel_appends style p1)
    exact ⟨p1, o1, h2, h3, fp_document_order _ _ _ _ (fp_header_marks style p1.bounds)
      (fp_plot2D_writeData_marks rand style p1 _) (fp_plot2D_writeLabel_marks style p1)
      (fp_writeTrailer libm style p1.bounds).2⟩
  · intro fig o hf
    obtain ⟨fig1, h1, _, hs⟩ := fp_figure_layoutIfNeeded_ok libm fig.style fig hf
    obtain ⟨o1, h2, h3⟩ := fp_write_svg libm (Fp.Figure.layoutIfNeeded libm fig.style)
      (fun q => q.bounds) (Fp.Figure.writeData rand fig.style) (Fp.Figure.writeLabel fig.style)
      fig.style fig fig1 o h1 (fun o1 => by rw [fp_figure_writeData_appends])
      (fp_figure_writeLabel_appends fig.style fig1)
    exact ⟨fig1, o1, h2, h3, fp_document_order _ _ _ _ (fp_header_marks fig.style fig1.bounds)
      (fp_figure_writeData_marks rand fig.style fig1 _)
      (fp_figure_writeLabel_marks fig.style fig1)
      (fp_writeTrailer libm fig.style fig1.bounds).2⟩
  · intro fig o
    exact ⟨fp_writeData_eq_foldr _ _ o, fp_writeLabel_eq_foldr _ _ o,
      fun e he => ⟨fp_figure_writeData_marks rand style fig _ e he,
        hnl e (fp_figure_writeData_marks rand style fig _ e he)⟩,
      fun e he => ⟨fp_figure_writeLabel_marks style fig e he,
        hno e (fp_figure_writeLabel_marks style fig e he)⟩⟩
  · intro p o
    refine ⟨⟨[Fp.Svg.rect "svg-plot-axis" p.x.drawMin p.y.drawMin p.x.drawSize p.y.drawSize]
          ++ (p.x.ticks.flatMap fun t => (Fp.Plot2D.gridLineX style p.x p.y t {}).svg)
          ++ (p.y.ticks.flatMap fun t => (Fp.Plot2D.gridLineY p.x p.y t {}).svg)
          ++ [Fp.Svg.clipPath (rand o.randCalls)
                (p.x.drawMin - style.lineWidth * Fp.DoubleOps.lit 0.5)
                (p.y.drawMin - style.lineWidth * Fp.DoubleOps.lit 0.5)
                (p.x.drawSize + style.lineWidth * Fp.DoubleOps.lit 0.5 * Fp.DoubleOps.lit 2)
                (p.y.drawSize + style.lineWidth * Fp.DoubleOps.lit 0.5 * Fp.DoubleOps.lit 2)],
        ?_⟩,
      ⟨(p.x.ticks.flatMap fun t => (Fp.Plot2D.tickMarkX style p.x p.y t {}).svg)
          ++ (p.y.ticks.flatMap fun t => (Fp.Plot2D.tickMarkY style p.x p.y t {}).svg), ?_⟩,
      fun e he => ⟨fp_plot2D_writeData_marks rand style p _ e he,
        hnl e (fp_plot2D_writeData_marks rand style p _ e he)⟩,
      fun e he => ⟨fp_plot2D_writeLabel_marks style p e he,
        hno e (fp_plot2D_writeLabel_marks style p e he)⟩⟩
    · rw [fp_plot2D_writeData]
      simp only [List.append_assoc, List.cons_append, List.nil_append]
    · rw [fp_plot2D_writeLabel, fp_append_svg]
      simp only [List.append_assoc]
  · intro x y l o
    refine ⟨?_, fun e he => ?_, ?_, fun c _ => ⟨fp_lineLabel_writeData c o, fun e he => ?_⟩⟩
    · rw [fp_appends_of_exists ⟨_, fp_line2D_writeData style x y l⟩ o, fp_append_svg]
    · have h := fp_line2D_writeData_paths style x y l e he
      exact ⟨h, fp_path_isDataMark e h, fp_marks_disjoint e (fp_path_isDataMark e h)⟩
    · rw [fp_line2D_writeLabel, fp_append_svg]
    · exact ⟨fp_lineLabel_marks style c e he, hno e (Or.inl (fp_lineLabel_marks style c e he))⟩
  · intro t o
    obtain ⟨a, x, y, r, h⟩ := fp_textLabel_write t
    exact ⟨fp_textLabel_writeData t o, a, x, y, r, by rw [Fp.TextLabel.writeLabel, h]; rfl⟩
  · intro e he
    rw [fp_marks_disjoint e he.1] at he
    exact absurd he.2 (by simp)
  · intro cls anchor tx ty rotated content
    exact ⟨rfl, rfl⟩
  · intro bounds
    exact ⟨fun e he => ⟨(fp_header_marks style bounds e he).1,
        (fp_header_marks style bounds e he).2.1⟩,
      fun e he => ⟨((fp_writeTrailer libm style bounds).2 e he).1,
        ((fp_writeTrailer libm style bounds).2 e he).2.1⟩⟩

/-- C3 at the plot with the points (0,3), (1,3), (2,3), whose y axis divides by
zero, with the default style: the plot is fresh, the write returns and the
document is the header, the data layer, the label layer and the trailer, with
no data mark after a label mark. -/
theorem C3_document_is_header_data_labels_trailer_witness :
    (F64.constantPlot.hasLayout = false → Fp.Plot2D.Fresh F64.constantPlot) ∧
    ∃ p1 o1, Fp.Plot2D.write F64.sampleMath (fun k => k) {} F64.constantPlot {}
        = Except.ok (p1, o1) ∧
      o1.svg = ({} : Fp.Out F64).svg ++ (Fp.SvgFileDrawable.header {} p1.bounds
        ++ (Fp.Plot2D.writeData (fun k => k) {} p1
              { svg := [], randCalls := ({} : Fp.Out F64).randCalls }).svg
        ++ (Fp.Plot2D.writeLabel {} p1 {}).svg
        ++ Fp.SvgFileDrawable.trailer F64.sampleMath {} p1.bounds) ∧
      List.Pairwise (fun a b => ¬ (a.isLabelMark = true ∧ b.isDataMark = true))
        (Fp.SvgFileDrawable.header {} p1.bounds
          ++ (Fp.Plot2D.writeData (fun k => k) {} p1
                { svg := [], randCalls := ({} : Fp.Out F64).randCalls }).svg
          ++ (Fp.Plot2D.writeLabel {} p1 {}).svg
          ++ Fp.SvgFileDrawable.trailer F64.sampleMath {} p1.bounds) :=
  ⟨fun _ => f64_constantPlot_fresh,
    (C3_document_is_header_data_labels_trailer F64.sampleMath (fun k => k) {}).1
      F64.constantPlot {} (fun _ => f64_constantPlot_fresh)⟩

/-- C4.  The fold of a child box into the box of its parent in the layout loop:
into an unset parent box it gives exactly the child box; an unset child box
leaves a set parent box unchanged; two set boxes give their union (least left
and top, greatest right and bottom); so folding a box into a box with the same
bounds gives that same box.  The layout loop over one child applies this fold. -/
theorem C4_bounds_fold (l r t b l2 r2 t2 b2 : ℚ) (P C : Bounds) :
    SvgDrawable.foldBounds { left := l, right := r, top := t, bottom := b, set := false } C = C ∧
    SvgDrawable.foldBounds (Bounds.init l r t b)
        { left := l2, right := r2, top := t2, bottom := b2, set := false }
      = Bounds.init l r t b ∧
    SvgDrawable.foldBounds (Bounds.init l r t b) (Bounds.init l2 r2 t2 b2)
      = Bounds.init (min l l2) (max r r2) (min t t2) (max b b2) ∧
    SvgDrawable.foldBounds (Bounds.init l r t b) (Bounds.init l r t b) = Bounds.init l r t b ∧
    SvgDrawable.foldBounds P P = P ∧
    SvgDrawable.layoutChildren (fun c => Except.ok c) (fun c => c) [C] P
      = Except.ok ([C], SvgDrawable.foldBounds P C) := by
  refine ⟨?_, ?_, ?_, ?_, ?_, rfl⟩
  · simp [SvgDrawable.foldBounds]
  · simp [SvgDrawable.foldBounds, Bounds.init]
  · simp [SvgDrawable.foldBounds, Bounds.init, std_min_eq_min, std_max_eq_max]
  · simp [SvgDrawable.foldBounds, Bounds.init, std_min_eq_min, std_max_eq_max]
  · cases P with
    | mk pl pr pt pb ps =>
      cases ps <;> simp [SvgDrawable.foldBounds, std_min_eq_min, std_max_eq_max]

/-- C5.  For a line with the non-empty point list p1, ..., pn on which
fillToY(y0) was called, the first piece that writeData emits is the fill path,
and its coordinate list is the mapped data points in order, then
(X(pn.x), Y(y0)), then (X(p1.x), Y(y0)), with X and Y the axis maps at paint
time; it is followed by the stroke path if the line is also stroked, and by
nothing else.  After fillToX(x0) the two closing vertices are (X(x0), Y(pn.y))
and (X(x0), Y(p1.y)). -/
theorem C5_fill_path_closing_vertices (style : PlotStyle) (axisX axisY : Axis) (l : Line2D)
    (p1 : Point2D) (rest : List Point2D) (hp : l.points = p1 :: rest) (x0 y0 : ℚ) (o : Out) :
    (Line2D.writeData style axisX axisY (l.fillToY y0) o).svg =
      o.svg ++
        [Svg.path ("svg-plot-fill " ++ style.fillClass l.styleIndex ++ " "
            ++ style.hatchClass l.styleIndex)
          (Line2D.mapped axisX axisY (p1 :: rest) ++
            [(axisX.map ((p1 :: rest).getLast (List.cons_ne_nil p1 rest)).x, axisY.map y0),
             (axisX.map p1.x, axisY.map y0)])] ++
        (if l._drawLine then
          [Svg.path ("svg-plot-line " ++ style.strokeClass l.styleIndex ++ " "
              ++ style.dashClass l.styleIndex)
            (Line2D.mapped axisX axisY (p1 :: rest))]
         else []) ∧
    (Line2D.writeData style axisX axisY (l.fillToX x0) o).svg =
      o.svg ++
        [Svg.path ("svg-plot-fill " ++ style.fillClass l.styleIndex ++ " "
            ++ style.hatchClass l.styleIndex)
          (Line2D.mapped axisX axisY (p1 :: rest) ++
            [(axisX.map x0, axisY.map ((p1 :: rest).getLast (List.cons_ne_nil p1 rest)).y),
             (axisX.map x0, axisY.map p1.y)])] ++
        (if l._drawLine then
          [Svg.path ("svg-plot-line " ++ style.strokeClass l.styleIndex ++ " "
              ++ style.dashClass l.styleIndex)
            (Line2D.mapped axisX axisY (p1 :: rest))]
         else []) := by
  have hlast : (p1 :: rest).getLast? = some ((p1 :: rest).getLast (List.cons_ne_nil p1 rest)) :=
    List.getLast?_eq_getLast _ _
  constructor
  · simp only [Line2D.writeData, Line2D.fillToY, line2D_children_writeData_eq, hp, hlast]
    cases l._drawLine <;> simp [Out.put]
  · simp only [Line2D.writeData, Line2D.fillToX, line2D_children_writeData_eq, hp, hlast]
    cases l._drawLine <;> simp [Out.put]

/-- Witness for C5: a fill of a default plot (axes with screen ranges (0, 260)
and (130, 0), default style) made with the points (0,1), (1,2) and fillToY(0),
not stroked.  The fill path visits the mapped vertices (0,1), (1,2), (1,0),
(0,0), in that order. -/
theorem C5_fill_path_closing_vertices_witness :
    (Line2D.writeData {} (Axis.init 0 260) (Axis.init 130 0)
      ((((((Line2D.init 0).drawLine false).drawFill true).add
        (Axis.init 0 260) (Axis.init 130 0) 0 1).1.add
        (Axis.init 0 260) (Axis.init 130 0) 1 2).1.fillToY 0) {}).svg =
      [Svg.path ("svg-plot-fill " ++ PlotStyle.fillClass {} 0 ++ " " ++ PlotStyle.hatchClass {} 0)
        (Line2D.mapped (Axis.init 0 260) (Axis.init 130 0)
          [{ x := 0, y := 1 }, { x := 1, y := 2 }, { x := 1, y := 0 }, { x := 0, y := 0 }])] :=
  (C5_fill_path_closing_vertices {} (Axis.init 0 260) (Axis.init 130 0)
    (((((Line2D.init 0).drawLine false).drawFill true).add
      (Axis.init 0 260) (Axis.init 130 0) 0 1).1.add
      (Axis.init 0 260) (Axis.init 130 0) 1 2).1
    { x := 0, y := 1 } [{ x := 1, y := 2 }] rfl 0 0 {}).1

/-- C6.  A line created by Plot2D::line() is the last child of the plot, with
the style index of the plot and the default stroke-only mode.  After the points
p1, ..., pn were added to such a line in that order, it holds exactly these
points, and its writeData emits exactly one piece: a path of class
svg-plot-line (with the stroke and dash classes of its style index) whose
coordinate list is the n pairs (X(pi.x), Y(pi.y)) in insertion order, and no
fill path.  For the points (0,0), (1,1), (2,4) the path has three pairs. -/
theorem C6_stroke_only_line_output (style : PlotStyle) (p : Plot2D) (k : Int)
    (ax ay axisX axisY : Axis) (pts : List Point2D) (o : Out) :
    (p.line).children = p.children ++ [PlotChild.line (Line2D.init p.styleIndex)] ∧
    (pts.foldl (fun s pt => s.1.add s.2.1 s.2.2 pt.x pt.y) (Line2D.init k, ax, ay)).1.points
      = pts ∧
    Line2D.writeData style axisX axisY
        (pts.foldl (fun s pt => s.1.add s.2.1 s.2.2 pt.x pt.y) (Line2D.init k, ax, ay)).1 o
      = o.put (Svg.path ("svg-plot-line " ++ style.strokeClass k ++ " " ++ style.dashClass k)
          (pts.map fun pt => (axisX.map pt.x, axisY.map pt.y))) ∧
    (pts.map fun pt => (axisX.map pt.x, axisY.map pt.y)).length = pts.length ∧
    Line2D.writeData style axisX axisY
        (([{ x := 0, y := 0 }, { x := 1, y := 1 }, { x := 2, y := 4 }] : List Point2D).foldl
          (fun s pt => s.1.add s.2.1 s.2.2 pt.x pt.y) (Line2D.init k, ax, ay)).1 o
      = o.put (Svg.path ("svg-plot-line " ++ style.strokeClass k ++ " " ++ style.dashClass k)
          [(axisX.map 0, axisY.map 0), (axisX.map 1, axisY.map 1),
           (axisX.map 2, axisY.map 4)]) := by
  have key : ∀ qs : List Point2D,
      Line2D.writeData style axisX axisY
        (qs.foldl (fun s pt => s.1.add s.2.1 s.2.2 pt.x pt.y) (Line2D.init k, ax, ay)).1 o
      = o.put (Svg.path ("svg-plot-line " ++ style.strokeClass k ++ " " ++ style.dashClass k)
          (qs.map fun pt => (axisX.map pt.x, axisY.map pt.y))) := by
    intro qs
    rw [Line2D.foldl_add]
    simp [Line2D.writeData, line2D_children_writeData_eq, Line2D.init, Line2D.mapped]
  refine ⟨rfl, ?_, key pts, List.length_map _ _, key _⟩
  rw [Line2D.foldl_add]
  simp [Line2D.init]

/-- C9.  On an axis built with (drawLow, drawHigh) on which no value was
observed and no tick registered, autoSetup changes nothing: the state is the
same, the tick list is empty, and map(v) = drawLow + v*(drawHigh - drawLow) for
every v.  The same holds when only the axis label was set. -/
theorem C9_autoSetup_fresh_axis_unchanged (drawLow drawHigh : ℚ) (l : String) :
    (Axis.init drawLow drawHigh).autoSetup = Axis.init drawLow drawHigh ∧
    (Axis.init drawLow drawHigh).autoSetup.ticks = [] ∧
    (∀ v, (Axis.init drawLow drawHigh).autoSetup.map v
      = some (drawLow + v * (drawHigh - drawLow))) ∧
    ((Axis.init drawLow drawHigh).setLabel l).autoSetup = (Axis.init drawLow drawHigh).setLabel l ∧
    (∀ v, ((Axis.init drawLow drawHigh).setLabel l).autoSetup.map v
      = some (drawLow + v * (drawHigh - drawLow))) := by
  refine ⟨rfl, rfl, ?_, rfl, ?_⟩
  · intro v
    simp [Axis.autoSetup, Axis.init, Axis.linear, Axis.range, Axis.map, fdiv]
  · intro v
    simp [Axis.autoSetup, Axis.init, Axis.linear, Axis.range, Axis.map, fdiv, Axis.setLabel]

/-- C10.  Once an explicit range has been set by range(f) or linear(low, high),
autoValue(v) returns the axis unchanged (accumulator, flags, map and tick list),
also after any later values and tick registrations; those later calls never
alter the value-to-unit map, and autoSetup leaves the explicit map in place. -/
theorem C10_autoValue_noop_after_explicit_range (a : Axis) (f : ℚ → Option ℚ) (low high v : ℚ)
    (cs : List AxisCall) :
    (a.range f).autoValue v = a.range f ∧
    (a.linear low high).autoValue v = a.linear low high ∧
    ((a.range f).calls cs).autoValue v = (a.range f).calls cs ∧
    ((a.range f).calls cs).unitMap = f ∧
    ((a.range f).calls cs).autoSetup.unitMap = f ∧
    ((a.linear low high).calls cs).unitMap = (fun x => fdiv (x - low) (high - low)) ∧
    ((a.linear low high).calls cs).autoSetup.unitMap
      = (fun x => fdiv (x - low) (high - low)) := by
  have hr := Axis.calls_unitMap cs (a.range f)
  have hl := Axis.calls_unitMap cs (a.linear low high)
  refine ⟨Axis.autoValue_of_not_autoScale _ v rfl, Axis.autoValue_of_not_autoScale _ v rfl,
    Axis.autoValue_of_not_autoScale _ v (hr.2.trans rfl), hr.1, ?_, hl.1, ?_⟩
  · rw [Axis.autoSetup_unitMap_of_not_autoScale _ (hr.2.trans rfl)]
    exact hr.1
  · rw [Axis.autoSetup_unitMap_of_not_autoScale _ (hl.2.trans rfl)]
    exact hl.1

/-- C12.  autoSetup is idempotent: for every axis state, reachable or not,
applying autoSetup twice gives the same state as applying it once, so the
second call changes neither the map, nor the flags, nor the tick list; the
automatic minor ticks at the minimum and maximum are installed once only. -/
theorem C12_autoSetup_idempotent (a : Axis) (drawLow drawHigh v : ℚ) (vs : List ℚ) :
    a.autoSetup.autoSetup = a.autoSetup ∧
    a.autoSetup.autoSetup.ticks = a.autoSetup.ticks ∧
    a.autoSetup.autoSetup.unitMap = a.autoSetup.unitMap ∧
    ((v :: vs).foldl Axis.autoValue (Axis.init drawLow drawHigh)).autoSetup.autoSetup.ticks.length
      = 2 := by
  refine ⟨autoSetup_autoSetup a, ?_, ?_, ?_⟩
  · rw [autoSetup_autoSetup]
  · rw [autoSetup_autoSetup]
  · rw [autoSetup_autoSetup, Axis.autoSetup_after_observations v vs _ (Axis.init_autoScale _ _)
      (Axis.init_hasAutoValue _ _) (Axis.init_autoLabel _ _)]
    rfl

/-- C13.  For a style with non-empty colour, dash and hatch tables and a style
index k: the four lookups return the empty string when k < 0; otherwise each
returns its class prefix followed by the decimal numeral of k modulo the length
of its table, a number below that length, and the class is one of the classes
whose rule css() writes; so each lookup gives the same class at k and at k plus
the length of its table. -/
theorem C13_style_class_lookup (libm : CMath) (style : PlotStyle) (k : Int)
    (hc : style.colours.length ≠ 0) (hd : style.dashes.length ≠ 0)
    (hh : style.hatches.length ≠ 0) :
    (k < 0 → style.strokeClass k = "" ∧ style.fillClass k = "" ∧ style.dashClass k = "" ∧
      style.hatchClass k = "") ∧
    (0 ≤ k →
      (style.strokeClass k
          = "svg-plot-s" ++ toString (k % (style.colours.length : Int)).toNat ∧
        style.fillClass k
          = "svg-plot-f" ++ toString (k % (style.colours.length : Int)).toNat ∧
        (k % (style.colours.length : Int)).toNat < style.colours.length ∧
        "." ++ style.strokeClass k ∈ style.cssSelectors libm ∧
        "." ++ style.fillClass k ∈ style.cssSelectors libm ∧
        style.strokeClass (k + style.colours.length) = style.strokeClass k ∧
        style.fillClass (k + style.colours.length) = style.fillClass k) ∧
      (style.dashClass k
          = "svg-plot-d" ++ toString (k % (style.dashes.length : Int)).toNat ∧
        (k % (style.dashes.length : Int)).toNat < style.dashes.length ∧
        "." ++ style.dashClass k ∈ style.cssSelectors libm ∧
        style.dashClass (k + style.dashes.length) = style.dashClass k) ∧
      (style.hatchClass k
          = "svg-plot-h" ++ toString (k % (style.hatches.length : Int)).toNat ∧
        (k % (style.hatches.length : Int)).toNat < style.hatches.length ∧
        "." ++ style.hatchClass k ∈ style.cssSelectors libm ∧
        style.hatchClass (k + style.hatches.length) = style.hatchClass k)) := by
  constructor
  · intro hk
    simp [PlotStyle.strokeClass, PlotStyle.fillClass, PlotStyle.dashClass,
      PlotStyle.hatchClass, hk]
  · intro hk
    have hk' : ¬ k < 0 := not_lt.mpr hk
    obtain ⟨c1, c2, c3⟩ := styleIndex_mod k style.colours.length hc
    obtain ⟨d1, d2, d3⟩ := styleIndex_mod k style.dashes.length hd
    obtain ⟨h1, h2, h3⟩ := styleIndex_mod k style.hatches.length hh
    have hkc : ¬ k + (style.colours.length : Int) < 0 := by omega
    have hkd : ¬ k + (style.dashes.length : Int) < 0 := by omega
    have hkh : ¬ k + (style.hatches.length : Int) < 0 := by omega
    have es : style.strokeClass k
        = "svg-plot-s" ++ toString (k % (style.colours.length : Int)).toNat := by
      simp only [PlotStyle.strokeClass, hk', hc, or_self, if_false, c1]
    have ef : style.fillClass k
        = "svg-plot-f" ++ toString (k % (style.colours.length : Int)).toNat := by
      simp only [PlotStyle.fillClass, hk', hc, or_self, if_false, c1]
    have ed : style.dashClass k
        = "svg-plot-d" ++ toString (k % (style.dashes.length : Int)).toNat := by
      simp only [PlotStyle.dashClass, hk', hd, or_self, if_false, d1]
    have eh : style.hatchClass k
        = "svg-plot-h" ++ toString (k % (style.hatches.length : Int)).toNat := by
      simp only [PlotStyle.hatchClass, hk', hh, or_self, if_false, h1]
    refine ⟨⟨es, ef, c2, ?_, ?_, ?_, ?_⟩, ⟨ed, d2, ?_, ?_⟩, ⟨eh, h2, ?_, ?_⟩⟩
    · rw [es, dot_append]
      exact (mem_cssSelectors_stroke libm style _ c2).1
    · rw [ef, dot_append]
      exact (mem_cssSelectors_stroke libm style _ c2).2
    · simp only [PlotStyle.strokeClass, hk', hkc, hc, or_self, if_false, c3]
    · simp only [PlotStyle.fillClass, hk', hkc, hc, or_self, if_false, c3]
    · rw [ed, dot_append]
      exact mem_cssSelectors_dash libm style _ d2
    · simp only [PlotStyle.dashClass, hk', hkd, hd, or_self, if_false, d3]
    · rw [eh, dot_append]
      exact mem_cssSelectors_hatch libm style _ h2
    · simp only [PlotStyle.hatchClass, hk', hkh, hh, or_self, if_false, h3]

/-- Witness for C13: the default style at index 8: stroke class 2 of 6, dash
class 1 of 7, hatch class 0 of 4. -/
theorem C13_style_class_lookup_witness :
    PlotStyle.strokeClass {} 8 = "svg-plot-s2" ∧ PlotStyle.dashClass {} 8 = "svg-plot-d1" ∧
    PlotStyle.hatchClass {} 8 = "svg-plot-h0" ∧
    "." ++ PlotStyle.strokeClass {} 8 ∈ PlotStyle.cssSelectors sampleMath {} :=
  ⟨by decide, by decide, by decide,
    ((C13_style_class_lookup sampleMath {} 8 (by decide) (by decide) (by decide)).2
      (by decide)).1.2.2.2.1⟩

/-- C15.  What the range members do at integer arguments with a non-zero
step.  When start <= end, and n is the number with start + n*|step| <= end <
start + (n+1)*|step|, majorRange, minorRange and tickRange return having made
exactly the registration calls at start, start + |step|, ..., start + n*|step|,
in that order, each of which feeds its value to the accumulator.  When start >
end the loop `for (t = end; t >= start; t -= step)` fails its first test: the
members return the axis as it was, with no tick registered, no value observed
and automatic labelling still on. -/
theorem C15_tick_ranges (fuel : Nat) (a : Axis) (start end_ step : Int) (useLabels : Bool) :
    (start ≤ end_ → step ≠ 0 → ∀ n : Nat, start + n * |step| ≤ end_ →
      end_ < start + (n + 1) * |step| → n + 2 ≤ fuel →
      Axis.majorRange fuel a start end_ step useLabels
        = some (a.calls ((List.range (n + 1)).map fun (i : Nat) =>
            AxisCall.major [Axis.rangeTick useLabels (start + (i : Int) * |step|)])) ∧
      Axis.minorRange fuel a start end_ step useLabels
        = some (a.calls ((List.range (n + 1)).map fun (i : Nat) =>
            AxisCall.minor [Axis.rangeTick useLabels (start + (i : Int) * |step|)])) ∧
      Axis.tickRange fuel a start end_ step useLabels
        = some (a.calls ((List.range (n + 1)).map fun (i : Nat) =>
            AxisCall.tick [Axis.rangeTick useLabels (start + (i : Int) * |step|)]))) ∧
    (end_ < start → 1 ≤ fuel →
      Axis.majorRange fuel a start end_ step useLabels = some a ∧
      Axis.minorRange fuel a start end_ step useLabels = some a ∧
      Axis.tickRange fuel a start end_ step useLabels = some a) := by
  constructor
  · intro hle hstep n h1 h2 hf
    simp only [Axis.majorRange, Axis.minorRange, Axis.tickRange, if_pos hle]
    exact ⟨range_up_eq_calls _ _ (majorAt_eq_call useLabels) fuel a start end_ step hstep n h1 h2 hf,
      range_up_eq_calls _ _ (minorAt_eq_call useLabels) fuel a start end_ step hstep n h1 h2 hf,
      range_up_eq_calls _ _ (tickAt_eq_call useLabels) fuel a start end_ step hstep n h1 h2 hf⟩
  · intro hlt hf
    obtain ⟨f, rfl⟩ : ∃ f, fuel = f + 1 := ⟨fuel - 1, by omega⟩
    have hnle : ¬ start ≤ end_ := by omega
    simp only [Axis.majorRange, Axis.minorRange, Axis.tickRange, if_neg hnle]
    exact ⟨rangeDown_of_lt _ f end_ start _ a hlt, rangeDown_of_lt _ f end_ start _ a hlt,
      rangeDown_of_lt _ f end_ start _ a hlt⟩

/-- Witness for C15.  On a fresh axis majorRange(0, 10, 5) makes the
registration calls at 0, 5 and 10; the descending call majorRange(5, 1, 1)
returns the axis unchanged, so its tick list is empty and automatic labelling
is still on. -/
theorem C15_tick_ranges_witness :
    Axis.majorRange 10 (Axis.init 0 260) 0 10 5 true
      = some ((Axis.init 0 260).calls ((List.range (2 + 1)).map fun (i : Nat) =>
          AxisCall.major [Axis.rangeTick true (0 + (i : Int) * |5|)])) ∧
    Axis.majorRange 10 (Axis.init 0 260) 5 1 1 true = some (Axis.init 0 260) ∧
    (Axis.init 0 260).ticks = [] ∧ (Axis.init 0 260).autoLabel = true :=
  ⟨((C15_tick_ranges 10 (Axis.init 0 260) 0 10 5 true).1 (by decide) (by decide) 2
      (by decide) (by decide) (by decide)).1,
    ((C15_tick_ranges 10 (Axis.init 0 260) 5 1 1 true).2 (by decide) (by decide)).1, rfl, rfl⟩

/-- C16.  On a string of printable ASCII characters estimateUtf8Width is the
sum of estimateCharWidth over its code points.  On the one-character string
"α", code point 945, whose UTF-8 encoding is the two bytes 206 and 177, the
loop reads two chars, -50 and -79, finds neither in a table and returns
0.85 + 0.85 = 1.7, while the table width of the code point is 0.61. -/
theorem C16_utf8_width_sums_bytes (cs : List Char)
    (h : ∀ c ∈ cs, 32 ≤ c.toNat ∧ c.toNat < 127) :
    estimateUtf8Width (String.mk cs)
      = (cs.map fun c => estimateCharWidth (c.toNat : Int)).sum ∧
    "α".data = [Char.ofNat 945] ∧
    utf8Chars "α" = [-50, -79] ∧
    estimateUtf8Width "α" = 17 / 10 ∧
    estimateCharWidth 945 = 61 / 100 ∧
    estimateUtf8Width "α" ≠ estimateCharWidth 945 := by
  have hb : utf8Chars "α" = [-50, -79] := by decide
  have h50 : estimateCharWidth (-50) = 17 / 20 := by norm_num [estimateCharWidth]
  have h79 : estimateCharWidth (-79) = 17 / 20 := by norm_num [estimateCharWidth]
  have htw : ([-50, -79] : List Int).takeWhile (fun c => c != 0) = [-50, -79] := by decide
  have hw : estimateUtf8Width "α" = 17 / 10 := by
    rw [estimateUtf8Width, hb, htw]
    simp only [List.foldl, h50, h79]
    norm_num
  have ht : estimateCharWidth 945 = 61 / 100 := by
    norm_num [estimateCharWidth, tableWidth]
  refine ⟨estimateUtf8Width_ascii cs h, by decide, hb, hw, ht, ?_⟩
  rw [hw, ht]
  norm_num

/-- Witness for C16: on "ab" the estimate is the width of a plus the width of b. -/
theorem C16_utf8_width_sums_bytes_witness :
    estimateUtf8Width (String.mk ['a', 'b'])
      = (['a', 'b'].map fun c => estimateCharWidth (c.toNat : Int)).sum :=
  (C16_utf8_width_sums_bytes ['a', 'b'] (by decide)).1

/-- C17 (as amended).  For every string s, escape writes the part of s before
its first zero character, all of s when it has none, with each less-than sign
replaced by the entity lt, each ampersand by the entity amp and each double
quote by the entity quot, and every other character copied unchanged.  Hence
the output holds no less-than sign and no double quote, every ampersand in it
begins one of these three entities, and decoding the three entities gives back
that part of s.  When s has no zero character, escape(s ++ t) = escape(s) ++
escape(t) and decoding escape(s) gives back s. -/
theorem C17_escape_replaces_three_characters (s t : String) :
    (SvgDrawable.escape s).data
      = (s.data.takeWhile fun c => c != Char.ofNat 0).flatMap escapePiece ∧
    (∀ c ∈ (SvgDrawable.escape s).data, c ≠ '<' ∧ c ≠ Char.ofNat 34) ∧
    entitiesOk (SvgDrawable.escape s).data = true ∧
    decodeEntities (SvgDrawable.escape s).data = (s.data.takeWhile fun c => c != Char.ofNat 0) ∧
    ((∀ c ∈ s.data, c ≠ Char.ofNat 0) →
      SvgDrawable.escape (s ++ t) = SvgDrawable.escape s ++ SvgDrawable.escape t ∧
      decodeEntities (SvgDrawable.escape s).data = s.data) := by
  refine ⟨escape_data s, ?_, ?_, ?_, ?_⟩
  · intro c hc
    rw [escape_data, List.mem_flatMap] at hc
    obtain ⟨d, _, hd⟩ := hc
    exact escapePiece_no_special d c hd
  · rw [escape_data]
    exact entitiesOk_flatMap _
  · rw [escape_data]
    exact decodeEntities_flatMap _
  · intro hs
    have hall : ∀ c ∈ s.data, (c != Char.ofNat 0) = true := fun c hc => by
      simpa using hs c hc
    constructor
    · apply String.ext
      rw [String.data_append, escape_data, escape_data, escape_data, String.data_append,
        List.takeWhile_append_of_pos hall, takeWhile_of_all _ _ hall, List.flatMap_append]
    · rw [escape_data, decodeEntities_flatMap, takeWhile_of_all _ _ hall]

/-- Witness for C17: a string without zero character. -/
theorem C17_escape_replaces_three_characters_witness :
    SvgDrawable.escape ("a<b" ++ "&c") = SvgDrawable.escape "a<b" ++ SvgDrawable.escape "&c" ∧
    decodeEntities (SvgDrawable.escape "a<b").data = "a<b".data :=
  (C17_escape_replaces_three_characters "a<b" "&c").2.2.2.2 (by decide)

/-- Counterexample to C17 as stated: the three-character string a, zero
character, b.  The loop stops at the zero character, so escape writes only a:
the character b is not copied, decoding does not give the string back, and
escape of the string followed by c is not the two escapes put together. -/
theorem C17_counterexample_zero_character :
    SvgDrawable.escape (String.mk ['a', Char.ofNat 0, 'b']) = "a" ∧
    'b' ∉ (SvgDrawable.escape (String.mk ['a', Char.ofNat 0, 'b'])).data ∧
    decodeEntities (SvgDrawable.escape (String.mk ['a', Char.ofNat 0, 'b'])).data
      ≠ (String.mk ['a', Char.ofNat 0, 'b']).data ∧
    SvgDrawable.escape (String.mk ['a', Char.ofNat 0, 'b'] ++ "c")
      ≠ SvgDrawable.escape (String.mk ['a', Char.ofNat 0, 'b']) ++ SvgDrawable.escape "c" := by
  have h1 : SvgDrawable.escape (String.mk ['a', Char.ofNat 0, 'b']) = "a" := by decide
  have h2 : SvgDrawable.escape (String.mk ['a', Char.ofNat 0, 'b'] ++ "c") = "a" := by decide
  have h3 : SvgDrawable.escape "c" = "c" := by decide
  rw [h1, h2, h3]
  refine ⟨rfl, by decide, ?_, by decide⟩
  simp [decodeEntities]

/-- C18.  Repeated writes of the same file drawable lay it out once: after a
write of a plot, or of a figure, that returned, the node is laid out, and a
later write of it returns with the node as it was (same axes, same children,
same boxes).  After a write of a figure that laid it out, a write on any of
its plots returns and leaves the figure as it was.  In the other order the
layout runs twice: for a figure that is not laid out, whose plots are not laid
out and have axis maps that are defined after autoSetup, a write on the plot
at position i returns, and a write of the figure after it stops at the
assertion that guards a second layout, reached through the unguarded call of
the layout of that plot. -/
theorem C18_figure_write_after_plot_write_asserts (libm : CMath) (rand : Nat → Nat)
    (style : PlotStyle) (fig : Figure) (i : Nat) (o o2 : Out)
    (hf : fig.hasLayout = false) (hi : i < fig.children.length)
    (hq : ∀ q ∈ fig.children, q.hasLayout = false ∧
      (∀ v, (q.x.autoSetup.map v).isSome = true) ∧
      (∀ v, (q.y.autoSetup.map v).isSome = true) ∧
      ∀ l, PlotChild.line l ∈ q.children → l.hasLayout = false) :
    (∃ f1 o1, Figure.writePlot libm rand style fig i o = Except.ok (f1, o1) ∧
      Figure.write libm rand f1 o2 = Except.error Fault.assertion) ∧
    (∀ p p1 o1, Plot2D.write libm rand style p o = Except.ok (p1, o1) →
      p1.hasLayout = true ∧
      ∃ o3, Plot2D.write libm rand style p1 o2 = Except.ok (p1, o3)) ∧
    (∀ g g1 o1, Figure.write libm rand g o = Except.ok (g1, o1) →
      g1.hasLayout = true ∧
      ∃ o3, Figure.write libm rand g1 o2 = Except.ok (g1, o3)) ∧
    (∀ g g1 o1 j, g.hasLayout = false → Figure.write libm rand g o = Except.ok (g1, o1) →
      ∃ o3, Figure.writePlot libm rand style g1 j o2 = Except.ok (g1, o3)) := by
  refine ⟨figure_write_after_plot_write libm rand style fig i o o2 hf hi hq, ?_, ?_, ?_⟩
  · intro p p1 o1 h
    have h1 := (svgFileDrawable_write_ok_iff libm (Plot2D.layoutIfNeeded libm style)
      (fun p => p.bounds) (Plot2D.writeData rand style) (Plot2D.writeLabel style) style
      p p1 o).mp ⟨o1, h⟩
    have h2 := plot2D_layoutIfNeeded_hasLayout libm style p p1 h1
    exact ⟨h2, (svgFileDrawable_write_ok_iff libm (Plot2D.layoutIfNeeded libm style)
      (fun p => p.bounds) (Plot2D.writeData rand style) (Plot2D.writeLabel style) style
      p1 p1 o2).mpr (plot2D_layoutIfNeeded_done libm style p1 h2)⟩
  · intro g g1 o1 h
    have h1 := (svgFileDrawable_write_ok_iff libm (Figure.layoutIfNeeded libm g.style)
      (fun f => f.bounds) (Figure.writeData rand g.style) (Figure.writeLabel g.style) g.style
      g g1 o).mp ⟨o1, h⟩
    obtain ⟨h2, h3⟩ := figure_layoutIfNeeded_hasLayout libm g.style g g1 h1
    exact ⟨h2, (svgFileDrawable_write_ok_iff libm (Figure.layoutIfNeeded libm g1.style)
      (fun f => f.bounds) (Figure.writeData rand g1.style) (Figure.writeLabel g1.style) g1.style
      g1 g1 o2).mpr (figure_layoutIfNeeded_done libm g1.style g1 h2)⟩
  · intro g g1 o1 j hg h
    have h1 := (svgFileDrawable_write_ok_iff libm (Figure.layoutIfNeeded libm g.style)
      (fun f => f.bounds) (Figure.writeData rand g.style) (Figure.writeLabel g.style) g.style
      g g1 o).mp ⟨o1, h⟩
    have h2 : Figure.layout libm g.style g = Except.ok g1 := by
      simpa [Figure.layoutIfNeeded, hg] using h1
    exact figure_writePlot_done libm rand style g1 j o2
      (figure_layout_children_hasLayout libm g.style g g1 h2)

/-- C18 at a figure with one default plot: the write on the plot returns, and
the write of the figure after it stops at the assertion. -/
theorem C18_figure_write_after_plot_write_asserts_witness :
    ∃ f1 o1, Figure.writePlot sampleMath id {} ({} : Figure).plotDefault 0 {}
        = Except.ok (f1, o1) ∧
      Figure.write sampleMath id f1 {} = Except.error Fault.assertion :=
  (C18_figure_write_after_plot_write_asserts sampleMath id {} ({} : Figure).plotDefault 0 {} {}
    rfl (by decide)
    (fun q hq => by
      have hq1 : q = Plot2D.default := by
        simpa [Figure.plotDefault, SvgDrawable.addChild] using hq
      rw [hq1]
      exact default_plot_ready)).1

/-- C19.  For every plot, `Plot2D::writeData` appends, after k earlier calls of
`rand()` and with N the value the next call returns: the background rect, the
gridlines (line elements only), a clipPath element with identifier clip N, an
opening group tag, the data output of the children (path elements only), and
the closing group tag, in this order.  The text of the clip-path attribute of
the group is `url(#clip` followed by N with no closing parenthesis: it is not
the reference `url(#clip` N `)` to the clip path, from which it differs in
length by one. -/
theorem C19_clip_group_reference_not_closed (rand : Nat → Nat) (style : PlotStyle) (p : Plot2D)
    (k : Nat) :
    Plot2D.dataLayer rand style p k
      = Svg.rect "svg-plot-axis" p.x.drawMin p.y.drawMin p.x.drawSize p.y.drawSize
        :: (Plot2D.gridLines style p
          ++ [Svg.clipPath (rand k) (p.x.drawMin - style.lineWidth * 0.5)
                (p.y.drawMin - style.lineWidth * 0.5) (p.x.drawSize + style.lineWidth * 0.5 * 2)
                (p.y.drawSize + style.lineWidth * 0.5 * 2),
              Svg.gOpen (some ("url(#clip" ++ toString (rand k)))]
          ++ Plot2D.childrenData style p ++ [Svg.gClose]) ∧
    (∀ e ∈ Plot2D.gridLines style p, e.IsLine) ∧
    (∀ e ∈ Plot2D.childrenData style p, e.IsPath) ∧
    Svg.gOpen (some ("url(#clip" ++ toString (rand k) ++ ")")) ∉ Plot2D.dataLayer rand style p k ∧
    ("url(#clip" ++ toString (rand k) ++ ")").length
      = ("url(#clip" ++ toString (rand k)).length + 1 := by
  have hlen : ("url(#clip" ++ toString (rand k) ++ ")").length
      = ("url(#clip" ++ toString (rand k)).length + 1 := by
    rw [String.length_append _ ")"]
    rfl
  have hG := (pureOnly_svg (plot2D_gridLines_lines style p) {}).2
  have hC := (pureOnly_svg (plot2D_childrenData_paths style p) {}).2
  refine ⟨plot2D_dataLayer_eq rand style p k, hG, hC, ?_, hlen⟩
  rw [plot2D_dataLayer_eq]
  intro hmem
  simp only [List.mem_cons, List.mem_append, List.mem_singleton, List.not_mem_nil,
    or_false] at hmem
  rcases hmem with h | (((h | h | h) | h) | h)
  · exact absurd h (by simp)
  · obtain ⟨_, _, _, _, _, he⟩ := hG _ h
    exact absurd he (by simp)
  · exact absurd h (by simp)
  · simp only [Svg.gOpen.injEq, Option.some.injEq] at h
    have := congrArg String.length h
    omega
  · obtain ⟨_, _, he⟩ := hC _ h
    exact absurd he (by simp)
  · exact absurd h (by simp)

/-- C20, as amended, in binary64.  For every style and every plot that has not
been laid out: `Plot2D::layout` returns, the box of the plot is set, and it is
the fold by `std::min` and `std::max` of the boxes of the children that are
set, from the axis rectangle expanded by the tick lengths; the children are the
laid-out children the plot had, the caller-added lines and fills, followed by
the synthesized labels.  When no edge of the expanded axis rectangle is a NaN,
as when the screen endpoints and the tick lengths are finite, the box contains
the expanded axis rectangle (`left <= x.drawMin() - tickH`,
`right >= x.drawMax() + tickH`, `top <= y.drawMin() - tickV`,
`bottom >= y.drawMax() + tickV`), and it covers the box of every child whose
box is set and stored the right way round (`left <= right` and
`top <= bottom`, which a box with a NaN edge is not).  When no child has a set
box, the box of the plot is the expanded axis rectangle. -/
theorem C20_plot_box_contains_axes_and_children (libm : Fp.CMath F64)
    (style : Fp.PlotStyle F64) (p : Fp.Plot2D F64) (hp : Fp.Plot2D.Fresh p) :
    ∃ (p1 : Fp.Plot2D F64) (kids : List (Fp.PlotChild F64)) (labels : List (Fp.TextLabel F64)),
      Fp.Plot2D.layout libm style p = Except.ok p1 ∧ p1.bounds.set = true ∧
      p1.x = p.x.autoSetup ∧ p1.y = p.y.autoSetup ∧
      List.Forall₂
        (fun c c1 => Fp.PlotChild.layout libm style p1.x p1.y c = Except.ok c1) p.children kids ∧
      p1.children = kids ++ labels.map Fp.PlotChild.label ∧
      p1.bounds = (p1.children.map Fp.PlotChild.bounds).foldl Fp.SvgDrawable.foldBounds
        (Fp.Plot2D.axisBox style p1.x p1.y) ∧
      ((p1.x.drawMin - style.tickH).isNaN = false → (p1.x.drawMax + style.tickH).isNaN = false →
        (p1.y.drawMin - style.tickV).isNaN = false →
        (p1.y.drawMax + style.tickV).isNaN = false →
        F64.le p1.bounds.left (p1.x.drawMin - style.tickH) = true ∧
        F64.le (p1.x.drawMax + style.tickH) p1.bounds.right = true ∧
        F64.le p1.bounds.top (p1.y.drawMin - style.tickV) = true ∧
        F64.le (p1.y.drawMax + style.tickV) p1.bounds.bottom = true ∧
        ∀ c ∈ p1.children, c.bounds.set = true →
          F64.le c.bounds.left c.bounds.right = true →
          F64.le c.bounds.top c.bounds.bottom = true →
          F64.Covers p1.bounds c.bounds) ∧
      (p.x.drawLow.isFinite = true → p.x.drawHigh.isFinite = true →
        p.y.drawLow.isFinite = true → p.y.drawHigh.isFinite = true →
        style.tickH.isFinite = true → style.tickV.isFinite = true →
        (p1.x.drawMin - style.tickH).isNaN = false ∧
        (p1.x.drawMax + style.tickH).isNaN = false ∧
        (p1.y.drawMin - style.tickV).isNaN = false ∧
        (p1.y.drawMax + style.tickV).isNaN = false) ∧
      ((∀ c ∈ p1.children, c.bounds.set = false) →
        p1.bounds = Fp.Plot2D.axisBox style p1.x p1.y) := by
  obtain ⟨p1, kids, labels, h1, hx, hy, hk, hb, hc⟩ := fp_plot2D_layout_labels libm style p hp
  refine ⟨p1, kids, labels, h1, ?_, hx, hy, hk, hc, hb, ?_, ?_, ?_⟩
  · rw [hb]
    exact (fp_foldBounds_edges _ _ rfl).1
  · intro n1 n2 n3 n4
    obtain ⟨k1, k2, k3, k4, k5⟩ := f64_foldBounds_covers (p1.children.map Fp.PlotChild.bounds)
      (Fp.Plot2D.axisBox style p1.x p1.y) rfl n1 n2 n3 n4
    rw [hb]
    exact ⟨k1, k2, k3, k4, fun c hc1 hs w1 w2 => k5 c.bounds (List.mem_map_of_mem _ hc1) hs w1 w2⟩
  · intro f1 f2 f3 f4 f5 f6
    obtain ⟨d1, d2⟩ := fp_autoSetup_draw p.x
    obtain ⟨d3, d4⟩ := fp_autoSetup_draw p.y
    unfold Fp.Axis.drawMin Fp.Axis.drawMax
    rw [hx, hy, d1, d2, d3, d4]
    exact ⟨(f64_finite_edges _ _ _ f1 f2 f5).1, (f64_finite_edges _ _ _ f1 f2 f5).2,
      (f64_finite_edges _ _ _ f3 f4 f6).1, (f64_finite_edges _ _ _ f3 f4 f6).2⟩
  · intro h
    rw [hb]
    refine fp_foldBounds_unset _ _ rfl (fun c hc1 => ?_)
    obtain ⟨d, hd, e⟩ := List.mem_map.mp hc1
    rw [← e]
    exact h d hd

/-- C20 at the sample plot with the points (0,0), (1,1), (2,4) and the default
style: the plot is fresh, its layout returns with a set box, and the box
contains the axis rectangle expanded by the tick lengths. -/
theorem C20_plot_box_contains_axes_and_children_witness :
    Fp.Plot2D.Fresh F64.examplePlot ∧
    ∃ p1, Fp.Plot2D.layout F64.sampleMath {} F64.examplePlot = Except.ok p1 ∧
      p1.bounds.set = true ∧
      F64.le p1.bounds.left (p1.x.drawMin - ({} : Fp.PlotStyle F64).tickH) = true ∧
      F64.le (p1.x.drawMax + ({} : Fp.PlotStyle F64).tickH) p1.bounds.right = true ∧
      F64.le p1.bounds.top (p1.y.drawMin - ({} : Fp.PlotStyle F64).tickV) = true ∧
      F64.le (p1.y.drawMax + ({} : Fp.PlotStyle F64).tickV) p1.bounds.bottom = true :=
  ⟨f64_examplePlot_fresh,
    (C20_plot_box_contains_axes_and_children F64.sampleMath {} F64.examplePlot
      f64_examplePlot_fresh).elim fun p1 h1 => h1.elim fun kids h2 => h2.elim fun labels h =>
        have hn := h.2.2.2.2.2.2.2.2.1
          (by rw [f64_examplePlot_frame.1]; rfl) (by rw [f64_examplePlot_frame.2.1]; rfl)
          (by rw [f64_examplePlot_frame.2.2.1]; rfl) (by rw [f64_examplePlot_frame.2.2.2]; rfl)
          (by rw [f64_default_ticks.1]; rfl) (by rw [f64_default_ticks.2]; rfl)
        have hc := h.2.2.2.2.2.2.2.1 hn.1 hn.2.1 hn.2.2.1 hn.2.2.2
        ⟨p1, h.1, h.2.1, hc.1, hc.2.1, hc.2.2.1, hc.2.2.2.1⟩⟩

/-- C20 fails as stated.  The layout of the default plot with the points
(0,3), (1,3), (2,3) and the default style returns; the value label of the y
tick at 3 is a child whose box is set, and the top edge of its box is a NaN,
because the map of the y axis divides zero by zero: the comparison
`top <= child top` of the plot box with that child box is false. -/
theorem C20_counterexample_nan_child_box :
    ∃ p1, Fp.Plot2D.layout F64.sampleMath {} F64.constantPlot = Except.ok p1 ∧
      ∃ c ∈ p1.children, c.bounds.set = true ∧ c.bounds.top = F64.nan ∧
        F64.le p1.bounds.top c.bounds.top = false := by
  obtain ⟨p1, kids, h1, _, _, hy, _, _, hc⟩ :=
    fp_plot2D_layout_children F64.sampleMath {} F64.constantPlot f64_constantPlot_fresh
  obtain ⟨t1, t2⟩ := f64_constantPlot_nan_tick
  rw [← hy] at t1 t2
  obtain ⟨b1, b2⟩ := fp_textLabel_layout_horizontal ({} : Fp.PlotStyle F64)
    { x := p1.x.drawMin - ({} : Fp.PlotStyle F64).tickH - ({} : Fp.PlotStyle F64).textPadding,
      y := p1.y.map (F64.fin false 3) }
    (-Fp.DoubleOps.lit 1) (Fp.DoubleOps.to_string (F64.fin false 3)) "svg-plot-value"
  have htop : (Fp.TextLabel.layout ({} : Fp.PlotStyle F64) (Fp.TextLabel.init
      { x := p1.x.drawMin - ({} : Fp.PlotStyle F64).tickH - ({} : Fp.PlotStyle F64).textPadding,
        y := p1.y.map (F64.fin false 3) }
      (-Fp.DoubleOps.lit 1) (Fp.DoubleOps.to_string (F64.fin false 3)) "svg-plot-value"
      false true)).bounds.top = F64.nan := by
    rw [b2, t2]
    exact nan_sub _
  refine ⟨p1, h1, Fp.PlotChild.label (Fp.TextLabel.layout ({} : Fp.PlotStyle F64)
    (Fp.TextLabel.init
      { x := p1.x.drawMin - ({} : Fp.PlotStyle F64).tickH - ({} : Fp.PlotStyle F64).textPadding,
        y := p1.y.map (F64.fin false 3) }
      (-Fp.DoubleOps.lit 1) (Fp.DoubleOps.to_string (F64.fin false 3)) "svg-plot-value"
      false true)), ?_, b1, htop, ?_⟩
  · rw [hc]
    refine List.mem_append_left _ (List.mem_append_right _ ?_)
    exact List.mem_map.mpr ⟨_, t1, rfl⟩
  · show F64.le p1.bounds.top (Fp.TextLabel.layout ({} : Fp.PlotStyle F64) (Fp.TextLabel.init
      { x := p1.x.drawMin - ({} : Fp.PlotStyle F64).tickH - ({} : Fp.PlotStyle F64).textPadding,
        y := p1.y.map (F64.fin false 3) }
      (-Fp.DoubleOps.lit 1) (Fp.DoubleOps.to_string (F64.fin false 3)) "svg-plot-value"
      false true)).bounds.top = false
    rw [htop]
    exact le_nan_right _

/-- C21: for every arithmetic of `double`, every plot and every tick list on
its two axes.  Layout: the layout of a fresh plot returns, also when an axis
map divides by zero, and the children after it are the laid-out children the
plot had, then exactly one value label (class `svg-plot-value`) for each tick
of the x axis whose name is not empty, in the order of the ticks, then the x
axis label if there is one, then exactly one value label for each tick of the y
axis whose name is not empty, then the y axis label if there is one; no child
is added for a tick with an empty name.  The ticks are those of the axes after
autoSetup.  writeLabel: what `Plot2D::writeLabel` appends is the opening group
tag, the label output of the children, exactly one line of class
`svg-plot-tick` for each x tick whose name is not empty, then one for each such
y tick, and the closing tag; no child writes a line of that class.  writeData:
what `Plot2D::writeData` appends is the axis rect, exactly one gridline for
each x tick of major or minor strength, then one for each such y tick, the clip
path, the group tag, the data output of the children, which are paths, and the
closing tag; a plain tick gets no gridline, whatever its name. -/
theorem C21_one_label_mark_and_gridline_per_tick {D : Type} [Fp.DoubleOps D]
    (libm : Fp.CMath D) (rand : Nat → Nat) (style : Fp.PlotStyle D) (p : Fp.Plot2D D) :
    (Fp.Plot2D.Fresh p → ∃ (p1 : Fp.Plot2D D) (kids : List (Fp.PlotChild D))
        (xl yl : List (Fp.TextLabel D)),
      Fp.Plot2D.layout libm style p = Except.ok p1 ∧
      p1.x = p.x.autoSetup ∧ p1.y = p.y.autoSetup ∧
      List.Forall₂
        (fun c c1 => Fp.PlotChild.layout libm style p1.x p1.y c = Except.ok c1) p.children kids ∧
      p1.children = kids
        ++ ((p1.x.ticks.filter Fp.Tick.hasName).map fun t =>
            Fp.PlotChild.label (Fp.TextLabel.layout style (Fp.TextLabel.init
              { x := p1.x.map t.value,
                y := p1.y.drawMax + style.tickV + style.valueSize * Fp.DoubleOps.lit 0.5
                  + style.textPadding }
              (Fp.DoubleOps.lit 0) t.name "svg-plot-value" false true)))
        ++ xl.map Fp.PlotChild.label
        ++ ((p1.y.ticks.filter Fp.Tick.hasName).map fun t =>
            Fp.PlotChild.label (Fp.TextLabel.layout style (Fp.TextLabel.init
              { x := p1.x.drawMin - style.tickH - style.textPadding, y := p1.y.map t.value }
              (-Fp.DoubleOps.lit 1) t.name "svg-plot-value" false true)))
        ++ yl.map Fp.PlotChild.label ∧
      xl.length = (if p1.x.label.length ≠ 0 then 1 else 0) ∧
      yl.length = (if p1.y.label.length ≠ 0 then 1 else 0) ∧
      (∀ t ∈ xl ++ yl, t.cssClass = "svg-plot-label")) ∧
    (∀ o : Fp.Out D, (Fp.Plot2D.writeLabel style p o).svg = o.svg ++
      ([Fp.Svg.gOpen none]
        ++ (p.children.reverse.flatMap fun c => (Fp.PlotChild.writeLabel style c {}).svg)
        ++ ((p.x.ticks.filter Fp.Tick.hasName).map fun t =>
            Fp.Svg.line "svg-plot-tick" (p.x.map t.value) (p.x.map t.value) p.y.drawMax
              (p.y.drawMax + style.tickV))
        ++ ((p.y.ticks.filter Fp.Tick.hasName).map fun t =>
            Fp.Svg.line "svg-plot-tick" (p.x.drawMin - style.tickH) p.x.drawMin (p.y.map t.value)
              (p.y.map t.value))
        ++ [Fp.Svg.gClose])) ∧
    (∀ c ∈ p.children, ∀ e ∈ (Fp.PlotChild.writeLabel style c {}).svg,
      e.isLineOfClass "svg-plot-tick" = false) ∧
    (∀ o : Fp.Out D, (Fp.Plot2D.writeData rand style p o).svg = o.svg ++
      ([Fp.Svg.rect "svg-plot-axis" p.x.drawMin p.y.drawMin p.x.drawSize p.y.drawSize]
        ++ ((p.x.ticks.filter Fp.Tick.hasGridLine).map fun t =>
            Fp.Svg.line (if t.strength = Tick.Strength.major then "svg-plot-major"
              else "svg-plot-minor") (p.x.map t.value) (p.x.map t.value)
              (p.y.drawMin - (if t.strength = Tick.Strength.major
                  ∧ Fp.DoubleOps.flt (Fp.DoubleOps.fabs (p.x.map t.value - p.x.drawMin))
                      (Fp.DoubleOps.lit 0.01) = true
                  ∧ t.name.length ≠ 0 then style.tickH else Fp.DoubleOps.lit 0))
              p.y.drawMax)
        ++ ((p.y.ticks.filter Fp.Tick.hasGridLine).map fun t =>
            Fp.Svg.line (if t.strength = Tick.Strength.major then "svg-plot-major"
              else "svg-plot-minor") p.x.drawMin p.x.drawMax (p.y.map t.value) (p.y.map t.value))
        ++ [Fp.Svg.clipPath (rand o.randCalls)
              (p.x.drawMin - style.lineWidth * Fp.DoubleOps.lit 0.5)
              (p.y.drawMin - style.lineWidth * Fp.DoubleOps.lit 0.5)
              (p.x.drawSize + style.lineWidth * Fp.DoubleOps.lit 0.5 * Fp.DoubleOps.lit 2)
              (p.y.drawSize + style.lineWidth * Fp.DoubleOps.lit 0.5 * Fp.DoubleOps.lit 2),
            Fp.Svg.gOpen (some ("url(#clip" ++ toString (rand o.randCalls)))]
        ++ (p.children.reverse.flatMap fun c => (Fp.PlotChild.writeData style p.x p.y c {}).svg)
        ++ [Fp.Svg.gClose])) ∧
    (∀ c ∈ p.children, ∀ e ∈ (Fp.PlotChild.writeData style p.x p.y c {}).svg,
      e.isPath = true) ∧
    (∀ t : Fp.Tick D,
      (t.hasName = true ↔ t.name.length ≠ 0) ∧
      (t.hasGridLine = true ↔
        t.strength = Tick.Strength.major ∨ t.strength = Tick.Strength.minor)) := by
  refine ⟨fun hp => ?_, fun o => ?_, fun c _ => fp_plotChild_writeLabel_no_tick style c,
    fun o => ?_, fun c _ => fp_plotChild_writeData_paths style p.x p.y c, fun t => ⟨?_, ?_⟩⟩
  · obtain ⟨p1, kids, h1, _, hx, hy, hk, _, hc⟩ := fp_plot2D_layout_children libm style p hp
    refine ⟨p1, kids,
      (if p1.x.label.length ≠ 0 then
        [Fp.TextLabel.layout style (Fp.TextLabel.init
          { x := (p1.x.drawMax + p1.x.drawMin) * Fp.DoubleOps.lit 0.5,
            y := p1.y.drawMax + style.tickV + style.valueSize * Fp.DoubleOps.lit 0.5
              + style.textPadding
              + (style.labelSize + style.valueSize) * Fp.DoubleOps.lit 0.5 }
          (Fp.DoubleOps.lit 0) p1.x.label "svg-plot-label" false true)]
      else []),
      (if p1.y.label.length ≠ 0 then
        [Fp.TextLabel.layout style (Fp.TextLabel.init
          { x := p1.x.drawMin - style.tickH - style.textPadding
              - style.textPadding * Fp.DoubleOps.lit 1.5
              - (p1.y.ticks.filter Fp.Tick.hasName).foldl
                  (fun acc t => Fp.std_max acc (Fp.estimateUtf8Width t.name))
                  (Fp.DoubleOps.lit 0)
                * style.valueSize,
            y := (p1.y.drawMax + p1.y.drawMin) * Fp.DoubleOps.lit 0.5 }
          (Fp.DoubleOps.lit 0) p1.y.label "svg-plot-label" true true)]
      else []), h1, hx, hy, hk, ?_, ?_, ?_, ?_⟩
    · rw [hc]
      congr 1
      · congr 2
        split_ifs <;> rfl
      · split_ifs <;> rfl
    · split_ifs <;> rfl
    · split_ifs <;> rfl
    · intro t ht
      rcases List.mem_append.mp ht with h | h
      · split_ifs at h
        · rw [List.mem_singleton.mp h]
          unfold Fp.TextLabel.layout
          split_ifs <;> rfl
        · simp at h
      · split_ifs at h
        · rw [List.mem_singleton.mp h]
          unfold Fp.TextLabel.layout
          split_ifs <;> rfl
        · simp at h
  · rw [fp_plot2D_writeLabel, fp_append_svg, fp_tickMarksX, fp_tickMarksY]
  · rw [fp_plot2D_writeData, fp_gridLinesX, fp_gridLinesY]
  · simp [Fp.Tick.hasName]
  · cases hs : t.strength <;> simp [Fp.Tick.hasGridLine, hs]

/-- C21 at the plot with the points (0,3), (1,3), (2,3) and the default style:
the plot is fresh and its layout returns, although the map of its y axis
divides by zero, with the value labels of the ticks that autoSetup installs. -/
theorem C21_one_label_mark_and_gridline_per_tick_witness :
    Fp.Plot2D.Fresh F64.constantPlot ∧ ∃ (p1 : Fp.Plot2D F64) (kids : List (Fp.PlotChild F64))
        (xl yl : List (Fp.TextLabel F64)),
      Fp.Plot2D.layout F64.sampleMath {} F64.constantPlot = Except.ok p1 ∧
      p1.x = F64.constantPlot.x.autoSetup ∧ p1.y = F64.constantPlot.y.autoSetup ∧
      List.Forall₂
        (fun c c1 => Fp.PlotChild.layout F64.sampleMath {} p1.x p1.y c = Except.ok c1)
        F64.constantPlot.children kids ∧
      p1.children = kids
        ++ ((p1.x.ticks.filter Fp.Tick.hasName).map fun t =>
            Fp.PlotChild.label (Fp.TextLabel.layout {} (Fp.TextLabel.init
              { x := p1.x.map t.value,
                y := p1.y.drawMax + ({} : Fp.PlotStyle F64).tickV
                  + ({} : Fp.PlotStyle F64).valueSize * Fp.DoubleOps.lit 0.5
                  + ({} : Fp.PlotStyle F64).textPadding }
              (Fp.DoubleOps.lit 0) t.name "svg-plot-value" false true)))
        ++ xl.map Fp.PlotChild.label
        ++ ((p1.y.ticks.filter Fp.Tick.hasName).map fun t =>
            Fp.PlotChild.label (Fp.TextLabel.layout {} (Fp.TextLabel.init
              { x := p1.x.drawMin - ({} : Fp.PlotStyle F64).tickH
                  - ({} : Fp.PlotStyle F64).textPadding,
                y := p1.y.map t.value }
              (-Fp.DoubleOps.lit 1) t.name "svg-plot-value" false true)))
        ++ yl.map Fp.PlotChild.label ∧
      xl.length = (if p1.x.label.length ≠ 0 then 1 else 0) ∧
      yl.length = (if p1.y.label.length ≠ 0 then 1 else 0) ∧
      (∀ t ∈ xl ++ yl, t.cssClass = "svg-plot-label") :=
  ⟨f64_constantPlot_fresh,
    (C21_one_label_mark_and_gridline_per_tick F64.sampleMath (fun k => k) {}
      F64.constantPlot).1 f64_constantPlot_fresh⟩

/-- C23, as amended, in binary64.  On an axis built by the constructor with
finite screen endpoints and fed by any sequence of finite observed values and
tick registrations that holds at least one value.  When every observed value
compares equal to the first value v, autoSetup commits linear(v, v) with no
special case: the unit map is `x ↦ (x - v)/(v - v)`, the divisor `v - v` is
zero, and the division by zero gives no finite result at any value and a NaN
at v, for the unit map and for map.  When two observed values do not compare
equal, the committed range runs from the least observed value low to the
greatest high, and the divisor `high - low` is strictly positive; it is
finite unless the subtraction overflows.  When it is finite, the unit map is
no NaN at any finite value, and neither is map when the screen difference is
finite and either is not zero or the unit value is finite.  When it overflows,
map is a NaN at the greatest observed value. -/
theorem C23_equal_values_divide_by_zero (lo hi : F64) (cs : List (Fp.AxisCall F64))
    (v : F64) (vs : List F64) (hvals : cs.flatMap Fp.AxisCall.values = v :: vs)
    (hlo : lo.IsFiniteDouble) (hvs : ∀ w ∈ v :: vs, w.IsFiniteDouble) :
    ((∀ w ∈ vs, F64.eq w v = true) →
      ((Fp.Axis.init lo hi).calls cs).autoSetup.unitMap = (fun x => (x - v) / (v - v)) ∧
      v - v = F64.fin false 0 ∧
      (∀ x, (((Fp.Axis.init lo hi).calls cs).autoSetup.unitMap x).isFinite = false ∧
        (((Fp.Axis.init lo hi).calls cs).autoSetup.map x).isFinite = false) ∧
      ((Fp.Axis.init lo hi).calls cs).autoSetup.unitMap v = F64.nan ∧
      ((Fp.Axis.init lo hi).calls cs).autoSetup.map v = F64.nan) ∧
    (∀ p ∈ v :: vs, ∀ q ∈ v :: vs, F64.eq p q = false →
      ∃ low high, low ∈ v :: vs ∧ high ∈ v :: vs ∧
        (∀ w ∈ v :: vs, F64.le low w = true ∧ F64.le w high = true) ∧
        F64.lt (F64.fin false 0) (high - low) = true ∧
        ((Fp.Axis.init lo hi).calls cs).autoSetup.unitMap
          = (fun x => (x - low) / (high - low)) ∧
        (∀ x, ((Fp.Axis.init lo hi).calls cs).autoSetup.map x
          = lo + (x - low) / (high - low) * (hi - lo)) ∧
        ((high - low).isFinite = true → ∀ x : F64, x.isFinite = true →
          ((Fp.Axis.init lo hi).calls cs).autoSetup.unitMap x ≠ F64.nan ∧
          ((hi - lo).isFinite = true →
            (hi - lo).toRat ≠ 0 ∨
              (((Fp.Axis.init lo hi).calls cs).autoSetup.unitMap x).isFinite = true →
            ((Fp.Axis.init lo hi).calls cs).autoSetup.map x ≠ F64.nan)) ∧
        ((high - low).isFinite = false →
          ((Fp.Axis.init lo hi).calls cs).autoSetup.map high = F64.nan)) := by
  obtain ⟨hu, _, _, hmap⟩ := fp_calls_autoSetup lo hi cs v vs hvals
  have hv := hvs v (List.mem_cons_self _ _)
  constructor
  · intro hall
    obtain ⟨e1, e2⟩ := f64_fold_eq v vs hall
    rw [e1, e2] at hu
    simp only [e1, e2] at hmap
    obtain ⟨_, h2, h3⟩ := f64_map_degenerate lo hi v v hv.2 hv.2 rfl
    refine ⟨hu, sub_self_fin v hv.2, fun x => ?_, ?_, ?_⟩
    · rw [hu, hmap]
      exact h2 x
    · rw [hu]
      exact (h3 v hv.2 rfl).1
    · rw [hmap]
      exact (h3 v hv.2 rfl).2
  · intro p hp q hq hpq
    obtain ⟨a1, b1, hm, hM, _, hb⟩ := f64_fold_bounds v vs hvs
    have hlt := f64_fold_spread v vs hvs p q hp hq hpq
    obtain ⟨d1, _, _⟩ := f64_divisor_pos _ _ hm hM hlt
    refine ⟨vs.foldl Fp.std_min v, vs.foldl Fp.std_max v, a1, b1, hb, d1, hu, hmap,
      fun hD x fx => ?_, fun hD => ?_⟩
    · have h1 := f64_unit_not_nan _ _ x hm hM hlt hD fx
      refine ⟨by rw [hu]; exact h1, fun fe h => ?_⟩
      rw [hu] at h
      rw [hmap]
      exact f64_map_not_nan lo _ (hi - lo) hlo.2 h1 fe h
    · rw [hmap]
      apply f64_map_overflow
      rcases sub_of_lt _ _ hm.1 hM.1 hm.2 hM.2 hlt with e | ⟨d, e, _, _⟩
      · exact e
      · rw [e] at hD
        simp [F64.isFinite] at hD

/-- C23 at the axis `Axis(0, 260)`: fed the value 3 twice, its map is a NaN at
3 after autoSetup; fed 1 and 2, the committed divisor `2 - 1` is strictly
positive and its map is no NaN at any finite value. -/
theorem C23_equal_values_divide_by_zero_witness :
    (F64.fin false 0).IsFiniteDouble ∧ (F64.fin false 1).IsFiniteDouble ∧
    (F64.fin false 2).IsFiniteDouble ∧ (F64.fin false 3).IsFiniteDouble ∧
    ((Fp.Axis.init (F64.fin false 0) (F64.fin false 260)).calls
      [Fp.AxisCall.autoValue (F64.fin false 3),
        Fp.AxisCall.autoValue (F64.fin false 3)]).autoSetup.map (F64.fin false 3) = F64.nan ∧
    F64.lt (F64.fin false 0) (F64.fin false 2 - F64.fin false 1) = true ∧
    ((Fp.Axis.init (F64.fin false 0) (F64.fin false 260)).calls
      [Fp.AxisCall.autoValue (F64.fin false 1),
        Fp.AxisCall.autoValue (F64.fin false 2)]).autoSetup.unitMap
      = (fun x => (x - F64.fin false 1) / (F64.fin false 2 - F64.fin false 1)) ∧
    ∀ x : F64, x.isFinite = true →
      ((Fp.Axis.init (F64.fin false 0) (F64.fin false 260)).calls
        [Fp.AxisCall.autoValue (F64.fin false 1),
          Fp.AxisCall.autoValue (F64.fin false 2)]).autoSetup.map x ≠ F64.nan := by
  have h0 : (F64.fin false 0).IsFiniteDouble := by
    simpa using natCast_isFiniteDouble 0 (by norm_num)
  have h1 : (F64.fin false 1).IsFiniteDouble := by
    simpa using natCast_isFiniteDouble 1 (by norm_num)
  have h2 : (F64.fin false 2).IsFiniteDouble := by
    simpa using natCast_isFiniteDouble 2 (by norm_num)
  have h3 : (F64.fin false 3).IsFiniteDouble := by
    simpa using natCast_isFiniteDouble 3 (by norm_num)
  have k3 := ((C23_equal_values_divide_by_zero (F64.fin false 0) (F64.fin false 260)
    [Fp.AxisCall.autoValue (F64.fin false 3), Fp.AxisCall.autoValue (F64.fin false 3)]
    (F64.fin false 3) [F64.fin false 3] rfl h0 (by
      intro w hw
      simp only [List.mem_cons, List.mem_singleton, List.not_mem_nil, or_false] at hw
      rcases hw with e | e <;> rw [e] <;> assumption)).1 (by
      intro w hw
      rw [List.mem_singleton.mp hw]
      decide)).2.2.2.2
  obtain ⟨low, high, hl, hh, hb, hpos, hu, _, hfin, _⟩ :=
    (C23_equal_values_divide_by_zero (F64.fin false 0) (F64.fin false 260)
      [Fp.AxisCall.autoValue (F64.fin false 1), Fp.AxisCall.autoValue (F64.fin false 2)]
      (F64.fin false 1) [F64.fin false 2] rfl h0 (by
        intro w hw
        simp only [List.mem_cons, List.mem_singleton, List.not_mem_nil, or_false] at hw
        rcases hw with e | e <;> rw [e] <;> assumption)).2
      (F64.fin false 1) (List.mem_cons_self _ _) (F64.fin false 2)
      (List.mem_cons_of_mem _ (List.mem_cons_self _ _)) (by decide)
  have b1 := hb (F64.fin false 1) (List.mem_cons_self _ _)
  have b2 := hb (F64.fin false 2) (List.mem_cons_of_mem _ (List.mem_cons_self _ _))
  have el : low = F64.fin false 1 := by
    simp only [List.mem_cons, List.mem_singleton, List.not_mem_nil, or_false] at hl
    rcases hl with e | e
    · exact e
    · rw [e] at b1
      exact absurd b1.1 (by decide)
  have eh : high = F64.fin false 2 := by
    simp only [List.mem_cons, List.mem_singleton, List.not_mem_nil, or_false] at hh
    rcases hh with e | e
    · rw [e] at b2
      exact absurd b2.2 (by decide)
    · exact e
  rw [el, eh] at hpos hu hfin
  have f1 : (F64.fin false 2 - F64.fin false 1).isFinite = true := by
    simpa using sub_natCast_isFinite 2 1 (by norm_num) (by norm_num)
  have e260 : F64.fin false 260 - F64.fin false 0 = F64.fin false 260 := by
    simpa using natCast_sub_zero 260 (by norm_num) (by norm_num)
  refine ⟨h0, h1, h2, h3, k3, hpos, hu, fun x fx => ?_⟩
  refine (hfin f1 x fx).2 (by rw [e260]; rfl) (Or.inl ?_)
  rw [e260]
  simp [F64.toRat]

/-- C23 fails as stated.  The axis `Axis(0, 260)` that has observed the two
distinct finite doubles `-2^1023` and `2^1023` commits the divisor
`2^1023 - (-2^1023)`, which overflows to the infinity: it is strictly
positive, but map is a NaN at the greatest observed value. -/
theorem C23_counterexample_divisor_overflows :
    (F64.fin true (2 ^ 1023)).IsFiniteDouble ∧ (F64.fin false (2 ^ 1023)).IsFiniteDouble ∧
    F64.eq (F64.fin true (2 ^ 1023)) (F64.fin false (2 ^ 1023)) = false ∧
    F64.fin false (2 ^ 1023) - F64.fin true (2 ^ 1023) = F64.inf false ∧
    ((Fp.Axis.init (F64.fin false 0) (F64.fin false 260)).calls
      [Fp.AxisCall.autoValue (F64.fin true (2 ^ 1023)),
        Fp.AxisCall.autoValue (F64.fin false (2 ^ 1023))]).autoSetup.map
      (F64.fin false (2 ^ 1023)) = F64.nan := by
  have hsub : F64.fin false (2 ^ 1023) - F64.fin true (2 ^ 1023) = F64.inf false := by
    rw [f64_sub_def]
    show F64.add (F64.fin false (2 ^ 1023)) (F64.fin false (2 ^ 1023)) = _
    rw [add_fin_fin]
    have e : (F64.fin false (2 ^ 1023)).toRat + (F64.fin false (2 ^ 1023)).toRat
        = ((1 : ℕ) : ℚ) * (2 : ℚ) ^ (1024 : ℤ) := by
      simp only [F64.toRat]
      norm_num
    have hpos : (0 : ℚ) < ((1 : ℕ) : ℚ) * (2 : ℚ) ^ (1024 : ℤ) := by positivity
    rw [e, if_neg (ne_of_gt hpos)]
    unfold F64.ofRat F64.ofMag
    rw [abs_of_pos hpos, roundMag_of_nat_mul 1 1024 (by norm_num) (by norm_num), if_pos]
    · rw [decide_eq_false (not_lt.mpr hpos.le)]
    · norm_num
  obtain ⟨hm, hM, hne⟩ := f64_opposite_pair ((2 : ℚ) ^ 1023) (by positivity)
  refine ⟨pow_1023_isFiniteDouble true, pow_1023_isFiniteDouble false, ?_, hsub, ?_⟩
  · exact hne
  · rw [(fp_calls_autoSetup (F64.fin false 0) (F64.fin false 260)
      [Fp.AxisCall.autoValue (F64.fin true (2 ^ 1023)),
        Fp.AxisCall.autoValue (F64.fin false (2 ^ 1023))] (F64.fin true (2 ^ 1023))
      [F64.fin false (2 ^ 1023)] rfl).2.2.2, hm, hM]
    exact f64_map_overflow _ _ _ _ hsub

/-- C24.  With the default style, whose tables hold 6 colours, 7 dash patterns
and 4 hatches, and for style indices i and j that are not negative: the triple
(strokeClass, dashClass, hatchClass) at i equals the triple at j if and only if
i and j are congruent modulo 84.  Two indices below 42 with the same pair
(strokeClass, dashClass) are equal, and these are the indices that the first
42 calls of `line()` on a default plot hand out: after n calls the plot holds
the lines with style indices 0, ..., n - 1 in this order. -/
theorem C24_default_style_period_84 (i j : Int) (hi : 0 ≤ i) (hj : 0 ≤ j) :
    (({} : PlotStyle).colours.length = 6 ∧ ({} : PlotStyle).dashes.length = 7 ∧
      ({} : PlotStyle).hatches.length = 4) ∧
    ((({} : PlotStyle).strokeClass i, ({} : PlotStyle).dashClass i, ({} : PlotStyle).hatchClass i)
        = (({} : PlotStyle).strokeClass j, ({} : PlotStyle).dashClass j,
            ({} : PlotStyle).hatchClass j)
      ↔ i % 84 = j % 84) ∧
    (i < 42 → j < 42 →
      (({} : PlotStyle).strokeClass i, ({} : PlotStyle).dashClass i)
        = (({} : PlotStyle).strokeClass j, ({} : PlotStyle).dashClass j) → i = j) ∧
    (∀ n : Nat,
      (Plot2D.line^[n] Plot2D.default).children
        = (List.range n).map fun (k : Nat) => PlotChild.line (Line2D.init (k : Int))) := by
  have hs := default_strokeClass_eq_iff i j hi hj
  have hd := default_dashClass_eq_iff i j hi hj
  have hh := default_hatchClass_eq_iff i j hi hj
  refine ⟨⟨rfl, rfl, rfl⟩, ?_, ?_, ?_⟩
  · rw [Prod.mk.injEq, Prod.mk.injEq, hs, hd, hh]
    omega
  · intro h1 h2
    rw [Prod.mk.injEq, hs, hd]
    omega
  · intro n
    have h := (iterate_line Plot2D.default n).2
    rw [h]
    simp [Plot2D.default, Plot2D.init, Plot2D.ofAxes]

/-- Witness for C24: the indices 1 and 85 are congruent modulo 84 and give
the same three classes, and the indices 1 and 7, both below 42, share the
colour but not the dash pattern. -/
theorem C24_default_style_period_84_witness :
    (({} : PlotStyle).strokeClass 1, ({} : PlotStyle).dashClass 1, ({} : PlotStyle).hatchClass 1)
        = (({} : PlotStyle).strokeClass 85, ({} : PlotStyle).dashClass 85,
            ({} : PlotStyle).hatchClass 85) ∧
    (({} : PlotStyle).strokeClass 1, ({} : PlotStyle).dashClass 1)
        ≠ (({} : PlotStyle).strokeClass 7, ({} : PlotStyle).dashClass 7) :=
  ⟨(C24_default_style_period_84 1 85 (by decide) (by decide)).2.1.mpr (by decide),
    fun h => absurd ((C24_default_style_period_84 1 7 (by decide) (by decide)).2.2.1
      (by decide) (by decide) h) (by decide)⟩

/-- C25, as amended, in binary64.  On an axis built by the constructor with
finite screen endpoints `lo` and `hi` and fed by any sequence of finite
observed values and tick registrations, never given an explicit range, in which
two observed values do not compare equal: autoSetup commits the range from the
least observed value low to the greatest high, with low < high.  When the
divisor `high - low` does not overflow: every observed value (fed by a data
point, a label anchor or a tick) is mapped to a finite coordinate between `lo`
and the double `lo + (hi - lo)`, when neither that sum nor the screen
difference overflows; and it satisfies `drawMin() <= map(v) <= drawMax()`
whenever the screen difference `hi - lo` is exact, which it is when one
endpoint is zero.  Hence for every plot made by `Plot2D(width, height)` with
finite width and height and built up by any sequence of line, fill, add, label,
styling and tick calls with finite values, whose accumulators have a least value
below the greatest on both axes and divisors that do not overflow: the layout
returns, and every point of every line of the laid-out plot is mapped by the
axes of the laid-out plot to a pair of finite screen coordinates inside the
axis rectangle. -/
theorem C25_observed_values_map_inside (lo hi : F64) (cs : List (Fp.AxisCall F64))
    (v : F64) (vs : List F64) (hvals : cs.flatMap Fp.AxisCall.values = v :: vs)
    (hlo : lo.IsFiniteDouble) (hhi : hi.IsFiniteDouble)
    (hvs : ∀ w ∈ v :: vs, w.IsFiniteDouble)
    (p q : F64) (hp : p ∈ v :: vs) (hq : q ∈ v :: vs) (hpq : F64.eq p q = false) :
    (∃ low high, low ∈ v :: vs ∧ high ∈ v :: vs ∧ F64.lt low high = true ∧
      ((Fp.Axis.init lo hi).calls cs).autoSetup.unitMap
        = (fun x => (x - low) / (high - low)) ∧
      ((high - low).isFinite = true →
        ((hi - lo).isFinite = true → (lo + (hi - lo)).isFinite = true →
          ∀ w ∈ v :: vs,
            (((Fp.Axis.init lo hi).calls cs).autoSetup.map w).IsFiniteDouble ∧
            ((F64.le lo (((Fp.Axis.init lo hi).calls cs).autoSetup.map w) = true ∧
                F64.le (((Fp.Axis.init lo hi).calls cs).autoSetup.map w) (lo + (hi - lo))
                  = true) ∨
              (F64.le (lo + (hi - lo)) (((Fp.Axis.init lo hi).calls cs).autoSetup.map w)
                  = true ∧
                F64.le (((Fp.Axis.init lo hi).calls cs).autoSetup.map w) lo = true))) ∧
        (F64.ExactSub hi lo →
          ∀ w ∈ v :: vs,
            (((Fp.Axis.init lo hi).calls cs).autoSetup.map w).IsFiniteDouble ∧
            F64.le ((Fp.Axis.init lo hi).calls cs).autoSetup.drawMin
              (((Fp.Axis.init lo hi).calls cs).autoSetup.map w) = true ∧
            F64.le (((Fp.Axis.init lo hi).calls cs).autoSetup.map w)
              ((Fp.Axis.init lo hi).calls cs).autoSetup.drawMax = true))) ∧
    (F64.eq lo (F64.fin false 0) = true ∨ F64.eq hi (F64.fin false 0) = true →
      F64.ExactSub hi lo) ∧
    (∀ (libm : Fp.CMath F64) (style : Fp.PlotStyle F64) (width height : F64)
        (ops : List (Fp.PlotOp F64)),
      width.IsFiniteDouble → height.IsFiniteDouble →
      (∀ op ∈ ops, ∀ w ∈ op.values, w.IsFiniteDouble) →
      F64.lt (Fp.Plot2D.build width height ops).x.autoMin
        (Fp.Plot2D.build width height ops).x.autoMax = true →
      F64.lt (Fp.Plot2D.build width height ops).y.autoMin
        (Fp.Plot2D.build width height ops).y.autoMax = true →
      ((Fp.Plot2D.build width height ops).x.autoMax
        - (Fp.Plot2D.build width height ops).x.autoMin).isFinite = true →
      ((Fp.Plot2D.build width height ops).y.autoMax
        - (Fp.Plot2D.build width height ops).y.autoMin).isFinite = true →
      ∃ p1, Fp.Plot2D.layout libm style (Fp.Plot2D.build width height ops) = Except.ok p1 ∧
        ∀ l1, Fp.PlotChild.line l1 ∈ p1.children →
          ∀ pt ∈ Fp.Line2D.mapped p1.x p1.y l1.points,
            ∃ sx sy, pt = (some sx, some sy) ∧ sx.isFinite = true ∧ sy.isFinite = true ∧
              F64.le p1.x.drawMin sx = true ∧ F64.le sx p1.x.drawMax = true ∧
              F64.le p1.y.drawMin sy = true ∧ F64.le sy p1.y.drawMax = true) := by
  refine ⟨?_, fun h => ?_, ?_⟩
  · obtain ⟨hu, hdl, hdh, hmap⟩ := fp_calls_autoSetup lo hi cs v vs hvals
    obtain ⟨a1, b1, hm, hM, hb, _⟩ := f64_fold_bounds v vs hvs
    have hlt := f64_fold_spread v vs hvs p q hp hq hpq
    refine ⟨vs.foldl Fp.std_min v, vs.foldl Fp.std_max v, a1, b1, ?_, hu,
      fun hD => ⟨fun fe fP w hw => ?_, fun he w hw => ?_⟩⟩
    · rw [lt_fin _ _ hm.2 hM.2]
      exact decide_eq_true hlt
    · obtain ⟨k1, k2⟩ := f64_map_between lo hi _ _ w hlo hm hM (hvs w hw) hlt hD fe fP
        (hb w hw).1 (hb w hw).2
      rw [hmap w]
      refine ⟨k1, ?_⟩
      rw [le_fin _ _ hlo.2 k1.2, le_fin _ _ k1.2 fP, le_fin _ _ fP k1.2, le_fin _ _ k1.2 hlo.2]
      simp only [decide_eq_true_eq]
      exact k2
    · have key := f64_map_inside lo hi _ _ w hlo hhi hm hM (hvs w hw) hlt hD he
        (hb w hw).1 (hb w hw).2
      unfold Fp.Axis.drawMin Fp.Axis.drawMax
      rw [hmap w, hdl, hdh]
      exact key
  · refine exactSub_of_zero hi lo hhi hlo ?_
    rcases h with h | h
    · rw [eq_fin lo (F64.fin false 0) hlo.2 rfl, decide_eq_true_eq] at h
      exact Or.inl (by simpa [F64.toRat] using h)
    · rw [eq_fin hi (F64.fin false 0) hhi.2 rfl, decide_eq_true_eq] at h
      exact Or.inr (by simpa [F64.toRat] using h)
  · intro libm style width height ops hw hh hops hxlt hylt hxD hyD
    obtain ⟨hfresh, xl, xh, yl, yh⟩ := fp_build_frame width height ops
    obtain ⟨_, _, hcov⟩ := f64_build_covered width height ops hops
    obtain ⟨p1, h1, hx, hy, hlines⟩ := fp_plot2D_layout_lines libm style _ hfresh
    have z : (Fp.DoubleOps.lit 0 : F64) = F64.fin false 0 := ofRat_zero
    have hz : (F64.fin false 0).IsFiniteDouble := by
      simpa using natCast_isFiniteDouble 0 (by norm_num)
    rw [z] at xl yh
    refine ⟨p1, h1, fun l1 hl1 pt hpt => ?_⟩
    obtain ⟨l, hl, hpts⟩ := hlines l1 hl1
    rw [hpts] at hpt
    simp only [Fp.Line2D.mapped, List.mem_map] at hpt
    obtain ⟨d, hd, hq⟩ := hpt
    obtain ⟨bx, bY⟩ := hcov l hl d hd
    have kx := f64_autoSetup_map_of_brackets _ d.x bx (by rw [xl]; exact hz) (by rw [xh]; exact hw)
      hxlt hxD (by
        rw [xl, xh]
        exact exactSub_of_zero _ _ hw hz (Or.inl rfl))
    have ky := f64_autoSetup_map_of_brackets _ d.y bY (by rw [yl]; exact hh) (by rw [yh]; exact hz)
      hylt hyD (by
        rw [yl, yh]
        exact exactSub_of_zero _ _ hz hh (Or.inr rfl))
    rw [hx, hy] at hq ⊢
    exact ⟨_, _, hq.symm, kx.1.2, ky.1.2, kx.2.1, kx.2.2, ky.2.1, ky.2.2⟩

/-- C25 at the axis `Axis(0, 260)` that has observed 1 and 2: both values are
mapped into the screen interval; and the layout of the plot built by
`Plot2D(260, 130)`, `line()` and three calls of `add` returns a plot whose
points are all mapped inside the axis rectangle. -/
theorem C25_observed_values_map_inside_witness :
    (F64.fin false 0).IsFiniteDouble ∧ (F64.fin false 260).IsFiniteDouble ∧
    (F64.fin false 1).IsFiniteDouble ∧ (F64.fin false 2).IsFiniteDouble ∧
    F64.eq (F64.fin false 1) (F64.fin false 2) = false ∧
    (∀ w ∈ [F64.fin false 1, F64.fin false 2],
      F64.le ((Fp.Axis.init (F64.fin false 0) (F64.fin false 260)).calls
          [Fp.AxisCall.autoValue (F64.fin false 1),
            Fp.AxisCall.autoValue (F64.fin false 2)]).autoSetup.drawMin
        (((Fp.Axis.init (F64.fin false 0) (F64.fin false 260)).calls
          [Fp.AxisCall.autoValue (F64.fin false 1),
            Fp.AxisCall.autoValue (F64.fin false 2)]).autoSetup.map w) = true ∧
      F64.le (((Fp.Axis.init (F64.fin false 0) (F64.fin false 260)).calls
          [Fp.AxisCall.autoValue (F64.fin false 1),
            Fp.AxisCall.autoValue (F64.fin false 2)]).autoSetup.map w)
        ((Fp.Axis.init (F64.fin false 0) (F64.fin false 260)).calls
          [Fp.AxisCall.autoValue (F64.fin false 1),
            Fp.AxisCall.autoValue (F64.fin false 2)]).autoSetup.drawMax = true) ∧
    ∃ p1, Fp.Plot2D.layout F64.sampleMath {}
        (Fp.Plot2D.build (F64.fin false 260) (F64.fin false 130)
          [Fp.PlotOp.line, Fp.PlotOp.add 0 (F64.fin false 0) (F64.fin false 0),
            Fp.PlotOp.add 0 (F64.fin false 1) (F64.fin false 1),
            Fp.PlotOp.add 0 (F64.fin false 2) (F64.fin false 4)]) = Except.ok p1 ∧
      ∀ l1, Fp.PlotChild.line l1 ∈ p1.children →
        ∀ pt ∈ Fp.Line2D.mapped p1.x p1.y l1.points,
          ∃ sx sy, pt = (some sx, some sy) ∧ sx.isFinite = true ∧ sy.isFinite = true ∧
            F64.le p1.x.drawMin sx = true ∧ F64.le sx p1.x.drawMax = true ∧
            F64.le p1.y.drawMin sy = true ∧ F64.le sy p1.y.drawMax = true :=
  have h0 : (F64.fin false 0).IsFiniteDouble := by
    simpa using natCast_isFiniteDouble 0 (by norm_num)
  have h1 : (F64.fin false 1).IsFiniteDouble := by
    simpa using natCast_isFiniteDouble 1 (by norm_num)
  have h2 : (F64.fin false 2).IsFiniteDouble := by
    simpa using natCast_isFiniteDouble 2 (by norm_num)
  have h4 : (F64.fin false 4).IsFiniteDouble := by
    simpa using natCast_isFiniteDouble 4 (by norm_num)
  have h130 : (F64.fin false 130).IsFiniteDouble := by
    simpa using natCast_isFiniteDouble 130 (by norm_num)
  have h260 : (F64.fin false 260).IsFiniteDouble := by
    simpa using natCast_isFiniteDouble 260 (by norm_num)
  have hacc : (Fp.Plot2D.build (F64.fin false 260) (F64.fin false 130)
        [Fp.PlotOp.line, Fp.PlotOp.add 0 (F64.fin false 0) (F64.fin false 0),
          Fp.PlotOp.add 0 (F64.fin false 1) (F64.fin false 1),
          Fp.PlotOp.add 0 (F64.fin false 2) (F64.fin false 4)]).x.autoMin = F64.fin false 0 ∧
      (Fp.Plot2D.build (F64.fin false 260) (F64.fin false 130)
        [Fp.PlotOp.line, Fp.PlotOp.add 0 (F64.fin false 0) (F64.fin false 0),
          Fp.PlotOp.add 0 (F64.fin false 1) (F64.fin false 1),
          Fp.PlotOp.add 0 (F64.fin false 2) (F64.fin false 4)]).x.autoMax = F64.fin false 2 ∧
      (Fp.Plot2D.build (F64.fin false 260) (F64.fin false 130)
        [Fp.PlotOp.line, Fp.PlotOp.add 0 (F64.fin false 0) (F64.fin false 0),
          Fp.PlotOp.add 0 (F64.fin false 1) (F64.fin false 1),
          Fp.PlotOp.add 0 (F64.fin false 2) (F64.fin false 4)]).y.autoMin = F64.fin false 0 ∧
      (Fp.Plot2D.build (F64.fin false 260) (F64.fin false 130)
        [Fp.PlotOp.line, Fp.PlotOp.add 0 (F64.fin false 0) (F64.fin false 0),
          Fp.PlotOp.add 0 (F64.fin false 1) (F64.fin false 1),
          Fp.PlotOp.add 0 (F64.fin false 2) (F64.fin false 4)]).y.autoMax = F64.fin false 4 := by
    decide
  have key := C25_observed_values_map_inside (F64.fin false 0) (F64.fin false 260)
    [Fp.AxisCall.autoValue (F64.fin false 1), Fp.AxisCall.autoValue (F64.fin false 2)]
    (F64.fin false 1) [F64.fin false 2] rfl h0 h260 (by
      intro w hw
      simp only [List.mem_cons, List.mem_singleton, List.not_mem_nil, or_false] at hw
      rcases hw with e | e <;> rw [e] <;> assumption)
    (F64.fin false 1) (F64.fin false 2) (List.mem_cons_self _ _)
    (List.mem_cons_of_mem _ (List.mem_cons_self _ _)) (by decide)
  have axisPart : ∀ w ∈ [F64.fin false 1, F64.fin false 2],
      F64.le ((Fp.Axis.init (F64.fin false 0) (F64.fin false 260)).calls
          [Fp.AxisCall.autoValue (F64.fin false 1),
            Fp.AxisCall.autoValue (F64.fin false 2)]).autoSetup.drawMin
        (((Fp.Axis.init (F64.fin false 0) (F64.fin false 260)).calls
          [Fp.AxisCall.autoValue (F64.fin false 1),
            Fp.AxisCall.autoValue (F64.fin false 2)]).autoSetup.map w) = true ∧
      F64.le (((Fp.Axis.init (F64.fin false 0) (F64.fin false 260)).calls
          [Fp.AxisCall.autoValue (F64.fin false 1),
            Fp.AxisCall.autoValue (F64.fin false 2)]).autoSetup.map w)
        ((Fp.Axis.init (F64.fin false 0) (F64.fin false 260)).calls
          [Fp.AxisCall.autoValue (F64.fin false 1),
            Fp.AxisCall.autoValue (F64.fin false 2)]).autoSetup.drawMax = true := by
    obtain ⟨low, high, hl, hh, hlt, _, hrest⟩ := key.1
    have el : low = F64.fin false 1 := by
      simp only [List.mem_cons, List.mem_singleton, List.not_mem_nil, or_false] at hl
      rcases hl with e | e
      · exact e
      · rw [e] at hlt
        simp only [List.mem_cons, List.mem_singleton, List.not_mem_nil, or_false] at hh
        rcases hh with e2 | e2 <;> rw [e2] at hlt <;> exact absurd hlt (by decide)
    have eh : high = F64.fin false 2 := by
      simp only [List.mem_cons, List.mem_singleton, List.not_mem_nil, or_false] at hh
      rcases hh with e | e
      · rw [e, el] at hlt
        exact absurd hlt (by decide)
      · exact e
    rw [el, eh] at hrest
    have f1 : (F64.fin false 2 - F64.fin false 1).isFinite = true := by
      simpa using sub_natCast_isFinite 2 1 (by norm_num) (by norm_num)
    intro w hw
    exact ((hrest f1).2 (key.2.1 (Or.inl rfl)) w hw).2
  ⟨h0, h260, h1, h2, by decide, axisPart,
    key.2.2 F64.sampleMath {} (F64.fin false 260) (F64.fin false 130) _ h260 h130 (by
        intro op hop w hw
        simp only [List.mem_cons, List.mem_singleton, List.not_mem_nil, or_false] at hop
        rcases hop with e | e | e | e <;> rw [e] at hw <;>
          simp only [Fp.PlotOp.values, List.mem_cons, List.mem_singleton, List.not_mem_nil,
            or_false] at hw
        all_goals rcases hw with e | e <;> rw [e] <;> assumption)
      (by rw [hacc.1, hacc.2.1]; decide) (by rw [hacc.2.2.1, hacc.2.2.2]; decide)
      (by rw [hacc.1, hacc.2.1]; simpa using sub_natCast_isFinite 2 0 (by norm_num) (by norm_num))
      (by
        rw [hacc.2.2.1, hacc.2.2.2]
        simpa using sub_natCast_isFinite 4 0 (by norm_num) (by norm_num))⟩

/-- C25 fails as stated.  The axis `Axis(0.7, 0.1)` that has observed 0, 1
and 4, with least value 0 below the greatest value 4, maps the observed value 4
to the double two spacings below `drawMin()`, the double nearest to 0.1: the
comparison `drawMin() <= map(4)` is false. -/
theorem C25_counterexample_below_drawMin :
    F64.lt (F64.fin false 0) (F64.fin false 4) = true ∧
    F64.le ((Fp.Axis.init (F64.ofRat (7 / 10)) (F64.ofRat (1 / 10))).observe
        [F64.fin false 0, F64.fin false 1, F64.fin false 4]).autoSetup.drawMin
      (((Fp.Axis.init (F64.ofRat (7 / 10)) (F64.ofRat (1 / 10))).observe
        [F64.fin false 0, F64.fin false 1, F64.fin false 4]).autoSetup.map (F64.fin false 4))
      = false := by
  constructor
  · decide
  · rw [f64_skewed_axis.1, f64_skewed_axis.2.2]
    simp only [F64.le, F64.lt, F64.eq, F64.toRat]
    norm_num

/-- C26.  The box that `TextLabel::layout` gives a label with font size f
(valueSize for a value label, labelSize otherwise) and estimated text width
w = estimateUtf8Width(text) * f * textAspect, with any alignment and anchor.
The box is set.  For a horizontal label its width is w and its height is f,
and it is well-formed when w and f are not negative.  For a vertical label its
width is f, but top and bottom are stored the wrong way round: the height
bottom - top is -w, so for w > 0 the bottom lies above the top and the box is
not well-formed. -/
theorem C26_vertical_label_box_inverted (style : PlotStyle) (t : TextLabel) :
    (TextLabel.layout style t).bounds.set = true ∧
    (TextLabel.layout style t).textWidth
      = estimateUtf8Width t.text * (if t.isValue then style.valueSize else style.labelSize)
        * style.textAspect ∧
    (t.vertical = false →
      (TextLabel.layout style t).bounds.width = (TextLabel.layout style t).textWidth ∧
      (TextLabel.layout style t).bounds.height
        = (if t.isValue then style.valueSize else style.labelSize) ∧
      (0 ≤ (TextLabel.layout style t).textWidth →
        (TextLabel.layout style t).bounds.left ≤ (TextLabel.layout style t).bounds.right) ∧
      (0 ≤ (if t.isValue then style.valueSize else style.labelSize) →
        (TextLabel.layout style t).bounds.top ≤ (TextLabel.layout style t).bounds.bottom)) ∧
    (t.vertical = true →
      (TextLabel.layout style t).bounds.width
        = (if t.isValue then style.valueSize else style.labelSize) ∧
      (TextLabel.layout style t).bounds.height = -(TextLabel.layout style t).textWidth ∧
      (0 ≤ (if t.isValue then style.valueSize else style.labelSize) →
        (TextLabel.layout style t).bounds.left ≤ (TextLabel.layout style t).bounds.right) ∧
      (0 < (TextLabel.layout style t).textWidth →
        (TextLabel.layout style t).bounds.bottom < (TextLabel.layout style t).bounds.top)) := by
  cases hv : t.vertical
  · simp only [TextLabel.layout, hv, Bounds.init, Bounds.width, Bounds.height,
      Bool.false_eq_true, if_false]
    refine ⟨trivial, trivial, fun _ => ⟨by ring, by ring, fun h => by linarith,
      fun h => by linarith⟩, fun h => absurd h (by simp)⟩
  · simp only [TextLabel.layout, hv, Bounds.init, Bounds.width, Bounds.height, if_true]
    refine ⟨trivial, trivial, fun h => absurd h (by simp), fun _ => ⟨by ring, by ring,
      fun h => by linarith, fun h => by linarith⟩⟩

/-- C26 at the label that the layout of a plot makes for a y axis labelled a,
with the default style: a vertical value-sized label centred on (0, 0).  Its
estimated width is 5.7; the layout stores top = 2.85 and bottom = -2.85. -/
theorem C26_vertical_label_box_inverted_witness :
    (TextLabel.layout {} (TextLabel.init { x := 0, y := 0 } 0 (String.mk ['a'])
      "svg-plot-label" true true)).bounds.top = 57 / 20 ∧
    (TextLabel.layout {} (TextLabel.init { x := 0, y := 0 } 0 (String.mk ['a'])
      "svg-plot-label" true true)).bounds.bottom = -(57 / 20) ∧
    (TextLabel.layout {} (TextLabel.init { x := 0, y := 0 } 0 (String.mk ['a'])
      "svg-plot-label" true true)).bounds.bottom
      < (TextLabel.layout {} (TextLabel.init { x := 0, y := 0 } 0 (String.mk ['a'])
        "svg-plot-label" true true)).bounds.top :=
  ⟨by simp only [TextLabel.layout, TextLabel.init, estimateUtf8Width_a, Bounds.init]; norm_num,
    by simp only [TextLabel.layout, TextLabel.init, estimateUtf8Width_a, Bounds.init]; norm_num,
    ((C26_vertical_label_box_inverted {} (TextLabel.init { x := 0, y := 0 } 0 (String.mk ['a'])
      "svg-plot-label" true true)).2.2.2 rfl).2.2.2
      (by rw [(C26_vertical_label_box_inverted {} (TextLabel.init { x := 0, y := 0 } 0
            (String.mk ['a']) "svg-plot-label" true true)).2.1]
          simp only [TextLabel.init, estimateUtf8Width_a]
          norm_num)⟩

/-- C27.  `Axis1D` of sigplot.h and `Axis` of plot.h built with the same screen
endpoints and taken through the same sequence of autoValue, linear, major,
minor, tick and autoSetup calls reach corresponding states: the same
accumulator, the same three flags, the same screen endpoints, the same
value-to-unit map, and tick lists of the same values and names in the same order
whose strengths correspond, 2 to major, 1 to minor and 0 to tick.  So map
returns the same screen coordinate at every value, and drawMin, drawMax and
drawSize agree. -/
theorem C27_axis1D_corresponds_to_axis (drawLow drawHigh : ℚ) (ops : List AxisOp) :
    ops.foldl Axis1D.step (Axis1D.init drawLow drawHigh)
      = (ops.foldl Axis.step (Axis.init drawLow drawHigh)).toAxis1D ∧
    ((ops.foldl Axis1D.step (Axis1D.init drawLow drawHigh)).autoMin
        = (ops.foldl Axis.step (Axis.init drawLow drawHigh)).autoMin ∧
      (ops.foldl Axis1D.step (Axis1D.init drawLow drawHigh)).autoMax
        = (ops.foldl Axis.step (Axis.init drawLow drawHigh)).autoMax ∧
      (ops.foldl Axis1D.step (Axis1D.init drawLow drawHigh)).hasAutoValue
        = (ops.foldl Axis.step (Axis.init drawLow drawHigh)).hasAutoValue) ∧
    ((ops.foldl Axis1D.step (Axis1D.init drawLow drawHigh)).autoScale
        = (ops.foldl Axis.step (Axis.init drawLow drawHigh)).autoScale ∧
      (ops.foldl Axis1D.step (Axis1D.init drawLow drawHigh)).autoLabel
        = (ops.foldl Axis.step (Axis.init drawLow drawHigh)).autoLabel) ∧
    ((ops.foldl Axis1D.step (Axis1D.init drawLow drawHigh)).ticks.map (fun t => (t.value, t.name))
        = (ops.foldl Axis.step (Axis.init drawLow drawHigh)).ticks.map
            (fun t => (t.value, t.name)) ∧
      (ops.foldl Axis1D.step (Axis1D.init drawLow drawHigh)).ticks.map (fun t => t.strength)
        = (ops.foldl Axis.step (Axis.init drawLow drawHigh)).ticks.map
            (fun t => t.strength.code) ∧
      Tick.Strength.major.code = 2 ∧ Tick.Strength.minor.code = 1 ∧
      Tick.Strength.tick.code = 0) ∧
    (∀ v, (ops.foldl Axis1D.step (Axis1D.init drawLow drawHigh)).map v
        = (ops.foldl Axis.step (Axis.init drawLow drawHigh)).map v) ∧
    ((ops.foldl Axis1D.step (Axis1D.init drawLow drawHigh)).drawMin
        = (ops.foldl Axis.step (Axis.init drawLow drawHigh)).drawMin ∧
      (ops.foldl Axis1D.step (Axis1D.init drawLow drawHigh)).drawMax
        = (ops.foldl Axis.step (Axis.init drawLow drawHigh)).drawMax ∧
      (ops.foldl Axis1D.step (Axis1D.init drawLow drawHigh)).drawSize
        = (ops.foldl Axis.step (Axis.init drawLow drawHigh)).drawSize) := by
  have h : ops.foldl Axis1D.step (Axis1D.init drawLow drawHigh)
      = (ops.foldl Axis.step (Axis.init drawLow drawHigh)).toAxis1D := by
    rw [toAxis1D_init, toAxis1D_steps]
  rw [h]
  refine ⟨rfl, ⟨rfl, rfl, rfl⟩, ⟨rfl, rfl⟩, ⟨?_, ?_, rfl, rfl, rfl⟩, fun v => rfl,
    ⟨rfl, rfl, rfl⟩⟩
  · simp [Axis.toAxis1D, Tick.toAxis1D, List.map_map, Function.comp_def]
  · simp [Axis.toAxis1D, Tick.toAxis1D, List.map_map, Function.comp_def]

end SignalsmithPlot
